import Mathlib

/-!
# Kernel module loader (`kern/module.c`, `kern/module.h`)

A shallow embedding of the module registry and of the relocating loader.

Memory is kept in three byte-addressed blocks, each a function from an
address to a byte:

* the descriptor table, addressed by the offset from `MODULES`;
* the module data area, addressed by the absolute 32-bit address (every
  write through `sh_addr`, `module_base` or `text_start + rel_offset`
  goes here);
* the object image, addressed by the offset from `mod_binary`.

The three blocks do not alias one another.  `module_bitmap` and
`module_count` are the two globals of `module.c`.  A routine of a loaded
module that the kernel calls (entry, teardown, capability vector) is machine
code outside this development: the call is recorded as an event and the
body of the routine is not run.
-/

namespace Kmod

/-- A block of memory: one byte per address. -/
abbrev Mem := Nat → Nat

/-- Size of the 32-bit address space and modulus of `uint32_t`. -/
def U32 : Nat := 4294967296

/-! ## `kern/module.h` -/

def MAX_MODULES : Nat := 16
def MAX_MODULE_NAMELEN : Nat := 32
def MAX_SECTION_NAMELEN : Nat := 16
def MAX_SYM_NAMELEN : Nat := 16
def MAX_SECTIONS : Nat := 10
def MAX_MD_SIZE : Nat := 4096
def MAX_REL_ENTRIES : Nat := 100
def MAX_SYM_TABLE_SIZE : Nat := 100

def SECTION_NULL : Nat := 0
def SECTION_TEXT : Nat := 1
def SECTION_RODATA : Nat := 2
def SECTION_BSS : Nat := 3
def SECTION_DATA : Nat := 4

def MODULE_SHOW_SYSCALL : Nat := 0
def MODULE_COUNT_SYSCALL : Nat := 1
def MODULE_SHOW_TIME : Nat := 2
def MODULE_TEST_API : Nat := 3

def MODULE_STATE_INIT : Nat := 0
def MODULE_STATE_ACTIVE : Nat := 1
def MODULE_STATE_DELETED : Nat := 2

/-! ### Layout of `struct Module` on the 32-bit x86 target

`char` is one byte; `uint32_t`, `int` and every pointer are four bytes, so
no field needs padding:

* `struct Section`  = 16 + 4 + 4 + 4 + 4 = 32 bytes,
* `struct RelText`  = 4 + 4 + 16 = 24 bytes,
* `struct SymTab`   = 16 + 4 = 20 bytes,
* `struct module_vectors` = 4 * 4 = 16 bytes,
* `struct Module`   = 32 + 9 * 4 + 10 * 32 + 100 * 24 + 100 * 20 + 16 = 4804.
-/

def SIZEOF_SECTION : Nat := MAX_SECTION_NAMELEN + 4 + 4 + 4 + 4
def SIZEOF_RELTEXT : Nat := 4 + 4 + MAX_SYM_NAMELEN
def SIZEOF_SYMTAB : Nat := MAX_SYM_NAMELEN + 4
def SIZEOF_VECTORS : Nat := 4 * 4

def OFF_module_name : Nat := 0
def OFF_module_index : Nat := OFF_module_name + MAX_MODULE_NAMELEN
def OFF_module_size : Nat := OFF_module_index + 4
def OFF_module_state : Nat := OFF_module_size + 4
def OFF_init_routine : Nat := OFF_module_state + 4
def OFF_cleanup_routine : Nat := OFF_init_routine + 4
def OFF_module_base : Nat := OFF_cleanup_routine + 4
def OFF_module_sh_count : Nat := OFF_module_base + 4
def OFF_module_rel_count : Nat := OFF_module_sh_count + 4
def OFF_module_sym_count : Nat := OFF_module_rel_count + 4
def OFF_sections : Nat := OFF_module_sym_count + 4
def OFF_rel_entry : Nat := OFF_sections + MAX_SECTIONS * SIZEOF_SECTION
def OFF_sym_table : Nat := OFF_rel_entry + MAX_REL_ENTRIES * SIZEOF_RELTEXT
def OFF_module_vectors : Nat := OFF_sym_table + MAX_SYM_TABLE_SIZE * SIZEOF_SYMTAB

/-- The value of `sizeof(struct Module)`: 4804 bytes. -/
def SIZEOF_MODULE : Nat := OFF_module_vectors + SIZEOF_VECTORS

/-- Fields of `struct Section`. -/
def SEC_sh_name : Nat := 0
def SEC_sh_start : Nat := MAX_SECTION_NAMELEN
def SEC_sh_size : Nat := SEC_sh_start + 4
def SEC_sh_type : Nat := SEC_sh_size + 4
def SEC_sh_offset : Nat := SEC_sh_type + 4

/-- Fields of `struct RelText`. -/
def REL_rel_offset : Nat := 0
def REL_rel_type : Nat := 4
def REL_sym_name : Nat := 8

/-- Fields of `struct SymTab`. -/
def SYM_sym_name : Nat := 0
def SYM_sym_value : Nat := MAX_SYM_NAMELEN

/-- Fields of `struct module_vectors`. -/
def VEC_show_syscall : Nat := 0
def VEC_count_syscall : Nat := 4
def VEC_show_time : Nat := 8
def VEC_test_api : Nat := 12

/-! ## Constants of headers that are not part of the sources at hand -/

/-- Modelled from the spec: `PGSIZE` of `inc/mmu.h`, the size of the region
reserved for one module ("one memory page in the source"), 4096 bytes. -/
def PGSIZE : Nat := 4096

/-- Modelled from the spec: the error codes of `inc/error.h` behind
FormatError, OutOfSlots, NotFound and DuplicateName.  Only their being
positive and pairwise distinct matters. -/
def E_INVAL : Int := 3
def E_NO_MEM : Int := 4
def E_NOT_FOUND : Int := 11
def E_FILE_EXISTS : Int := 13

/-- Modelled from the spec: the "expected magic value" of `inc/elf.h`, the
bytes `0x7f 'E' 'L' 'F'` read as a little-endian word. -/
def ELF_MAGIC : Nat := 0x464C457F

/-- Modelled from the spec: the constants of "the architecture's standard
linker format" (ELF32 for i386) that `inc/elf.h` gives names to. -/
def SHF_ALLOC : Nat := 2
def ELF_SHT_SYMTAB : Nat := 2
def ELF_SHT_STRTAB : Nat := 3
def ELF_SHT_NOBITS : Nat := 8
def ELF_SHT_REL : Nat := 9
def ELF_SHN_COMMON : Nat := 0xFFF2
def STT_OBJECT : Nat := 1
def STT_FUNC : Nat := 2
def R_386_32 : Nat := 1
def R_386_PC32 : Nat := 2

/-- Modelled from the spec: field offsets of `struct Elf`, `struct Secthdr`,
`struct Symbol` and `struct Rel` of `inc/elf.h`, which follow the ELF32
file format. -/
def ELF_e_magic : Nat := 0
def ELF_e_shoff : Nat := 32
def ELF_e_shnum : Nat := 48
def ELF_e_shstrndx : Nat := 50
def SIZEOF_SECTHDR : Nat := 40
def SH_sh_name : Nat := 0
def SH_sh_type : Nat := 4
def SH_sh_flags : Nat := 8
def SH_sh_addr : Nat := 12
def SH_sh_offset : Nat := 16
def SH_sh_size : Nat := 20
def SIZEOF_SYMBOL : Nat := 16
def ST_sym_name : Nat := 0
def ST_sym_value : Nat := 4
def ST_sym_size : Nat := 8
def ST_sym_info : Nat := 12
def ST_sym_shndx : Nat := 14
def SIZEOF_REL : Nat := 8
def R_rel_offset : Nat := 0
def R_rel_info : Nat := 4

/-- The macro `ELF32_ST_TYPE`. -/
def ELF32_ST_TYPE (info : Nat) : Nat := info % 16
/-- The macro `ELF32_R_SYM`. -/
def ELF32_R_SYM (info : Nat) : Nat := info / 256
/-- The macro `ELF32_R_TYPE`. -/
def ELF32_R_TYPE (info : Nat) : Nat := info % 256

/-! ## Memory primitives -/

/-- Read of one `uint8_t`. -/
def read8 (m : Mem) (a : Nat) : Nat := m a % 256

/-- Read of a little-endian `uint16_t`. -/
def read16 (m : Mem) (a : Nat) : Nat := read8 m a + 256 * read8 m (a + 1)

/-- Read of a little-endian `uint32_t`. -/
def read32 (m : Mem) (a : Nat) : Nat :=
  read8 m a + 256 * read8 m (a + 1) + 65536 * read8 m (a + 2) + 16777216 * read8 m (a + 3)

/-- Store of one `uint8_t`. -/
def write8 (m : Mem) (a v : Nat) : Mem := fun x => if x = a then v % 256 else m x

/-- Store of a little-endian `uint32_t`. -/
def write32 (m : Mem) (a v : Nat) : Mem :=
  write8 (write8 (write8 (write8 m a v) (a + 1) (v / 256)) (a + 2) (v / 65536))
    (a + 3) (v / 16777216)

/-- The call `memset(p, 0, n)` inside one block. -/
def memzero (m : Mem) (p n : Nat) : Mem := fun x => if p ≤ x ∧ x < p + n then 0 else m x

/-- Read of one byte of the data area; the address is a 32-bit pointer. -/
def dread8 (d : Mem) (a : Nat) : Nat := read8 d (a % U32)

/-- Store of a `uint32_t` through a 32-bit pointer into the data area. -/
def dwrite32 (d : Mem) (a v : Nat) : Mem :=
  write8 (write8 (write8 (write8 d (a % U32) v) ((a + 1) % U32) (v / 256))
    ((a + 2) % U32) (v / 65536)) ((a + 3) % U32) (v / 16777216)

/-- Read of a `uint32_t` of the data area through a 32-bit pointer. -/
def dread32 (d : Mem) (a : Nat) : Nat :=
  dread8 d a + 256 * dread8 d (a + 1) + 65536 * dread8 d (a + 2) + 16777216 * dread8 d (a + 3)

/-- The call `memset((void *)p, 0, n)` on the data area: the `n` bytes from
the 32-bit address `p` on. -/
def dmemzero (d : Mem) (p n : Nat) : Mem :=
  fun x => if (x + U32 - p % U32) % U32 < n then 0 else d x

/-- The call `memmove((void *)p, mod_binary + off, n)`: `n` bytes of the
image, from offset `off` on, are copied to the data area at address `p`. -/
def dcopy (d : Mem) (p : Nat) (img : Mem) (off n : Nat) : Mem :=
  fun x => if (x + U32 - p % U32) % U32 < n then read8 img (off + (x + U32 - p % U32) % U32) else d x

/-- The test `strcmp(p, s) == 0` for a string `p` in memory and a string `s`
given by its bytes (a zero byte in `s` ends it, as in C). -/
def strcmp_eq (m : Mem) (p : Nat) : List Nat → Bool
  | [] => read8 m p == 0
  | c :: cs => if c % 256 = 0 then read8 m p == 0 else read8 m p == c % 256 && strcmp_eq m (p + 1) cs

/-- The call `strcpy(p, s)`: the bytes of `s` up to its end, then a zero. -/
def strcpy (m : Mem) (p : Nat) : List Nat → Mem
  | [] => write8 m p 0
  | c :: cs => if c % 256 = 0 then write8 m p 0 else strcpy (write8 m p c) (p + 1) cs

/-- The bytes of the NUL-terminated string at `p`, as a callee that is handed
the pointer reads them; `none` when no zero byte comes within `fuel` bytes. -/
def read_cstr : Nat → Mem → Nat → Option (List Nat)
  | 0, _, _ => none
  | fuel + 1, m, p =>
    if read8 m p = 0 then some []
    else (read_cstr fuel m (p + 1)).map (fun s => read8 m p :: s)

/-- The loop
`j = 0; while (src[j] != 0) { dst[j] = src[j]; j++; } dst[j] = 0;`
with `src` in the image and `dst` in the descriptor table, entered with the
given `j`; `none` when the loop is still running after `fuel` rounds. -/
def copy_name : Nat → Mem → Nat → Mem → Nat → Nat → Option Mem
  | 0, _, _, _, _, _ => none
  | fuel + 1, img, src, mods, dst, j =>
    if read8 img (src + j) ≠ 0 then
      copy_name fuel img src (write8 mods (dst + j) (read8 img (src + j))) dst (j + 1)
    else some (write8 mods (dst + j) 0)

/-- The loop `j = 0; while (*(p + j) != 0) j++;` on the data area, entered
with the given `j`: the final `j`. -/
def scan_nul : Nat → Mem → Nat → Nat → Option Nat
  | 0, _, _, _ => none
  | fuel + 1, d, p, j => if dread8 d (p + j) ≠ 0 then scan_nul fuel d p ((j + 1) % U32) else some j

/-! ## Kernel state -/

/-- A call of the kernel into a routine of a loaded module. -/
inductive Event where
  /-- The call `f(arg)` of an entry or teardown routine at address `f`. -/
  | call1 (f arg : Nat)
  /-- The call `f()` of a capability vector at address `f`. -/
  | call0 (f : Nat)
  deriving DecidableEq, Repr

/-- Modelled from the spec: the Global Symbol Table of `kern/symboltable`,
"a process-wide mapping from symbol name to resolved address"; the entries
are kept newest first. -/
abbrev SymbolTable := List (List Nat × Nat)

/-- Modelled from the spec: `insert(name, address)`, where "last insert for a
name wins". -/
def insert_symbol (t : SymbolTable) (name : List Nat) (addr : Nat) : SymbolTable :=
  (name, addr) :: t

/-- Modelled from the spec: `lookup(name) → address or not-found`. -/
def lookup_symbol : SymbolTable → List Nat → Option Nat
  | [], _ => none
  | (n, a) :: t, name => if n = name then some a else lookup_symbol t name

/-- What the kernel around `module.c` fixes: the addresses `MODULE_DATA` and
`MODULES` of `inc/memlayout.h` and the word `get_symbol_addr` hands back for a
name the Global Symbol Table does not hold. -/
structure Platform where
  MODULE_DATA : Nat
  NO_SYMBOL : Nat
  MODULES : Nat

/-- Modelled from the spec: `get_symbol_addr`, the lookup as the loader
calls it, which returns a plain `uint32_t`. -/
def get_symbol_addr (P : Platform) (t : SymbolTable) (name : List Nat) : Nat :=
  match lookup_symbol t name with
  | some a => a % U32
  | none => P.NO_SYMBOL % U32

/-- The state `module.c` works on. -/
structure KState where
  /-- The descriptor table at `MODULES`, by offset. -/
  mods : Mem
  /-- The module data area, by absolute address. -/
  data : Mem
  module_bitmap : Nat
  module_count : Nat
  /-- The Global Symbol Table. -/
  symtab : SymbolTable
  /-- The calls into module routines made so far, oldest first. -/
  calls : List Event

/-- The bytes of a string literal of the source. -/
def cbytes (s : String) : List Nat := s.toList.map Char.toNat

/-! ## `module_init`: the section loader (lines 98-140) -/

/-- The variables the first pass over the section headers carries. -/
structure SectState where
  img : Mem
  data : Mem
  mods : Mem
  sh_size : Nat
  sh_count : Nat
  rel_sh : Option Nat
  sym_sh : Option Nat
  str_sh : Option Nat

/-- The body of `if (sh->sh_flags & SHF_ALLOC && sh->sh_size != 0)`, for the
section header at image offset `sh`: placement of a section. -/
def place_section (module module_base : Nat) (s : SectState) (sh : Nat) : SectState :=
  if read32 s.img (sh + SH_sh_flags) &&& SHF_ALLOC ≠ 0 ∧ read32 s.img (sh + SH_sh_size) ≠ 0 then
    if read32 s.img (sh + SH_sh_addr) = 0 then
      let img1 := write32 s.img (sh + SH_sh_addr) ((module_base + s.sh_size) % U32)
      let sh_addr := read32 img1 (sh + SH_sh_addr)
      let data1 :=
        if read32 img1 (sh + SH_sh_type) = ELF_SHT_NOBITS then
          dmemzero s.data sh_addr (read32 img1 (sh + SH_sh_size))
        else
          dcopy s.data sh_addr img1 (read32 img1 (sh + SH_sh_offset)) (read32 img1 (sh + SH_sh_size))
      let rec_ := module + OFF_sections + SIZEOF_SECTION * s.sh_count
      let mods1 := write32 s.mods (rec_ + SEC_sh_start) sh_addr
      let mods2 := write32 mods1 (rec_ + SEC_sh_size) (read32 img1 (sh + SH_sh_size))
      let mods3 := write32 mods2 (rec_ + SEC_sh_type) (read32 img1 (sh + SH_sh_type))
      let mods4 := write32 mods3 (rec_ + SEC_sh_offset) (read32 img1 (sh + SH_sh_name))
      { s with img := img1, data := data1, mods := mods4,
               sh_size := (s.sh_size + read32 img1 (sh + SH_sh_size)) % U32,
               sh_count := (s.sh_count + 1) % U32 }
    else s
  else s

/-- The `if / else if` chain that remembers the relocation section, the
symbol table and the string table. -/
def note_tables (s : SectState) (sh : Nat) : SectState :=
  if read32 s.img (sh + SH_sh_type) = ELF_SHT_REL then { s with rel_sh := some sh }
  else if read32 s.img (sh + SH_sh_type) = ELF_SHT_SYMTAB then { s with sym_sh := some sh }
  else if read32 s.img (sh + SH_sh_type) = ELF_SHT_STRTAB then { s with str_sh := some sh }
  else s

/-- One round of `for (; sh < end_sh; sh++)`. -/
def load_section (module module_base : Nat) (s : SectState) (sh : Nat) : SectState :=
  note_tables (place_section module module_base s sh) sh

/-- The image offsets of the `e_shnum` section headers, in table order. -/
def section_headers (section_base e_shnum : Nat) : List Nat :=
  (List.range e_shnum).map (fun k => section_base + SIZEOF_SECTHDR * k)

/-- The first pass over the section headers. -/
def load_sections (module module_base section_base e_shnum : Nat) (s : SectState) : SectState :=
  (section_headers section_base e_shnum).foldl (load_section module module_base) s

/-! ## `module_init`: the section names (lines 142-179) -/

/-- Offset of `module->sections[i]` in the descriptor table. -/
def section_rec (module i : Nat) : Nat := module + OFF_sections + SIZEOF_SECTION * i

/-- The inner loop of the second pass, for section record `i`, over the
headers still to visit. -/
def name_section (fuel : Nat) (img : Mem) (sh_string_table module i : Nat) :
    List Nat → Mem → Option Mem
  | [], mods => some mods
  | sh :: rest, mods =>
    if read32 img (sh + SH_sh_name) = read32 mods (section_rec module i + SEC_sh_offset) then
      match copy_name fuel img (sh_string_table + read32 mods (section_rec module i + SEC_sh_offset))
          mods (section_rec module i + SEC_sh_name) 0 with
      | none => none
      | some mods1 => name_section fuel img sh_string_table module i rest mods1
    else name_section fuel img sh_string_table module i rest mods

/-- The second pass: `for (i = 0; i < sh_count; i++)`, over the records still
to name. -/
def name_sections (fuel : Nat) (img : Mem) (sh_string_table module : Nat) (hdrs : List Nat) :
    List Nat → Mem → Option Mem
  | [], mods => some mods
  | i :: rest, mods =>
    match name_section fuel img sh_string_table module i hdrs mods with
    | none => none
    | some mods1 => name_sections fuel img sh_string_table module hdrs rest mods1

/-- The four section base addresses `text_start`, `rodata_addr`, `bss_addr`
and `data_addr`. -/
structure Bases where
  text_start : Nat
  rodata_addr : Nat
  bss_addr : Nat
  data_addr : Nat

/-- One round of the loop of lines 169-179. -/
def locate_section (mods : Mem) (module : Nat) (b : Bases) (i : Nat) : Bases :=
  if strcmp_eq mods (section_rec module i + SEC_sh_name) (cbytes ".text") then
    { b with text_start := read32 mods (section_rec module i + SEC_sh_start) }
  else if strcmp_eq mods (section_rec module i + SEC_sh_name) (cbytes ".rodata") then
    { b with rodata_addr := read32 mods (section_rec module i + SEC_sh_start) }
  else if strcmp_eq mods (section_rec module i + SEC_sh_name) (cbytes ".bss") then
    { b with bss_addr := read32 mods (section_rec module i + SEC_sh_start) }
  else if strcmp_eq mods (section_rec module i + SEC_sh_name) (cbytes ".data") then
    { b with data_addr := read32 mods (section_rec module i + SEC_sh_start) }
  else b

/-- The loop of lines 169-179, from all four addresses zero. -/
def locate_sections (mods : Mem) (module sh_count : Nat) : Bases :=
  (List.range sh_count).foldl (locate_section mods module) ⟨0, 0, 0, 0⟩

/-! ## `module_init`: the symbol resolver (lines 194-277) -/

/-- The variables the walk over the symbol table carries. -/
structure SymState where
  mods : Mem
  symtab : SymbolTable
  common_block_addr : Nat

/-- Offset of `module->sym_table[i]` in the descriptor table. -/
def sym_rec (module i : Nat) : Nat := module + OFF_sym_table + SIZEOF_SYMTAB * i

/-- The loop `for (k = 0; k < sh_count; k++)` of lines 231-240 with its
`break`: the value of `section` (initially -1) for the section header whose
`sh_addr` is `s_addr`. -/
def object_section (mods : Mem) (module sh_count s_addr : Nat) : Int :=
  match (List.range sh_count).find? (fun k => s_addr == read32 mods (section_rec module k + SEC_sh_start)) with
  | none => -1
  | some k =>
    if strcmp_eq mods (section_rec module k + SEC_sh_name) (cbytes ".bss") then SECTION_BSS
    else if strcmp_eq mods (section_rec module k + SEC_sh_name) (cbytes ".data") then SECTION_DATA
    else -1

/-- The body of `if (ELF32_ST_TYPE(symbols[i].sym_info) == STT_OBJECT)` for
the symbol at image offset `sym`, whose name the callee reads as `name`.
`none` is the division by zero of `common_block_addr % symbols[i].sym_value`. -/
def publish_object (img : Mem) (section_base module sh_count : Nat) (b : Bases)
    (sym : Nat) (name : List Nat) (s : SymState) : Option SymState :=
  if read16 img (sym + ST_sym_shndx) ≠ ELF_SHN_COMMON then
    let sh := section_base + SIZEOF_SECTHDR * read16 img (sym + ST_sym_shndx)
    let sect := object_section s.mods module sh_count (read32 img (sh + SH_sh_addr))
    if sect = SECTION_BSS then
      some { s with symtab := insert_symbol s.symtab name ((b.bss_addr + read32 img (sym + ST_sym_value)) % U32) }
    else if sect = SECTION_DATA then
      some { s with symtab := insert_symbol s.symtab name ((b.data_addr + read32 img (sym + ST_sym_value)) % U32) }
    else some s
  else if read32 img (sym + ST_sym_value) = 0 then none
  else
    let align := s.common_block_addr % read32 img (sym + ST_sym_value)
    let cba := (s.common_block_addr - align + read32 img (sym + ST_sym_value)) % U32
    some { s with symtab := insert_symbol s.symtab name cba,
                  common_block_addr := (cba + read32 img (sym + ST_sym_size)) % U32 }

/-- The two `if`s on the symbol type (lines 209-266) for symbol `i`. -/
def publish_symbol (fuel : Nat) (img : Mem) (section_base module sh_count : Nat) (b : Bases)
    (sym i : Nat) (s : SymState) : Option SymState :=
  let s1 : Option SymState :=
    if ELF32_ST_TYPE (read8 img (sym + ST_sym_info)) = STT_FUNC then
      match read_cstr fuel s.mods (sym_rec module i + SYM_sym_name) with
      | none => none
      | some name =>
        some { s with symtab := insert_symbol s.symtab name
                                  ((b.text_start + read32 img (sym + ST_sym_value)) % U32) }
    else some s
  match s1 with
  | none => none
  | some s2 =>
    if ELF32_ST_TYPE (read8 img (sym + ST_sym_info)) = STT_OBJECT then
      match read_cstr fuel s2.mods (sym_rec module i + SYM_sym_name) with
      | none => none
      | some name => publish_object img section_base module sh_count b sym name s2
    else some s2

/-- The entry and teardown check of lines 268-276 for symbol `i`. -/
def note_routines (img : Mem) (module : Nat) (b : Bases) (sym i : Nat) (mods : Mem) : Mem :=
  if strcmp_eq mods (sym_rec module i + SYM_sym_name) (cbytes "init_module") then
    write32 mods (module + OFF_init_routine) ((b.text_start + read32 img (sym + ST_sym_value)) % U32)
  else if strcmp_eq mods (sym_rec module i + SYM_sym_name) (cbytes "cleanup_module") then
    write32 mods (module + OFF_cleanup_routine) ((b.text_start + read32 img (sym + ST_sym_value)) % U32)
  else mods

/-- One round of `for (i = 0; i < num_sym; i++)`. -/
def load_symbol (fuel : Nat) (img : Mem) (section_base module sh_count : Nat) (b : Bases)
    (symbols string_table : Nat) (s : SymState) (i : Nat) : Option SymState :=
  let sym := symbols + SIZEOF_SYMBOL * i
  match copy_name fuel img (string_table + read32 img (sym + ST_sym_name)) s.mods
      (sym_rec module i + SYM_sym_name) 0 with
  | none => none
  | some mods1 =>
    let mods2 := write32 mods1 (sym_rec module i + SYM_sym_value) (read32 img (sym + ST_sym_value))
    match publish_symbol fuel img section_base module sh_count b sym i { s with mods := mods2 } with
    | none => none
    | some s1 => some { s1 with mods := note_routines img module b sym i s1.mods }

/-- The walk over the symbol table, over the indices still to visit. -/
def load_symbols (fuel : Nat) (img : Mem) (section_base module sh_count : Nat) (b : Bases)
    (symbols string_table : Nat) : List Nat → SymState → Option SymState
  | [], s => some s
  | i :: rest, s =>
    match load_symbol fuel img section_base module sh_count b symbols string_table s i with
    | none => none
    | some s1 => load_symbols fuel img section_base module sh_count b symbols string_table rest s1

/-! ## `module_init`: the relocation engine (lines 284-368) -/

/-- The variables the walk over the relocation table carries; `sect` is the
variable `section` declared (as 0) ahead of the loop. -/
structure RelState where
  mods : Mem
  data : Mem
  rodata_addr : Nat
  data_addr : Nat
  sect : Nat

/-- Offset of `module->rel_entry[i]` in the descriptor table. -/
def rel_rec (module i : Nat) : Nat := module + OFF_rel_entry + SIZEOF_RELTEXT * i

/-- One round of `for (k = 0; k < sh_count; k++)` of lines 316-326. -/
def reloc_section_step (mods : Mem) (module sh_addr : Nat) (sect k : Nat) : Nat :=
  if sh_addr = read32 mods (section_rec module k + SEC_sh_start) then
    if strcmp_eq mods (section_rec module k + SEC_sh_name) (cbytes ".rodata") then SECTION_RODATA
    else if strcmp_eq mods (section_rec module k + SEC_sh_name) (cbytes ".bss") then SECTION_BSS
    else if strcmp_eq mods (section_rec module k + SEC_sh_name) (cbytes ".data") then SECTION_DATA
    else sect
  else sect

/-- The loop of lines 316-326: the value of `section` after it. -/
def reloc_section (mods : Mem) (module sh_count sh_addr sect : Nat) : Nat :=
  (List.range sh_count).foldl (reloc_section_step mods module sh_addr) sect

/-- The memory the relocation engine stores into through the pointer
`text_start + rel_offset`: the descriptor table and the data area, which the
variables `R` of the walk hold, and the image buffer. -/
structure Patch where
  R : RelState
  img : Mem

/-- Store of one byte through the 32-bit pointer `a`, for the image buffer of
`mod_binary_size` bytes at address `mod_binary`: the byte goes to the
descriptor table when `a` is one of its addresses, to the image when `a` is an
address of the buffer, and to the data area otherwise. -/
def store8 (P : Platform) (mod_binary mod_binary_size : Nat) (s : Patch) (a v : Nat) : Patch :=
  if P.MODULES ≤ a % U32 ∧ a % U32 < P.MODULES + MAX_MODULES * SIZEOF_MODULE then
    { s with R := { s.R with mods := write8 s.R.mods (a % U32 - P.MODULES) v } }
  else if mod_binary ≤ a % U32 ∧ a % U32 < mod_binary + mod_binary_size then
    { s with img := write8 s.img (a % U32 - mod_binary) v }
  else { s with R := { s.R with data := write8 s.R.data (a % U32) v } }

/-- Store of a little-endian `uint32_t` through the 32-bit pointer `a`,
`*(uint32_t *)a = v`. -/
def store32 (P : Platform) (mod_binary mod_binary_size : Nat) (s : Patch) (a v : Nat) : Patch :=
  store8 P mod_binary mod_binary_size
    (store8 P mod_binary mod_binary_size
      (store8 P mod_binary mod_binary_size (store8 P mod_binary mod_binary_size s a v)
        (a + 1) (v / 256))
      (a + 2) (v / 65536))
    (a + 3) (v / 16777216)

/-- The branch `module->rel_entry[i].sym_name[0] == 0` of `case R_386_32`
(lines 314-351), for the symbol at image offset `sym`. -/
def reloc_abs_section (P : Platform) (fuel mod_binary mod_binary_size : Nat)
    (section_base module sh_count : Nat) (b : Bases) (sym i : Nat) (s : Patch) : Option Patch :=
  let r386_32_sh := section_base + SIZEOF_SECTHDR * read16 s.img (sym + ST_sym_shndx)
  let sect := reloc_section s.R.mods module sh_count (read32 s.img (r386_32_sh + SH_sh_addr)) s.R.sect
  let rel_offset := read32 s.R.mods (rel_rec module i + REL_rel_offset)
  if sect = SECTION_RODATA then
    let s1 := store32 P mod_binary mod_binary_size s (b.text_start + rel_offset) s.R.rodata_addr
    match scan_nul fuel s1.R.data s.R.rodata_addr 0 with
    | none => none
    | some j =>
      some { s1 with R := { s1.R with rodata_addr := (s.R.rodata_addr + (j + 1)) % U32, sect := sect } }
  else if sect = SECTION_BSS then
    let s1 := store32 P mod_binary mod_binary_size s (b.text_start + rel_offset) b.bss_addr
    some { s1 with R := { s1.R with sect := sect } }
  else if sect = SECTION_DATA then
    let s1 := store32 P mod_binary mod_binary_size s (b.text_start + rel_offset) s.R.data_addr
    some { s1 with R := { s1.R with
      data_addr := (s.R.data_addr + read32 s1.img (sym + ST_sym_size)) % U32, sect := sect } }
  else some { s with R := { s.R with sect := sect } }

/-- The `switch (module->rel_entry[i].rel_type)` of lines 305-367. -/
def reloc_apply (P : Platform) (fuel mod_binary mod_binary_size : Nat) (symtab : SymbolTable)
    (section_base module sh_count : Nat) (b : Bases) (sym i : Nat) (s : Patch) : Option Patch :=
  if read32 s.R.mods (rel_rec module i + REL_rel_type) = R_386_32 then
    if read8 s.R.mods (rel_rec module i + REL_sym_name) = 0 then
      reloc_abs_section P fuel mod_binary mod_binary_size section_base module sh_count b sym i s
    else
      match read_cstr fuel s.R.mods (rel_rec module i + REL_sym_name) with
      | none => none
      | some name =>
        let rel_offset := read32 s.R.mods (rel_rec module i + REL_rel_offset)
        let sym_addr := get_symbol_addr P symtab name
        some (store32 P mod_binary mod_binary_size s (b.text_start + rel_offset) sym_addr)
  else if read32 s.R.mods (rel_rec module i + REL_rel_type) = R_386_PC32 then
    match read_cstr fuel s.R.mods (rel_rec module i + REL_sym_name) with
    | none => none
    | some name =>
      let rel_offset := read32 s.R.mods (rel_rec module i + REL_rel_offset)
      let sym_addr := get_symbol_addr P symtab name
      let next_addr := (b.text_start + rel_offset + 4) % U32
      some (store32 P mod_binary mod_binary_size s (b.text_start + rel_offset)
        ((sym_addr + U32 - next_addr) % U32))
  else some s

/-- One round of `for (i = 0; i < num_rels; i++)`. -/
def apply_reloc (P : Platform) (fuel mod_binary mod_binary_size : Nat) (symtab : SymbolTable)
    (section_base module sh_count : Nat) (b : Bases) (symbols string_table rels : Nat)
    (s : Patch) (i : Nat) : Option Patch :=
  let rel := rels + SIZEOF_REL * i
  let sym := symbols + SIZEOF_SYMBOL * ELF32_R_SYM (read32 s.img (rel + R_rel_info))
  match copy_name fuel s.img (string_table + read32 s.img (sym + ST_sym_name)) s.R.mods
      (rel_rec module i + REL_sym_name) 0 with
  | none => none
  | some mods1 =>
    let mods2 := write32 mods1 (rel_rec module i + REL_rel_type)
      (ELF32_R_TYPE (read32 s.img (rel + R_rel_info)))
    let mods3 := write32 mods2 (rel_rec module i + REL_rel_offset) (read32 s.img (rel + R_rel_offset))
    reloc_apply P fuel mod_binary mod_binary_size symtab section_base module sh_count b sym i
      { s with R := { s.R with mods := mods3 } }

/-- The walk over the relocation table, over the indices still to visit. -/
def apply_relocs (P : Platform) (fuel mod_binary mod_binary_size : Nat) (symtab : SymbolTable)
    (section_base module sh_count : Nat) (b : Bases) (symbols string_table rels : Nat) :
    List Nat → Patch → Option Patch
  | [], s => some s
  | i :: rest, s =>
    match apply_reloc P fuel mod_binary mod_binary_size symtab section_base module sh_count b
        symbols string_table rels s i with
    | none => none
    | some s1 =>
      apply_relocs P fuel mod_binary mod_binary_size symtab section_base module sh_count b
        symbols string_table rels rest s1

/-! ### The walk when every patched word lies in the data area

The functions `..._local` are the relocation engine for an image none of whose
relocations aims at the descriptor table or at the image buffer: every store
of the walk goes to the data area and the image is only read.  The theorem
`relocate_eq_local` states when the two agree. -/

/-- The branch `reloc_abs_section` when the patched word lies in the data area:
its store goes to the data area and the image is left as it is. -/
def reloc_abs_section_local (fuel : Nat) (img : Mem) (section_base module sh_count : Nat) (b : Bases)
    (sym i : Nat) (s : RelState) : Option RelState :=
  let r386_32_sh := section_base + SIZEOF_SECTHDR * read16 img (sym + ST_sym_shndx)
  let sect := reloc_section s.mods module sh_count (read32 img (r386_32_sh + SH_sh_addr)) s.sect
  let rel_offset := read32 s.mods (rel_rec module i + REL_rel_offset)
  if sect = SECTION_RODATA then
    let data1 := dwrite32 s.data (b.text_start + rel_offset) s.rodata_addr
    match scan_nul fuel data1 s.rodata_addr 0 with
    | none => none
    | some j => some { s with data := data1, rodata_addr := (s.rodata_addr + (j + 1)) % U32, sect := sect }
  else if sect = SECTION_BSS then
    some { s with data := dwrite32 s.data (b.text_start + rel_offset) b.bss_addr, sect := sect }
  else if sect = SECTION_DATA then
    some { s with data := dwrite32 s.data (b.text_start + rel_offset) s.data_addr,
                  data_addr := (s.data_addr + read32 img (sym + ST_sym_size)) % U32, sect := sect }
  else some { s with sect := sect }

/-- The switch `reloc_apply` when the patched word lies in the data area. -/
def reloc_apply_local (P : Platform) (fuel : Nat) (img : Mem) (symtab : SymbolTable)
    (section_base module sh_count : Nat) (b : Bases) (sym i : Nat) (s : RelState) :
    Option RelState :=
  if read32 s.mods (rel_rec module i + REL_rel_type) = R_386_32 then
    if read8 s.mods (rel_rec module i + REL_sym_name) = 0 then
      reloc_abs_section_local fuel img section_base module sh_count b sym i s
    else
      match read_cstr fuel s.mods (rel_rec module i + REL_sym_name) with
      | none => none
      | some name =>
        let rel_offset := read32 s.mods (rel_rec module i + REL_rel_offset)
        let sym_addr := get_symbol_addr P symtab name
        some { s with data := dwrite32 s.data (b.text_start + rel_offset) sym_addr }
  else if read32 s.mods (rel_rec module i + REL_rel_type) = R_386_PC32 then
    match read_cstr fuel s.mods (rel_rec module i + REL_sym_name) with
    | none => none
    | some name =>
      let rel_offset := read32 s.mods (rel_rec module i + REL_rel_offset)
      let sym_addr := get_symbol_addr P symtab name
      let next_addr := (b.text_start + rel_offset + 4) % U32
      some { s with data := dwrite32 s.data (b.text_start + rel_offset) ((sym_addr + U32 - next_addr) % U32) }
  else some s

/-- The round `apply_reloc` when the patched word lies in the data area. -/
def apply_reloc_local (P : Platform) (fuel : Nat) (img : Mem) (symtab : SymbolTable)
    (section_base module sh_count : Nat) (b : Bases) (symbols string_table rels : Nat)
    (s : RelState) (i : Nat) : Option RelState :=
  let rel := rels + SIZEOF_REL * i
  let sym := symbols + SIZEOF_SYMBOL * ELF32_R_SYM (read32 img (rel + R_rel_info))
  match copy_name fuel img (string_table + read32 img (sym + ST_sym_name)) s.mods
      (rel_rec module i + REL_sym_name) 0 with
  | none => none
  | some mods1 =>
    let mods2 := write32 mods1 (rel_rec module i + REL_rel_type) (ELF32_R_TYPE (read32 img (rel + R_rel_info)))
    let mods3 := write32 mods2 (rel_rec module i + REL_rel_offset) (read32 img (rel + R_rel_offset))
    reloc_apply_local P fuel img symtab section_base module sh_count b sym i { s with mods := mods3 }

/-- The walk `apply_relocs` when every patched word lies in the data area. -/
def apply_relocs_local (P : Platform) (fuel : Nat) (img : Mem) (symtab : SymbolTable)
    (section_base module sh_count : Nat) (b : Bases) (symbols string_table rels : Nat) :
    List Nat → RelState → Option RelState
  | [], s => some s
  | i :: rest, s =>
    match apply_reloc_local P fuel img symtab section_base module sh_count b symbols string_table rels s i with
    | none => none
    | some s1 =>
      apply_relocs_local P fuel img symtab section_base module sh_count b symbols string_table rels rest s1

/-! ## `module_init` -/

/-- The loop of lines 53-60: is some record at `MODULES + i * MAX_MD_SIZE`
active and called `mod_name`? -/
def already_loaded (mods : Mem) (mod_name : List Nat) : Bool :=
  (List.range MAX_MODULES).any (fun i =>
    read32 mods (i * MAX_MD_SIZE + OFF_module_state) == MODULE_STATE_ACTIVE &&
      strcmp_eq mods (i * MAX_MD_SIZE + OFF_module_name) mod_name)

/-- The loop of lines 63-69: the first `i` with
`(module_bitmap & (1 << i)) == 0`, if any. -/
def first_free_slot (module_bitmap : Nat) : Option Nat :=
  (List.range MAX_MODULES).find? (fun i => module_bitmap &&& (1 <<< i) == 0)

/-- Offset in the descriptor table of the descriptor
`MODULES + module_index * sizeof(struct Module)`, which is `module[module_index]`,
for a slot index `module_index < MAX_MODULES` (a loop variable, or the slot
`module_init` has just taken). -/
def descriptor (module_index : Nat) : Nat := module_index * SIZEOF_MODULE

/-- The locals of `module_init` once the symbol table has been walked
(line 277): what the relocation engine and the bookkeeping read. -/
structure Loaded where
  module : Nat
  section_base : Nat
  sh_string_table : Nat
  /-- The variables after the first pass over the section headers. -/
  S : SectState
  /-- The section base addresses `text_start`, `rodata_addr`, `bss_addr`, `data_addr`. -/
  b : Bases
  symbols : Nat
  string_table : Nat
  num_sym : Nat
  /-- The variables after the walk over the symbol table. -/
  Y : SymState

/-- Lines 93-96: name, state, index and base of the descriptor at `module`. -/
def init_descriptor (P : Platform) (mods : Mem) (mod_name : List Nat) (module_index : Nat) : Mem :=
  let module := descriptor module_index
  let module_base := (P.MODULE_DATA + module_index * PGSIZE) % U32
  let mods1 := strcpy mods (module + OFF_module_name) mod_name
  let mods2 := write32 mods1 (module + OFF_module_state) MODULE_STATE_INIT
  let mods3 := write32 mods2 (module + OFF_module_index) module_index
  write32 mods3 (module + OFF_module_base) module_base

/-- Lines 79-277 for the slot `module_index`: descriptor set-up, section
loader, section names and symbol resolver. -/
def load_image (P : Platform) (fuel : Nat) (st : KState) (mod_name : List Nat) (img : Mem)
    (module_index : Nat) : Option Loaded :=
  let module := descriptor module_index
  let module_base := (P.MODULE_DATA + module_index * PGSIZE) % U32
  let section_base := read32 img ELF_e_shoff
  let shstr_sh := section_base + SIZEOF_SECTHDR * read16 img ELF_e_shstrndx
  let sh_string_table := read32 img (shstr_sh + SH_sh_offset)
  let S := load_sections module module_base (read32 img ELF_e_shoff) (read16 img ELF_e_shnum)
    ⟨img, st.data, init_descriptor P st.mods mod_name module_index, 0, 0, none, none, none⟩
  match name_sections fuel S.img sh_string_table module
      (section_headers (read32 S.img ELF_e_shoff) (read16 S.img ELF_e_shnum))
      (List.range S.sh_count) S.mods with
  | none => none
  | some mods5 =>
    let b := locate_sections mods5 module S.sh_count
    match S.sym_sh, S.str_sh with
    | some sym_sh, some str_sh =>
      let symbols := read32 S.img (sym_sh + SH_sh_offset)
      let string_table := read32 S.img (str_sh + SH_sh_offset)
      let num_sym := read32 S.img (sym_sh + SH_sh_size) / SIZEOF_SYMBOL
      match load_symbols fuel S.img section_base module S.sh_count b symbols string_table
          (List.range num_sym) ⟨mods5, st.symtab, (b.text_start + S.sh_size) % U32⟩ with
      | none => none
      | some Y => some ⟨module, section_base, sh_string_table, S, b, symbols, string_table, num_sym, Y⟩
    | _, _ => none

/-- Lines 284-368 after `load_image`: the relocation table is walked. -/
def relocate (P : Platform) (fuel mod_binary mod_binary_size : Nat) (L : Loaded) : Option Patch :=
  match L.S.rel_sh with
  | none => none
  | some rel_sh =>
    apply_relocs P fuel mod_binary mod_binary_size L.Y.symtab L.section_base L.module L.S.sh_count
      L.b L.symbols L.string_table (read32 L.S.img (rel_sh + SH_sh_offset))
      (List.range (read32 L.S.img (rel_sh + SH_sh_size) / SIZEOF_REL))
      ⟨⟨L.Y.mods, L.S.data, L.b.rodata_addr, L.b.data_addr, 0⟩, L.S.img⟩

/-- The walk `relocate` when every patched word lies in the data area. -/
def relocate_local (P : Platform) (fuel : Nat) (L : Loaded) : Option RelState :=
  match L.S.rel_sh with
  | none => none
  | some rel_sh =>
    apply_relocs_local P fuel L.S.img L.Y.symtab L.section_base L.module L.S.sh_count L.b L.symbols
      L.string_table (read32 L.S.img (rel_sh + SH_sh_offset))
      (List.range (read32 L.S.img (rel_sh + SH_sh_size) / SIZEOF_REL))
      ⟨L.Y.mods, L.S.data, L.b.rodata_addr, L.b.data_addr, 0⟩

/-- Lines 370-377: the bookkeeping fields, then the state `ACTIVE`. -/
def finish_descriptor (mods : Mem) (module sh_size sh_count num_rels num_sym : Nat) : Mem :=
  let mods6 := write32 mods (module + OFF_module_size) sh_size
  let mods7 := write32 mods6 (module + OFF_module_sh_count) sh_count
  let mods8 := write32 mods7 (module + OFF_module_rel_count) num_rels
  let mods9 := write32 mods8 (module + OFF_module_sym_count) num_sym
  write32 mods9 (module + OFF_module_state) MODULE_STATE_ACTIVE

/-- The number of relocation entries, `rel_sh->sh_size / sizeof(rels[0])`. -/
def num_rels (L : Loaded) : Nat :=
  match L.S.rel_sh with
  | none => 0
  | some rel_sh => read32 L.S.img (rel_sh + SH_sh_size) / SIZEOF_REL

/-- Image offset of the relocation table, `rel_sh->sh_offset`. -/
def rel_table (L : Loaded) : Nat :=
  match L.S.rel_sh with
  | none => 0
  | some rel_sh => read32 L.S.img (rel_sh + SH_sh_offset)

/-- The field `rels[r].rel_info` of the image. -/
def rel_info (L : Loaded) (r : Nat) : Nat :=
  read32 L.S.img (rel_table L + SIZEOF_REL * r + R_rel_info)

/-- The field `rels[r].rel_offset` of the image. -/
def rel_offset (L : Loaded) (r : Nat) : Nat :=
  read32 L.S.img (rel_table L + SIZEOF_REL * r + R_rel_offset)

/-- The name of the symbol relocation `r` refers to, read from the string
table of the image. -/
def rel_sym_name (fuel : Nat) (L : Loaded) (r : Nat) : Option (List Nat) :=
  read_cstr fuel L.S.img (L.string_table +
    read32 L.S.img (L.symbols + SIZEOF_SYMBOL * ELF32_R_SYM (rel_info L r) + ST_sym_name))

/-- What lines 62-380 leave behind when slot `module_index` is taken: the state
with the module active and counted, and the image. -/
def module_load (P : Platform) (fuel : Nat) (st : KState) (mod_name : List Nat)
    (mod_binary : Nat) (img : Mem) (mod_binary_size : Nat) (module_index : Nat) :
    Option (KState × Mem) :=
  match load_image P fuel st mod_name img module_index with
  | none => none
  | some L =>
    match relocate P fuel mod_binary mod_binary_size L with
    | none => none
    | some s =>
      some ({ mods := finish_descriptor s.R.mods L.module L.S.sh_size L.S.sh_count (num_rels L)
                L.num_sym,
              data := s.R.data,
              module_bitmap := (st.module_bitmap ||| (1 <<< module_index)) % 65536,
              module_count := (st.module_count + 1) % U32,
              symtab := L.Y.symtab, calls := st.calls }, s.img)

/-- The outcome `module_load` when every patched word lies in the data area. -/
def module_load_local (P : Platform) (fuel : Nat) (st : KState) (mod_name : List Nat) (img : Mem)
    (module_index : Nat) : Option (KState × Mem) :=
  match load_image P fuel st mod_name img module_index with
  | none => none
  | some L =>
    match relocate_local P fuel L with
    | none => none
    | some R =>
      some ({ mods := finish_descriptor R.mods L.module L.S.sh_size L.S.sh_count (num_rels L) L.num_sym,
              data := R.data,
              module_bitmap := (st.module_bitmap ||| (1 <<< module_index)) % 65536,
              module_count := (st.module_count + 1) % U32,
              symtab := L.Y.symtab, calls := st.calls }, L.S.img)

/-- Lines 382-388: the call of the entry routine with the slot index, then of
the test vector when one is registered. -/
def module_start (st : KState) (module_index : Nat) : KState :=
  let module := descriptor module_index
  let calls1 := st.calls ++ [Event.call1 (read32 st.mods (module + OFF_init_routine))
                                         (read32 st.mods (module + OFF_module_index))]
  if read32 st.mods (module + OFF_module_vectors + VEC_test_api) ≠ 0 then
    { st with calls := calls1 ++ [Event.call0 (read32 st.mods (module + OFF_module_vectors + VEC_test_api))] }
  else { st with calls := calls1 }

/-- The function `module_init`, called with the image buffer `img` of
`mod_binary_size` bytes at address `mod_binary`: the return value, the state
and the image after the call.  `none`: the call does not return, because a
string scan is still running after `fuel` bytes, a table pointer left `NULL`
is followed, or a common symbol has alignment 0. -/
def module_init (P : Platform) (fuel : Nat) (st : KState) (mod_name : List Nat)
    (mod_binary : Nat) (img : Mem) (mod_binary_size : Nat) : Option (Int × KState × Mem) :=
  if read32 img ELF_e_magic ≠ ELF_MAGIC then some (-E_INVAL, st, img)
  else if already_loaded st.mods mod_name then some (-E_FILE_EXISTS, st, img)
  else
    match first_free_slot st.module_bitmap with
    | none => some (-E_NO_MEM, st, img)
    | some module_index =>
      match module_load P fuel st mod_name mod_binary img mod_binary_size module_index with
      | none => none
      | some (st1, img1) => some (0, module_start st1 module_index, img1)

/-! ## `module_cleanup` and `module_register` -/

/-- The loop of lines 402-407: the last `i` with
`strcmp(module[i].module_name, mod_name) == 0`, if any. -/
def find_rmmod (mods : Mem) (mod_name : List Nat) : Option Nat :=
  (List.range MAX_MODULES).foldl
    (fun r i => if strcmp_eq mods (descriptor i + OFF_module_name) mod_name then some i else r) none

/-- The function `module_cleanup`.  A shift count is taken modulo 32, as the
x86 shift does. -/
def module_cleanup (st : KState) (mod_name : List Nat) : Int × KState :=
  match find_rmmod st.mods mod_name with
  | none => (-E_NOT_FOUND, st)
  | some i =>
    let rmmod := descriptor i
    let module_index := read32 st.mods (rmmod + OFF_module_index)
    (0, { mods := memzero st.mods rmmod PGSIZE,
          data := dmemzero st.data (read32 st.mods (rmmod + OFF_module_base)) PGSIZE,
          module_bitmap :=
            (st.module_bitmap &&& (0xFFFFFFFF ^^^ ((1 <<< (module_index % 32)) % U32))) % 65536,
          module_count := (st.module_count + U32 - 1) % U32,
          symtab := st.symtab,
          calls := st.calls ++ [Event.call1 (read32 st.mods (rmmod + OFF_cleanup_routine)) module_index] })

/-- Store of one byte through the 32-bit pointer `a` outside `module_init`:
the byte goes to the descriptor table when `a` is one of its addresses, and to
the data area otherwise. -/
def kstore8 (P : Platform) (st : KState) (a v : Nat) : KState :=
  if P.MODULES ≤ a % U32 ∧ a % U32 < P.MODULES + MAX_MODULES * SIZEOF_MODULE then
    { st with mods := write8 st.mods (a % U32 - P.MODULES) v }
  else { st with data := write8 st.data (a % U32) v }

/-- Store of a little-endian `uint32_t` through the 32-bit pointer `a`. -/
def kstore32 (P : Platform) (st : KState) (a v : Nat) : KState :=
  kstore8 P (kstore8 P (kstore8 P (kstore8 P st a v) (a + 1) (v / 256)) (a + 2) (v / 65536))
    (a + 3) (v / 16777216)

/-- The function `module_register`; `mod_index` is a `uint32_t` that is not
checked against `MAX_MODULES`, `type` is an `int`.  `vecs` is the pointer
`&modules[mod_index].module_vectors`. -/
def module_register (P : Platform) (st : KState) (mod_index : Nat) (type : Int) (vector : Nat) :
    KState :=
  let vecs := P.MODULES + mod_index % U32 * SIZEOF_MODULE + OFF_module_vectors
  if type = MODULE_SHOW_SYSCALL then kstore32 P st (vecs + VEC_show_syscall) vector
  else if type = MODULE_COUNT_SYSCALL then kstore32 P st (vecs + VEC_count_syscall) vector
  else if type = MODULE_SHOW_TIME then kstore32 P st (vecs + VEC_show_time) vector
  else if type = MODULE_TEST_API then kstore32 P st (vecs + VEC_test_api) vector
  else st

/-! ## The capability calls and `module_display` -/

/-- The bytes of a relocatable ELF32 object: the header, a 12-byte `.text`
(`call cprintf; ret` for `init_module`, `ret` for `cleanup_module`), one
`R_386_PC32` relocation at offset 1 against the undefined symbol `cprintf`,
`.shstrtab`, a four-entry `.symtab`, `.strtab`, and the six section headers
(null, `.text`, `.rel.text`, `.shstrtab`, `.symtab`, `.strtab`) at offset 211. -/
def demo_bytes : List Nat :=
  [127, 69, 76, 70, 1, 1, 1, 0, 0, 0, 0, 0, 0, 0, 0, 0, 1, 0, 3, 0, 1, 0, 0, 0,
   0, 0, 0, 0, 0, 0, 0, 0, 211, 0, 0, 0, 0, 0, 0, 0, 52, 0, 0, 0, 0, 0, 40, 0,
   6, 0, 3, 0, 232, 0, 0, 0, 0, 195, 195, 144, 1, 0, 0, 0, 2, 3, 0, 0, 0, 46, 116, 101,
   120, 116, 0, 46, 114, 101, 108, 46, 116, 101, 120, 116, 0, 46, 115, 104, 115, 116, 114, 116, 97, 98, 0, 46,
   115, 121, 109, 116, 97, 98, 0, 46, 115, 116, 114, 116, 97, 98, 0, 0, 0, 0, 0, 0, 0, 0, 0, 0,
   0, 0, 0, 0, 0, 0, 0, 1, 0, 0, 0, 0, 0, 0, 0, 6, 0, 0, 0, 18, 0, 1, 0, 13,
   0, 0, 0, 6, 0, 0, 0, 1, 0, 0, 0, 18, 0, 1, 0, 28, 0, 0, 0, 0, 0, 0, 0, 0,
   0, 0, 0, 16, 0, 0, 0, 0, 105, 110, 105, 116, 95, 109, 111, 100, 117, 108, 101, 0, 99, 108, 101, 97,
   110, 117, 112, 95, 109, 111, 100, 117, 108, 101, 0, 99, 112, 114, 105, 110, 116, 102, 0, 0, 0, 0, 0, 0,
   0, 0, 0, 0, 0, 0, 0, 0, 0, 0, 0, 0, 0, 0, 0, 0, 0, 0, 0, 0, 0, 0, 0, 0,
   0, 0, 0, 0, 0, 0, 0, 0, 0, 0, 0, 1, 0, 0, 0, 1, 0, 0, 0, 6, 0, 0, 0, 0,
   0, 0, 0, 52, 0, 0, 0, 8, 0, 0, 0, 0, 0, 0, 0, 0, 0, 0, 0, 4, 0, 0, 0, 0,
   0, 0, 0, 7, 0, 0, 0, 9, 0, 0, 0, 0, 0, 0, 0, 0, 0, 0, 0, 60, 0, 0, 0, 8,
   0, 0, 0, 4, 0, 0, 0, 1, 0, 0, 0, 4, 0, 0, 0, 8, 0, 0, 0, 17, 0, 0, 0, 3,
   0, 0, 0, 0, 0, 0, 0, 0, 0, 0, 0, 68, 0, 0, 0, 43, 0, 0, 0, 0, 0, 0, 0, 0,
   0, 0, 0, 1, 0, 0, 0, 0, 0, 0, 0, 27, 0, 0, 0, 2, 0, 0, 0, 0, 0, 0, 0, 0,
   0, 0, 0, 111, 0, 0, 0, 64, 0, 0, 0, 5, 0, 0, 0, 1, 0, 0, 0, 4, 0, 0, 0, 16,
   0, 0, 0, 35, 0, 0, 0, 3, 0, 0, 0, 0, 0, 0, 0, 0, 0, 0, 0, 175, 0, 0, 0, 36,
   0, 0, 0, 0, 0, 0, 0, 0, 0, 0, 0, 1, 0, 0, 0, 0, 0, 0, 0]

/-- The bytes `bs` as one number, first byte lowest. -/
def pack : List Nat → Nat
  | [] => 0
  | b :: bs => b % 256 + 256 * pack bs

/-- The number `pack demo_bytes`, written out. -/
def demo_number : Nat :=
  70844254273254936164911402999953146436271884977495533449627724099029477806084959950460832538971211141376433882310670232968924263347607538074084678152649758094910136902189136194838199213704679035999126081660071502401941889508445353480381586896030528383585802527709525152207276108854888146961830950477011997684997666975769436070166175117600575085590811379284113011074834181546015308202605311204360665181655436969951777414961084896173288299397200010998595803364569817825809114906573890660628042141524103094450425041457879236135540911065530442500924129128065555759561500094371250462895524461254476693768069908503355280735305927885917208943444151470033447836411548319866055331118930466227999559837193990695684440172826762305608131878509864649488308180548547650555657044929782493658331952384066300597339276117793885425428045720059864678223024973024890973818617881971353626021035996052367516346182189318494664014130872499744954829539175208712130791891159538775209257237035777553710322168639328679728559856391100913536657355805539182040388572445437268817160187533490675008895

/-- The image buffer holding `demo_bytes`: byte `a` is digit `a` of
`demo_number` in base 256; bytes past the end read as zero. -/
def demo_image : Mem := fun a => demo_number / 256 ^ a % 256

/-- A platform with the module data area at `0xF0300000` and the descriptor
table at `0xF02E0000`. -/
def demo_platform : Platform := ⟨0xF0300000, 0, 0xF02E0000⟩

/-- The address at which the callers of the examples hold the image buffer. -/
def demo_buffer : Nat := 0x00800000

/-- The kernel before any module is loaded: the descriptor table and the data
area cleared, and `cprintf` in the Global Symbol Table at `0xF0100000`. -/
def boot_state : KState :=
  ⟨fun _ => 0, fun _ => 0, 0, 0, [(cbytes "cprintf", 0xF0100000)], []⟩

/-- The return value in an outcome of `module_init`. -/
def ret_of (r : Option (Int × KState × Mem)) : Option Int := r.map (fun x => x.1)

/-- The state in an outcome of `module_init`; `st` when the call does not return. -/
def state_of (st : KState) (r : Option (Int × KState × Mem)) : KState :=
  match r with
  | some x => x.2.1
  | none => st

/-- The image in an outcome of `module_init`; `img` when the call does not return. -/
def image_of (img : Mem) (r : Option (Int × KState × Mem)) : Mem :=
  match r with
  | some x => x.2.2
  | none => img

/-- The locals in an outcome of `load_image`; `d` when there is none. -/
def loaded_of (d : Loaded) (r : Option Loaded) : Loaded :=
  match r with
  | some L => L
  | none => d

/-- The return value of `module_init` for `demo_image` under the name `name`. -/
def demo_init_ret (st : KState) (name : String) : Option Int :=
  ret_of (module_init demo_platform 64 st (cbytes name) demo_buffer demo_image 451)

/-- The state `module_init` leaves for `demo_image` under the name `name`. -/
def demo_init (st : KState) (name : String) : KState :=
  state_of st (module_init demo_platform 64 st (cbytes name) demo_buffer demo_image 451)

/-- The image `module_init` leaves for `demo_image` under the name `name`. -/
def demo_init_image (st : KState) (name : String) : Mem :=
  image_of demo_image (module_init demo_platform 64 st (cbytes name) demo_buffer demo_image 451)

/-- The locals of `module_init` for `demo_image` loaded into slot `i`, once
the symbol table has been walked. -/
def demo_loaded (st : KState) (name : String) (i : Nat) : Loaded :=
  loaded_of ⟨0, 0, 0, ⟨demo_image, st.data, st.mods, 0, 0, none, none, none⟩, ⟨0, 0, 0, 0⟩, 0, 0, 0,
      ⟨st.mods, st.symtab, 0⟩⟩ (load_image demo_platform 64 st (cbytes name) demo_image i)

/-- The kernel before any module is loaded, with an empty Global Symbol
Table: `cprintf` is not registered. -/
def bare_state : KState := ⟨fun _ => 0, fun _ => 0, 0, 0, [], []⟩

/-- The registry after `demo_image` has been loaded as `a` and then as `b`. -/
def state_ab : KState := demo_init (demo_init boot_state "a") "b"

/-- The registry after a third load of `demo_image`, again as `b`. -/
def state_abb : KState := demo_init state_ab "b"

/-- The registry after `demo_image` has been loaded under the empty name. -/
def state_anon : KState := demo_init boot_state ""

/-- The registry after `demo_image` has been loaded as `a` and its entry
routine has registered the vector `0xF0300008` for `MODULE_TEST_API`. -/
def state_registered : KState :=
  module_register demo_platform (demo_init boot_state "a") 0 MODULE_TEST_API 0xF0300008

/-- The descriptor table with all sixteen slots active under the names `mA`
to `mP`, in which the module of slot 4 has at least 39 relocation records:
record 36 refers to `cprintf` and record 38 has type `R_386_32`. -/
def crowded_mods : Mem :=
  let m16 := (List.range MAX_MODULES).foldl
    (fun m i => write32 (init_descriptor demo_platform m [109, 65 + i] i)
      (descriptor i + OFF_module_state) MODULE_STATE_ACTIVE) (fun _ => 0)
  let m1 := strcpy m16 (rel_rec (descriptor 4) 36 + REL_sym_name) (cbytes "cprintf")
  write32 m1 (rel_rec (descriptor 4) 38 + REL_rel_type) R_386_32

/-- The registry at full capacity over `crowded_mods`. -/
def crowded_state : KState :=
  ⟨crowded_mods, fun _ => 0, 0xFFFF, 16, [(cbytes "cprintf", 0xF0100000)], []⟩

/-! ## Predicates used in the statements -/

/-- The NUL-terminated string at `p` ends within `fuel` bytes and is shorter
than `cap`, so that it fits, with its terminating zero, a `char[cap]`. -/
def name_fits (fuel : Nat) (m : Mem) (p cap : Nat) : Bool :=
  match read_cstr fuel m p with
  | some s => decide (s.length < cap)
  | none => false

/-- The load with locals `L` stays within the capacities of `struct Module`:
the module name fits `module_name`, there are at most `MAX_SECTIONS` section
records, `MAX_SYM_TABLE_SIZE` symbols and `MAX_REL_ENTRIES` relocations, and
every section name and symbol name copied into the descriptor fits its field. -/
@[reducible] def WithinCapacity (fuel : Nat) (L : Loaded) (mod_name : List Nat) : Prop :=
  mod_name.length < MAX_MODULE_NAMELEN ∧
  L.S.sh_count ≤ MAX_SECTIONS ∧
  (∀ k, k < L.S.sh_count → name_fits fuel L.S.img
    (L.sh_string_table + read32 L.S.mods (section_rec L.module k + SEC_sh_offset))
    MAX_SECTION_NAMELEN = true) ∧
  L.num_sym ≤ MAX_SYM_TABLE_SIZE ∧
  (∀ k, k < L.num_sym → name_fits fuel L.S.img
    (L.string_table + read32 L.S.img (L.symbols + SIZEOF_SYMBOL * k + ST_sym_name))
    MAX_SYM_NAMELEN = true) ∧
  num_rels L ≤ MAX_REL_ENTRIES ∧
  (∀ k, k < num_rels L → name_fits fuel L.S.img
    (L.string_table + read32 L.S.img (L.symbols + SIZEOF_SYMBOL * ELF32_R_SYM (rel_info L k)
      + ST_sym_name)) MAX_SYM_NAMELEN = true)

/-- The addresses of the descriptor table outside the descriptor of slot `i`. -/
def OutsideDescriptor (i : Nat) (a : Nat) : Prop :=
  a < descriptor i ∨ descriptor i + SIZEOF_MODULE ≤ a

/-- The number of slots marked in `module_bitmap`. -/
def bitmap_count (b : Nat) : Nat :=
  ((List.range MAX_MODULES).filter (fun i => b.testBit i)).length

/-- A module name that is not the empty string. -/
def NonEmptyName (name : List Nat) : Prop := ∃ c cs, name = c :: cs ∧ c % 256 ≠ 0

/-- The byte address `a` is neither one of the descriptor table nor one of the
image buffer of `mod_binary_size` bytes at `mod_binary`: a store through it
goes to the data area. -/
def ToData (P : Platform) (mod_binary mod_binary_size a : Nat) : Prop :=
  ¬ (P.MODULES ≤ a ∧ a < P.MODULES + MAX_MODULES * SIZEOF_MODULE) ∧
  ¬ (mod_binary ≤ a ∧ a < mod_binary + mod_binary_size)

instance (P : Platform) (mod_binary mod_binary_size a : Nat) :
    Decidable (ToData P mod_binary mod_binary_size a) :=
  inferInstanceAs (Decidable (_ ∧ _))

/-- No relocation entry of the load with locals `L` aims at the descriptor
table or at the image buffer: each of the four bytes at `text_start +
rel_offset` is a byte of the data area. -/
def RelocsApart (P : Platform) (mod_binary mod_binary_size : Nat) (L : Loaded) : Prop :=
  ∀ r, r < num_rels L → ∀ k, k < 4 →
    ToData P mod_binary mod_binary_size ((L.b.text_start + rel_offset L r + k) % U32)

instance (P : Platform) (mod_binary mod_binary_size : Nat) (L : Loaded) :
    Decidable (RelocsApart P mod_binary mod_binary_size L) :=
  inferInstanceAs (Decidable (∀ r, r < num_rels L → ∀ k, k < 4 → _))

/-- The states reached from the empty registry by calls of `module_init` and
`module_cleanup` with non-empty names, for well-formed images: the loads stay
within the capacities of `struct Module` and no relocation aims at the
descriptor table or at the image buffer. -/
inductive Reachable (P : Platform) : KState → Prop where
  | empty (st : KState) (hz : ∀ a, a < MAX_MODULES * SIZEOF_MODULE → st.mods a = 0)
      (hb : st.module_bitmap = 0) (hc : st.module_count = 0) : Reachable P st
  | init (st : KState) (fuel : Nat) (mod_name : List Nat) (mod_binary : Nat) (img : Mem)
      (mod_binary_size : Nat) (ret : Int) (st1 : KState) (img1 : Mem) (hr : Reachable P st)
      (hn : NonEmptyName mod_name)
      (hcap : ∀ i L, first_free_slot st.module_bitmap = some i →
        load_image P fuel st mod_name img i = some L → WithinCapacity fuel L mod_name)
      (hrel : ∀ i L, first_free_slot st.module_bitmap = some i →
        load_image P fuel st mod_name img i = some L →
        RelocsApart P mod_binary mod_binary_size L)
      (h : module_init P fuel st mod_name mod_binary img mod_binary_size = some (ret, st1, img1)) :
      Reachable P st1
  | cleanup (st : KState) (mod_name : List Nat) (hr : Reachable P st)
      (hn : NonEmptyName mod_name) : Reachable P (module_cleanup st mod_name).2

/-- The block `m2` holds what `m1` holds at every address that satisfies `keep`. -/
def AgreeOn (keep : Nat → Prop) (m1 m2 : Mem) : Prop := ∀ a, keep a → m2 a = m1 a

/-- The addresses of the descriptor at `module` that hold its name, its index
and its base. -/
def HeaderKept (module : Nat) (a : Nat) : Prop :=
  a < module + OFF_module_size ∨ (module + OFF_module_base ≤ a ∧ a < module + OFF_module_sh_count)

/-- The name fields of the first `n` section records of the descriptor at `module`. -/
def InSectionNames (module n : Nat) (a : Nat) : Prop :=
  ∃ k, k < n ∧ section_rec module k ≤ a ∧ a < section_rec module k + MAX_SECTION_NAMELEN

/-- The symbol records `0 .. n-1` of the descriptor at `module`, and its
`init_routine` and `cleanup_routine` fields. -/
def InSymbols (module n : Nat) (a : Nat) : Prop :=
  (∃ k, k < n ∧ sym_rec module k ≤ a ∧ a < sym_rec module k + SIZEOF_SYMTAB) ∨
  (module + OFF_init_routine ≤ a ∧ a < module + OFF_module_base)

/-- The relocation records `0 .. n-1` of the descriptor at `module`. -/
def InRelocs (module n : Nat) (a : Nat) : Prop :=
  ∃ k, k < n ∧ rel_rec module k ≤ a ∧ a < rel_rec module k + SIZEOF_RELTEXT

/-- The consistency of the registry: the bitmap is a 16-bit word, a bit is set
exactly for the ACTIVE descriptors, an ACTIVE descriptor holds its own slot
index, `module_count` counts the set bits, and a descriptor that is not ACTIVE
has the empty name. -/
def RegistryInv (st : KState) : Prop :=
  st.module_bitmap < 65536 ∧
  (∀ i, i < MAX_MODULES → (st.module_bitmap.testBit i = true ↔
    read32 st.mods (descriptor i + OFF_module_state) = MODULE_STATE_ACTIVE)) ∧
  (∀ i, i < MAX_MODULES →
    read32 st.mods (descriptor i + OFF_module_state) = MODULE_STATE_ACTIVE →
    read32 st.mods (descriptor i + OFF_module_index) = i) ∧
  st.module_count = bitmap_count st.module_bitmap ∧
  (∀ i, i < MAX_MODULES →
    read32 st.mods (descriptor i + OFF_module_state) ≠ MODULE_STATE_ACTIVE →
    read8 st.mods (descriptor i + OFF_module_name) = 0)

/-- Two `struct Symbol` records, both `STT_OBJECT` with `sym_shndx` =
`ELF_SHN_COMMON`: the first with alignment 8 and size 4, the second with
alignment 4 and size 4. -/
def common_symbols : Mem := fun a =>
  [0, 0, 0, 0, 8, 0, 0, 0, 4, 0, 0, 0, 17, 0, 0xF2, 0xFF,
   0, 0, 0, 0, 4, 0, 0, 0, 4, 0, 0, 0, 17, 0, 0xF2, 0xFF].getD a 0

/-- One `struct Symbol` record, `STT_OBJECT` with `sym_shndx` = `ELF_SHN_COMMON`,
alignment 1 and size `0xFFFFFFFF`. -/
def wide_symbol : Mem := fun a =>
  [0, 0, 0, 0, 1, 0, 0, 0, 0xFF, 0xFF, 0xFF, 0xFF, 17, 0, 0xF2, 0xFF].getD a 0

/-- The symbol walk before its first round, the watermark at `w`. -/
def sym_start (w : Nat) : SymState := ⟨fun _ => 0, [], w⟩

/-! ## The section table as the loader sees it -/

/-- The section header at image offset `sh` is one the first pass places:
`SHF_ALLOC` is set, the size is not zero and `sh_addr` is 0. -/
def qualifies (img : Mem) (sh : Nat) : Bool :=
  decide (read32 img (sh + SH_sh_flags) &&& SHF_ALLOC ≠ 0) &&
  decide (read32 img (sh + SH_sh_size) ≠ 0) && decide (read32 img (sh + SH_sh_addr) = 0)

/-- The headers among the first `e_shnum` of the table at `section_base` that
the first pass places, in table order. -/
def placed_headers (img : Mem) (section_base e_shnum : Nat) : List Nat :=
  (section_headers section_base e_shnum).filter (qualifies img)

/-- The sizes of the sections with headers `l`. -/
def section_sizes (img : Mem) (l : List Nat) : List Nat :=
  l.map (fun sh => read32 img (sh + SH_sh_size))

/-- The address `module_base` plus the sizes of the first `k` sections of `l`. -/
def start_of (img : Mem) (module_base : Nat) (l : List Nat) (k : Nat) : Nat :=
  module_base + ((section_sizes img l).take k).sum

/-- The bytes of the field `sh_addr` of the headers `l`. -/
def InAddrFields (l : List Nat) (a : Nat) : Prop :=
  ∃ sh, sh ∈ l ∧ sh + SH_sh_addr ≤ a ∧ a < sh + SH_sh_addr + 4

/-- What the first pass has done once the first `n` section headers have been
visited, on the image, the counters and the section records. -/
def SectionsPlaced (img : Mem) (module module_base section_base n : Nat) (s : SectState) : Prop :=
  (∀ a, ¬ InAddrFields (placed_headers img section_base n) a → s.img a = img a) ∧
  s.sh_count = (placed_headers img section_base n).length ∧
  s.sh_size = (section_sizes img (placed_headers img section_base n)).sum % U32 ∧
  (∀ k, k < (placed_headers img section_base n).length →
    read32 s.img ((placed_headers img section_base n).getD k 0 + SH_sh_addr)
      = start_of img module_base (placed_headers img section_base n) k % U32 ∧
    read32 s.mods (section_rec module k + SEC_sh_start)
      = start_of img module_base (placed_headers img section_base n) k % U32 ∧
    read32 s.mods (section_rec module k + SEC_sh_size)
      = read32 img ((placed_headers img section_base n).getD k 0 + SH_sh_size) ∧
    read32 s.mods (section_rec module k + SEC_sh_type)
      = read32 img ((placed_headers img section_base n).getD k 0 + SH_sh_type) ∧
    read32 s.mods (section_rec module k + SEC_sh_offset)
      = read32 img ((placed_headers img section_base n).getD k 0 + SH_sh_name))

/-- The address `a` of the image is in no `sh_addr` field of the first `n`
section headers. -/
def FieldApart (section_base n a : Nat) : Prop :=
  ∀ k2, k2 < n → ¬ (section_base + SIZEOF_SECTHDR * k2 + SH_sh_addr ≤ a ∧
    a < section_base + SIZEOF_SECTHDR * k2 + SH_sh_addr + 4)

instance (section_base n a : Nat) : Decidable (FieldApart section_base n a) :=
  inferInstanceAs (Decidable (∀ k2, k2 < n →
    ¬ (section_base + SIZEOF_SECTHDR * k2 + SH_sh_addr ≤ a ∧
      a < section_base + SIZEOF_SECTHDR * k2 + SH_sh_addr + 4)))

/-- No byte of the content of a section that the first pass copies lies in
the field `sh_addr` of one of the first `n` section headers. -/
@[reducible] def ContentApart (img : Mem) (section_base n : Nat) : Prop :=
  ∀ k, k < n → qualifies img (section_base + SIZEOF_SECTHDR * k) = true →
    read32 img (section_base + SIZEOF_SECTHDR * k + SH_sh_type) ≠ ELF_SHT_NOBITS →
    ∀ j, j < read32 img (section_base + SIZEOF_SECTHDR * k + SH_sh_size) →
      FieldApart section_base n
        (read32 img (section_base + SIZEOF_SECTHDR * k + SH_sh_offset) + j)

/-- What the first pass has done to the data area once the first `n` section
headers have been visited: outside the `sh_size` bytes from `module_base` on
it holds what it held, and inside each section has its content, when no
section content lies in an `sh_addr` field of the `N` headers. -/
def SectionsData (img data0 : Mem) (module_base section_base N n : Nat) (s : SectState) : Prop :=
  (∀ x, x < U32 → (x < module_base ∨
      module_base + (section_sizes img (placed_headers img section_base n)).sum ≤ x) →
    s.data x = data0 x) ∧
  (ContentApart img section_base N → ∀ k, k < (placed_headers img section_base n).length →
    ∀ j, j < read32 img ((placed_headers img section_base n).getD k 0 + SH_sh_size) →
      s.data (start_of img module_base (placed_headers img section_base n) k + j)
        = if read32 img ((placed_headers img section_base n).getD k 0 + SH_sh_type)
              = ELF_SHT_NOBITS then 0
          else read8 img (read32 img ((placed_headers img section_base n).getD k 0 + SH_sh_offset)
              + j))

/-! ## Two more object images -/

/-- The bytes of the image `wide_image`: an object file like `demo_image` with two more sections that occupy
memory: `.data`, 8 bytes, and `.bss`, `ELF_SHT_NOBITS` of 8192 bytes -/
def wide_bytes : List Nat :=
  [127, 69, 76, 70, 1, 1, 1, 0, 0, 0, 0, 0, 0, 0, 0, 0, 1, 0, 3, 0, 1, 0, 0, 0,
   0, 0, 0, 0, 0, 0, 0, 0, 230, 0, 0, 0, 0, 0, 0, 0, 52, 0, 0, 0, 0, 0, 40, 0,
   8, 0, 5, 0, 232, 0, 0, 0, 0, 195, 195, 144, 1, 0, 0, 0, 2, 3, 0, 0, 1, 2, 3, 4,
   5, 6, 7, 8, 0, 46, 116, 101, 120, 116, 0, 46, 114, 101, 108, 46, 116, 101, 120, 116, 0, 46, 100, 97,
   116, 97, 0, 46, 98, 115, 115, 0, 46, 115, 104, 115, 116, 114, 116, 97, 98, 0, 46, 115, 121, 109, 116, 97,
   98, 0, 46, 115, 116, 114, 116, 97, 98, 0, 0, 0, 0, 0, 0, 0, 0, 0, 0, 0, 0, 0, 0, 0,
   0, 0, 1, 0, 0, 0, 0, 0, 0, 0, 6, 0, 0, 0, 18, 0, 1, 0, 13, 0, 0, 0, 6, 0,
   0, 0, 1, 0, 0, 0, 18, 0, 1, 0, 28, 0, 0, 0, 0, 0, 0, 0, 0, 0, 0, 0, 16, 0,
   0, 0, 0, 105, 110, 105, 116, 95, 109, 111, 100, 117, 108, 101, 0, 99, 108, 101, 97, 110, 117, 112, 95, 109,
   111, 100, 117, 108, 101, 0, 99, 112, 114, 105, 110, 116, 102, 0, 0, 0, 0, 0, 0, 0, 0, 0, 0, 0,
   0, 0, 0, 0, 0, 0, 0, 0, 0, 0, 0, 0, 0, 0, 0, 0, 0, 0, 0, 0, 0, 0, 0, 0,
   0, 0, 0, 0, 0, 0, 1, 0, 0, 0, 1, 0, 0, 0, 6, 0, 0, 0, 0, 0, 0, 0, 52, 0,
   0, 0, 8, 0, 0, 0, 0, 0, 0, 0, 0, 0, 0, 0, 4, 0, 0, 0, 0, 0, 0, 0, 7, 0,
   0, 0, 9, 0, 0, 0, 0, 0, 0, 0, 0, 0, 0, 0, 60, 0, 0, 0, 8, 0, 0, 0, 6, 0,
   0, 0, 1, 0, 0, 0, 4, 0, 0, 0, 8, 0, 0, 0, 17, 0, 0, 0, 1, 0, 0, 0, 3, 0,
   0, 0, 0, 0, 0, 0, 68, 0, 0, 0, 8, 0, 0, 0, 0, 0, 0, 0, 0, 0, 0, 0, 4, 0,
   0, 0, 0, 0, 0, 0, 23, 0, 0, 0, 8, 0, 0, 0, 3, 0, 0, 0, 0, 0, 0, 0, 76, 0,
   0, 0, 0, 32, 0, 0, 0, 0, 0, 0, 0, 0, 0, 0, 4, 0, 0, 0, 0, 0, 0, 0, 28, 0,
   0, 0, 3, 0, 0, 0, 0, 0, 0, 0, 0, 0, 0, 0, 76, 0, 0, 0, 54, 0, 0, 0, 0, 0,
   0, 0, 0, 0, 0, 0, 1, 0, 0, 0, 0, 0, 0, 0, 38, 0, 0, 0, 2, 0, 0, 0, 0, 0,
   0, 0, 0, 0, 0, 0, 130, 0, 0, 0, 64, 0, 0, 0, 7, 0, 0, 0, 1, 0, 0, 0, 4, 0,
   0, 0, 16, 0, 0, 0, 46, 0, 0, 0, 3, 0, 0, 0, 0, 0, 0, 0, 0, 0, 0, 0, 194, 0,
   0, 0, 36, 0, 0, 0, 0, 0, 0, 0, 0, 0, 0, 0, 1, 0, 0, 0, 0, 0, 0, 0]

/-- The number `pack wide_bytes`, written out. -/
def wide_number : Nat :=
  1845275429612008616715590340810084644940182735328114803266330772128943353555897459113847198234099159880089891841302116257864452654912009113494933199530408849766208750186373724237718019051023088127547135480802566485027996586950365948984646814336398347244131137685820625126680102299468666316699338130453557218193904400552059423451693342331676402398482704821891498464990698471913153738953350504876495859216916882574201656738230523985762704097026804859354574554556418707976693230325459825104806406051221402543924895101460429287157832470938147116939125316615040070667338431561983108765758588408969291127522310228254998174324135021964587138774231853106439297517669270496073462314204739708578095938480622348330882169471009376212372744891827508641073150169919320665295939158849085592554070739859639504005292555665288961751739733688255300348430655165422501753546310460142217219408306561089202001597252880064478292654525371515027360263434324359139424664078798587767413221794544318451871710137557250995907436070234531447491318562865091036264463280297977208591302689803710623112198264295218424370686347064945097388156194590442378911454509715303534045873656564434586430135565638615125629793620177669808647264041867630275545364556009015159595788873322864971288339733798790578579032554783805635898493690355626345405105535

/-- An object file like `demo_image` with two more sections that occupy
memory: `.data`, 8 bytes, and `.bss`, `ELF_SHT_NOBITS` of 8192 bytes. -/
def wide_image : Mem := fun a => wide_number / 256 ^ a % 256

/-- The bytes of the image `longname_image`: an object file like `demo_image` with one more section that occupies
memory, of 4 bytes, under the 18-character name `.data.rel.ro.local` -/
def longname_bytes : List Nat :=
  [127, 69, 76, 70, 1, 1, 1, 0, 0, 0, 0, 0, 0, 0, 0, 0, 1, 0, 3, 0, 1, 0, 0, 0,
   0, 0, 0, 0, 0, 0, 0, 0, 234, 0, 0, 0, 0, 0, 0, 0, 52, 0, 0, 0, 0, 0, 40, 0,
   7, 0, 4, 0, 232, 0, 0, 0, 0, 195, 195, 144, 1, 0, 0, 0, 2, 3, 0, 0, 9, 9, 9, 9,
   0, 46, 116, 101, 120, 116, 0, 46, 114, 101, 108, 46, 116, 101, 120, 116, 0, 46, 100, 97, 116, 97, 46, 114,
   101, 108, 46, 114, 111, 46, 108, 111, 99, 97, 108, 0, 46, 115, 104, 115, 116, 114, 116, 97, 98, 0, 46, 115,
   121, 109, 116, 97, 98, 0, 46, 115, 116, 114, 116, 97, 98, 0, 0, 0, 0, 0, 0, 0, 0, 0, 0, 0,
   0, 0, 0, 0, 0, 0, 1, 0, 0, 0, 0, 0, 0, 0, 6, 0, 0, 0, 18, 0, 1, 0, 13, 0,
   0, 0, 6, 0, 0, 0, 1, 0, 0, 0, 18, 0, 1, 0, 28, 0, 0, 0, 0, 0, 0, 0, 0, 0,
   0, 0, 16, 0, 0, 0, 0, 105, 110, 105, 116, 95, 109, 111, 100, 117, 108, 101, 0, 99, 108, 101, 97, 110,
   117, 112, 95, 109, 111, 100, 117, 108, 101, 0, 99, 112, 114, 105, 110, 116, 102, 0, 0, 0, 0, 0, 0, 0,
   0, 0, 0, 0, 0, 0, 0, 0, 0, 0, 0, 0, 0, 0, 0, 0, 0, 0, 0, 0, 0, 0, 0, 0,
   0, 0, 0, 0, 0, 0, 0, 0, 0, 0, 1, 0, 0, 0, 1, 0, 0, 0, 6, 0, 0, 0, 0, 0,
   0, 0, 52, 0, 0, 0, 8, 0, 0, 0, 0, 0, 0, 0, 0, 0, 0, 0, 4, 0, 0, 0, 0, 0,
   0, 0, 7, 0, 0, 0, 9, 0, 0, 0, 0, 0, 0, 0, 0, 0, 0, 0, 60, 0, 0, 0, 8, 0,
   0, 0, 5, 0, 0, 0, 1, 0, 0, 0, 4, 0, 0, 0, 8, 0, 0, 0, 17, 0, 0, 0, 1, 0,
   0, 0, 3, 0, 0, 0, 0, 0, 0, 0, 68, 0, 0, 0, 4, 0, 0, 0, 0, 0, 0, 0, 0, 0,
   0, 0, 4, 0, 0, 0, 0, 0, 0, 0, 36, 0, 0, 0, 3, 0, 0, 0, 0, 0, 0, 0, 0, 0,
   0, 0, 72, 0, 0, 0, 62, 0, 0, 0, 0, 0, 0, 0, 0, 0, 0, 0, 1, 0, 0, 0, 0, 0,
   0, 0, 46, 0, 0, 0, 2, 0, 0, 0, 0, 0, 0, 0, 0, 0, 0, 0, 134, 0, 0, 0, 64, 0,
   0, 0, 6, 0, 0, 0, 1, 0, 0, 0, 4, 0, 0, 0, 16, 0, 0, 0, 54, 0, 0, 0, 3, 0,
   0, 0, 0, 0, 0, 0, 0, 0, 0, 0, 198, 0, 0, 0, 36, 0, 0, 0, 0, 0, 0, 0, 0, 0,
   0, 0, 1, 0, 0, 0, 0, 0, 0, 0]

/-- The number `pack longname_bytes`, written out. -/
def longname_number : Nat :=
  3710414664983661149803682772554146598135112405768703857573710236835749834354056643134449697804707062766304591556541295174000147990057771075260523346530778856721589551906479119886502979024511149673820933762858461019114163349482435608702580454036874759892017952489568860584745946975794259698134640608725058400207673267713729513234083648649453012698893801897781756518866437888328666940474997619341383221724445846732292748872670941573437995420724578139394055677647536413276029580931479202028496385907990838721830658991508160366119029339452953785766802925078135966320299282890797253156310433701991862806121801762810196370227309719008913782294204937203477794611280096943269578591387420820200397644896103763339743112780328321925559454253284232074316487599883581453921800296035910072136605662819576066480914618132831643421465921927371324657897996078422919610794525711637873431951862921922112694586016513150216831674340919778318797587897382655223956646974049928559657067003525725160780795826764027733325083720349458843482734805552430937704140940953544532972915343016522630252065681315920251263383150854636575322362445998218363684421308193315669985518537505743011458239468834909065407557079688721421393806972293259447958219015551

/-- The size of the buffer the images other than `demo_image` are handed over
in: one page at `demo_buffer`. -/
def load_size : Nat := 4096

/-- The return value of `module_init` for the image `img` under the name `name`. -/
def load_ret (img : Mem) (st : KState) (name : String) : Option Int :=
  ret_of (module_init demo_platform 64 st (cbytes name) demo_buffer img load_size)

/-- The state `module_init` leaves for the image `img` under the name `name`. -/
def load_state (img : Mem) (st : KState) (name : String) : KState :=
  state_of st (module_init demo_platform 64 st (cbytes name) demo_buffer img load_size)

/-- The image `module_init` leaves for the image `img` under the name `name`. -/
def load_buffer (img : Mem) (st : KState) (name : String) : Mem :=
  image_of img (module_init demo_platform 64 st (cbytes name) demo_buffer img load_size)

/-- The locals of `module_init` for the image `img` loaded into slot `i`,
once the symbol table has been walked. -/
def load_locals (img : Mem) (st : KState) (name : String) (i : Nat) : Loaded :=
  loaded_of ⟨0, 0, 0, ⟨img, st.data, st.mods, 0, 0, none, none, none⟩, ⟨0, 0, 0, 0⟩, 0, 0, 0,
      ⟨st.mods, st.symtab, 0⟩⟩ (load_image demo_platform 64 st (cbytes name) img i)

/-- The registry after `demo_image` has been loaded as `a` and as `b` and
the module `a` has been removed: slot 0 is free, slot 1 holds `b`. -/
def state_b : KState := (module_cleanup state_ab (cbytes "a")).2

/-- The registry after `wide_image` has then been loaded as `w`. -/
def state_wb : KState := load_state wide_image state_b "w"

/-! ## `kern/e100.h` and `kern/e100.c`: the transmit ring -/

def MAX_E100_TX_SLOTS : Nat := 20
def MAX_E100_RX_SLOTS : Nat := 20
def E100_TX_STATE_IDLE : Nat := 0
def E100_TX_STATE_ACTIVE : Nat := 1
def E100_SCB_COMMAND_WORD : Nat := 2
def E100_SCB_GENERAL_POINTER : Nat := 4
def E100_SCB_COMMAND_CU_START : Nat := 0x10
def E100_SCB_COMMAND_CU_RESUME : Nat := 0x20
def E100_CBL_COMMAND_TX : Nat := 0x4
def E100_CBL_COMMAND_I : Nat := 0x2000
def E100_CBL_COMMAND_S : Nat := 0x4000
def E100_CBL_STATUS_OK : Nat := 0x2000
def E100_CBL_STATUS_C : Nat := 0x8000
def E100_MAX_PACKET_SIZE : Nat := 1518

/-- Offsets of the fields of `e100_dma_tx_t` (i386: two `uint16_t`, two
`uint32_t`, one `uint16_t`, two `uint8_t`, then `tcb_data` and the padding). -/
def TX_status : Nat := 0
def TX_command : Nat := 2
def TX_link : Nat := 4
def TX_tbd_array_addr : Nat := 8
def TX_tcb_byte_count : Nat := 12
def TX_threshold : Nat := 14
def TX_tbd_count : Nat := 15
def TX_tcb_data : Nat := 16
def SIZEOF_e100_dma_tx : Nat := TX_tcb_data + E100_MAX_PACKET_SIZE + 18
def SIZEOF_e100_dma_rx : Nat := 16 + E100_MAX_PACKET_SIZE + 18

/-- Offsets of the fields of `e100_driver_t`. -/
def DRV_mem_base : Nat := 0
def DRV_io_base : Nat := 4
def DRV_tx : Nat := 8
def DRV_rx : Nat := DRV_tx + MAX_E100_TX_SLOTS * SIZEOF_e100_dma_tx
def DRV_tx_state : Nat := DRV_rx + MAX_E100_RX_SLOTS * SIZEOF_e100_dma_rx
def DRV_rx_state : Nat := DRV_tx_state + 1
def DRV_tx_head : Nat := DRV_tx_state + 4
def DRV_tx_tail : Nat := DRV_tx_head + 4
def DRV_rx_head : Nat := DRV_tx_tail + 4
def DRV_rx_tail : Nat := DRV_rx_head + 4

/-- Store of a little-endian `uint16_t`. -/
def write16 (m : Mem) (a v : Nat) : Mem := write8 (write8 m a v) (a + 1) (v / 256)

/-- The call `memmove(dst, src, n)` from a buffer `src` outside the block into
the block at offset `dst`. -/
def copy_in (m : Mem) (dst : Nat) (src : Mem) (n : Nat) : Mem :=
  fun x => if dst ≤ x ∧ x < dst + n then read8 src (x - dst) else m x

/-- A write to an I/O port. -/
inductive PortWrite where
  /-- The call `outl(port, data)`. -/
  | outl (port data : Nat)
  /-- The call `outb(port, data)`. -/
  | outb (port data : Nat)
  deriving DecidableEq

/-- The driver: the bytes of the global `e100_driver`, by offset, and the
port writes made so far. -/
structure E100 where
  mem : Mem
  io : List PortWrite

/-- Offset of `e100_driver.tx[i]`. -/
def tx_slot (i : Nat) : Nat := DRV_tx + SIZEOF_e100_dma_tx * i

/-- The function `e100_handle_tx_int`. -/
def e100_handle_tx_int (s : E100) : E100 :=
  let q_head := read32 s.mem DRV_tx_head
  if read16 s.mem (tx_slot q_head + TX_status) &&& E100_CBL_STATUS_OK ≠ 0 ∧
      read16 s.mem (tx_slot q_head + TX_status) &&& E100_CBL_STATUS_C ≠ 0 then
    let m1 := write16 s.mem (tx_slot q_head + TX_command) 0
    let m2 := memzero m1 (tx_slot q_head + TX_tcb_data) E100_MAX_PACKET_SIZE
    { s with mem := write32 m2 DRV_tx_head ((read32 m2 DRV_tx_head + 1) % U32 % MAX_E100_TX_SLOTS) }
  else s

/-- The function `e100_transmit_packet`; `pa` is `PADDR(&e100_driver)`, the
physical address of the driver structure, and `pkt` holds the packet bytes. -/
def e100_transmit_packet (pa : Nat) (s : E100) (pkt : Mem) (pkt_size : Nat) : Int × E100 :=
  let q_head := read32 s.mem DRV_tx_head
  let q_tail := read32 s.mem DRV_tx_tail
  if (q_tail + 1) % U32 % MAX_E100_TX_SLOTS = q_head then (-E_NO_MEM, s)
  else
    let tx := tx_slot q_tail
    let m1 := write16 s.mem (tx + TX_status) 0
    let m2 := write16 m1 (tx + TX_command)
      (E100_CBL_COMMAND_TX ||| E100_CBL_COMMAND_I ||| E100_CBL_COMMAND_S)
    let m3 := write16 m2 (tx + TX_tcb_byte_count) pkt_size
    let m4 := copy_in m3 (tx + TX_tcb_data) pkt pkt_size
    let m5 := write32 m4 DRV_tx_tail ((read32 m4 DRV_tx_tail + 1) % U32 % MAX_E100_TX_SLOTS)
    let io_base := read32 m5 DRV_io_base
    if read8 m5 DRV_tx_state = E100_TX_STATE_IDLE then
      (0, { mem := write8 m5 DRV_tx_state E100_TX_STATE_ACTIVE,
            io := s.io ++ [PortWrite.outl ((io_base + E100_SCB_GENERAL_POINTER) % U32)
                             ((pa + tx_slot q_head) % U32),
                           PortWrite.outb ((io_base + E100_SCB_COMMAND_WORD) % U32)
                             E100_SCB_COMMAND_CU_START] })
    else
      (0, { mem := m5,
            io := s.io ++ [PortWrite.outb ((io_base + E100_SCB_COMMAND_WORD) % U32)
                             E100_SCB_COMMAND_CU_RESUME] })

/-- The number of transmit slots handed to the device and not yet reclaimed. -/
def tx_outstanding (s : E100) : Nat :=
  (read32 s.mem DRV_tx_tail + MAX_E100_TX_SLOTS - read32 s.mem DRV_tx_head) % MAX_E100_TX_SLOTS

/-! ### A transmit ring that has gone round once -/

/-- The driver with the ring as `e100_attach` leaves it: `tx_head` and
`tx_tail` 0, the state idle, every status 0.  The fields `link`,
`tbd_array_addr` and `threshold`, which the two routines do not read, are left
zero as well. -/
def e100_fresh : E100 := ⟨fun _ => 0, []⟩

/-- A packet of 60 bytes `0x55`. -/
def test_packet : Mem := fun _ => 0x55

/-- The device has sent the command block of slot `i`: it sets the bits C and
OK of the status word. -/
def device_done (s : E100) (i : Nat) : E100 :=
  let status := read16 s.mem (tx_slot i + TX_status) ||| E100_CBL_STATUS_C ||| E100_CBL_STATUS_OK
  { s with mem := write16 s.mem (tx_slot i + TX_status) status }

/-- One packet is queued, sent by the device and reclaimed by the interrupt
handler. -/
def tx_cycle (s : E100) : E100 :=
  e100_handle_tx_int (device_done (e100_transmit_packet 0x00200000 s test_packet 60).2
    (read32 s.mem DRV_tx_tail))

/-- The driver after twenty packets have been queued, sent and reclaimed. -/
def ring_wrapped : E100 := Nat.iterate tx_cycle 20 e100_fresh

/-! ## `kern/sched.c` -/

/-- The fields of `struct Env` that the scheduler reads. -/
structure Env where
  env_id : Nat
  env_status : Nat
  priority : Int

/-- What `inc/env.h` fixes for the scheduler: the length `NENV` of `envs`,
the macro `ENVX` from an environment id to an index of `envs`, and the status
value `ENV_RUNNABLE`. -/
structure EnvConsts where
  NENV : Nat
  ENVX : Nat → Nat
  ENV_RUNNABLE : Nat

/-- How a call of the scheduler ends: neither `env_run` nor the monitor loop
returns. -/
inductive Dispatch where
  /-- The call `env_run(&envs[i])`. -/
  | run (i : Nat)
  /-- The loop `while (1) monitor(NULL);`. -/
  | monitor
  deriving DecidableEq

/-- The code after the label `end`. -/
def sched_end (C : EnvConsts) (envs : Nat → Env) : Dispatch :=
  if (envs 0).env_status = C.ENV_RUNNABLE then Dispatch.run 0 else Dispatch.monitor

/-- The branch `i == env` of the loop of `sched_yield`: the calling
environment is run again if it is runnable. -/
def sched_back (C : EnvConsts) (envs : Nat → Env) (curenv : Option Nat) : Dispatch :=
  match curenv with
  | some c =>
    if (envs c).env_status = C.ENV_RUNNABLE then Dispatch.run c else sched_end C envs
  | none => sched_end C envs

/-- The loop `for (i = (env + 1) % NENV; i < NENV; i = (i + 1) % NENV)` of
`sched_yield`, entered with the given `i`; `curenv` is the index of the
environment `curenv` points to, if it is not `NULL`.  `none`: the loop is
still running after `fuel` rounds. -/
def sched_scan (C : EnvConsts) (envs : Nat → Env) (curenv : Option Nat) (env : Nat) :
    Nat → Nat → Option Dispatch
  | 0, _ => none
  | fuel + 1, i =>
    if ¬ i < C.NENV then some (sched_end C envs)
    else if i = env then some (sched_back C envs curenv)
    else if i = 0 then sched_scan C envs curenv env fuel ((i + 1) % C.NENV)
    else if (envs i).env_status = C.ENV_RUNNABLE then some (Dispatch.run i)
    else sched_scan C envs curenv env fuel ((i + 1) % C.NENV)

/-- The value of `env` with which both schedulers enter their loop:
`ENVX(curenv->env_id)`, or `ENVX(prev_curenv_id)` when `curenv` is `NULL`. -/
def sched_env (C : EnvConsts) (envs : Nat → Env) (curenv : Option Nat) (prev_curenv_id : Nat) :
    Nat :=
  match curenv with
  | none => C.ENVX prev_curenv_id
  | some c => C.ENVX (envs c).env_id

/-- The function `sched_yield`, built without `PRIORITY_SCHED`. -/
def sched_yield (C : EnvConsts) (fuel : Nat) (envs : Nat → Env) (curenv : Option Nat)
    (prev_curenv_id : Nat) : Option Dispatch :=
  match curenv with
  | none =>
    if prev_curenv_id = 0 then some (sched_end C envs)
    else sched_scan C envs curenv (C.ENVX prev_curenv_id) fuel
      ((C.ENVX prev_curenv_id + 1) % C.NENV)
  | some c =>
    sched_scan C envs curenv (C.ENVX (envs c).env_id) fuel
      ((C.ENVX (envs c).env_id + 1) % C.NENV)

/-- The code of `priority_sched_yield` after its loop: the environment with
the maximum priority is run if it is runnable, else control falls to `end`. -/
def priority_run (C : EnvConsts) (envs : Nat → Env) (min_priority_index : Nat) : Dispatch :=
  if (envs min_priority_index).env_status = C.ENV_RUNNABLE then Dispatch.run min_priority_index
  else sched_end C envs

/-- The branch `i == env` of the loop of `priority_sched_yield`. -/
def priority_back (C : EnvConsts) (envs : Nat → Env) (curenv : Option Nat) (env : Nat)
    (min_priority_index : Nat) : Dispatch :=
  if min_priority_index ≠ env then priority_run C envs min_priority_index
  else
    match curenv with
    | some c =>
      if (envs c).env_status = C.ENV_RUNNABLE then priority_run C envs min_priority_index
      else sched_end C envs
    | none => sched_end C envs

/-- The loop of `priority_sched_yield`, entered with the given `i`,
`min_priority` and `min_priority_index`. -/
def priority_scan (C : EnvConsts) (envs : Nat → Env) (curenv : Option Nat) (env : Nat) :
    Nat → Nat → Int → Nat → Option Dispatch
  | 0, _, _, _ => none
  | fuel + 1, i, min_priority, min_priority_index =>
    if ¬ i < C.NENV then some (priority_run C envs min_priority_index)
    else if i = env then some (priority_back C envs curenv env min_priority_index)
    else if i = 0 then
      priority_scan C envs curenv env fuel ((i + 1) % C.NENV) min_priority min_priority_index
    else if (envs i).env_status = C.ENV_RUNNABLE then
      if (envs i).priority < min_priority then
        priority_scan C envs curenv env fuel ((i + 1) % C.NENV) (envs i).priority i
      else
        priority_scan C envs curenv env fuel ((i + 1) % C.NENV) min_priority min_priority_index
    else priority_scan C envs curenv env fuel ((i + 1) % C.NENV) min_priority min_priority_index

/-- The function `priority_sched_yield`. -/
def priority_sched_yield (C : EnvConsts) (fuel : Nat) (envs : Nat → Env) (curenv : Option Nat)
    (prev_curenv_id : Nat) : Option Dispatch :=
  match curenv with
  | none =>
    if prev_curenv_id = 0 then some (sched_end C envs)
    else priority_scan C envs curenv (C.ENVX prev_curenv_id) fuel
      ((C.ENVX prev_curenv_id + 1) % C.NENV) 10000 (C.ENVX prev_curenv_id)
  | some c =>
    priority_scan C envs curenv (C.ENVX (envs c).env_id) fuel
      ((C.ENVX (envs c).env_id + 1) % C.NENV) 10000 (C.ENVX (envs c).env_id)

/-! ### A small table of environments -/

/-- The constants of JOS: 1024 environments, `ENVX` the low ten bits of the
id, `ENV_RUNNABLE` = 1. -/
def jos_consts : EnvConsts := ⟨1024, fun id => id % 1024, 1⟩

/-- The table in which `envs[0]`, `envs[1]` and `envs[2]` are runnable, with
ids `0x1000 + i` and priority `i` as `env_alloc` sets them, and every other
environment is free. -/
def three_envs : Nat → Env := fun i =>
  if i < 3 then ⟨0x1000 + i, 1, i⟩ else ⟨0, 0, i⟩

/-- The table in which `envs[0]` and `envs[1]` are runnable and every other
environment is free. -/
def two_envs : Nat → Env := fun i =>
  if i < 2 then ⟨0x1000 + i, 1, i⟩ else ⟨0, 0, i⟩

/-- The table in which only `envs[0]` is runnable. -/
def idle_only : Nat → Env := fun i =>
  if i = 0 then ⟨0x1000, 1, 0⟩ else ⟨0, 0, i⟩

/-! ## Two more object images: relocations by section symbol, `.data` first -/

/-- The bytes of the image `stale_image`. -/
def stale_bytes : List Nat :=
  [127, 69, 76, 70, 1, 1, 1, 0, 0, 0, 0, 0, 0, 0, 0, 0, 1, 0, 3, 0, 1, 0, 0, 0,
   0, 0, 0, 0, 0, 0, 0, 0, 4, 1, 0, 0, 0, 0, 0, 0, 52, 0, 0, 0, 0, 0, 40, 0,
   7, 0, 4, 0, 104, 0, 0, 0, 0, 104, 15, 0, 0, 0, 104, 3, 0, 0, 0, 195, 104, 105, 0, 121,
   111, 0, 111, 107, 0, 1, 0, 0, 0, 1, 2, 0, 0, 6, 0, 0, 0, 1, 1, 0, 0, 11, 0, 0,
   0, 1, 2, 0, 0, 0, 46, 116, 101, 120, 116, 0, 46, 114, 111, 100, 97, 116, 97, 0, 46, 114, 101, 108,
   46, 116, 101, 120, 116, 0, 46, 115, 104, 115, 116, 114, 116, 97, 98, 0, 46, 115, 121, 109, 116, 97, 98, 0,
   46, 115, 116, 114, 116, 97, 98, 0, 0, 0, 0, 0, 0, 0, 0, 0, 0, 0, 0, 0, 0, 0, 0, 0,
   0, 0, 0, 0, 0, 0, 0, 0, 0, 0, 0, 0, 3, 0, 1, 0, 0, 0, 0, 0, 0, 0, 0, 0,
   0, 0, 0, 0, 3, 0, 2, 0, 1, 0, 0, 0, 0, 0, 0, 0, 15, 0, 0, 0, 18, 0, 1, 0,
   13, 0, 0, 0, 15, 0, 0, 0, 1, 0, 0, 0, 18, 0, 1, 0, 0, 105, 110, 105, 116, 95, 109, 111,
   100, 117, 108, 101, 0, 99, 108, 101, 97, 110, 117, 112, 95, 109, 111, 100, 117, 108, 101, 0, 0, 0, 0, 0,
   0, 0, 0, 0, 0, 0, 0, 0, 0, 0, 0, 0, 0, 0, 0, 0, 0, 0, 0, 0, 0, 0, 0, 0,
   0, 0, 0, 0, 0, 0, 0, 0, 0, 0, 0, 0, 1, 0, 0, 0, 1, 0, 0, 0, 6, 0, 0, 0,
   0, 0, 0, 0, 52, 0, 0, 0, 16, 0, 0, 0, 0, 0, 0, 0, 0, 0, 0, 0, 4, 0, 0, 0,
   0, 0, 0, 0, 7, 0, 0, 0, 1, 0, 0, 0, 2, 0, 0, 0, 0, 0, 0, 0, 68, 0, 0, 0,
   9, 0, 0, 0, 0, 0, 0, 0, 0, 0, 0, 0, 4, 0, 0, 0, 0, 0, 0, 0, 15, 0, 0, 0,
   9, 0, 0, 0, 0, 0, 0, 0, 0, 0, 0, 0, 77, 0, 0, 0, 24, 0, 0, 0, 5, 0, 0, 0,
   1, 0, 0, 0, 4, 0, 0, 0, 8, 0, 0, 0, 25, 0, 0, 0, 3, 0, 0, 0, 0, 0, 0, 0,
   0, 0, 0, 0, 101, 0, 0, 0, 51, 0, 0, 0, 0, 0, 0, 0, 0, 0, 0, 0, 1, 0, 0, 0,
   0, 0, 0, 0, 35, 0, 0, 0, 2, 0, 0, 0, 0, 0, 0, 0, 0, 0, 0, 0, 152, 0, 0, 0,
   80, 0, 0, 0, 6, 0, 0, 0, 1, 0, 0, 0, 4, 0, 0, 0, 16, 0, 0, 0, 43, 0, 0, 0,
   3, 0, 0, 0, 0, 0, 0, 0, 0, 0, 0, 0, 232, 0, 0, 0, 28, 0, 0, 0, 0, 0, 0, 0,
   0, 0, 0, 0, 1, 0, 0, 0, 0, 0, 0, 0]

/-- The number `pack stale_bytes`, written out. -/
def stale_number : Nat :=
  1526376060195512590459744344295669473843493014070649140851075274059360627869423057743043329096301042840108914793466829052473499719572311853764637983383077941491026187259596059305430045823410995201882026589499940574812639128023124251856413887964223765955541046555845132992571376310061671688827819125621975236242868830929585423558549364712661502496674198070647856208623038345024060998982216429886431381806366800856717070749725095466548863763203820548580217949465208547496244621289624312844453552749280870701152059205416749217989870964836194483279460933251783584580158825683892329134032176028225624495911801556767438260513705623229111259471515814591507696045515222716088161806486962863242694914399172748088365869151935045160033047407524883861116304138108818198403430438783391722744305014802911198684204318864130947815893102150825300354238242648031175337967575194365030527103422656794899457251735015432399936713488984924305489400402883985464361036931191791681035299481862706405894212845510253384367946551727680731086481018546766053868462741138276211867774780748053944319155773082932708482377219714600988606722018405471297629127792088315650453825520387397994984412333249127367821294505073465312909749314562529178668208544033762321377652836221575222749615942244354641707442740296900429183

/-- An object file with `.text` (three `push imm32` and a `ret`) and `.rodata`
(the strings `hi`, `yo`, `ok`), section symbols for both, and three
`R_386_32` relocations by section symbol: at offset 1 against `.rodata`, at
offset 6 against `.text` (addend 15) and at offset 11 against `.rodata`. -/
def stale_image : Mem := fun a => stale_number / 256 ^ a % 256

/-- The bytes of the image `datafirst_image`. -/
def datafirst_bytes : List Nat :=
  [127, 69, 76, 70, 1, 1, 1, 0, 0, 0, 0, 0, 0, 0, 0, 0, 1, 0, 3, 0, 1, 0, 0, 0,
   0, 0, 0, 0, 0, 0, 0, 0, 249, 0, 0, 0, 0, 0, 0, 0, 52, 0, 0, 0, 0, 0, 40, 0,
   7, 0, 4, 0, 1, 2, 3, 4, 5, 6, 7, 8, 232, 0, 0, 0, 0, 195, 195, 144, 1, 0, 0, 0,
   2, 3, 0, 0, 0, 46, 100, 97, 116, 97, 0, 46, 116, 101, 120, 116, 0, 46, 114, 101, 108, 46, 116, 101,
   120, 116, 0, 46, 115, 104, 115, 116, 114, 116, 97, 98, 0, 46, 115, 121, 109, 116, 97, 98, 0, 46, 115, 116,
   114, 116, 97, 98, 0, 0, 0, 0, 0, 0, 0, 0, 0, 0, 0, 0, 0, 0, 0, 0, 0, 1, 0, 0,
   0, 0, 0, 0, 0, 6, 0, 0, 0, 18, 0, 2, 0, 13, 0, 0, 0, 6, 0, 0, 0, 1, 0, 0,
   0, 18, 0, 2, 0, 28, 0, 0, 0, 0, 0, 0, 0, 0, 0, 0, 0, 16, 0, 0, 0, 36, 0, 0,
   0, 4, 0, 0, 0, 4, 0, 0, 0, 17, 0, 242, 255, 0, 105, 110, 105, 116, 95, 109, 111, 100, 117, 108,
   101, 0, 99, 108, 101, 97, 110, 117, 112, 95, 109, 111, 100, 117, 108, 101, 0, 99, 112, 114, 105, 110, 116, 102,
   0, 99, 111, 117, 110, 116, 101, 114, 0, 0, 0, 0, 0, 0, 0, 0, 0, 0, 0, 0, 0, 0, 0, 0,
   0, 0, 0, 0, 0, 0, 0, 0, 0, 0, 0, 0, 0, 0, 0, 0, 0, 0, 0, 0, 0, 0, 0, 0,
   0, 1, 0, 0, 0, 1, 0, 0, 0, 3, 0, 0, 0, 0, 0, 0, 0, 52, 0, 0, 0, 8, 0, 0,
   0, 0, 0, 0, 0, 0, 0, 0, 0, 4, 0, 0, 0, 0, 0, 0, 0, 7, 0, 0, 0, 1, 0, 0,
   0, 6, 0, 0, 0, 0, 0, 0, 0, 60, 0, 0, 0, 8, 0, 0, 0, 0, 0, 0, 0, 0, 0, 0,
   0, 4, 0, 0, 0, 0, 0, 0, 0, 13, 0, 0, 0, 9, 0, 0, 0, 0, 0, 0, 0, 0, 0, 0,
   0, 68, 0, 0, 0, 8, 0, 0, 0, 5, 0, 0, 0, 2, 0, 0, 0, 4, 0, 0, 0, 8, 0, 0,
   0, 23, 0, 0, 0, 3, 0, 0, 0, 0, 0, 0, 0, 0, 0, 0, 0, 76, 0, 0, 0, 49, 0, 0,
   0, 0, 0, 0, 0, 0, 0, 0, 0, 1, 0, 0, 0, 0, 0, 0, 0, 33, 0, 0, 0, 2, 0, 0,
   0, 0, 0, 0, 0, 0, 0, 0, 0, 125, 0, 0, 0, 80, 0, 0, 0, 6, 0, 0, 0, 1, 0, 0,
   0, 4, 0, 0, 0, 16, 0, 0, 0, 41, 0, 0, 0, 3, 0, 0, 0, 0, 0, 0, 0, 0, 0, 0,
   0, 205, 0, 0, 0, 44, 0, 0, 0, 0, 0, 0, 0, 0, 0, 0, 0, 1, 0, 0, 0, 0, 0, 0,
   0]

/-- The number `pack datafirst_bytes`, written out. -/
def datafirst_number : Nat :=
  4931987048667191983513681123806835388058679289958978780026740566893937590171299424898882689525291538769494891084530787479395179018559956520311091790515661902686507105692840266508367177094877538434048719647603668459823252442017192074822856969614194913736063342200111173787169107524113375574637221092274776470674314014535727329598221692045572147196513796015573032527864387047223266904085013683472218557723116000365664149265775168849569690213392948389284187529696179499043015494411328859998378759037181623803886417348933756032488713869223291816008067921642395422755097588206403886517168835102596398106656807810987186561910262459149672668926086442945162198317180478222077858772429430728167561430638011728875447602240530552199262095084187510225697408490156078372583329484612426365418289020873560064162357722023967082018763129901201297685057106542946339800030360137462896689860040860375020366000929861858637565345387973499748870178957721818704231826845315963292993269096904304572054260203538929925680286793442406743417746651422612050827821179327735096437748581165404575144315661330119933468287583415252375113858703981958267079314083801725727252498969439917072163257991854766227725586131568151805047036728980674710230795936205091046712608062991473088411040761215

/-- An object file like `demo_image` whose section table has `.data`, of 8
bytes, ahead of `.text`, and whose symbol table ends with the `SHN_COMMON`
data object `counter` of alignment 4 and size 4. -/
def datafirst_image : Mem := fun a => datafirst_number / 256 ^ a % 256

/-- The variables of the relocation walk of `module_init` for the image `img`
in slot `i`, when it ends; the start values when it does not. -/
def load_relocs (img : Mem) (st : KState) (name : String) (i : Nat) : RelState :=
  ((relocate demo_platform 64 demo_buffer load_size (load_locals img st name i)).getD
    ⟨⟨st.mods, st.data, 0, 0, 0⟩, img⟩).R

/-! ## The symbol walk, entry by entry -/

/-- The name of symbol `i` in the image is exactly `name`. -/
def sym_named (img : Mem) (symbols string_table : Nat) (name : String) (i : Nat) : Bool :=
  strcmp_eq img (string_table + read32 img (symbols + SIZEOF_SYMBOL * i + ST_sym_name)) (cbytes name)

/-- The value `text_start + symbols[i].sym_value` in 32 bits. -/
def sym_entry (img : Mem) (symbols : Nat) (b : Bases) (i : Nat) : Nat :=
  (b.text_start + read32 img (symbols + SIZEOF_SYMBOL * i + ST_sym_value)) % U32

/-- The first section record that starts at `s_addr`, the address of a symbol's
home section, is the record named `name`: the home section is the loaded
section of that name. -/
def home_record (mods : Mem) (module sh_count s_addr : Nat) (name : String) : Prop :=
  ∃ k, k < sh_count ∧ read32 mods (section_rec module k + SEC_sh_start) = s_addr ∧
    (∀ j, j < k → read32 mods (section_rec module j + SEC_sh_start) ≠ s_addr) ∧
    strcmp_eq mods (section_rec module k + SEC_sh_name) (cbytes name) = true

/-- The address `sh_addr` of the home section of symbol `i`,
`section_base[symbols[i].sym_shndx].sh_addr`. -/
def home_addr (img : Mem) (section_base symbols i : Nat) : Nat :=
  read32 img (section_base + SIZEOF_SECTHDR * read16 img (symbols + SIZEOF_SYMBOL * i + ST_sym_shndx)
    + SH_sh_addr)

/-! ## Images that leave the capacities and the module's own memory -/

/-- The image `demo_image` with the field `rel_offset` of its one relocation
entry, at image offset 60, set to `o`. -/
def aimed_image (o : Nat) : Mem := write32 demo_image 60 o

/-- The `rel_offset` for which `text_start + rel_offset` is, in 32 bits, the
address of byte `d` of the descriptor table, for `.text` loaded at
`MODULE_DATA`. -/
def aim_at (d : Nat) : Nat := (demo_platform.MODULES + d + U32 - demo_platform.MODULE_DATA) % U32

/-- The image `demo_image` with the zero byte behind `init_module` in the
string table, at image offset 187, replaced by `_`: the name of symbol 1 is
then the 26 characters `init_module_cleanup_module`. -/
def longsym_image : Mem := write8 demo_image 187 95

theorem read8_lt (m : Mem) (a : Nat) : read8 m a < 256 := by
  unfold read8; omega

theorem read32_lt (m : Mem) (a : Nat) : read32 m a < U32 := by
  have h0 := read8_lt m a
  have h1 := read8_lt m (a + 1)
  have h2 := read8_lt m (a + 2)
  have h3 := read8_lt m (a + 3)
  unfold read32 U32; omega

theorem read32_congr (m m2 : Mem) (a : Nat) (h : ∀ k, k < 4 → m2 (a + k) = m (a + k)) :
    read32 m2 a = read32 m a := by
  have h0 := h 0 (by omega)
  have h1 := h 1 (by omega)
  have h2 := h 2 (by omega)
  have h3 := h 3 (by omega)
  simp only [Nat.add_zero] at h0
  simp only [read32, read8, h0, h1, h2, h3]

theorem write8_same (m : Mem) (p v : Nat) : write8 m p v p = v % 256 := by
  simp [write8]

theorem write8_other (m : Mem) (p v a : Nat) (h : a ≠ p) : write8 m p v a = m a := by
  simp [write8, h]

theorem write32_other (m : Mem) (p v a : Nat) (h : a < p ∨ p + 4 ≤ a) :
    write32 m p v a = m a := by
  unfold write32
  rw [write8_other _ _ _ _ (by omega), write8_other _ _ _ _ (by omega),
    write8_other _ _ _ _ (by omega), write8_other _ _ _ _ (by omega)]

theorem write32_byte0 (m : Mem) (p v : Nat) : write32 m p v p = v % 256 := by
  unfold write32
  rw [write8_other _ _ _ _ (by omega), write8_other _ _ _ _ (by omega),
    write8_other _ _ _ _ (by omega), write8_same]

theorem write32_byte1 (m : Mem) (p v : Nat) : write32 m p v (p + 1) = v / 256 % 256 := by
  unfold write32
  rw [write8_other _ _ _ _ (by omega), write8_other _ _ _ _ (by omega), write8_same]

theorem write32_byte2 (m : Mem) (p v : Nat) : write32 m p v (p + 2) = v / 65536 % 256 := by
  unfold write32
  rw [write8_other _ _ _ _ (by omega), write8_same]

theorem write32_byte3 (m : Mem) (p v : Nat) : write32 m p v (p + 3) = v / 16777216 % 256 := by
  unfold write32
  rw [write8_same]

theorem read32_write32_same (m : Mem) (p v : Nat) : read32 (write32 m p v) p = v % U32 := by
  simp only [read32, read8, write32_byte0, write32_byte1, write32_byte2, write32_byte3, U32]
  omega

theorem read32_write32_other (m : Mem) (p v a : Nat) (h : a + 4 ≤ p ∨ p + 4 ≤ a) :
    read32 (write32 m p v) a = read32 m a := by
  apply read32_congr
  intro k hk
  exact write32_other m p v (a + k) (by omega)

theorem AgreeOn.refl (keep : Nat → Prop) (m : Mem) : AgreeOn keep m m := fun _ _ => rfl

theorem AgreeOn.trans {keep : Nat → Prop} {m1 m2 m3 : Mem} (h12 : AgreeOn keep m1 m2)
    (h23 : AgreeOn keep m2 m3) : AgreeOn keep m1 m3 :=
  fun a ha => (h23 a ha).trans (h12 a ha)

theorem AgreeOn.mono {keep keep2 : Nat → Prop} {m1 m2 : Mem} (h : AgreeOn keep m1 m2)
    (hk : ∀ a, keep2 a → keep a) : AgreeOn keep2 m1 m2 :=
  fun a ha => h a (hk a ha)

theorem agree_write8 (keep : Nat → Prop) (m : Mem) (p v : Nat) (h : ¬ keep p) :
    AgreeOn keep m (write8 m p v) := by
  intro a ha
  exact write8_other m p v a (fun e => h (e ▸ ha))

theorem agree_write32 (keep : Nat → Prop) (m : Mem) (p v : Nat)
    (h : ∀ k, k < 4 → ¬ keep (p + k)) : AgreeOn keep m (write32 m p v) := by
  intro a ha
  apply write32_other
  by_contra hc
  have : ∃ k, k < 4 ∧ a = p + k := ⟨a - p, by omega, by omega⟩
  obtain ⟨k, hk, rfl⟩ := this
  exact h k hk ha

theorem agree_copy_name (keep : Nat → Prop) (img : Mem) (src dst : Nat)
    (h : ∀ j, ¬ keep (dst + j)) :
    ∀ (fuel : Nat) (m : Mem) (j : Nat) (m2 : Mem),
      copy_name fuel img src m dst j = some m2 → AgreeOn keep m m2 := by
  intro fuel
  induction fuel with
  | zero => intro m j m2 hc; simp [copy_name] at hc
  | succ n ih =>
    intro m j m2 hc
    unfold copy_name at hc
    split at hc
    · exact (agree_write8 keep m _ _ (h j)).trans (ih _ _ _ hc)
    · cases hc
      exact agree_write8 keep m _ _ (h j)

theorem agree_strcpy (keep : Nat → Prop) :
    ∀ (s : List Nat) (m : Mem) (p : Nat), (∀ j, j ≤ s.length → ¬ keep (p + j)) →
      AgreeOn keep m (strcpy m p s) := by
  intro s
  induction s with
  | nil => intro m p h; exact agree_write8 keep m p 0 (by simpa using h 0 (by simp))
  | cons c cs ih =>
    intro m p h
    unfold strcpy
    split
    · exact agree_write8 keep m p 0 (by simpa using h 0 (by simp))
    · refine (agree_write8 keep m p c (by simpa using h 0 (by simp))).trans (ih _ _ ?_)
      intro j hj
      have := h (j + 1) (by simp; omega)
      rwa [Nat.add_assoc, Nat.add_comm 1 j]

/-! ## What the loader phases leave alone in the descriptor table -/

theorem place_section_mods (keep : Nat → Prop) (module module_base : Nat)
    (h : ∀ a, module + OFF_sections ≤ a → ¬ keep a) (s : SectState) (sh : Nat) :
    AgreeOn keep s.mods (place_section module module_base s sh).mods := by
  unfold place_section
  split
  · split
    · simp only
      have hw : ∀ (m : Mem) (o v : Nat), AgreeOn keep m
          (write32 m (module + OFF_sections + SIZEOF_SECTION * s.sh_count + o) v) := by
        intro m o v
        exact agree_write32 keep m _ v (fun k _ => h _ (by omega))
      exact ((hw _ _ _).trans (hw _ _ _)).trans ((hw _ _ _).trans (hw _ _ _))
    · exact AgreeOn.refl _ _
  · exact AgreeOn.refl _ _

theorem note_tables_mods (s : SectState) (sh : Nat) : (note_tables s sh).mods = s.mods := by
  unfold note_tables
  split
  · rfl
  · split
    · rfl
    · split <;> rfl

theorem load_section_mods (keep : Nat → Prop) (module module_base : Nat)
    (h : ∀ a, module + OFF_sections ≤ a → ¬ keep a) (s : SectState) (sh : Nat) :
    AgreeOn keep s.mods (load_section module module_base s sh).mods := by
  unfold load_section
  rw [note_tables_mods]
  exact place_section_mods keep module module_base h s sh

theorem foldl_load_section_mods (keep : Nat → Prop) (module module_base : Nat)
    (h : ∀ a, module + OFF_sections ≤ a → ¬ keep a) (l : List Nat) :
    ∀ s : SectState, AgreeOn keep s.mods (l.foldl (load_section module module_base) s).mods := by
  induction l with
  | nil => intro s; exact AgreeOn.refl _ _
  | cons sh rest ih =>
    intro s
    rw [List.foldl_cons]
    exact (load_section_mods keep module module_base h s sh).trans (ih _)

theorem load_sections_mods (keep : Nat → Prop) (module module_base section_base e_shnum : Nat)
    (h : ∀ a, module + OFF_sections ≤ a → ¬ keep a) (s : SectState) :
    AgreeOn keep s.mods (load_sections module module_base section_base e_shnum s).mods :=
  foldl_load_section_mods keep module module_base h _ s

theorem name_section_mods (keep : Nat → Prop) (fuel : Nat) (img : Mem)
    (sh_string_table module i : Nat) (h : ∀ a, module + OFF_sections ≤ a → ¬ keep a)
    (hdrs : List Nat) :
    ∀ (m m2 : Mem), name_section fuel img sh_string_table module i hdrs m = some m2 →
      AgreeOn keep m m2 := by
  induction hdrs with
  | nil => intro m m2 hm; simp [name_section] at hm; subst hm; exact AgreeOn.refl _ _
  | cons sh rest ih =>
    intro m m2 hm
    unfold name_section at hm
    split at hm
    · split at hm
      · simp at hm
      · rename_i m1 hc
        refine (agree_copy_name keep img _ _ ?_ fuel m 0 m1 hc).trans (ih _ _ hm)
        intro j
        exact h _ (by unfold section_rec; omega)
    · exact ih _ _ hm

theorem name_sections_mods (keep : Nat → Prop) (fuel : Nat) (img : Mem)
    (sh_string_table module : Nat) (h : ∀ a, module + OFF_sections ≤ a → ¬ keep a)
    (hdrs : List Nat) (l : List Nat) :
    ∀ (m m2 : Mem), name_sections fuel img sh_string_table module hdrs l m = some m2 →
      AgreeOn keep m m2 := by
  induction l with
  | nil => intro m m2 hm; simp [name_sections] at hm; subst hm; exact AgreeOn.refl _ _
  | cons i rest ih =>
    intro m m2 hm
    unfold name_sections at hm
    split at hm
    · simp at hm
    · rename_i m1 hc
      exact (name_section_mods keep fuel img sh_string_table module i h hdrs m m1 hc).trans
        (ih _ _ hm)

theorem layout_values :
    OFF_module_name = 0 ∧ OFF_module_index = 32 ∧ OFF_module_size = 36 ∧ OFF_module_state = 40 ∧
    OFF_init_routine = 44 ∧ OFF_cleanup_routine = 48 ∧ OFF_module_base = 52 ∧
    OFF_module_sh_count = 56 ∧ OFF_module_rel_count = 60 ∧ OFF_module_sym_count = 64 ∧
    OFF_sections = 68 ∧ OFF_rel_entry = 388 ∧ OFF_sym_table = 2788 ∧ OFF_module_vectors = 4788 ∧
    SIZEOF_MODULE = 4804 := by
  decide

theorem publish_object_mods (img : Mem) (section_base module sh_count : Nat) (b : Bases)
    (sym : Nat) (name : List Nat) (s s2 : SymState)
    (h : publish_object img section_base module sh_count b sym name s = some s2) :
    s2.mods = s.mods := by
  unfold publish_object at h
  split at h
  · simp only at h
    split at h
    · cases h; rfl
    · split at h <;> cases h <;> rfl
  · split at h
    · simp at h
    · cases h; rfl

theorem publish_symbol_mods (fuel : Nat) (img : Mem) (section_base module sh_count : Nat)
    (b : Bases) (sym i : Nat) (s s2 : SymState)
    (h : publish_symbol fuel img section_base module sh_count b sym i s = some s2) :
    s2.mods = s.mods := by
  unfold publish_symbol at h
  simp only at h
  split at h
  · simp at h
  · rename_i s1 h1
    have e1 : s1.mods = s.mods := by
      split at h1
      · split at h1
        · simp at h1
        · cases h1; rfl
      · cases h1; rfl
    split at h
    · split at h
      · simp at h
      · rw [publish_object_mods _ _ _ _ _ _ _ _ _ h, e1]
    · cases h; exact e1

theorem note_routines_mods (keep : Nat → Prop) (img : Mem) (module : Nat) (b : Bases)
    (sym i : Nat) (m : Mem)
    (h : ∀ a, module + OFF_init_routine ≤ a → a < module + OFF_module_base → ¬ keep a) :
    AgreeOn keep m (note_routines img module b sym i m) := by
  have L := layout_values
  unfold note_routines
  split
  · exact agree_write32 keep m _ _ (fun k hk => h _ (by omega) (by omega))
  · split
    · exact agree_write32 keep m _ _ (fun k hk => h _ (by omega) (by omega))
    · exact AgreeOn.refl _ _

theorem load_symbol_mods (keep : Nat → Prop) (fuel : Nat) (img : Mem)
    (section_base module sh_count : Nat) (b : Bases) (symbols string_table : Nat)
    (h : ∀ a, module + OFF_sections ≤ a → ¬ keep a)
    (h2 : ∀ a, module + OFF_init_routine ≤ a → a < module + OFF_module_base → ¬ keep a)
    (s : SymState) (i : Nat) (s2 : SymState)
    (hs : load_symbol fuel img section_base module sh_count b symbols string_table s i = some s2) :
    AgreeOn keep s.mods s2.mods := by
  have L := layout_values
  unfold load_symbol at hs
  simp only at hs
  split at hs
  · simp at hs
  · rename_i m1 hc
    split at hs
    · simp at hs
    · rename_i s1 hp
      cases hs
      simp only
      have e := publish_symbol_mods _ _ _ _ _ _ _ _ _ _ hp
      simp only at e
      rw [e]
      refine ((agree_copy_name keep img _ _ ?_ fuel s.mods 0 m1 hc).trans
        (agree_write32 keep m1 _ _ ?_)).trans (note_routines_mods keep img module b _ i _ h2)
      · intro j; exact h _ (by unfold sym_rec; omega)
      · intro k _; exact h _ (by unfold sym_rec; omega)

theorem load_symbols_mods (keep : Nat → Prop) (fuel : Nat) (img : Mem)
    (section_base module sh_count : Nat) (b : Bases) (symbols string_table : Nat)
    (h : ∀ a, module + OFF_sections ≤ a → ¬ keep a)
    (h2 : ∀ a, module + OFF_init_routine ≤ a → a < module + OFF_module_base → ¬ keep a)
    (l : List Nat) :
    ∀ (s s2 : SymState),
      load_symbols fuel img section_base module sh_count b symbols string_table l s = some s2 →
      AgreeOn keep s.mods s2.mods := by
  induction l with
  | nil => intro s s2 hs; simp [load_symbols] at hs; subst hs; exact AgreeOn.refl _ _
  | cons i rest ih =>
    intro s s2 hs
    unfold load_symbols at hs
    split at hs
    · simp at hs
    · rename_i s1 h1
      exact (load_symbol_mods keep fuel img section_base module sh_count b symbols string_table
        h h2 s i s1 h1).trans (ih _ _ hs)

theorem reloc_abs_section_mods (fuel : Nat) (img : Mem) (section_base module sh_count : Nat)
    (b : Bases) (sym i : Nat) (s s2 : RelState)
    (h : reloc_abs_section_local fuel img section_base module sh_count b sym i s = some s2) :
    s2.mods = s.mods := by
  unfold reloc_abs_section_local at h
  simp only at h
  split at h
  · split at h
    · simp at h
    · cases h; rfl
  · split at h
    · cases h; rfl
    · split at h <;> cases h <;> rfl

theorem reloc_apply_mods (P : Platform) (fuel : Nat) (img : Mem) (symtab : SymbolTable)
    (section_base module sh_count : Nat) (b : Bases) (sym i : Nat) (s s2 : RelState)
    (h : reloc_apply_local P fuel img symtab section_base module sh_count b sym i s = some s2) :
    s2.mods = s.mods := by
  unfold reloc_apply_local at h
  split at h
  · split at h
    · exact reloc_abs_section_mods _ _ _ _ _ _ _ _ _ _ h
    · split at h
      · simp at h
      · cases h; rfl
  · split at h
    · split at h
      · simp at h
      · cases h; rfl
    · cases h; rfl

theorem apply_reloc_mods (keep : Nat → Prop) (P : Platform) (fuel : Nat) (img : Mem)
    (symtab : SymbolTable) (section_base module sh_count : Nat) (b : Bases)
    (symbols string_table rels : Nat) (h : ∀ a, module + OFF_sections ≤ a → ¬ keep a)
    (s : RelState) (i : Nat) (s2 : RelState)
    (hs : apply_reloc_local P fuel img symtab section_base module sh_count b symbols string_table rels
      s i = some s2) : AgreeOn keep s.mods s2.mods := by
  have L := layout_values
  unfold apply_reloc_local at hs
  simp only at hs
  split at hs
  · simp at hs
  · rename_i m1 hc
    have e := reloc_apply_mods _ _ _ _ _ _ _ _ _ _ _ _ hs
    simp only at e
    rw [e]
    refine ((agree_copy_name keep img _ _ ?_ fuel s.mods 0 m1 hc).trans
      (agree_write32 keep m1 _ _ ?_)).trans (agree_write32 keep _ _ _ ?_)
    · intro j; exact h _ (by unfold rel_rec; omega)
    · intro k _; exact h _ (by unfold rel_rec; omega)
    · intro k _; exact h _ (by unfold rel_rec; omega)

theorem apply_relocs_mods (keep : Nat → Prop) (P : Platform) (fuel : Nat) (img : Mem)
    (symtab : SymbolTable) (section_base module sh_count : Nat) (b : Bases)
    (symbols string_table rels : Nat) (h : ∀ a, module + OFF_sections ≤ a → ¬ keep a)
    (l : List Nat) :
    ∀ (s s2 : RelState),
      apply_relocs_local P fuel img symtab section_base module sh_count b symbols string_table rels
        l s = some s2 → AgreeOn keep s.mods s2.mods := by
  induction l with
  | nil => intro s s2 hs; simp [apply_relocs_local] at hs; subst hs; exact AgreeOn.refl _ _
  | cons i rest ih =>
    intro s s2 hs
    unfold apply_relocs_local at hs
    split at hs
    · simp at hs
    · rename_i s1 h1
      exact (apply_reloc_mods keep P fuel img symtab section_base module sh_count b symbols
        string_table rels h s i s1 h1).trans (ih _ _ hs)

/-- What `load_image` fixes of its result, and the frame of its writes. -/
theorem load_image_spec (keep : Nat → Prop) (P : Platform) (fuel : Nat) (st : KState)
    (mod_name : List Nat) (img : Mem) (module_index : Nat) (L : Loaded)
    (h : ∀ a, descriptor module_index + OFF_sections ≤ a → ¬ keep a)
    (h2 : ∀ a, descriptor module_index + OFF_init_routine ≤ a →
      a < descriptor module_index + OFF_module_base → ¬ keep a)
    (hL : load_image P fuel st mod_name img module_index = some L) :
    L.module = descriptor module_index ∧
    AgreeOn keep (init_descriptor P st.mods mod_name module_index) L.Y.mods := by
  unfold load_image at hL
  simp only at hL
  split at hL
  · simp at hL
  · rename_i mods5 hn
    split at hL
    · split at hL
      · simp at hL
      · rename_i Y hY
        cases hL
        refine ⟨rfl, ?_⟩
        simp only
        have a1 := load_sections_mods keep (descriptor module_index)
          ((P.MODULE_DATA + module_index * PGSIZE) % U32) (read32 img ELF_e_shoff)
          (read16 img ELF_e_shnum) h
          ⟨img, st.data, init_descriptor P st.mods mod_name module_index, 0, 0, none, none, none⟩
        have a2 := name_sections_mods keep _ _ _ _ h _ _ _ _ hn
        have a3 := load_symbols_mods keep _ _ _ _ _ _ _ _ h h2 _ _ _ hY
        exact (a1.trans a2).trans a3
    · simp at hL

/-! ## Strings -/

theorem strcmp_eq_congr (m m2 : Mem) :
    ∀ (s : List Nat) (p : Nat), (∀ j, j ≤ s.length → m2 (p + j) = m (p + j)) →
      strcmp_eq m2 p s = strcmp_eq m p s := by
  intro s
  induction s with
  | nil =>
    intro p h
    have := h 0 (by simp)
    simp only [Nat.add_zero] at this
    simp [strcmp_eq, read8, this]
  | cons c cs ih =>
    intro p h
    have h0 := h 0 (by simp)
    simp only [Nat.add_zero] at h0
    have hr : strcmp_eq m2 (p + 1) cs = strcmp_eq m (p + 1) cs := by
      apply ih
      intro j hj
      have := h (j + 1) (by simp; omega)
      rwa [Nat.add_assoc, Nat.add_comm 1 j]
    simp [strcmp_eq, read8, h0, hr]

theorem strcpy_frame (s : List Nat) (m : Mem) (p a : Nat) (h : a < p ∨ p + s.length < a) :
    strcpy m p s a = m a :=
  agree_strcpy (fun x => x = a) s m p (fun j hj => by omega) a rfl

/-! ## The slot bitmap -/

theorem and_one_shiftLeft_eq_zero (b i : Nat) : (b &&& (1 <<< i) == 0) = !b.testBit i := by
  rw [Nat.one_shiftLeft]
  cases hb : b.testBit i
  · have : b &&& 2 ^ i = 0 := by
      apply Nat.eq_of_testBit_eq
      intro j
      rw [Nat.testBit_and, Nat.testBit_two_pow, Nat.zero_testBit]
      by_cases e : i = j
      · subst e; simp [hb]
      · simp [e]
    simp [this]
  · have : b &&& 2 ^ i ≠ 0 := by
      intro e
      have := congrArg (fun x => x.testBit i) e
      simp [Nat.testBit_two_pow, hb] at this
    simp [this]

theorem first_free_slot_spec (b i : Nat) (h : first_free_slot b = some i) :
    i < MAX_MODULES ∧ b.testBit i = false ∧ ∀ j, j < i → b.testBit j = true := by
  unfold first_free_slot at h
  rw [List.find?_range_eq_some] at h
  obtain ⟨h1, h2, h3⟩ := h
  rw [and_one_shiftLeft_eq_zero] at h1
  refine ⟨List.mem_range.mp h2, by simpa using h1, ?_⟩
  intro j hj
  have := h3 j hj
  rw [and_one_shiftLeft_eq_zero] at this
  simpa using this

theorem first_free_slot_none (b : Nat) (h : first_free_slot b = none) :
    ∀ i, i < MAX_MODULES → b.testBit i = true := by
  unfold first_free_slot at h
  rw [List.find?_range_eq_none] at h
  intro i hi
  have := h i hi
  rw [and_one_shiftLeft_eq_zero] at this
  simpa using this

theorem set_bit_lt (b i : Nat) (hb : b < 65536) (hi : i < 16) :
    (b ||| (1 <<< i)) % 65536 = b ||| (1 <<< i) := by
  apply Nat.mod_eq_of_lt
  have h2 : (65536 : Nat) = 2 ^ 16 := by norm_num
  rw [h2]
  apply Nat.or_lt_two_pow (by omega)
  rw [Nat.one_shiftLeft]
  exact Nat.pow_lt_pow_right (by norm_num) hi

theorem relocate_mods (keep : Nat → Prop) (P : Platform) (fuel : Nat) (L : Loaded)
    (R : RelState) (h : ∀ a, L.module + OFF_sections ≤ a → ¬ keep a)
    (hR : relocate_local P fuel L = some R) : AgreeOn keep L.Y.mods R.mods := by
  unfold relocate_local at hR
  split at hR
  · simp at hR
  · exact apply_relocs_mods keep P fuel _ _ _ _ _ _ _ _ _ h _ _ _ hR

theorem finish_descriptor_header (m : Mem) (module sh_size sh_count nr ns : Nat) :
    AgreeOn (HeaderKept module) m (finish_descriptor m module sh_size sh_count nr ns) := by
  have L := layout_values
  unfold finish_descriptor
  simp only
  have hw : ∀ (m : Mem) (o v : Nat), (OFF_module_size ≤ o ∧ o + 4 ≤ OFF_module_base) ∨
      OFF_module_sh_count ≤ o → AgreeOn (HeaderKept module) m (write32 m (module + o) v) := by
    intro m o v ho
    apply agree_write32
    intro k hk hkeep
    unfold HeaderKept at hkeep
    omega
  exact ((((hw _ _ _ (by omega)).trans (hw _ _ _ (by omega))).trans
    (hw _ _ _ (by omega))).trans (hw _ _ _ (by omega))).trans (hw _ _ _ (by omega))

theorem finish_descriptor_state (m : Mem) (module sh_size sh_count nr ns : Nat) :
    read32 (finish_descriptor m module sh_size sh_count nr ns) (module + OFF_module_state)
      = MODULE_STATE_ACTIVE := by
  unfold finish_descriptor
  simp only
  rw [read32_write32_same]
  decide

/-- The descriptor header after a load that went through. -/
theorem module_load_header (P : Platform) (fuel : Nat) (st : KState) (mod_name : List Nat)
    (img : Mem) (i : Nat) (st2 : KState) (img1 : Mem)
    (h : module_load_local P fuel st mod_name img i = some (st2, img1)) :
    AgreeOn (HeaderKept (descriptor i)) (init_descriptor P st.mods mod_name i) st2.mods ∧
    read32 st2.mods (descriptor i + OFF_module_state) = MODULE_STATE_ACTIVE ∧
    st2.module_bitmap = (st.module_bitmap ||| (1 <<< i)) % 65536 ∧
    st2.module_count = (st.module_count + 1) % U32 ∧ st2.calls = st.calls := by
  have LV := layout_values
  unfold module_load_local at h
  split at h
  · simp at h
  · rename_i L hL
    split at h
    · simp at h
    · rename_i R hR
      simp only [Option.some.injEq, Prod.mk.injEq] at h
      obtain ⟨h1, _⟩ := h
      subst h1
      have hk1 : ∀ a, descriptor i + OFF_sections ≤ a → ¬ HeaderKept (descriptor i) a := by
        intro a ha hk; unfold HeaderKept at hk; omega
      have hk2 : ∀ a, descriptor i + OFF_init_routine ≤ a →
          a < descriptor i + OFF_module_base → ¬ HeaderKept (descriptor i) a := by
        intro a ha hb hk; unfold HeaderKept at hk; omega
      obtain ⟨em, a1⟩ := load_image_spec (HeaderKept (descriptor i)) P fuel st mod_name img i L
        hk1 hk2 hL
      have a2 := relocate_mods (HeaderKept (descriptor i)) P fuel L R (by rw [em]; exact hk1) hR
      refine ⟨?_, ?_, rfl, rfl, rfl⟩
      · rw [em]
        exact (a1.trans a2).trans (finish_descriptor_header _ _ _ _ _ _)
      · rw [em]
        exact finish_descriptor_state _ _ _ _ _ _

theorem init_descriptor_index (P : Platform) (m : Mem) (mod_name : List Nat) (i : Nat) :
    read32 (init_descriptor P m mod_name i) (descriptor i + OFF_module_index) = i % U32 := by
  have LV := layout_values
  unfold init_descriptor
  simp only
  rw [read32_write32_other _ _ _ _ (by omega), read32_write32_same]

theorem module_init_ok (P : Platform) (fuel : Nat) (st : KState) (mod_name : List Nat)
    (mod_binary : Nat) (img : Mem) (mod_binary_size : Nat) (st1 : KState) (img1 : Mem)
    (h : module_init P fuel st mod_name mod_binary img mod_binary_size = some (0, st1, img1)) :
    ∃ i st2, first_free_slot st.module_bitmap = some i ∧
      module_load P fuel st mod_name mod_binary img mod_binary_size i = some (st2, img1) ∧
      st1 = module_start st2 i := by
  unfold module_init at h
  split at h
  · simp [E_INVAL] at h
  · split at h
    · simp [E_FILE_EXISTS] at h
    · split at h
      · simp [E_NO_MEM] at h
      · rename_i i hi
        split at h
        · simp at h
        · rename_i st2 img2 hl
          simp only [Option.some.injEq, Prod.mk.injEq, true_and] at h
          exact ⟨i, st2, hi, by rw [hl, h.2], h.1.symm⟩

theorem module_start_mods (st : KState) (i : Nat) : (module_start st i).mods = st.mods := by
  unfold module_start
  simp only
  split <;> rfl

theorem module_start_globals (st : KState) (i : Nat) :
    (module_start st i).module_bitmap = st.module_bitmap ∧
    (module_start st i).module_count = st.module_count ∧
    (module_start st i).data = st.data ∧ (module_start st i).symtab = st.symtab := by
  unfold module_start
  simp only
  split <;> exact ⟨rfl, rfl, rfl, rfl⟩

/-! ## The data area -/

theorem agree_copy_name_from (keep : Nat → Prop) (img : Mem) (src dst : Nat) :
    ∀ (fuel : Nat) (m : Mem) (j : Nat) (m2 : Mem), (∀ j2, j ≤ j2 → ¬ keep (dst + j2)) →
      copy_name fuel img src m dst j = some m2 → AgreeOn keep m m2 := by
  intro fuel
  induction fuel with
  | zero => intro m j m2 _ hc; simp [copy_name] at hc
  | succ n ih =>
    intro m j m2 h hc
    unfold copy_name at hc
    split at hc
    · exact (agree_write8 keep m _ _ (h j (Nat.le_refl j))).trans
        (ih _ _ _ (fun j2 hj => h j2 (by omega)) hc)
    · cases hc
      exact agree_write8 keep m _ _ (h j (Nat.le_refl j))

theorem read_cstr_copy_name (img : Mem) (src dst : Nat) :
    ∀ (fuel : Nat) (m : Mem) (j : Nat) (m2 : Mem),
      copy_name fuel img src m dst j = some m2 →
      read_cstr fuel m2 (dst + j) = read_cstr fuel img (src + j) := by
  intro fuel
  induction fuel with
  | zero => intro m j m2 hc; simp [copy_name] at hc
  | succ n ih =>
    intro m j m2 hc
    unfold copy_name at hc
    split at hc
    · rename_i hne
      have hfr := agree_copy_name_from (fun a => a = dst + j) img src dst n _ (j + 1) m2
        (fun j2 hj => by omega) hc (dst + j) rfl
      have hb : read8 m2 (dst + j) = read8 img (src + j) := by
        unfold read8 at hfr ⊢
        rw [hfr, write8_same]
        omega
      have := ih _ _ _ hc
      rw [← Nat.add_assoc, ← Nat.add_assoc] at this
      unfold read_cstr
      rw [if_neg (by rw [hb]; exact hne), if_neg hne, this, hb]
    · rename_i hz
      cases hc
      unfold read_cstr
      have hz2 : read8 img (src + j) = 0 := by simpa using hz
      rw [if_pos hz2, if_pos (by simp [read8, write8])]

theorem read_cstr_congr (m m2 : Mem) :
    ∀ (fuel p : Nat), (∀ a, p ≤ a → m2 a = m a) → read_cstr fuel m2 p = read_cstr fuel m p := by
  intro fuel
  induction fuel with
  | zero => intro p _; rfl
  | succ n ih =>
    intro p h
    have hb : read8 m2 p = read8 m p := by unfold read8; rw [h p (Nat.le_refl p)]
    unfold read_cstr
    rw [hb, ih (p + 1) (fun a ha => h a (by omega))]

/-! ## One relocation -/

theorem store8_data (P : Platform) (mod_binary mod_binary_size : Nat) (s : Patch) (a v : Nat)
    (h : ToData P mod_binary mod_binary_size (a % U32)) :
    store8 P mod_binary mod_binary_size s a v
      = ⟨{ s.R with data := write8 s.R.data (a % U32) v }, s.img⟩ := by
  unfold store8
  rw [if_neg h.1, if_neg h.2]

theorem store32_data (P : Platform) (mod_binary mod_binary_size : Nat) (s : Patch) (a v : Nat)
    (h : ∀ k, k < 4 → ToData P mod_binary mod_binary_size ((a + k) % U32)) :
    store32 P mod_binary mod_binary_size s a v
      = ⟨{ s.R with data := dwrite32 s.R.data a v }, s.img⟩ := by
  have h0 := h 0 (by omega)
  rw [Nat.add_zero] at h0
  unfold store32
  rw [store8_data P _ _ s a v h0, store8_data P _ _ _ (a + 1) _ (h 1 (by omega)),
    store8_data P _ _ _ (a + 2) _ (h 2 (by omega)), store8_data P _ _ _ (a + 3) _ (h 3 (by omega))]
  rfl

theorem reloc_abs_section_eq_local (P : Platform) (fuel mod_binary mod_binary_size : Nat)
    (img : Mem) (section_base module sh_count : Nat) (b : Bases) (sym i : Nat) (s : RelState)
    (h : ∀ k, k < 4 → ToData P mod_binary mod_binary_size
      ((b.text_start + read32 s.mods (rel_rec module i + REL_rel_offset) + k) % U32)) :
    reloc_abs_section P fuel mod_binary mod_binary_size section_base module sh_count b sym i
        ⟨s, img⟩
      = (reloc_abs_section_local fuel img section_base module sh_count b sym i s).map
          (fun r => ⟨r, img⟩) := by
  unfold reloc_abs_section reloc_abs_section_local
  simp only [store32_data P mod_binary mod_binary_size _ _ _ h]
  split
  · split <;> rfl
  · split
    · rfl
    · split <;> rfl

theorem reloc_apply_eq_local (P : Platform) (fuel mod_binary mod_binary_size : Nat)
    (img : Mem) (symtab : SymbolTable) (section_base module sh_count : Nat) (b : Bases)
    (sym i : Nat) (s : RelState)
    (h : ∀ k, k < 4 → ToData P mod_binary mod_binary_size
      ((b.text_start + read32 s.mods (rel_rec module i + REL_rel_offset) + k) % U32)) :
    reloc_apply P fuel mod_binary mod_binary_size symtab section_base module sh_count b sym i
        ⟨s, img⟩
      = (reloc_apply_local P fuel img symtab section_base module sh_count b sym i s).map
          (fun r => ⟨r, img⟩) := by
  unfold reloc_apply reloc_apply_local
  simp only [store32_data P mod_binary mod_binary_size _ _ _ h,
    reloc_abs_section_eq_local P fuel mod_binary mod_binary_size img section_base module sh_count
      b sym i s h]
  split
  · split
    · rfl
    · split <;> rfl
  · split
    · split <;> rfl
    · rfl

theorem apply_reloc_eq_local (P : Platform) (fuel mod_binary mod_binary_size : Nat)
    (img : Mem) (symtab : SymbolTable) (section_base module sh_count : Nat) (b : Bases)
    (symbols string_table rels : Nat) (s : RelState) (i : Nat)
    (h : ∀ k, k < 4 → ToData P mod_binary mod_binary_size
      ((b.text_start + read32 img (rels + SIZEOF_REL * i + R_rel_offset) + k) % U32)) :
    apply_reloc P fuel mod_binary mod_binary_size symtab section_base module sh_count b
        symbols string_table rels ⟨s, img⟩ i
      = (apply_reloc_local P fuel img symtab section_base module sh_count b symbols string_table
          rels s i).map (fun r => ⟨r, img⟩) := by
  unfold apply_reloc apply_reloc_local
  simp only
  split
  · rfl
  · rename_i mods1 hc
    apply reloc_apply_eq_local
    simp only
    rw [read32_write32_same, Nat.mod_eq_of_lt (read32_lt _ _)]
    exact h

theorem apply_relocs_eq_local (P : Platform) (fuel mod_binary mod_binary_size : Nat)
    (img : Mem) (symtab : SymbolTable) (section_base module sh_count : Nat) (b : Bases)
    (symbols string_table rels : Nat) (l : List Nat) :
    ∀ (s : RelState),
      (∀ i, i ∈ l → ∀ k, k < 4 → ToData P mod_binary mod_binary_size
        ((b.text_start + read32 img (rels + SIZEOF_REL * i + R_rel_offset) + k) % U32)) →
      apply_relocs P fuel mod_binary mod_binary_size symtab section_base module sh_count b
          symbols string_table rels l ⟨s, img⟩
        = (apply_relocs_local P fuel img symtab section_base module sh_count b symbols
            string_table rels l s).map (fun r => ⟨r, img⟩) := by
  induction l with
  | nil => intro s _; rfl
  | cons i rest ih =>
    intro s h
    unfold apply_relocs apply_relocs_local
    rw [apply_reloc_eq_local P fuel mod_binary mod_binary_size img symtab section_base module
      sh_count b symbols string_table rels s i (h i (List.mem_cons_self _ _))]
    cases apply_reloc_local P fuel img symtab section_base module sh_count b symbols string_table
        rels s i with
    | none => rfl
    | some s1 =>
      simp only [Option.map_some']
      exact ih s1 (fun j hj => h j (List.mem_cons_of_mem _ hj))

/-- The relocation walk of an image none of whose relocations aims at the
descriptor table or at the image buffer is the walk on the data area. -/
theorem relocate_eq_local (P : Platform) (fuel mod_binary mod_binary_size : Nat) (L : Loaded)
    (h : RelocsApart P mod_binary mod_binary_size L) :
    relocate P fuel mod_binary mod_binary_size L
      = (relocate_local P fuel L).map (fun r => ⟨r, L.S.img⟩) := by
  unfold relocate relocate_local
  unfold RelocsApart num_rels rel_offset rel_table at h
  cases hrs : L.S.rel_sh with
  | none => rfl
  | some rel_sh =>
    simp only [hrs] at h ⊢
    exact apply_relocs_eq_local P fuel mod_binary mod_binary_size L.S.img _ _ _ _ _ _ _ _ _ _
      (fun i hi => h i (List.mem_range.mp hi))

theorem module_load_eq_local (P : Platform) (fuel : Nat) (st : KState) (mod_name : List Nat)
    (mod_binary : Nat) (img : Mem) (mod_binary_size i : Nat)
    (h : ∀ L, load_image P fuel st mod_name img i = some L →
      RelocsApart P mod_binary mod_binary_size L) :
    module_load P fuel st mod_name mod_binary img mod_binary_size i
      = module_load_local P fuel st mod_name img i := by
  unfold module_load module_load_local
  cases hL : load_image P fuel st mod_name img i with
  | none => rfl
  | some L =>
    simp only
    rw [relocate_eq_local P fuel mod_binary mod_binary_size L (h L hL)]
    cases relocate_local P fuel L with
    | none => rfl
    | some R => rfl

/-- A load that returns 0 and none of whose relocations aims at the descriptor
table or at the image buffer, in terms of the walk on the data area. -/
theorem module_init_local (P : Platform) (fuel : Nat) (st : KState) (mod_name : List Nat)
    (mod_binary : Nat) (img : Mem) (mod_binary_size : Nat) (st1 : KState) (img1 : Mem)
    (h : module_init P fuel st mod_name mod_binary img mod_binary_size = some (0, st1, img1))
    (hrel : ∀ i L, first_free_slot st.module_bitmap = some i →
      load_image P fuel st mod_name img i = some L → RelocsApart P mod_binary mod_binary_size L) :
    ∃ i st2, first_free_slot st.module_bitmap = some i ∧
      module_load_local P fuel st mod_name img i = some (st2, img1) ∧
      st1 = module_start st2 i := by
  obtain ⟨i, st2, hi, hl, hs⟩ :=
    module_init_ok P fuel st mod_name mod_binary img mod_binary_size st1 img1 h
  rw [module_load_eq_local P fuel st mod_name mod_binary img mod_binary_size i
    (fun L hL => hrel i L hi hL)] at hl
  exact ⟨i, st2, hi, hl, hs⟩

/-- What a load that went through fixes whatever its relocations aim at: the
state `ACTIVE`, written after the walk, the bitmap, the count and the calls. -/
theorem module_load_state (P : Platform) (fuel : Nat) (st : KState) (mod_name : List Nat)
    (mod_binary : Nat) (img : Mem) (mod_binary_size i : Nat) (st2 : KState) (img1 : Mem)
    (h : module_load P fuel st mod_name mod_binary img mod_binary_size i = some (st2, img1)) :
    read32 st2.mods (descriptor i + OFF_module_state) = MODULE_STATE_ACTIVE ∧
    st2.module_bitmap = (st.module_bitmap ||| (1 <<< i)) % 65536 ∧
    st2.module_count = (st.module_count + 1) % U32 ∧ st2.calls = st.calls := by
  unfold module_load at h
  split at h
  · simp at h
  · rename_i L hL
    split at h
    · simp at h
    · rename_i R hR
      simp only [Option.some.injEq, Prod.mk.injEq] at h
      obtain ⟨h1, _⟩ := h
      subst h1
      obtain ⟨em, _⟩ := load_image_spec (fun _ => False) P fuel st mod_name img i L
        (fun _ _ h => h) (fun _ _ _ h => h) hL
      refine ⟨?_, rfl, rfl, rfl⟩
      rw [em]
      exact finish_descriptor_state _ _ _ _ _ _

/-! ## The sample images, the registry, the loader passes, the driver and the scheduler -/

set_option maxRecDepth 1000000 in
theorem demo_number_eq : pack demo_bytes = demo_number := by
  decide!

theorem outcome_eq (st : KState) (img : Mem) (r : Option (Int × KState × Mem)) (c : Int)
    (h : ret_of r = some c) : r = some (c, state_of st r, image_of img r) := by
  cases r with
  | none => simp [ret_of] at h
  | some x =>
    obtain ⟨ret, st1, im⟩ := x
    simp only [ret_of, Option.map_some', Option.some.injEq] at h
    simp only [state_of, image_of, h]

theorem loaded_of_eq (d : Loaded) (r : Option Loaded) (h : r.isSome = true) :
    r = some (loaded_of d r) := by
  cases r with
  | none => simp at h
  | some L => rfl

theorem demo_init_eq (st : KState) (name : String) (h : demo_init_ret st name = some 0) :
    module_init demo_platform 64 st (cbytes name) demo_buffer demo_image 451
      = some (0, demo_init st name, demo_init_image st name) :=
  outcome_eq st demo_image _ 0 h

theorem demo_init_fails_eq (st : KState) (name : String) (ret : Int)
    (h : demo_init_ret st name = some ret) :
    module_init demo_platform 64 st (cbytes name) demo_buffer demo_image 451
      = some (ret, demo_init st name, demo_init_image st name) :=
  outcome_eq st demo_image _ ret h

theorem demo_loaded_eq (st : KState) (name : String) (i : Nat)
    (h : (load_image demo_platform 64 st (cbytes name) demo_image i).isSome = true) :
    load_image demo_platform 64 st (cbytes name) demo_image i = some (demo_loaded st name i) :=
  loaded_of_eq _ _ h

theorem kstore8_table (P : Platform) (st : KState) (o v : Nat)
    (ho : o < MAX_MODULES * SIZEOF_MODULE) (hP : P.MODULES + MAX_MODULES * SIZEOF_MODULE ≤ U32) :
    kstore8 P st (P.MODULES + o) v = { st with mods := write8 st.mods o v } := by
  have e : (P.MODULES + o) % U32 = P.MODULES + o := Nat.mod_eq_of_lt (by omega)
  unfold kstore8
  rw [e, if_pos ⟨by omega, by omega⟩, Nat.add_sub_cancel_left]

theorem kstore32_table (P : Platform) (st : KState) (o v : Nat)
    (ho : o + 4 ≤ MAX_MODULES * SIZEOF_MODULE)
    (hP : P.MODULES + MAX_MODULES * SIZEOF_MODULE ≤ U32) :
    kstore32 P st (P.MODULES + o) v = { st with mods := write32 st.mods o v } := by
  unfold kstore32
  rw [kstore8_table P st o v (by omega) hP, Nat.add_assoc, kstore8_table P _ (o + 1) _ (by omega) hP,
    Nat.add_assoc, kstore8_table P _ (o + 2) _ (by omega) hP, Nat.add_assoc,
    kstore8_table P _ (o + 3) _ (by omega) hP]
  rfl

theorem module_register_kind (P : Platform) (st : KState) (i k f : Nat) (hk : k < 4) :
    module_register P st i (k : Int) f
      = kstore32 P st (P.MODULES + i % U32 * SIZEOF_MODULE + OFF_module_vectors + 4 * k) f := by
  have hk4 : k = 0 ∨ k = 1 ∨ k = 2 ∨ k = 3 := by omega
  rcases hk4 with rfl | rfl | rfl | rfl
  all_goals
    simp only [module_register, MODULE_SHOW_SYSCALL, MODULE_COUNT_SYSCALL, MODULE_SHOW_TIME,
      MODULE_TEST_API, VEC_show_syscall, VEC_count_syscall, VEC_show_time, VEC_test_api]
    simp

theorem section_rec_eq (module k : Nat) : section_rec module k = module + 68 + 32 * k := rfl

theorem sym_rec_eq (module k : Nat) : sym_rec module k = module + 2788 + 20 * k := rfl

theorem rel_rec_eq (module k : Nat) : rel_rec module k = module + 388 + 24 * k := rfl

theorem descriptor_eq (i : Nat) : descriptor i = i * 4804 := rfl

theorem name_fits_spec (fuel : Nat) (m : Mem) (p cap : Nat) (h : name_fits fuel m p cap = true) :
    ∃ s, read_cstr fuel m p = some s ∧ s.length < cap := by
  unfold name_fits at h
  split at h
  · rename_i s hs
    exact ⟨s, hs, by simpa using h⟩
  · simp at h

theorem agree_copy_name_bounded (keep : Nat → Prop) (img : Mem) (src dst : Nat) :
    ∀ (fuel : Nat) (m : Mem) (j : Nat) (m2 : Mem) (s : List Nat),
      copy_name fuel img src m dst j = some m2 → read_cstr fuel img (src + j) = some s →
      (∀ j2, j ≤ j2 → j2 ≤ j + s.length → ¬ keep (dst + j2)) → AgreeOn keep m m2 := by
  intro fuel
  induction fuel with
  | zero => intro m j m2 s hc; simp [copy_name] at hc
  | succ n ih =>
    intro m j m2 s hc hr h
    unfold copy_name at hc
    unfold read_cstr at hr
    split at hc
    · rename_i hne
      rw [if_neg hne] at hr
      cases hr2 : read_cstr n img (src + j + 1) with
      | none => rw [hr2] at hr; simp at hr
      | some s2 =>
        rw [hr2] at hr
        simp only [Option.map_some', Option.some.injEq] at hr
        subst hr
        refine (agree_write8 keep m _ _ (h j (Nat.le_refl j) (by omega))).trans
          (ih _ (j + 1) m2 s2 hc hr2 ?_)
        intro j2 h1 h2
        exact h j2 (by omega) (by simp only [List.length_cons]; omega)
    · cases hc
      exact agree_write8 keep m _ _ (h j (Nat.le_refl j) (by omega))

/-! ### Section records -/

theorem note_tables_counts (s : SectState) (sh : Nat) :
    (note_tables s sh).sh_count = s.sh_count ∧ (note_tables s sh).sh_size = s.sh_size ∧
    (note_tables s sh).img = s.img ∧ (note_tables s sh).data = s.data := by
  unfold note_tables
  split
  · exact ⟨rfl, rfl, rfl, rfl⟩
  · split
    · exact ⟨rfl, rfl, rfl, rfl⟩
    · split <;> exact ⟨rfl, rfl, rfl, rfl⟩

theorem load_section_count (module module_base : Nat) (s : SectState) (sh : Nat)
    (hlt : s.sh_count + 1 < U32) :
    (load_section module module_base s sh).sh_count = s.sh_count ∨
    (load_section module module_base s sh).sh_count = s.sh_count + 1 := by
  unfold load_section
  rw [(note_tables_counts _ _).1]
  unfold place_section
  split
  · split
    · right; exact Nat.mod_eq_of_lt hlt
    · left; rfl
  · left; rfl

theorem load_section_mods_bounded (keep : Nat → Prop) (module module_base : Nat)
    (s : SectState) (sh : Nat)
    (h : ∀ a, section_rec module s.sh_count + SEC_sh_start ≤ a →
      a < section_rec module s.sh_count + SIZEOF_SECTION →
      (load_section module module_base s sh).sh_count ≠ s.sh_count → ¬ keep a) :
    AgreeOn keep s.mods (load_section module module_base s sh).mods := by
  have e1 : SEC_sh_start = 16 := rfl
  have e2 : SIZEOF_SECTION = 32 := rfl
  have e3 : SEC_sh_size = 20 := rfl
  have e4 : SEC_sh_type = 24 := rfl
  have e5 : SEC_sh_offset = 28 := rfl
  have hcnt : (load_section module module_base s sh).sh_count
      = (place_section module module_base s sh).sh_count := by
    unfold load_section; exact (note_tables_counts _ _).1
  rw [hcnt] at h
  unfold load_section
  rw [note_tables_mods]
  by_cases hq : (place_section module module_base s sh).sh_count = s.sh_count
  · -- nothing was placed, or the count wrapped: in both cases look at the definition
    unfold place_section at hq ⊢
    split
    · split
      · rename_i h1 h2
        rw [if_pos h1, if_pos h2] at hq
        simp only at hq ⊢
        -- the count is (c + 1) % U32 = c: only possible when U32 = 1
        exfalso
        have : (s.sh_count + 1) % U32 ≠ s.sh_count := by
          unfold U32
          omega
        exact this hq
      · exact AgreeOn.refl _ _
    · exact AgreeOn.refl _ _
  · have h' := fun a h1 h2 => h a h1 h2 hq
    unfold place_section
    split
    · split
      · simp only
        have hw : ∀ (m : Mem) (o v : Nat), 16 ≤ o → o + 4 ≤ 32 → AgreeOn keep m
            (write32 m (module + OFF_sections + SIZEOF_SECTION * s.sh_count + o) v) := by
          intro m o v ho1 ho2
          apply agree_write32
          intro k hk
          apply h'
          · unfold section_rec; omega
          · unfold section_rec; omega
        exact ((hw _ _ _ (by omega) (by omega)).trans (hw _ _ _ (by omega) (by omega))).trans
          ((hw _ _ _ (by omega) (by omega)).trans (hw _ _ _ (by omega) (by omega)))
      · exact AgreeOn.refl _ _
    · exact AgreeOn.refl _ _

theorem foldl_load_section_bounded (keep : Nat → Prop) (module module_base : Nat)
    (l : List Nat) :
    ∀ s : SectState, s.sh_count + l.length < U32 →
      s.sh_count ≤ (l.foldl (load_section module module_base) s).sh_count ∧
      (l.foldl (load_section module module_base) s).sh_count ≤ s.sh_count + l.length ∧
      ((∀ a c, s.sh_count ≤ c → c < (l.foldl (load_section module module_base) s).sh_count →
          section_rec module c + SEC_sh_start ≤ a → a < section_rec module c + SIZEOF_SECTION →
          ¬ keep a) →
        AgreeOn keep s.mods (l.foldl (load_section module module_base) s).mods) := by
  induction l with
  | nil => intro s _; exact ⟨Nat.le_refl _, Nat.le_refl _, fun _ => AgreeOn.refl _ _⟩
  | cons sh rest ih =>
    intro s hlen
    simp only [List.length_cons] at hlen
    rw [List.foldl_cons]
    have hc := load_section_count module module_base s sh (by omega)
    obtain ⟨i1, i2, i3⟩ := ih (load_section module module_base s sh) (by omega)
    refine ⟨by omega, by simp only [List.length_cons]; omega, ?_⟩
    intro hk
    refine (load_section_mods_bounded keep module module_base s sh ?_).trans (i3 ?_)
    · intro a h1 h2 hne
      exact hk a s.sh_count (Nat.le_refl _) (by omega) h1 h2
    · intro a c h1 h2 h3 h4
      exact hk a c (by omega) h2 h3 h4

/-! ### Section names -/

theorem name_section_bounded (fuel : Nat) (img : Mem) (sh_string_table module n i : Nat)
    (M : Mem) (hi : i < n)
    (hfit : name_fits fuel img
      (sh_string_table + read32 M (section_rec module i + SEC_sh_offset)) MAX_SECTION_NAMELEN = true)
    (hdrs : List Nat) :
    ∀ (m m2 : Mem), AgreeOn (fun a => ¬ InSectionNames module n a) M m →
      name_section fuel img sh_string_table module i hdrs m = some m2 →
      AgreeOn (fun a => ¬ InSectionNames module n a) M m2 := by
  have e5 : SEC_sh_offset = 28 := rfl
  have e6 : MAX_SECTION_NAMELEN = 16 := rfl
  have e7 : SEC_sh_name = 0 := rfl
  obtain ⟨s, hs, hlen⟩ := name_fits_spec _ _ _ _ hfit
  induction hdrs with
  | nil => intro m m2 ha hm; simp [name_section] at hm; subst hm; exact ha
  | cons sh rest ih =>
    intro m m2 ha hm
    unfold name_section at hm
    split at hm
    · split at hm
      · simp at hm
      · rename_i m1 hc
        have hoff : read32 m (section_rec module i + SEC_sh_offset)
            = read32 M (section_rec module i + SEC_sh_offset) := by
          apply read32_congr
          intro k hk
          apply ha
          rintro ⟨k2, hk2, h1, h2⟩
          simp only [section_rec_eq] at h1 h2
          omega
        rw [hoff] at hc
        refine ih m1 m2 (ha.trans ?_) hm
        apply agree_copy_name_bounded _ img _ _ fuel m 0 m1 s hc (by simpa using hs)
        intro j2 _ hj2 hk
        exact hk ⟨i, hi, by omega, by omega⟩
    · exact ih m m2 ha hm

theorem name_sections_bounded (fuel : Nat) (img : Mem) (sh_string_table module n : Nat)
    (M : Mem)
    (hfit : ∀ k, k < n → name_fits fuel img
      (sh_string_table + read32 M (section_rec module k + SEC_sh_offset)) MAX_SECTION_NAMELEN = true)
    (hdrs : List Nat) (l : List Nat) :
    ∀ (m m2 : Mem), (∀ i, i ∈ l → i < n) →
      AgreeOn (fun a => ¬ InSectionNames module n a) M m →
      name_sections fuel img sh_string_table module hdrs l m = some m2 →
      AgreeOn (fun a => ¬ InSectionNames module n a) M m2 := by
  induction l with
  | nil => intro m m2 _ ha hm; simp [name_sections] at hm; subst hm; exact ha
  | cons i rest ih =>
    intro m m2 hl ha hm
    unfold name_sections at hm
    split at hm
    · simp at hm
    · rename_i m1 hc
      have hi : i < n := hl i (List.mem_cons_self i rest)
      exact ih m1 m2 (fun k hk => hl k (List.mem_cons_of_mem i hk))
        (name_section_bounded fuel img sh_string_table module n i M hi (hfit i hi) hdrs m m1 ha hc)
        hm

/-! ### Symbol records -/

theorem load_symbol_bounded (fuel : Nat) (img : Mem) (section_base module sh_count : Nat)
    (b : Bases) (symbols string_table n : Nat) (s : SymState) (i : Nat) (s2 : SymState)
    (hi : i < n)
    (hfit : name_fits fuel img
      (string_table + read32 img (symbols + SIZEOF_SYMBOL * i + ST_sym_name)) MAX_SYM_NAMELEN = true)
    (hs : load_symbol fuel img section_base module sh_count b symbols string_table s i = some s2) :
    AgreeOn (fun a => ¬ InSymbols module n a) s.mods s2.mods := by
  have e1 : MAX_SYM_NAMELEN = 16 := rfl
  have e2 : SIZEOF_SYMTAB = 20 := rfl
  have e3 : SYM_sym_name = 0 := rfl
  have e4 : SYM_sym_value = 16 := rfl
  obtain ⟨nm, hnm, hlen⟩ := name_fits_spec _ _ _ _ hfit
  unfold load_symbol at hs
  simp only at hs
  split at hs
  · simp at hs
  · rename_i m1 hc
    split at hs
    · simp at hs
    · rename_i s1 hp
      cases hs
      simp only
      have e := publish_symbol_mods _ _ _ _ _ _ _ _ _ _ hp
      simp only at e
      rw [e]
      refine ((agree_copy_name_bounded _ img _ _ fuel s.mods 0 m1 nm hc (by simpa using hnm) ?_).trans
        (agree_write32 _ m1 _ _ ?_)).trans (note_routines_mods _ img module b _ i _ ?_)
      · intro j2 _ hj2 hk
        exact hk (Or.inl ⟨i, hi, by omega, by omega⟩)
      · intro k hk hkeep
        exact hkeep (Or.inl ⟨i, hi, by omega, by omega⟩)
      · intro a h1 h2 hkeep
        exact hkeep (Or.inr ⟨h1, h2⟩)

theorem load_symbols_bounded (fuel : Nat) (img : Mem) (section_base module sh_count : Nat)
    (b : Bases) (symbols string_table n : Nat)
    (hfit : ∀ k, k < n → name_fits fuel img
      (string_table + read32 img (symbols + SIZEOF_SYMBOL * k + ST_sym_name)) MAX_SYM_NAMELEN = true)
    (l : List Nat) :
    ∀ (s s2 : SymState), (∀ i, i ∈ l → i < n) →
      load_symbols fuel img section_base module sh_count b symbols string_table l s = some s2 →
      AgreeOn (fun a => ¬ InSymbols module n a) s.mods s2.mods := by
  induction l with
  | nil => intro s s2 _ hs; simp [load_symbols] at hs; subst hs; exact AgreeOn.refl _ _
  | cons i rest ih =>
    intro s s2 hl hs
    unfold load_symbols at hs
    split at hs
    · simp at hs
    · rename_i s1 h1
      have hi : i < n := hl i (List.mem_cons_self i rest)
      exact (load_symbol_bounded fuel img section_base module sh_count b symbols string_table n
        s i s1 hi (hfit i hi) h1).trans (ih s1 s2 (fun k hk => hl k (List.mem_cons_of_mem i hk)) hs)

/-! ### Relocation records -/

theorem apply_reloc_bounded (P : Platform) (fuel : Nat) (img : Mem) (symtab : SymbolTable)
    (section_base module sh_count : Nat) (b : Bases) (symbols string_table rels n : Nat)
    (s : RelState) (i : Nat) (s2 : RelState) (hi : i < n)
    (hfit : name_fits fuel img (string_table + read32 img (symbols + SIZEOF_SYMBOL *
      ELF32_R_SYM (read32 img (rels + SIZEOF_REL * i + R_rel_info)) + ST_sym_name))
      MAX_SYM_NAMELEN = true)
    (hs : apply_reloc_local P fuel img symtab section_base module sh_count b symbols string_table rels
      s i = some s2) : AgreeOn (fun a => ¬ InRelocs module n a) s.mods s2.mods := by
  have e1 : MAX_SYM_NAMELEN = 16 := rfl
  have e2 : SIZEOF_RELTEXT = 24 := rfl
  have e3 : REL_sym_name = 8 := rfl
  have e4 : REL_rel_type = 4 := rfl
  have e5 : REL_rel_offset = 0 := rfl
  obtain ⟨nm, hnm, hlen⟩ := name_fits_spec _ _ _ _ hfit
  unfold apply_reloc_local at hs
  simp only at hs
  split at hs
  · simp at hs
  · rename_i m1 hc
    have e := reloc_apply_mods _ _ _ _ _ _ _ _ _ _ _ _ hs
    simp only at e
    rw [e]
    refine ((agree_copy_name_bounded _ img _ _ fuel s.mods 0 m1 nm hc (by simpa using hnm) ?_).trans
      (agree_write32 _ m1 _ _ ?_)).trans (agree_write32 _ _ _ _ ?_)
    · intro j2 _ hj2 hk
      exact hk ⟨i, hi, by omega, by omega⟩
    · intro k hk hkeep
      exact hkeep ⟨i, hi, by omega, by omega⟩
    · intro k hk hkeep
      exact hkeep ⟨i, hi, by omega, by omega⟩

theorem apply_relocs_bounded (P : Platform) (fuel : Nat) (img : Mem) (symtab : SymbolTable)
    (section_base module sh_count : Nat) (b : Bases) (symbols string_table rels n : Nat)
    (hfit : ∀ k, k < n → name_fits fuel img (string_table + read32 img (symbols + SIZEOF_SYMBOL *
      ELF32_R_SYM (read32 img (rels + SIZEOF_REL * k + R_rel_info)) + ST_sym_name))
      MAX_SYM_NAMELEN = true)
    (l : List Nat) :
    ∀ (s s2 : RelState), (∀ i, i ∈ l → i < n) →
      apply_relocs_local P fuel img symtab section_base module sh_count b symbols string_table rels
        l s = some s2 → AgreeOn (fun a => ¬ InRelocs module n a) s.mods s2.mods := by
  induction l with
  | nil => intro s s2 _ hs; simp [apply_relocs_local] at hs; subst hs; exact AgreeOn.refl _ _
  | cons i rest ih =>
    intro s s2 hl hs
    unfold apply_relocs_local at hs
    split at hs
    · simp at hs
    · rename_i s1 h1
      have hi : i < n := hl i (List.mem_cons_self i rest)
      exact (apply_reloc_bounded P fuel img symtab section_base module sh_count b symbols
        string_table rels n s i s1 hi (hfit i hi) h1).trans
        (ih s1 s2 (fun k hk => hl k (List.mem_cons_of_mem i hk)) hs)

/-! ## The stages of `load_image`, named -/

theorem load_image_unfold (P : Platform) (fuel : Nat) (st : KState) (mod_name : List Nat)
    (img : Mem) (i : Nat) (L : Loaded)
    (hL : load_image P fuel st mod_name img i = some L) :
    ∃ mods5 sym_sh str_sh,
      L.module = descriptor i ∧ L.section_base = read32 img ELF_e_shoff ∧
      L.sh_string_table = read32 img (read32 img ELF_e_shoff +
        SIZEOF_SECTHDR * read16 img ELF_e_shstrndx + SH_sh_offset) ∧
      L.S = load_sections (descriptor i) ((P.MODULE_DATA + i * PGSIZE) % U32)
        (read32 img ELF_e_shoff) (read16 img ELF_e_shnum)
        ⟨img, st.data, init_descriptor P st.mods mod_name i, 0, 0, none, none, none⟩ ∧
      name_sections fuel L.S.img L.sh_string_table (descriptor i)
        (section_headers (read32 L.S.img ELF_e_shoff) (read16 L.S.img ELF_e_shnum))
        (List.range L.S.sh_count) L.S.mods = some mods5 ∧
      L.b = locate_sections mods5 (descriptor i) L.S.sh_count ∧
      L.S.sym_sh = some sym_sh ∧ L.S.str_sh = some str_sh ∧
      L.symbols = read32 L.S.img (sym_sh + SH_sh_offset) ∧
      L.string_table = read32 L.S.img (str_sh + SH_sh_offset) ∧
      L.num_sym = read32 L.S.img (sym_sh + SH_sh_size) / SIZEOF_SYMBOL ∧
      load_symbols fuel L.S.img L.section_base (descriptor i) L.S.sh_count L.b L.symbols
        L.string_table (List.range L.num_sym)
        ⟨mods5, st.symtab, (L.b.text_start + L.S.sh_size) % U32⟩ = some L.Y := by
  unfold load_image at hL
  simp only at hL
  split at hL
  · simp at hL
  · rename_i mods5 hn
    split at hL
    · rename_i sym_sh str_sh h1 h2
      split at hL
      · simp at hL
      · rename_i Y hY
        cases hL
        exact ⟨mods5, sym_sh, str_sh, rfl, rfl, rfl, rfl, hn, rfl, h1, h2, rfl, rfl, rfl, hY⟩
    · simp at hL

theorem relocate_unfold (P : Platform) (fuel : Nat) (L : Loaded) (R : RelState)
    (hR : relocate_local P fuel L = some R) :
    ∃ rel_sh, L.S.rel_sh = some rel_sh ∧
      rel_table L = read32 L.S.img (rel_sh + SH_sh_offset) ∧
      num_rels L = read32 L.S.img (rel_sh + SH_sh_size) / SIZEOF_REL ∧
      apply_relocs_local P fuel L.S.img L.Y.symtab L.section_base L.module L.S.sh_count L.b L.symbols
        L.string_table (rel_table L) (List.range (num_rels L))
        ⟨L.Y.mods, L.S.data, L.b.rodata_addr, L.b.data_addr, 0⟩ = some R := by
  unfold relocate_local at hR
  split at hR
  · simp at hR
  · rename_i rel_sh hrs
    refine ⟨rel_sh, hrs, ?_, ?_, ?_⟩
    · unfold rel_table; rw [hrs]
    · unfold num_rels; rw [hrs]
    · unfold rel_table num_rels; rw [hrs]; exact hR

theorem module_load_unfold (P : Platform) (fuel : Nat) (st : KState) (mod_name : List Nat)
    (img : Mem) (i : Nat) (st2 : KState) (img1 : Mem)
    (h : module_load_local P fuel st mod_name img i = some (st2, img1)) :
    ∃ L R, load_image P fuel st mod_name img i = some L ∧ relocate_local P fuel L = some R ∧
      st2.mods = finish_descriptor R.mods L.module L.S.sh_size L.S.sh_count (num_rels L) L.num_sym ∧
      st2.data = R.data ∧ st2.symtab = L.Y.symtab ∧ img1 = L.S.img ∧ st2.calls = st.calls ∧
      st2.module_bitmap = (st.module_bitmap ||| (1 <<< i)) % 65536 ∧
      st2.module_count = (st.module_count + 1) % U32 := by
  unfold module_load_local at h
  split at h
  · simp at h
  · rename_i L hL
    split at h
    · simp at h
    · rename_i R hR
      simp only [Option.some.injEq, Prod.mk.injEq] at h
      obtain ⟨h1, h2⟩ := h
      subst h1
      exact ⟨L, R, hL, hR, rfl, rfl, rfl, h2.symm, rfl, rfl, rfl⟩

theorem section_headers_length (section_base e_shnum : Nat) :
    (section_headers section_base e_shnum).length = e_shnum := by
  unfold section_headers
  simp

theorem read16_lt (m : Mem) (a : Nat) : read16 m a < 65536 := by
  have h0 := read8_lt m a
  have h1 := read8_lt m (a + 1)
  unfold read16; omega

/-- A load within capacity writes no byte of the descriptor table outside its
own descriptor. -/
theorem module_load_in_descriptor (P : Platform) (fuel : Nat) (st : KState)
    (mod_name : List Nat) (img : Mem) (i : Nat) (st2 : KState) (img1 : Mem) (L : Loaded)
    (hL : load_image P fuel st mod_name img i = some L)
    (h : module_load_local P fuel st mod_name img i = some (st2, img1))
    (hcap : WithinCapacity fuel L mod_name) :
    AgreeOn (OutsideDescriptor i) st.mods st2.mods := by
  have LV := layout_values
  obtain ⟨L2, R, hL2, hR, hmods, _⟩ := module_load_unfold P fuel st mod_name img i st2 img1 h
  rw [hL] at hL2
  cases hL2
  obtain ⟨mods5, sym_sh, str_sh, hmod, hsb, hstr, hS, hnames, hb, hsym, hstrsh, hsyms, hst, hns, hY⟩ :=
    load_image_unfold P fuel st mod_name img i L hL
  obtain ⟨rel_sh, hrs, hrt, hnr, hRel⟩ := relocate_unfold P fuel L R hR
  obtain ⟨c1, c2, c3, c4, c5, c6, c7⟩ := hcap
  have hM1 : MAX_MODULE_NAMELEN = 32 := rfl
  have hM2 : MAX_SECTIONS = 10 := rfl
  have hM3 : MAX_SYM_TABLE_SIZE = 100 := rfl
  have hM4 : MAX_REL_ENTRIES = 100 := rfl
  have hM5 : MAX_SECTION_NAMELEN = 16 := rfl
  have hM6 : SIZEOF_SYMTAB = 20 := rfl
  have hM7 : SIZEOF_RELTEXT = 24 := rfl
  have hM8 : SIZEOF_SECTION = 32 := rfl
  have hM9 : SEC_sh_start = 16 := rfl
  -- the descriptor set-up
  have a0 : AgreeOn (OutsideDescriptor i) st.mods (init_descriptor P st.mods mod_name i) := by
    unfold init_descriptor
    simp only
    refine (((agree_strcpy _ mod_name st.mods _ ?_).trans (agree_write32 _ _ _ _ ?_)).trans
      (agree_write32 _ _ _ _ ?_)).trans (agree_write32 _ _ _ _ ?_)
    · intro j hj hk; unfold OutsideDescriptor at hk; omega
    · intro k hk hkeep; unfold OutsideDescriptor at hkeep; omega
    · intro k hk hkeep; unfold OutsideDescriptor at hkeep; omega
    · intro k hk hkeep; unfold OutsideDescriptor at hkeep; omega
  -- the section records
  have a1 : AgreeOn (OutsideDescriptor i) (init_descriptor P st.mods mod_name i) L.S.mods := by
    have hb16 := read16_lt img ELF_e_shnum
    have := foldl_load_section_bounded (OutsideDescriptor i) (descriptor i)
      ((P.MODULE_DATA + i * PGSIZE) % U32) (section_headers (read32 img ELF_e_shoff)
        (read16 img ELF_e_shnum))
      ⟨img, st.data, init_descriptor P st.mods mod_name i, 0, 0, none, none, none⟩
      (by simp only [section_headers_length]; unfold U32; omega)
    rw [hS]
    unfold load_sections
    apply this.2.2
    intro a c _ hc h1 h2 hk
    have hcnt : c < L.S.sh_count := by rw [hS]; exact hc
    simp only [section_rec_eq] at h1 h2
    unfold OutsideDescriptor at hk
    omega
  -- the section names
  have a2 : AgreeOn (OutsideDescriptor i) L.S.mods mods5 := by
    have := name_sections_bounded fuel L.S.img L.sh_string_table (descriptor i) L.S.sh_count
      L.S.mods (by rw [← hmod]; exact c3) _ (List.range L.S.sh_count) L.S.mods mods5
      (fun k hk => List.mem_range.mp hk) (AgreeOn.refl _ _) hnames
    apply this.mono
    rintro a hk ⟨k, hk1, hk2, hk3⟩
    simp only [section_rec_eq] at hk2 hk3
    unfold OutsideDescriptor at hk
    omega
  -- the symbol records
  have a3 : AgreeOn (OutsideDescriptor i) mods5 L.Y.mods := by
    have := load_symbols_bounded fuel L.S.img L.section_base (descriptor i) L.S.sh_count L.b
      L.symbols L.string_table L.num_sym c5 (List.range L.num_sym) _ _
      (fun k hk => List.mem_range.mp hk) hY
    apply this.mono
    rintro a hk (⟨k, hk1, hk2, hk3⟩ | ⟨hk1, hk2⟩)
    · simp only [sym_rec_eq] at hk2 hk3
      unfold OutsideDescriptor at hk
      omega
    · unfold OutsideDescriptor at hk
      omega
  -- the relocation records
  have a4 : AgreeOn (OutsideDescriptor i) L.Y.mods R.mods := by
    have hfit : ∀ k, k < num_rels L → name_fits fuel L.S.img (L.string_table + read32 L.S.img
        (L.symbols + SIZEOF_SYMBOL * ELF32_R_SYM (read32 L.S.img (rel_table L + SIZEOF_REL * k +
          R_rel_info)) + ST_sym_name)) MAX_SYM_NAMELEN = true := c7
    have := apply_relocs_bounded P fuel L.S.img L.Y.symtab L.section_base L.module L.S.sh_count
      L.b L.symbols L.string_table (rel_table L) (num_rels L) hfit (List.range (num_rels L)) _ _
      (fun k hk => List.mem_range.mp hk) hRel
    apply this.mono
    rintro a hk ⟨k, hk1, hk2, hk3⟩
    simp only [rel_rec_eq, hmod] at hk2 hk3
    unfold OutsideDescriptor at hk
    omega
  -- the bookkeeping
  have a5 : AgreeOn (OutsideDescriptor i) R.mods st2.mods := by
    rw [hmods, hmod]
    unfold finish_descriptor
    simp only
    have hw : ∀ (m : Mem) (o v : Nat), o + 4 ≤ 4804 →
        AgreeOn (OutsideDescriptor i) m (write32 m (descriptor i + o) v) := by
      intro m o v ho
      apply agree_write32
      intro k hk hkeep
      unfold OutsideDescriptor at hkeep
      omega
    exact ((((hw _ _ _ (by omega)).trans (hw _ _ _ (by omega))).trans
      (hw _ _ _ (by omega))).trans (hw _ _ _ (by omega))).trans (hw _ _ _ (by omega))
  exact ((((a0.trans a1).trans a2).trans a3).trans a4).trans a5

/-! ## Bits of the slot bitmap -/

theorem testBit_set_bit (b i j : Nat) :
    (b ||| (1 <<< i)).testBit j = (b.testBit j || decide (i = j)) := by
  rw [Nat.testBit_or, Nat.one_shiftLeft, Nat.testBit_two_pow]

theorem testBit_clear_bit (b i j : Nat) (hi : i < 16) (hj : j < 16) :
    ((b &&& (0xFFFFFFFF ^^^ ((1 <<< (i % 32)) % U32))) % 65536).testBit j
      = (b.testBit j && !decide (i = j)) := by
  have h65 : (65536 : Nat) = 2 ^ 16 := by norm_num
  have hff : (0xFFFFFFFF : Nat) = 2 ^ 32 - 1 := by norm_num
  have hi32 : i % 32 = i := Nat.mod_eq_of_lt (by omega)
  have hpow : (1 <<< i) % U32 = 2 ^ i := by
    rw [Nat.one_shiftLeft]
    apply Nat.mod_eq_of_lt
    have : 2 ^ i < 2 ^ 32 := Nat.pow_lt_pow_right (by norm_num) (by omega)
    unfold U32
    omega
  rw [h65, Nat.testBit_mod_two_pow, Nat.testBit_and, Nat.testBit_xor, hi32, hpow, hff,
    Nat.testBit_two_pow_sub_one, Nat.testBit_two_pow]
  have h1 : decide (j < 16) = true := by simpa using hj
  have h2 : decide (j < 32) = true := by simp; omega
  rw [h1, h2]
  by_cases e : i = j <;> simp [e]

theorem count_filter_update (p q : Nat → Bool) (i : Nat) (hp : p i = false) (hq : q i = true) :
    ∀ n, i < n → (∀ j, j < n → j ≠ i → q j = p j) →
      ((List.range n).filter q).length = ((List.range n).filter p).length + 1 := by
  have same : ∀ n, n ≤ i → (∀ j, j < n → j ≠ i → q j = p j) →
      ((List.range n).filter q).length = ((List.range n).filter p).length := by
    intro n
    induction n with
    | zero => intro _ _; rfl
    | succ m ih =>
      intro hm h
      rw [List.range_succ, List.filter_append, List.filter_append, List.length_append,
        List.length_append, ih (by omega) (fun j hj hne => h j (by omega) hne)]
      have : q m = p m := h m (by omega) (by omega)
      simp [List.filter_cons, this]
  intro n
  induction n with
  | zero => intro h; omega
  | succ m ih =>
    intro hm h
    rw [List.range_succ, List.filter_append, List.filter_append, List.length_append,
      List.length_append]
    by_cases e : i = m
    · subst e
      rw [same i (Nat.le_refl i) (fun j hj hne => h j (by omega) hne)]
      simp [List.filter_cons, hp, hq]
    · rw [ih (by omega) (fun j hj hne => h j (by omega) hne)]
      have : q m = p m := h m (by omega) (fun x => e x.symm)
      simp [List.filter_cons, this]
      omega

theorem bitmap_count_set (b i : Nat) (hi : i < MAX_MODULES) (hc : b.testBit i = false) :
    bitmap_count (b ||| (1 <<< i)) = bitmap_count b + 1 := by
  unfold bitmap_count
  apply count_filter_update _ _ i hc _ _ hi
  · intro j _ hne
    rw [testBit_set_bit]
    have : ¬ (i = j) := fun e => hne e.symm
    simp [this]
  · rw [testBit_set_bit]; simp

theorem bitmap_count_clear (b i : Nat) (hi : i < MAX_MODULES) (hs : b.testBit i = true) :
    bitmap_count ((b &&& (0xFFFFFFFF ^^^ ((1 <<< (i % 32)) % U32))) % 65536) + 1
      = bitmap_count b := by
  have hM : MAX_MODULES = 16 := rfl
  unfold bitmap_count
  symm
  apply count_filter_update _ _ i _ hs _ hi
  · intro j hj hne
    rw [testBit_clear_bit b i j (by omega) (by omega)]
    have : ¬ (i = j) := fun e => hne e.symm
    simp [this]
  · rw [testBit_clear_bit b i i (by omega) (by omega)]; simp

theorem bitmap_count_le (b : Nat) : bitmap_count b ≤ MAX_MODULES := by
  unfold bitmap_count
  calc ((List.range MAX_MODULES).filter (fun i => b.testBit i)).length
      ≤ (List.range MAX_MODULES).length := List.length_filter_le _ _
    _ = MAX_MODULES := List.length_range _

theorem bitmap_count_pos (b i : Nat) (hi : i < MAX_MODULES) (hs : b.testBit i = true) :
    0 < bitmap_count b := by
  unfold bitmap_count
  apply List.length_pos_of_mem (a := i)
  simp [List.mem_filter, hi, hs]

theorem clear_bit_lt (b i : Nat) :
    (b &&& (0xFFFFFFFF ^^^ ((1 <<< (i % 32)) % U32))) % 65536 < 65536 :=
  Nat.mod_lt _ (by norm_num)

/-! ## `module_cleanup` picks a descriptor by its name -/

theorem foldl_last_match (p : Nat → Bool) (l : List Nat) :
    ∀ (r : Option Nat) (i : Nat),
      l.foldl (fun r i => if p i then some i else r) r = some i →
      r = some i ∨ (i ∈ l ∧ p i = true) := by
  induction l with
  | nil => intro r i h; left; simpa using h
  | cons x rest ih =>
    intro r i h
    rw [List.foldl_cons] at h
    rcases ih _ i h with h1 | ⟨h1, h2⟩
    · by_cases hx : p x = true
      · rw [if_pos hx] at h1
        cases h1
        right; exact ⟨List.mem_cons_self _ _, hx⟩
      · rw [if_neg hx] at h1
        left; exact h1
    · right; exact ⟨List.mem_cons_of_mem _ h1, h2⟩

theorem find_rmmod_some (mods : Mem) (name : List Nat) (i : Nat)
    (h : find_rmmod mods name = some i) :
    i < MAX_MODULES ∧ strcmp_eq mods (descriptor i + OFF_module_name) name = true := by
  unfold find_rmmod at h
  rcases foldl_last_match (fun i => strcmp_eq mods (descriptor i + OFF_module_name) name) _ _ _ h
    with h1 | ⟨h1, h2⟩
  · simp at h1
  · exact ⟨List.mem_range.mp h1, h2⟩

theorem strcmp_eq_nonempty (m : Mem) (p : Nat) (name : List Nat) (hn : NonEmptyName name)
    (h : strcmp_eq m p name = true) : read8 m p ≠ 0 := by
  obtain ⟨c, cs, rfl, hc⟩ := hn
  unfold strcmp_eq at h
  rw [if_neg hc] at h
  simp only [Bool.and_eq_true, beq_iff_eq] at h
  rw [h.1]
  exact hc

theorem module_init_cases (P : Platform) (fuel : Nat) (st : KState) (mod_name : List Nat)
    (mod_binary : Nat) (img : Mem) (mod_binary_size : Nat) (ret : Int) (st1 : KState) (img1 : Mem)
    (h : module_init P fuel st mod_name mod_binary img mod_binary_size = some (ret, st1, img1))
    (hrel : ∀ i L, first_free_slot st.module_bitmap = some i →
      load_image P fuel st mod_name img i = some L → RelocsApart P mod_binary mod_binary_size L) :
    (ret ≠ 0 ∧ st1 = st ∧ img1 = img) ∨
    (ret = 0 ∧ ∃ i st2, first_free_slot st.module_bitmap = some i ∧
      module_load_local P fuel st mod_name img i = some (st2, img1) ∧ st1 = module_start st2 i) := by
  unfold module_init at h
  split at h
  · simp only [Option.some.injEq, Prod.mk.injEq] at h
    left; exact ⟨by rw [← h.1]; decide, h.2.1.symm, h.2.2.symm⟩
  · split at h
    · simp only [Option.some.injEq, Prod.mk.injEq] at h
      left; exact ⟨by rw [← h.1]; decide, h.2.1.symm, h.2.2.symm⟩
    · split at h
      · simp only [Option.some.injEq, Prod.mk.injEq] at h
        left; exact ⟨by rw [← h.1]; decide, h.2.1.symm, h.2.2.symm⟩
      · rename_i i hi
        split at h
        · simp at h
        · rename_i st2 img2 hl
          simp only [Option.some.injEq, Prod.mk.injEq] at h
          rw [module_load_eq_local P fuel st mod_name mod_binary img mod_binary_size i
            (fun L hL => hrel i L hi hL)] at hl
          right
          exact ⟨h.1.symm, i, st2, hi, by rw [hl, h.2.2], h.2.1.symm⟩

/-! ## The registry invariant -/

theorem outside_other_descriptor (i j : Nat) (hne : j ≠ i) (a : Nat)
    (h1 : descriptor j ≤ a) (h2 : a < descriptor j + SIZEOF_MODULE) : OutsideDescriptor i a := by
  have hS : SIZEOF_MODULE = 4804 := rfl
  simp only [descriptor_eq] at h1 h2
  unfold OutsideDescriptor
  simp only [descriptor_eq]
  omega

theorem inv_empty (st : KState) (hz : ∀ a, a < MAX_MODULES * SIZEOF_MODULE → st.mods a = 0)
    (hb : st.module_bitmap = 0) (hc : st.module_count = 0) : RegistryInv st := by
  have LV := layout_values
  have hM : MAX_MODULES = 16 := rfl
  have hzero : ∀ i, i < MAX_MODULES → ∀ o, o + 4 ≤ 4804 → read32 st.mods (descriptor i + o) = 0 := by
    intro i hi o ho
    have e : ∀ k, k < 4 → st.mods (descriptor i + o + k) = 0 := by
      intro k hk
      apply hz
      have hS : SIZEOF_MODULE = 4804 := rfl
      rw [hM, hS]
      simp only [descriptor_eq]
      omega
    have e0 := e 0 (by omega)
    simp only [Nat.add_zero] at e0
    simp [read32, read8, e0, e 1 (by omega), e 2 (by omega), e 3 (by omega)]
  refine ⟨by rw [hb]; norm_num, ?_, ?_, ?_, ?_⟩
  · intro i hi
    rw [hb, hzero i hi _ (by omega)]
    have : ¬ (0 = MODULE_STATE_ACTIVE) := by decide
    simp [this]
  · intro i hi h
    rw [hzero i hi _ (by omega)] at h
    exact absurd h (by decide)
  · rw [hb, hc]
    unfold bitmap_count
    simp
  · intro i hi _
    have hS : SIZEOF_MODULE = 4804 := rfl
    have := hz (descriptor i + OFF_module_name) (by rw [hM, hS]; simp only [descriptor_eq]; omega)
    simp [read8, this]

theorem inv_load (P : Platform) (fuel : Nat) (st : KState) (mod_name : List Nat) (img : Mem)
    (i : Nat) (st2 : KState) (img1 : Mem) (hinv : RegistryInv st)
    (hi : first_free_slot st.module_bitmap = some i)
    (hcap : ∀ L, load_image P fuel st mod_name img i = some L → WithinCapacity fuel L mod_name)
    (hl : module_load_local P fuel st mod_name img i = some (st2, img1)) :
    RegistryInv (module_start st2 i) := by
  have LV := layout_values
  have hM : MAX_MODULES = 16 := rfl
  obtain ⟨ib, ibit, iidx, icnt, iname⟩ := hinv
  obtain ⟨hi16, hclear, _⟩ := first_free_slot_spec _ _ hi
  obtain ⟨L, R, hL, _⟩ := module_load_unfold P fuel st mod_name img i st2 img1 hl
  have hout := module_load_in_descriptor P fuel st mod_name img i st2 img1 L hL hl (hcap L hL)
  obtain ⟨hfr, hact, hbm, hcnt, _⟩ := module_load_header P fuel st mod_name img i st2 img1 hl
  obtain ⟨g1, g2, _, _⟩ := module_start_globals st2 i
  have hm : (module_start st2 i).mods = st2.mods := module_start_mods st2 i
  have hidx : read32 st2.mods (descriptor i + OFF_module_index) = i := by
    rw [read32_congr (init_descriptor P st.mods mod_name i) st2.mods _
      (fun k hk => hfr _ (by unfold HeaderKept; omega)), init_descriptor_index]
    exact Nat.mod_eq_of_lt (by unfold U32; omega)
  have hother32 : ∀ j, j < MAX_MODULES → j ≠ i → ∀ o, o + 4 ≤ 4804 →
      read32 st2.mods (descriptor j + o) = read32 st.mods (descriptor j + o) := by
    intro j hj hne o ho
    apply read32_congr
    intro k hk
    exact hout _ (outside_other_descriptor i j hne _ (by omega) (by omega))
  have hother8 : ∀ j, j < MAX_MODULES → j ≠ i →
      read8 st2.mods (descriptor j + OFF_module_name) = read8 st.mods (descriptor j + OFF_module_name) := by
    intro j hj hne
    unfold read8
    rw [hout _ (outside_other_descriptor i j hne _ (by omega) (by omega))]
  have hbit : ∀ j, (module_start st2 i).module_bitmap.testBit j
      = (st.module_bitmap.testBit j || decide (i = j)) := by
    intro j
    rw [g1, hbm, set_bit_lt _ _ ib (by omega), testBit_set_bit]
  refine ⟨?_, ?_, ?_, ?_, ?_⟩
  · rw [g1, hbm]; exact Nat.mod_lt _ (by norm_num)
  · intro j hj
    rw [hbit, hm]
    by_cases e : j = i
    · subst e
      simp [hact]
    · rw [hother32 j hj e _ (by omega), ← ibit j hj]
      have : ¬ (i = j) := fun x => e x.symm
      simp [this]
  · intro j hj
    rw [hm]
    by_cases e : j = i
    · subst e; intro _; exact hidx
    · rw [hother32 j hj e _ (by omega), hother32 j hj e _ (by omega)]
      exact iidx j hj
  · rw [g2, hcnt, g1, hbm, set_bit_lt _ _ ib (by omega), bitmap_count_set _ _ hi16 hclear, icnt]
    apply Nat.mod_eq_of_lt
    have := bitmap_count_le st.module_bitmap
    unfold U32
    omega
  · intro j hj
    rw [hm]
    by_cases e : j = i
    · subst e; intro h; exact absurd hact h
    · rw [hother32 j hj e _ (by omega), hother8 j hj e]
      exact iname j hj

theorem inv_init (P : Platform) (fuel : Nat) (st : KState) (mod_name : List Nat)
    (mod_binary : Nat) (img : Mem) (mod_binary_size : Nat) (ret : Int) (st1 : KState)
    (img1 : Mem) (hinv : RegistryInv st)
    (hcap : ∀ i L, first_free_slot st.module_bitmap = some i →
      load_image P fuel st mod_name img i = some L → WithinCapacity fuel L mod_name)
    (hrel : ∀ i L, first_free_slot st.module_bitmap = some i →
      load_image P fuel st mod_name img i = some L → RelocsApart P mod_binary mod_binary_size L)
    (h : module_init P fuel st mod_name mod_binary img mod_binary_size = some (ret, st1, img1)) :
    RegistryInv st1 := by
  rcases module_init_cases P fuel st mod_name mod_binary img mod_binary_size ret st1 img1 h hrel
    with
    ⟨_, h1, _⟩ | ⟨_, i, st2, hi, hl, hs⟩
  · rw [h1]; exact hinv
  · rw [hs]
    exact inv_load P fuel st mod_name img i st2 img1 hinv hi (fun L hL => hcap i L hi hL) hl

theorem memzero_in (m : Mem) (p n a : Nat) (h1 : p ≤ a) (h2 : a < p + n) : memzero m p n a = 0 := by
  simp [memzero, h1, h2]

theorem memzero_out (m : Mem) (p n a : Nat) (h : a < p ∨ p + n ≤ a) : memzero m p n a = m a := by
  unfold memzero
  rw [if_neg (by omega)]

theorem inv_cleanup (st : KState) (mod_name : List Nat) (hinv : RegistryInv st)
    (hn : NonEmptyName mod_name) : RegistryInv (module_cleanup st mod_name).2 := by
  have LV := layout_values
  have hM : MAX_MODULES = 16 := rfl
  have hPG : PGSIZE = 4096 := rfl
  obtain ⟨ib, ibit, iidx, icnt, iname⟩ := hinv
  unfold module_cleanup
  cases hf : find_rmmod st.mods mod_name with
  | none => exact ⟨ib, ibit, iidx, icnt, iname⟩
  | some i =>
    simp only
    obtain ⟨hi, hm⟩ := find_rmmod_some st.mods mod_name i hf
    have hne := strcmp_eq_nonempty st.mods _ mod_name hn hm
    have hact : read32 st.mods (descriptor i + OFF_module_state) = MODULE_STATE_ACTIVE := by
      by_contra hc
      exact hne (iname i hi hc)
    have hidx := iidx i hi hact
    have hset : st.module_bitmap.testBit i = true := (ibit i hi).mpr hact
    have hzero32 : ∀ o, o + 4 ≤ 4096 →
        read32 (memzero st.mods (descriptor i) PGSIZE) (descriptor i + o) = 0 := by
      intro o ho
      have e : ∀ k, k < 4 → memzero st.mods (descriptor i) PGSIZE (descriptor i + o + k) = 0 :=
        fun k hk => memzero_in _ _ _ _ (by omega) (by omega)
      have e0 := e 0 (by omega)
      simp only [Nat.add_zero] at e0
      simp [read32, read8, e0, e 1 (by omega), e 2 (by omega), e 3 (by omega)]
    have hother32 : ∀ j, j < MAX_MODULES → j ≠ i → ∀ o, o + 4 ≤ 4804 →
        read32 (memzero st.mods (descriptor i) PGSIZE) (descriptor j + o)
          = read32 st.mods (descriptor j + o) := by
      intro j hj hne2 o ho
      apply read32_congr
      intro k hk
      apply memzero_out
      simp only [descriptor_eq]
      omega
    rw [hidx]
    refine ⟨clear_bit_lt _ _, ?_, ?_, ?_, ?_⟩
    · intro j hj
      rw [testBit_clear_bit _ i j (by omega) (by omega)]
      by_cases e : j = i
      · rw [e]
        rw [hzero32 _ (by omega)]
        have : ¬ (0 = MODULE_STATE_ACTIVE) := by decide
        simp [this]
      · rw [hother32 j hj e _ (by omega), ← ibit j hj]
        have : ¬ (i = j) := fun x => e x.symm
        simp [this]
    · intro j hj
      by_cases e : j = i
      · rw [e]
        rw [hzero32 _ (by omega)]
        intro h; exact absurd h (by decide)
      · rw [hother32 j hj e _ (by omega), hother32 j hj e _ (by omega)]
        exact iidx j hj
    · have h1 := bitmap_count_clear st.module_bitmap i hi hset
      have h2 := bitmap_count_pos st.module_bitmap i hi hset
      have h3 := bitmap_count_le st.module_bitmap
      show (st.module_count + U32 - 1) % U32
        = bitmap_count ((st.module_bitmap &&& (0xFFFFFFFF ^^^ ((1 <<< (i % 32)) % U32))) % 65536)
      obtain ⟨c, hc⟩ : ∃ c, c = bitmap_count
          ((st.module_bitmap &&& (0xFFFFFFFF ^^^ ((1 <<< (i % 32)) % U32))) % 65536) := ⟨_, rfl⟩
      rw [← hc] at h1 ⊢
      rw [icnt]
      have hU : U32 = 4294967296 := rfl
      rw [hU]
      omega
    · intro j hj
      by_cases e : j = i
      · rw [e]
        intro _
        have := memzero_in st.mods (descriptor i) PGSIZE (descriptor i + OFF_module_name)
          (by omega) (by omega)
        simp [read8, this]
      · rw [hother32 j hj e _ (by omega)]
        have : read8 (memzero st.mods (descriptor i) PGSIZE) (descriptor j + OFF_module_name)
            = read8 st.mods (descriptor j + OFF_module_name) := by
          unfold read8
          rw [memzero_out]
          simp only [descriptor_eq]
          omega
        rw [this]
        exact iname j hj

theorem reachable_inv (P : Platform) (st : KState) (h : Reachable P st) : RegistryInv st := by
  induction h with
  | empty st hz hb hc => exact inv_empty st hz hb hc
  | init st fuel mod_name buffer img size ret st1 img1 _ _ hcap hrel h ih =>
    exact inv_init P fuel st mod_name buffer img size ret st1 img1 ih hcap hrel h
  | cleanup st mod_name _ hn ih => exact inv_cleanup st mod_name ih hn

theorem cbytes_a_nonempty : NonEmptyName (cbytes "a") :=
  ⟨97, [], by decide, by decide⟩

theorem demo_within_capacity :
    (load_image demo_platform 64 boot_state (cbytes "a") demo_image 0).isSome = true ∧
    WithinCapacity 64 (demo_loaded boot_state "a" 0) (cbytes "a") ∧
    demo_init_ret boot_state "a" = some 0 ∧
    first_free_slot boot_state.module_bitmap = some 0 ∧
    RelocsApart demo_platform demo_buffer 451 (demo_loaded boot_state "a" 0) := by
  decide!

theorem demo_reachable : Reachable demo_platform (demo_init boot_state "a") := by
  obtain ⟨h1, h2, h3, h4, h5⟩ := demo_within_capacity
  have key : ∀ i L, first_free_slot boot_state.module_bitmap = some i →
      load_image demo_platform 64 boot_state (cbytes "a") demo_image i = some L →
      demo_loaded boot_state "a" 0 = L := by
    intro i L hi hL
    have e1 : 0 = i := Option.some.inj (h4.symm.trans hi)
    rw [← e1] at hL
    exact Option.some.inj ((demo_loaded_eq boot_state "a" 0 h1).symm.trans hL)
  refine Reachable.init boot_state 64 (cbytes "a") demo_buffer demo_image 451 0 _
    (demo_init_image boot_state "a")
    (Reachable.empty boot_state (fun _ _ => rfl) rfl rfl) cbytes_a_nonempty ?_ ?_
    (demo_init_eq boot_state "a" h3)
  · intro i L hi hL
    rw [← key i L hi hL]
    exact h2
  · intro i L hi hL
    rw [← key i L hi hL]
    exact h5

theorem common_step (img : Mem) (section_base module sh_count : Nat) (b : Bases)
    (sym : Nat) (name : List Nat) (s : SymState)
    (hc : read16 img (sym + ST_sym_shndx) = ELF_SHN_COMMON)
    (ha : 0 < read32 img (sym + ST_sym_value))
    (hw : s.common_block_addr + read32 img (sym + ST_sym_value) < U32) :
    publish_object img section_base module sh_count b sym name s
      = some { s with
          symtab := insert_symbol s.symtab name (s.common_block_addr -
            s.common_block_addr % read32 img (sym + ST_sym_value) + read32 img (sym + ST_sym_value)),
          common_block_addr := (s.common_block_addr -
            s.common_block_addr % read32 img (sym + ST_sym_value) + read32 img (sym + ST_sym_value)
            + read32 img (sym + ST_sym_size)) % U32 } := by
  have hle := Nat.mod_le s.common_block_addr (read32 img (sym + ST_sym_value))
  have hne : read32 img (sym + ST_sym_value) ≠ 0 := by omega
  have hp : (s.common_block_addr - s.common_block_addr % read32 img (sym + ST_sym_value)
      + read32 img (sym + ST_sym_value)) % U32
      = s.common_block_addr - s.common_block_addr % read32 img (sym + ST_sym_value)
        + read32 img (sym + ST_sym_value) := Nat.mod_eq_of_lt (by omega)
  unfold publish_object
  rw [if_neg (by rw [hc]; simp), if_neg hne]
  simp only [hp]

theorem aligned_above (w a : Nat) (ha : 0 < a) :
    a ∣ (w - w % a + a) ∧ w < w - w % a + a ∧ w - w % a + a ≤ w + a := by
  have hle := Nat.mod_le w a
  have hlt := Nat.mod_lt w ha
  refine ⟨?_, by omega, by omega⟩
  have h1 : a ∣ (w - w % a) := Nat.dvd_sub_mod w
  exact Nat.dvd_add h1 (Nat.dvd_refl a)

/-! ## `module_display` -/

theorem elf_layout :
    SH_sh_name = 0 ∧ SH_sh_type = 4 ∧ SH_sh_flags = 8 ∧ SH_sh_addr = 12 ∧ SH_sh_offset = 16 ∧
    SH_sh_size = 20 ∧ SIZEOF_SECTHDR = 40 ∧ SEC_sh_name = 0 ∧ SEC_sh_start = 16 ∧
    SEC_sh_size = 20 ∧ SEC_sh_type = 24 ∧ SEC_sh_offset = 28 ∧ SIZEOF_SECTION = 32 := by
  decide

theorem place_section_skip (module module_base : Nat) (s : SectState) (sh : Nat)
    (h : qualifies s.img sh = false) : place_section module module_base s sh = s := by
  unfold qualifies at h
  unfold place_section
  by_cases h1 : read32 s.img (sh + SH_sh_flags) &&& SHF_ALLOC ≠ 0 ∧ read32 s.img (sh + SH_sh_size) ≠ 0
  · rw [if_pos h1]
    have h3 : ¬ read32 s.img (sh + SH_sh_addr) = 0 := by
      intro h3
      simp [h1.1, h1.2, h3] at h
    rw [if_neg h3]
  · rw [if_neg h1]

theorem place_section_take (module module_base : Nat) (s : SectState) (sh : Nat)
    (h : qualifies s.img sh = true) :
    (place_section module module_base s sh).img
      = write32 s.img (sh + SH_sh_addr) ((module_base + s.sh_size) % U32) ∧
    (place_section module module_base s sh).data
      = (if read32 s.img (sh + SH_sh_type) = ELF_SHT_NOBITS then
          dmemzero s.data ((module_base + s.sh_size) % U32) (read32 s.img (sh + SH_sh_size))
        else dcopy s.data ((module_base + s.sh_size) % U32)
          (write32 s.img (sh + SH_sh_addr) ((module_base + s.sh_size) % U32))
          (read32 s.img (sh + SH_sh_offset)) (read32 s.img (sh + SH_sh_size))) ∧
    (place_section module module_base s sh).mods
      = write32 (write32 (write32 (write32 s.mods
          (section_rec module s.sh_count + SEC_sh_start) ((module_base + s.sh_size) % U32))
          (section_rec module s.sh_count + SEC_sh_size) (read32 s.img (sh + SH_sh_size)))
          (section_rec module s.sh_count + SEC_sh_type) (read32 s.img (sh + SH_sh_type)))
          (section_rec module s.sh_count + SEC_sh_offset) (read32 s.img (sh + SH_sh_name)) ∧
    (place_section module module_base s sh).sh_size
      = (s.sh_size + read32 s.img (sh + SH_sh_size)) % U32 ∧
    (place_section module module_base s sh).sh_count = (s.sh_count + 1) % U32 := by
  obtain ⟨e0, e4, e8, e12, e16, e20, e40, _⟩ := elf_layout
  unfold qualifies at h
  simp only [Bool.and_eq_true, decide_eq_true_eq] at h
  obtain ⟨⟨h1, h2⟩, h3⟩ := h
  have r1 : read32 (write32 s.img (sh + SH_sh_addr) ((module_base + s.sh_size) % U32))
      (sh + SH_sh_addr) = (module_base + s.sh_size) % U32 := by
    rw [read32_write32_same, Nat.mod_mod]
  have r2 : ∀ o, o + 4 ≤ 12 ∨ 16 ≤ o →
      read32 (write32 s.img (sh + SH_sh_addr) ((module_base + s.sh_size) % U32)) (sh + o)
        = read32 s.img (sh + o) :=
    fun o ho => read32_write32_other _ _ _ _ (by omega)
  have t := r2 SH_sh_type (by omega)
  have z := r2 SH_sh_size (by omega)
  have f := r2 SH_sh_offset (by omega)
  have nm := r2 SH_sh_name (by omega)
  unfold place_section
  rw [if_pos ⟨h1, h2⟩, if_pos h3]
  simp only [r1, t, z, f, nm, and_self, true_and, and_true]
  rfl

theorem section_headers_succ (section_base n : Nat) :
    section_headers section_base (n + 1)
      = section_headers section_base n ++ [section_base + SIZEOF_SECTHDR * n] := by
  unfold section_headers
  rw [List.range_succ, List.map_append]
  rfl

theorem placed_headers_succ (img : Mem) (section_base n : Nat) :
    placed_headers img section_base (n + 1)
      = placed_headers img section_base n ++
        (if qualifies img (section_base + SIZEOF_SECTHDR * n) = true
          then [section_base + SIZEOF_SECTHDR * n] else []) := by
  unfold placed_headers
  rw [section_headers_succ, List.filter_append]
  congr 1
  by_cases h : qualifies img (section_base + SIZEOF_SECTHDR * n) = true
  · rw [if_pos h, List.filter_cons_of_pos h]; rfl
  · rw [if_neg h, List.filter_cons_of_neg h]; rfl

theorem placed_headers_mem (img : Mem) (section_base n sh : Nat)
    (h : sh ∈ placed_headers img section_base n) :
    ∃ k, k < n ∧ sh = section_base + SIZEOF_SECTHDR * k ∧ qualifies img sh = true := by
  unfold placed_headers section_headers at h
  rw [List.mem_filter, List.mem_map] at h
  obtain ⟨⟨k, hk, e⟩, hq⟩ := h
  exact ⟨k, List.mem_range.mp hk, e.symm, hq⟩

theorem placed_headers_length_le (img : Mem) (section_base n : Nat) :
    (placed_headers img section_base n).length ≤ n := by
  unfold placed_headers
  have := List.length_filter_le (qualifies img) (section_headers section_base n)
  rw [section_headers_length] at this
  exact this

theorem load_sections_succ (module module_base section_base n : Nat) (s : SectState) :
    load_sections module module_base section_base (n + 1) s
      = load_section module module_base (load_sections module module_base section_base n s)
          (section_base + SIZEOF_SECTHDR * n) := by
  unfold load_sections
  rw [section_headers_succ, List.foldl_append]
  rfl

theorem qualifies_congr (img img2 : Mem) (sh : Nat)
    (h : ∀ a, sh ≤ a → a < sh + SIZEOF_SECTHDR → img2 a = img a) :
    qualifies img2 sh = qualifies img sh := by
  obtain ⟨e0, e4, e8, e12, e16, e20, e40, _⟩ := elf_layout
  unfold qualifies
  rw [read32_congr img img2 (sh + SH_sh_flags) (fun k hk => h _ (by omega) (by omega)),
    read32_congr img img2 (sh + SH_sh_size) (fun k hk => h _ (by omega) (by omega)),
    read32_congr img img2 (sh + SH_sh_addr) (fun k hk => h _ (by omega) (by omega))]

theorem sections_placed_note (img : Mem) (module module_base section_base n : Nat)
    (s : SectState) (sh : Nat) (h : SectionsPlaced img module module_base section_base n s) :
    SectionsPlaced img module module_base section_base n (note_tables s sh) := by
  obtain ⟨c1, c2, c3, _⟩ := note_tables_counts s sh
  have c4 := note_tables_mods s sh
  unfold SectionsPlaced at h ⊢
  rw [c1, c2, c3, c4]
  exact h

theorem section_sizes_snoc (img : Mem) (l : List Nat) (sh : Nat) :
    section_sizes img (l ++ [sh]) = section_sizes img l ++ [read32 img (sh + SH_sh_size)] := by
  unfold section_sizes
  rw [List.map_append]
  rfl

theorem section_sizes_length (img : Mem) (l : List Nat) :
    (section_sizes img l).length = l.length := by
  unfold section_sizes
  rw [List.length_map]

theorem start_of_snoc_lt (img : Mem) (module_base : Nat) (l : List Nat) (sh k : Nat)
    (hk : k ≤ l.length) : start_of img module_base (l ++ [sh]) k = start_of img module_base l k := by
  unfold start_of
  rw [section_sizes_snoc, List.take_append_of_le_length (by rw [section_sizes_length]; exact hk)]

theorem start_of_length (img : Mem) (module_base : Nat) (l : List Nat) :
    start_of img module_base l l.length = module_base + (section_sizes img l).sum := by
  unfold start_of
  rw [← section_sizes_length img l, List.take_length]

theorem read32_four_writes (m : Mem) (r a b c d : Nat) :
    read32 (write32 (write32 (write32 (write32 m (r + 16) a) (r + 20) b) (r + 24) c) (r + 28) d)
        (r + 16) = a % U32 ∧
    read32 (write32 (write32 (write32 (write32 m (r + 16) a) (r + 20) b) (r + 24) c) (r + 28) d)
        (r + 20) = b % U32 ∧
    read32 (write32 (write32 (write32 (write32 m (r + 16) a) (r + 20) b) (r + 24) c) (r + 28) d)
        (r + 24) = c % U32 ∧
    read32 (write32 (write32 (write32 (write32 m (r + 16) a) (r + 20) b) (r + 24) c) (r + 28) d)
        (r + 28) = d % U32 := by
  refine ⟨?_, ?_, ?_, ?_⟩
  · rw [read32_write32_other _ _ _ _ (by omega), read32_write32_other _ _ _ _ (by omega),
      read32_write32_other _ _ _ _ (by omega), read32_write32_same]
  · rw [read32_write32_other _ _ _ _ (by omega), read32_write32_other _ _ _ _ (by omega),
      read32_write32_same]
  · rw [read32_write32_other _ _ _ _ (by omega), read32_write32_same]
  · rw [read32_write32_same]

theorem read32_four_writes_other (m : Mem) (r a b c d x : Nat) (h : x + 4 ≤ r + 16 ∨ r + 32 ≤ x) :
    read32 (write32 (write32 (write32 (write32 m (r + 16) a) (r + 20) b) (r + 24) c) (r + 28) d) x
      = read32 m x := by
  rw [read32_write32_other _ _ _ _ (by omega), read32_write32_other _ _ _ _ (by omega),
    read32_write32_other _ _ _ _ (by omega), read32_write32_other _ _ _ _ (by omega)]

theorem sections_placed_take (img : Mem) (module module_base section_base n : Nat)
    (s : SectState) (hn : n + 1 < U32)
    (hS : SectionsPlaced img module module_base section_base n s)
    (hqv : qualifies img (section_base + SIZEOF_SECTHDR * n) = true) :
    SectionsPlaced img module module_base section_base (n + 1)
      (place_section module module_base s (section_base + SIZEOF_SECTHDR * n)) := by
  obtain ⟨e0, e4, e8, e12, e16, e20, e40, f0, f16, f20, f24, f28, f32⟩ := elf_layout
  obtain ⟨I1, I2, I3, I4⟩ := hS
  have hmem : ∀ sh2, sh2 ∈ placed_headers img section_base n →
      sh2 + SIZEOF_SECTHDR ≤ section_base + SIZEOF_SECTHDR * n := by
    intro sh2 h2
    obtain ⟨k, hk, e, _⟩ := placed_headers_mem img section_base n sh2 h2
    rw [e, e40]
    omega
  have hfield : ∀ a, section_base + SIZEOF_SECTHDR * n ≤ a →
      a < section_base + SIZEOF_SECTHDR * n + SIZEOF_SECTHDR → s.img a = img a := by
    intro a h1 h2
    apply I1
    rintro ⟨sh2, hm, hb1, hb2⟩
    have := hmem sh2 hm
    omega
  have hq : qualifies s.img (section_base + SIZEOF_SECTHDR * n) = true := by
    rw [qualifies_congr img s.img _ hfield]; exact hqv
  have rd : ∀ o, o + 4 ≤ 40 → read32 s.img (section_base + SIZEOF_SECTHDR * n + o)
      = read32 img (section_base + SIZEOF_SECTHDR * n + o) :=
    fun o ho => read32_congr img s.img _ (fun k hk => hfield _ (by omega) (by omega))
  obtain ⟨pi, _, pm, pz, pc⟩ := place_section_take module module_base s _ hq
  have hlen := placed_headers_length_le img section_base n
  unfold SectionsPlaced
  rw [placed_headers_succ, if_pos hqv, pi, pm, pz, pc]
  refine ⟨?_, ?_, ?_, ?_⟩
  · intro a ha
    rw [write32_other _ _ _ _ (by
      by_contra hc
      exact ha ⟨_, List.mem_append_right _ (List.mem_singleton_self _), by omega, by omega⟩)]
    apply I1
    rintro ⟨sh2, hm, hb⟩
    exact ha ⟨sh2, List.mem_append_left _ hm, hb⟩
  · rw [I2, List.length_append, List.length_singleton]
    exact Nat.mod_eq_of_lt (by omega)
  · rw [I3, section_sizes_snoc, List.sum_append, List.sum_singleton, rd _ (by omega),
      Nat.mod_add_mod]
  · intro k hk
    rw [List.length_append, List.length_singleton] at hk
    by_cases hk2 : k < (placed_headers img section_base n).length
    · obtain ⟨a1, a2, a3, a4, a5⟩ := I4 k hk2
      have hg : (placed_headers img section_base n).getD k 0 ∈ placed_headers img section_base n := by
        rw [List.getD_eq_getElem _ _ hk2]
        exact List.getElem_mem hk2
      have hsep := hmem _ hg
      rw [List.getD_append _ _ _ _ hk2, start_of_snoc_lt img module_base _ _ k (by omega)]
      have hrec : section_rec module k + 32
          ≤ section_rec module (placed_headers img section_base n).length := by
        simp only [section_rec_eq]; omega
      simp only [f16, f20, f24, f28] at a2 a3 a4 a5 ⊢
      rw [I2]
      refine ⟨?_, ?_, ?_, ?_, ?_⟩
      · rw [read32_write32_other _ _ _ _ (by omega)]; exact a1
      · rw [read32_four_writes_other _ _ _ _ _ _ _ (by omega)]; exact a2
      · rw [read32_four_writes_other _ _ _ _ _ _ _ (by omega)]; exact a3
      · rw [read32_four_writes_other _ _ _ _ _ _ _ (by omega)]; exact a4
      · rw [read32_four_writes_other _ _ _ _ _ _ _ (by omega)]; exact a5
    · have hk3 : k = (placed_headers img section_base n).length := by omega
      rw [hk3, List.getD_append_right _ _ _ _ (Nat.le_refl _), Nat.sub_self]
      have hst : start_of img module_base (placed_headers img section_base n ++
          [section_base + SIZEOF_SECTHDR * n]) (placed_headers img section_base n).length
          = module_base + (section_sizes img (placed_headers img section_base n)).sum := by
        rw [start_of_snoc_lt img module_base _ _ _ (Nat.le_refl _), start_of_length]
      have hA : (module_base + s.sh_size) % U32
          = (module_base + (section_sizes img (placed_headers img section_base n)).sum) % U32 := by
        rw [I3, Nat.add_mod_mod]
      rw [hst, I2, f16, f20, f24, f28]
      obtain ⟨w1, w2, w3, w4⟩ := read32_four_writes s.mods
        (section_rec module (placed_headers img section_base n).length)
        ((module_base + s.sh_size) % U32)
        (read32 s.img (section_base + SIZEOF_SECTHDR * n + SH_sh_size))
        (read32 s.img (section_base + SIZEOF_SECTHDR * n + SH_sh_type))
        (read32 s.img (section_base + SIZEOF_SECTHDR * n + SH_sh_name))
      refine ⟨?_, ?_, ?_, ?_, ?_⟩
      · show read32 _ (section_base + SIZEOF_SECTHDR * n + SH_sh_addr) = _
        rw [read32_write32_same, Nat.mod_mod, hA]
      · rw [w1, Nat.mod_mod, hA]
      · rw [w2, Nat.mod_eq_of_lt (read32_lt _ _)]
        exact rd _ (by omega)
      · rw [w3, Nat.mod_eq_of_lt (read32_lt _ _)]
        exact rd _ (by omega)
      · rw [w4, Nat.mod_eq_of_lt (read32_lt _ _)]
        exact rd _ (by omega)

theorem load_sections_placed (img data0 mods0 : Mem) (module module_base section_base : Nat) :
    ∀ n, n < U32 → SectionsPlaced img module module_base section_base n
      (load_sections module module_base section_base n
        ⟨img, data0, mods0, 0, 0, none, none, none⟩) := by
  intro n
  induction n with
  | zero =>
    intro _
    refine ⟨fun a _ => rfl, rfl, rfl, ?_⟩
    intro k hk
    exact absurd hk (Nat.not_lt_zero k)
  | succ n ih =>
    intro hn
    have hS := ih (by omega)
    rw [load_sections_succ]
    unfold load_section
    apply sections_placed_note
    by_cases hqv : qualifies img (section_base + SIZEOF_SECTHDR * n) = true
    · exact sections_placed_take img module module_base section_base n _ hn hS hqv
    · have hf : qualifies img (section_base + SIZEOF_SECTHDR * n) = false := by
        simpa using hqv
      obtain ⟨e0, e4, e8, e12, e16, e20, e40, _⟩ := elf_layout
      have hfield : ∀ a, section_base + SIZEOF_SECTHDR * n ≤ a →
          a < section_base + SIZEOF_SECTHDR * n + SIZEOF_SECTHDR →
          (load_sections module module_base section_base n
            ⟨img, data0, mods0, 0, 0, none, none, none⟩).img a = img a := by
        intro a h1 h2
        apply hS.1
        rintro ⟨sh2, hm, hb1, hb2⟩
        obtain ⟨k, hk, e, _⟩ := placed_headers_mem img section_base n sh2 hm
        rw [e, e40] at hb1 hb2
        rw [e40] at h1
        omega
      rw [place_section_skip _ _ _ _ (by rw [qualifies_congr img _ _ hfield]; exact hf)]
      unfold SectionsPlaced
      rw [placed_headers_succ, if_neg hqv, List.append_nil]
      exact hS

theorem wrap_offset (x p n : Nat) (hx : x < U32) (hp : p + n ≤ U32) :
    ((x + U32 - p % U32) % U32 < n ↔ (p ≤ x ∧ x < p + n)) ∧
    (p ≤ x → x < p + n → (x + U32 - p % U32) % U32 = x - p) := by
  unfold U32 at *
  omega

theorem leading_sum_le (img : Mem) : ∀ (l : List Nat) (k : Nat), k < l.length →
    ((section_sizes img l).take k).sum + read32 img (l.getD k 0 + SH_sh_size)
      ≤ (section_sizes img l).sum := by
  intro l
  induction l with
  | nil => intro k hk; simp at hk
  | cons x t ih =>
    intro k hk
    cases k with
    | zero => simp [section_sizes]
    | succ k =>
      have := ih k (by simpa using hk)
      simp only [section_sizes, List.map_cons, List.take_succ_cons, List.sum_cons,
        List.getD_cons_succ] at this ⊢
      omega

theorem sections_data_note (img data0 : Mem) (module_base section_base N n : Nat)
    (s : SectState) (sh : Nat) (h : SectionsData img data0 module_base section_base N n s) :
    SectionsData img data0 module_base section_base N n (note_tables s sh) := by
  obtain ⟨_, _, _, c4⟩ := note_tables_counts s sh
  unfold SectionsData at h ⊢
  rw [c4]
  exact h

theorem sections_data_take (img data0 : Mem) (module module_base section_base N n : Nat)
    (s : SectState) (hn : n + 1 < U32)
    (hS : SectionsPlaced img module module_base section_base n s)
    (hD : SectionsData img data0 module_base section_base N n s)
    (hqv : qualifies img (section_base + SIZEOF_SECTHDR * n) = true)
    (hfit : module_base + (section_sizes img (placed_headers img section_base (n + 1))).sum ≤ U32)
    (hsep : ContentApart img section_base N →
      read32 img (section_base + SIZEOF_SECTHDR * n + SH_sh_type) ≠ ELF_SHT_NOBITS →
      ∀ j, j < read32 img (section_base + SIZEOF_SECTHDR * n + SH_sh_size) →
        ¬ InAddrFields (placed_headers img section_base (n + 1))
          (read32 img (section_base + SIZEOF_SECTHDR * n + SH_sh_offset) + j)) :
    SectionsData img data0 module_base section_base N (n + 1)
      (place_section module module_base s (section_base + SIZEOF_SECTHDR * n)) := by
  obtain ⟨e0, e4, e8, e12, e16, e20, e40, f0, f16, f20, f24, f28, f32⟩ := elf_layout
  have hP := sections_placed_take img module module_base section_base n s hn hS hqv
  obtain ⟨I1, I2, I3, I4⟩ := hS
  obtain ⟨D1, D2⟩ := hD
  have hmem : ∀ sh2, sh2 ∈ placed_headers img section_base n →
      sh2 + SIZEOF_SECTHDR ≤ section_base + SIZEOF_SECTHDR * n := by
    intro sh2 h2
    obtain ⟨k, hk, e, _⟩ := placed_headers_mem img section_base n sh2 h2
    rw [e, e40]
    omega
  have hfield : ∀ a, section_base + SIZEOF_SECTHDR * n ≤ a →
      a < section_base + SIZEOF_SECTHDR * n + SIZEOF_SECTHDR → s.img a = img a := by
    intro a h1 h2
    apply I1
    rintro ⟨sh2, hm, hb1, hb2⟩
    have := hmem sh2 hm
    omega
  have hq : qualifies s.img (section_base + SIZEOF_SECTHDR * n) = true := by
    rw [qualifies_congr img s.img _ hfield]; exact hqv
  have rd : ∀ o, o + 4 ≤ 40 → read32 s.img (section_base + SIZEOF_SECTHDR * n + o)
      = read32 img (section_base + SIZEOF_SECTHDR * n + o) :=
    fun o ho => read32_congr img s.img _ (fun k hk => hfield _ (by omega) (by omega))
  obtain ⟨pi, pd, _, _, _⟩ := place_section_take module module_base s _ hq
  rw [placed_headers_succ, if_pos hqv, section_sizes_snoc, List.sum_append,
    List.sum_singleton] at hfit
  have hsz : s.sh_size = (section_sizes img (placed_headers img section_base n)).sum := by
    rw [I3]
    exact Nat.mod_eq_of_lt (by
      have := read32_lt img (section_base + SIZEOF_SECTHDR * n + SH_sh_size)
      unfold qualifies at hqv
      simp only [Bool.and_eq_true, decide_eq_true_eq] at hqv
      have h2 := hqv.1.2
      omega)
  have hz0 : read32 img (section_base + SIZEOF_SECTHDR * n + SH_sh_size) ≠ 0 := by
    unfold qualifies at hqv
    simp only [Bool.and_eq_true, decide_eq_true_eq] at hqv
    exact hqv.1.2
  have hA : (module_base + s.sh_size) % U32
      = module_base + (section_sizes img (placed_headers img section_base n)).sum := by
    rw [hsz]
    exact Nat.mod_eq_of_lt (by omega)
  rw [hA, rd _ (by omega), rd _ (by omega), rd _ (by omega)] at pd
  rw [hA] at pi
  -- the data area after the step
  have hdata : ∀ x, x < U32 →
      ((module_base + (section_sizes img (placed_headers img section_base n)).sum ≤ x ∧
        x < module_base + (section_sizes img (placed_headers img section_base n)).sum
          + read32 img (section_base + SIZEOF_SECTHDR * n + SH_sh_size)) →
        (place_section module module_base s (section_base + SIZEOF_SECTHDR * n)).data x
          = if read32 img (section_base + SIZEOF_SECTHDR * n + SH_sh_type) = ELF_SHT_NOBITS
            then 0
            else read8 (place_section module module_base s
                (section_base + SIZEOF_SECTHDR * n)).img
              (read32 img (section_base + SIZEOF_SECTHDR * n + SH_sh_offset)
                + (x - (module_base
                  + (section_sizes img (placed_headers img section_base n)).sum)))) ∧
      (¬ (module_base + (section_sizes img (placed_headers img section_base n)).sum ≤ x ∧
        x < module_base + (section_sizes img (placed_headers img section_base n)).sum
          + read32 img (section_base + SIZEOF_SECTHDR * n + SH_sh_size)) →
        (place_section module module_base s (section_base + SIZEOF_SECTHDR * n)).data x
          = s.data x) := by
    intro x hx
    obtain ⟨w1, w2⟩ := wrap_offset x
      (module_base + (section_sizes img (placed_headers img section_base n)).sum)
      (read32 img (section_base + SIZEOF_SECTHDR * n + SH_sh_size)) hx (by omega)
    rw [pd, pi]
    constructor
    · intro hin
      by_cases ht : read32 img (section_base + SIZEOF_SECTHDR * n + SH_sh_type) = ELF_SHT_NOBITS
      · rw [if_pos ht, if_pos ht]
        unfold dmemzero
        rw [if_pos (w1.mpr hin)]
      · rw [if_neg ht, if_neg ht]
        unfold dcopy
        rw [if_pos (w1.mpr hin), w2 hin.1 hin.2]
    · intro hout
      by_cases ht : read32 img (section_base + SIZEOF_SECTHDR * n + SH_sh_type) = ELF_SHT_NOBITS
      · rw [if_pos ht]
        unfold dmemzero
        rw [if_neg (fun h => hout (w1.mp h))]
      · rw [if_neg ht]
        unfold dcopy
        rw [if_neg (fun h => hout (w1.mp h))]
  unfold SectionsData
  rw [placed_headers_succ, if_pos hqv, section_sizes_snoc, List.sum_append, List.sum_singleton]
  refine ⟨?_, ?_⟩
  · intro x hx hout
    rw [(hdata x hx).2 (by omega)]
    exact D1 x hx (by omega)
  · intro hc k hk j hj
    have D2 := D2 hc
    have hsep := hsep hc
    rw [List.length_append, List.length_singleton] at hk
    by_cases hk2 : k < (placed_headers img section_base n).length
    · have hps := leading_sum_le img (placed_headers img section_base n) k hk2
      rw [List.getD_append _ _ _ _ hk2] at hj ⊢
      rw [start_of_snoc_lt img module_base _ _ k (by omega)]
      have hlt : start_of img module_base (placed_headers img section_base n) k + j
          < module_base + (section_sizes img (placed_headers img section_base n)).sum := by
        unfold start_of
        omega
      rw [(hdata _ (by omega)).2 (by omega)]
      exact D2 k hk2 j hj
    · have hk3 : k = (placed_headers img section_base n).length := by omega
      rw [hk3, List.getD_append_right _ _ _ _ (Nat.le_refl _), Nat.sub_self] at hj ⊢
      rw [start_of_snoc_lt img module_base _ _ _ (Nat.le_refl _), start_of_length]
      have hj2 : j < read32 img (section_base + SIZEOF_SECTHDR * n + SH_sh_size) := hj
      show (place_section module module_base s (section_base + SIZEOF_SECTHDR * n)).data _
        = if read32 img (section_base + SIZEOF_SECTHDR * n + SH_sh_type) = ELF_SHT_NOBITS then 0
          else read8 img (read32 img (section_base + SIZEOF_SECTHDR * n + SH_sh_offset) + j)
      rw [(hdata _ (by omega)).1 ⟨by omega, by omega⟩, Nat.add_sub_cancel_left]
      by_cases ht : read32 img (section_base + SIZEOF_SECTHDR * n + SH_sh_type) = ELF_SHT_NOBITS
      · rw [if_pos ht, if_pos ht]
      · rw [if_neg ht, if_neg ht]
        unfold read8
        rw [hP.1 _ (hsep ht j hj2)]

theorem placed_sum_mono (img : Mem) (section_base n : Nat) :
    (section_sizes img (placed_headers img section_base n)).sum
      ≤ (section_sizes img (placed_headers img section_base (n + 1))).sum := by
  rw [placed_headers_succ]
  unfold section_sizes
  rw [List.map_append, List.sum_append]
  omega

theorem in_addr_fields_index (img : Mem) (section_base n a : Nat)
    (h : InAddrFields (placed_headers img section_base n) a) :
    ∃ k, k < n ∧ section_base + SIZEOF_SECTHDR * k + SH_sh_addr ≤ a ∧
      a < section_base + SIZEOF_SECTHDR * k + SH_sh_addr + 4 := by
  obtain ⟨sh, hm, h1, h2⟩ := h
  obtain ⟨k, hk, e, _⟩ := placed_headers_mem img section_base n sh hm
  rw [e] at h1 h2
  exact ⟨k, hk, h1, h2⟩

theorem load_sections_data (img data0 mods0 : Mem) (module module_base section_base N : Nat) :
    ∀ n, n ≤ N → n < U32 →
      module_base + (section_sizes img (placed_headers img section_base n)).sum ≤ U32 →
      SectionsData img data0 module_base section_base N n
        (load_sections module module_base section_base n
          ⟨img, data0, mods0, 0, 0, none, none, none⟩) := by
  intro n
  induction n with
  | zero =>
    intro _ _ _
    refine ⟨fun x _ _ => rfl, ?_⟩
    intro _ k hk
    exact absurd hk (Nat.not_lt_zero k)
  | succ n ih =>
    intro hN hn hfit
    have hmono := placed_sum_mono img section_base n
    have hD := ih (by omega) (by omega) (by omega)
    have hS := load_sections_placed img data0 mods0 module module_base section_base n (by omega)
    rw [load_sections_succ]
    unfold load_section
    apply sections_data_note
    by_cases hqv : qualifies img (section_base + SIZEOF_SECTHDR * n) = true
    · apply sections_data_take img data0 module module_base section_base N n _ hn hS hD hqv hfit
      intro hsep ht j hj hin
      obtain ⟨k2, hk2, h1, h2⟩ := in_addr_fields_index img section_base (n + 1) _ hin
      exact hsep n (by omega) hqv ht j hj k2 (by omega) ⟨h1, h2⟩
    · have hf : qualifies img (section_base + SIZEOF_SECTHDR * n) = false := by
        simpa using hqv
      obtain ⟨e0, e4, e8, e12, e16, e20, e40, _⟩ := elf_layout
      have hfield : ∀ a, section_base + SIZEOF_SECTHDR * n ≤ a →
          a < section_base + SIZEOF_SECTHDR * n + SIZEOF_SECTHDR →
          (load_sections module module_base section_base n
            ⟨img, data0, mods0, 0, 0, none, none, none⟩).img a = img a := by
        intro a h1 h2
        apply hS.1
        rintro ⟨sh2, hm, hb1, hb2⟩
        obtain ⟨k, hk, e, _⟩ := placed_headers_mem img section_base n sh2 hm
        rw [e, e40] at hb1 hb2
        rw [e40] at h1
        omega
      rw [place_section_skip _ _ _ _ (by rw [qualifies_congr img _ _ hfield]; exact hf)]
      unfold SectionsData
      rw [placed_headers_succ, if_neg hqv, List.append_nil]
      exact hD

/-- The state of the first pass inside `load_image`. -/
theorem load_image_sections (P : Platform) (fuel : Nat) (st : KState) (mod_name : List Nat)
    (img : Mem) (i : Nat) (L : Loaded)
    (hL : load_image P fuel st mod_name img i = some L) :
    SectionsPlaced img (descriptor i) ((P.MODULE_DATA + i * PGSIZE) % U32)
      (read32 img ELF_e_shoff) (read16 img ELF_e_shnum) L.S ∧
    ((P.MODULE_DATA + i * PGSIZE) % U32 + (section_sizes img
        (placed_headers img (read32 img ELF_e_shoff) (read16 img ELF_e_shnum))).sum ≤ U32 →
      SectionsData img st.data ((P.MODULE_DATA + i * PGSIZE) % U32)
        (read32 img ELF_e_shoff) (read16 img ELF_e_shnum) (read16 img ELF_e_shnum) L.S) := by
  obtain ⟨mods5, sym_sh, str_sh, hmod, hsb, hstr, hS, _⟩ :=
    load_image_unfold P fuel st mod_name img i L hL
  have h16 := read16_lt img ELF_e_shnum
  have hlt : read16 img ELF_e_shnum < U32 := by unfold U32; omega
  rw [hS]
  exact ⟨load_sections_placed img st.data _ _ _ _ _ hlt,
    fun hfit => load_sections_data img st.data _ _ _ _ _ _ (Nat.le_refl _) hlt hfit⟩

theorem wide_number_eq : pack wide_bytes = wide_number := by
  decide!

theorem longname_number_eq : pack longname_bytes = longname_number := by
  decide!

theorem wide_load :
    load_ret wide_image boot_state "w" = some 0 ∧
    (load_image demo_platform 64 boot_state (cbytes "w") wide_image 0).isSome = true ∧
    WithinCapacity 64 (load_locals wide_image boot_state "w" 0) (cbytes "w") ∧
    ContentApart wide_image (read32 wide_image ELF_e_shoff) (read16 wide_image ELF_e_shnum) ∧
    (demo_platform.MODULE_DATA + 0 * PGSIZE) % U32 + (section_sizes wide_image
      (placed_headers wide_image (read32 wide_image ELF_e_shoff)
        (read16 wide_image ELF_e_shnum))).sum < U32 ∧
    (placed_headers wide_image (read32 wide_image ELF_e_shoff)
      (read16 wide_image ELF_e_shnum)).length = 3 ∧
    RelocsApart demo_platform demo_buffer load_size (load_locals wide_image boot_state "w" 0) := by
  decide!

theorem wide_total :
    (demo_platform.MODULE_DATA + 0 * PGSIZE) % U32 + (section_sizes wide_image
      (placed_headers wide_image (read32 wide_image ELF_e_shoff)
        (read16 wide_image ELF_e_shnum))).sum ≤ 0xF0302010 := by
  decide!

theorem e100_layout :
    DRV_tx = 8 ∧ DRV_tx_state = 62088 ∧ DRV_tx_head = 62092 ∧ DRV_tx_tail = 62096 ∧
    DRV_io_base = 4 ∧ SIZEOF_e100_dma_tx = 1552 ∧ TX_status = 0 ∧ TX_command = 2 ∧
    TX_tcb_byte_count = 12 ∧ TX_tcb_data = 16 ∧ E100_MAX_PACKET_SIZE = 1518 ∧
    MAX_E100_TX_SLOTS = 20 := by
  decide

theorem tx_slot_eq (i : Nat) : tx_slot i = 8 + 1552 * i := rfl

theorem write16_other (m : Mem) (p v a : Nat) (h : a < p ∨ p + 2 ≤ a) :
    write16 m p v a = m a := by
  unfold write16
  rw [write8_other _ _ _ _ (by omega), write8_other _ _ _ _ (by omega)]

theorem read16_write16_same (m : Mem) (p v : Nat) : read16 (write16 m p v) p = v % 65536 := by
  unfold read16 read8 write16
  rw [write8_other _ _ _ _ (by omega), write8_same, write8_same]
  omega

theorem read16_congr (m m2 : Mem) (a : Nat) (h : ∀ k, k < 2 → m2 (a + k) = m (a + k)) :
    read16 m2 a = read16 m a := by
  unfold read16 read8
  have h0 := h 0 (by omega)
  have h1 := h 1 (by omega)
  simp only [Nat.add_zero] at h0
  rw [h0, h1]

theorem copy_in_other (m : Mem) (dst : Nat) (src : Mem) (n a : Nat) (h : a < dst ∨ dst + n ≤ a) :
    copy_in m dst src n a = m a := by
  unfold copy_in
  rw [if_neg (by omega)]

theorem copy_in_same (m : Mem) (dst : Nat) (src : Mem) (n j : Nat) (h : j < n) :
    copy_in m dst src n (dst + j) = read8 src j := by
  unfold copy_in
  rw [if_pos (by omega), Nat.add_sub_cancel_left]

theorem read8_read8 (m : Mem) (a : Nat) : read8 m a % 256 = read8 m a :=
  Nat.mod_eq_of_lt (read8_lt m a)

theorem transmit_full (pa : Nat) (s : E100) (pkt : Mem) (pkt_size : Nat)
    (h : (read32 s.mem DRV_tx_tail + 1) % U32 % MAX_E100_TX_SLOTS = read32 s.mem DRV_tx_head) :
    e100_transmit_packet pa s pkt pkt_size = (-E_NO_MEM, s) := by
  unfold e100_transmit_packet
  simp only
  rw [if_pos h]

theorem transmit_queued (pa : Nat) (s : E100) (pkt : Mem) (pkt_size : Nat)
    (ht : read32 s.mem DRV_tx_tail < MAX_E100_TX_SLOTS)
    (hs : pkt_size ≤ E100_MAX_PACKET_SIZE)
    (h : (read32 s.mem DRV_tx_tail + 1) % U32 % MAX_E100_TX_SLOTS ≠ read32 s.mem DRV_tx_head) :
    (e100_transmit_packet pa s pkt pkt_size).1 = 0 ∧
    (∀ x, x < DRV_tx_state →
      (e100_transmit_packet pa s pkt pkt_size).2.mem x
        = copy_in (write16 (write16 (write16 s.mem (tx_slot (read32 s.mem DRV_tx_tail) + TX_status) 0)
            (tx_slot (read32 s.mem DRV_tx_tail) + TX_command)
            (E100_CBL_COMMAND_TX ||| E100_CBL_COMMAND_I ||| E100_CBL_COMMAND_S))
            (tx_slot (read32 s.mem DRV_tx_tail) + TX_tcb_byte_count) pkt_size)
            (tx_slot (read32 s.mem DRV_tx_tail) + TX_tcb_data) pkt pkt_size x) ∧
    read32 (e100_transmit_packet pa s pkt pkt_size).2.mem DRV_tx_tail
      = (read32 s.mem DRV_tx_tail + 1) % MAX_E100_TX_SLOTS ∧
    read32 (e100_transmit_packet pa s pkt pkt_size).2.mem DRV_tx_head
      = read32 s.mem DRV_tx_head := by
  obtain ⟨l1, l2, l3, l4, l5, l6, l7, l8, l9, l10, l11, l12⟩ := e100_layout
  have hU : U32 = 4294967296 := rfl
  rw [l12] at ht
  rw [l11] at hs
  -- the four stores into the slot leave the rest of the structure as it was
  have hm4 : ∀ x, 62088 ≤ x →
      copy_in (write16 (write16 (write16 s.mem (tx_slot (read32 s.mem DRV_tx_tail) + TX_status) 0)
        (tx_slot (read32 s.mem DRV_tx_tail) + TX_command)
        (E100_CBL_COMMAND_TX ||| E100_CBL_COMMAND_I ||| E100_CBL_COMMAND_S))
        (tx_slot (read32 s.mem DRV_tx_tail) + TX_tcb_byte_count) pkt_size)
        (tx_slot (read32 s.mem DRV_tx_tail) + TX_tcb_data) pkt pkt_size x = s.mem x := by
    intro x hx
    simp only [tx_slot_eq, l7, l8, l9, l10]
    rw [copy_in_other _ _ _ _ _ (by omega), write16_other _ _ _ _ (by omega),
      write16_other _ _ _ _ (by omega), write16_other _ _ _ _ (by omega)]
  have htail := read32_congr s.mem _ DRV_tx_tail (fun k hk => hm4 (DRV_tx_tail + k) (by omega))
  have hhead := read32_congr s.mem _ DRV_tx_head (fun k hk => hm4 (DRV_tx_head + k) (by omega))
  have hwrap : (read32 s.mem DRV_tx_tail + 1) % U32 % MAX_E100_TX_SLOTS
      = (read32 s.mem DRV_tx_tail + 1) % MAX_E100_TX_SLOTS := by
    rw [Nat.mod_eq_of_lt (by omega : read32 s.mem DRV_tx_tail + 1 < U32)]
  have hlt : (read32 s.mem DRV_tx_tail + 1) % MAX_E100_TX_SLOTS < U32 := by
    have := Nat.mod_lt (read32 s.mem DRV_tx_tail + 1) (by decide : 0 < MAX_E100_TX_SLOTS)
    rw [l12] at this ⊢
    omega
  unfold e100_transmit_packet
  simp only
  rw [if_neg h, htail, hwrap]
  split
  · refine ⟨rfl, ?_, ?_, ?_⟩
    · intro x hx
      show write8 _ _ _ x = _
      rw [write8_other _ _ _ _ (by omega), write32_other _ _ _ _ (by omega)]
    · show read32 (write8 _ _ _) _ = _
      rw [read32_congr _ (write8 _ _ _) DRV_tx_tail
        (fun k hk => write8_other _ _ _ _ (by omega)), read32_write32_same,
        Nat.mod_eq_of_lt hlt]
    · show read32 (write8 _ _ _) _ = _
      rw [read32_congr _ (write8 _ _ _) DRV_tx_head
        (fun k hk => write8_other _ _ _ _ (by omega)),
        read32_write32_other _ _ _ _ (by omega), hhead]
  · refine ⟨rfl, ?_, ?_, ?_⟩
    · intro x hx
      show write32 _ _ _ x = _
      rw [write32_other _ _ _ _ (by omega)]
    · show read32 (write32 _ _ _) _ = _
      rw [read32_write32_same, Nat.mod_eq_of_lt hlt]
    · show read32 (write32 _ _ _) _ = _
      rw [read32_write32_other _ _ _ _ (by omega), hhead]

/-! ## The round-robin scan -/

theorem sched_scan_low (C : EnvConsts) (envs : Nat → Env) (curenv : Option Nat) (e : Nat)
    (hN : e < C.NENV) :
    ∀ k i fuel, i + k = e → k < fuel →
      ∃ d, sched_scan C envs curenv e fuel i = some d ∧
        (((∀ j, i ≤ j → j < e → j = 0 ∨ (envs j).env_status ≠ C.ENV_RUNNABLE) ∧
            d = sched_back C envs curenv) ∨
          (∃ j, i ≤ j ∧ j < e ∧ j ≠ 0 ∧ (envs j).env_status = C.ENV_RUNNABLE ∧
            d = Dispatch.run j)) := by
  intro k
  induction k with
  | zero =>
    intro i fuel hi hf
    obtain ⟨f, rfl⟩ : ∃ f, fuel = f + 1 := ⟨fuel - 1, by omega⟩
    have hie : i = e := by omega
    refine ⟨sched_back C envs curenv, ?_, Or.inl ⟨fun j h1 h2 => by omega, rfl⟩⟩
    rw [sched_scan, if_neg (by omega), if_pos hie]
  | succ k ih =>
    intro i fuel hi hf
    obtain ⟨f, rfl⟩ : ∃ f, fuel = f + 1 := ⟨fuel - 1, by omega⟩
    have hnext : (i + 1) % C.NENV = i + 1 := Nat.mod_eq_of_lt (by omega)
    obtain ⟨d, hd, hc⟩ := ih (i + 1) f (by omega) (by omega)
    rw [sched_scan, if_neg (by omega), if_neg (by omega), hnext]
    by_cases h0 : i = 0
    · rw [if_pos h0]
      refine ⟨d, hd, ?_⟩
      rcases hc with ⟨hq, hd2⟩ | ⟨j, h1, h2, h3, h4, h5⟩
      · left
        refine ⟨fun j h1 h2 => ?_, hd2⟩
        by_cases hj : j = i
        · left; omega
        · exact hq j (by omega) h2
      · right; exact ⟨j, by omega, h2, h3, h4, h5⟩
    · rw [if_neg h0]
      by_cases hr : (envs i).env_status = C.ENV_RUNNABLE
      · rw [if_pos hr]
        exact ⟨_, rfl, Or.inr ⟨i, Nat.le_refl _, by omega, h0, hr, rfl⟩⟩
      · rw [if_neg hr]
        refine ⟨d, hd, ?_⟩
        rcases hc with ⟨hq, hd2⟩ | ⟨j, h1, h2, h3, h4, h5⟩
        · left
          refine ⟨fun j h1 h2 => ?_, hd2⟩
          by_cases hj : j = i
          · right; rw [hj]; exact hr
          · exact hq j (by omega) h2
        · right; exact ⟨j, by omega, h2, h3, h4, h5⟩

theorem sched_scan_high (C : EnvConsts) (envs : Nat → Env) (curenv : Option Nat) (e : Nat)
    (hN : e < C.NENV) :
    ∀ k i fuel, i + k + 1 = C.NENV → e < i → k + e + 1 < fuel →
      ∃ d, sched_scan C envs curenv e fuel i = some d ∧
        (((∀ j, (i ≤ j ∧ j < C.NENV) ∨ j < e →
              j = 0 ∨ (envs j).env_status ≠ C.ENV_RUNNABLE) ∧
            d = sched_back C envs curenv) ∨
          (∃ j, ((i ≤ j ∧ j < C.NENV) ∨ j < e) ∧ j ≠ 0 ∧
            (envs j).env_status = C.ENV_RUNNABLE ∧ d = Dispatch.run j)) := by
  intro k
  induction k with
  | zero =>
    intro i fuel hi he hf
    obtain ⟨f, rfl⟩ : ∃ f, fuel = f + 1 := ⟨fuel - 1, by omega⟩
    have hnext : (i + 1) % C.NENV = 0 := by
      have : i + 1 = C.NENV := by omega
      rw [this, Nat.mod_self]
    obtain ⟨d, hd, hc⟩ := sched_scan_low C envs curenv e hN e 0 f (by omega) (by omega)
    rw [sched_scan, if_neg (by omega), if_neg (by omega), if_neg (by omega), hnext]
    by_cases hr : (envs i).env_status = C.ENV_RUNNABLE
    · rw [if_pos hr]
      exact ⟨_, rfl, Or.inr ⟨i, Or.inl ⟨Nat.le_refl _, by omega⟩, by omega, hr, rfl⟩⟩
    · rw [if_neg hr]
      refine ⟨d, hd, ?_⟩
      rcases hc with ⟨hq, hd2⟩ | ⟨j, h1, h2, h3, h4, h5⟩
      · left
        refine ⟨fun j hj => ?_, hd2⟩
        rcases hj with ⟨h1, h2⟩ | h1
        · have : j = i := by omega
          right; rw [this]; exact hr
        · exact hq j (Nat.zero_le _) h1
      · right; exact ⟨j, Or.inr h2, h3, h4, h5⟩
  | succ k ih =>
    intro i fuel hi he hf
    obtain ⟨f, rfl⟩ : ∃ f, fuel = f + 1 := ⟨fuel - 1, by omega⟩
    have hnext : (i + 1) % C.NENV = i + 1 := Nat.mod_eq_of_lt (by omega)
    obtain ⟨d, hd, hc⟩ := ih (i + 1) f (by omega) (by omega) (by omega)
    rw [sched_scan, if_neg (by omega), if_neg (by omega), if_neg (by omega), hnext]
    by_cases hr : (envs i).env_status = C.ENV_RUNNABLE
    · rw [if_pos hr]
      exact ⟨_, rfl, Or.inr ⟨i, Or.inl ⟨Nat.le_refl _, by omega⟩, by omega, hr, rfl⟩⟩
    · rw [if_neg hr]
      refine ⟨d, hd, ?_⟩
      rcases hc with ⟨hq, hd2⟩ | ⟨j, h1, h3, h4, h5⟩
      · left
        refine ⟨fun j hj => ?_, hd2⟩
        by_cases hji : j = i
        · right; rw [hji]; exact hr
        · exact hq j (by omega)
      · right; exact ⟨j, by omega, h3, h4, h5⟩

/-- The scan of `sched_yield` from the environment after `e`, once round. -/
theorem sched_scan_round (C : EnvConsts) (envs : Nat → Env) (curenv : Option Nat) (e fuel : Nat)
    (hN : e < C.NENV) (hf : C.NENV < fuel) :
    ∃ d, sched_scan C envs curenv e fuel ((e + 1) % C.NENV) = some d ∧
      (((∀ j, j < C.NENV → j ≠ e → j = 0 ∨ (envs j).env_status ≠ C.ENV_RUNNABLE) ∧
          d = sched_back C envs curenv) ∨
        (∃ j, j < C.NENV ∧ j ≠ e ∧ j ≠ 0 ∧ (envs j).env_status = C.ENV_RUNNABLE ∧
          d = Dispatch.run j)) := by
  by_cases h : e + 1 = C.NENV
  · rw [h, Nat.mod_self]
    obtain ⟨d, hd, hc⟩ := sched_scan_low C envs curenv e hN e 0 fuel (by omega) (by omega)
    refine ⟨d, hd, ?_⟩
    rcases hc with ⟨hq, hd2⟩ | ⟨j, h1, h2, h3, h4, h5⟩
    · left
      exact ⟨fun j hj hne => hq j (Nat.zero_le _) (by omega), hd2⟩
    · right; exact ⟨j, by omega, by omega, h3, h4, h5⟩
  · rw [Nat.mod_eq_of_lt (by omega)]
    obtain ⟨d, hd, hc⟩ := sched_scan_high C envs curenv e hN (C.NENV - e - 2) (e + 1) fuel
      (by omega) (by omega) (by omega)
    refine ⟨d, hd, ?_⟩
    rcases hc with ⟨hq, hd2⟩ | ⟨j, h1, h3, h4, h5⟩
    · left
      exact ⟨fun j hj hne => hq j (by omega), hd2⟩
    · right; exact ⟨j, by omega, by omega, h3, h4, h5⟩

theorem sched_yield_scan (C : EnvConsts) (fuel : Nat) (envs : Nat → Env) (curenv : Option Nat)
    (prev_curenv_id : Nat) (h : ¬ (curenv = none ∧ prev_curenv_id = 0)) :
    sched_yield C fuel envs curenv prev_curenv_id
      = sched_scan C envs curenv (sched_env C envs curenv prev_curenv_id) fuel
          ((sched_env C envs curenv prev_curenv_id + 1) % C.NENV) := by
  unfold sched_yield sched_env
  cases curenv with
  | none =>
    simp only
    rw [if_neg (fun h0 => h ⟨rfl, h0⟩)]
  | some c => rfl

/-! ## The priority scan -/

theorem priority_scan_low (C : EnvConsts) (envs : Nat → Env) (curenv : Option Nat) (e : Nat)
    (hN : e < C.NENV) :
    ∀ k i fuel (min : Int) (idx : Nat), i + k = e → k < fuel →
      ((idx = e ∧ min = 10000) ∨
        (idx ≠ e ∧ idx ≠ 0 ∧ idx < C.NENV ∧ (envs idx).env_status = C.ENV_RUNNABLE ∧
          min = (envs idx).priority ∧ min < 10000)) →
      ∃ d, priority_scan C envs curenv e fuel i min idx = some d ∧
        ((∃ m, d = Dispatch.run m ∧ m ≠ 0 ∧ m ≠ e ∧ m < C.NENV ∧
            (envs m).env_status = C.ENV_RUNNABLE ∧ (envs m).priority ≤ min ∧
            (envs m).priority < 10000 ∧
            (∀ j, i ≤ j → j < e → j ≠ 0 → (envs j).env_status = C.ENV_RUNNABLE →
              (envs m).priority ≤ (envs j).priority)) ∨
          (idx = e ∧ min = 10000 ∧
            (∀ j, i ≤ j → j < e → j ≠ 0 → (envs j).env_status = C.ENV_RUNNABLE →
              10000 ≤ (envs j).priority) ∧
            d = priority_back C envs curenv e e)) := by
  intro k
  induction k with
  | zero =>
    intro i fuel min idx hi hf hacc
    obtain ⟨f, rfl⟩ : ∃ f, fuel = f + 1 := ⟨fuel - 1, by omega⟩
    have hie : i = e := by omega
    rw [priority_scan, if_neg (by omega), if_pos hie]
    refine ⟨_, rfl, ?_⟩
    rcases hacc with ⟨h1, h2⟩ | ⟨h1, h2, h3, h4, h5, h6⟩
    · right
      exact ⟨h1, h2, fun j hj1 hj2 => by omega, by rw [h1]⟩
    · left
      refine ⟨idx, ?_, h2, h1, h3, h4, by rw [h5], by rw [← h5]; exact h6,
        fun j hj1 hj2 => by omega⟩
      unfold priority_back priority_run
      rw [if_pos h1, if_pos h4]
  | succ k ih =>
    intro i fuel min idx hi hf hacc
    obtain ⟨f, rfl⟩ : ∃ f, fuel = f + 1 := ⟨fuel - 1, by omega⟩
    have hnext : (i + 1) % C.NENV = i + 1 := Nat.mod_eq_of_lt (by omega)
    have hmin : min ≤ 10000 := by
      rcases hacc with ⟨_, h2⟩ | ⟨_, _, _, _, _, h6⟩ <;> omega
    rw [priority_scan, if_neg (by omega), if_neg (by omega), hnext]
    by_cases h0 : i = 0
    · rw [if_pos h0]
      obtain ⟨d, hd, hc⟩ := ih (i + 1) f min idx (by omega) (by omega) hacc
      refine ⟨d, hd, ?_⟩
      rcases hc with ⟨m, c1, c2, c3, c4, c5, c6, c7, c8⟩ | ⟨c1, c2, c3, c4⟩
      · left
        refine ⟨m, c1, c2, c3, c4, c5, c6, c7, fun j hj1 hj2 hj3 hj4 => ?_⟩
        exact c8 j (by omega) hj2 hj3 hj4
      · right
        exact ⟨c1, c2, fun j hj1 hj2 hj3 hj4 => c3 j (by omega) hj2 hj3 hj4, c4⟩
    · rw [if_neg h0]
      by_cases hr : (envs i).env_status = C.ENV_RUNNABLE
      · rw [if_pos hr]
        by_cases hp : (envs i).priority < min
        · rw [if_pos hp]
          obtain ⟨d, hd, hc⟩ := ih (i + 1) f (envs i).priority i (by omega) (by omega)
            (Or.inr ⟨by omega, h0, by omega, hr, rfl, by omega⟩)
          refine ⟨d, hd, ?_⟩
          rcases hc with ⟨m, c1, c2, c3, c4, c5, c6, c7, c8⟩ | ⟨c1, _⟩
          · left
            refine ⟨m, c1, c2, c3, c4, c5, by omega, c7, fun j hj1 hj2 hj3 hj4 => ?_⟩
            by_cases hji : j = i
            · rw [hji]; exact c6
            · exact c8 j (by omega) hj2 hj3 hj4
          · omega
        · rw [if_neg hp]
          obtain ⟨d, hd, hc⟩ := ih (i + 1) f min idx (by omega) (by omega) hacc
          refine ⟨d, hd, ?_⟩
          rcases hc with ⟨m, c1, c2, c3, c4, c5, c6, c7, c8⟩ | ⟨c1, c2, c3, c4⟩
          · left
            refine ⟨m, c1, c2, c3, c4, c5, c6, c7, fun j hj1 hj2 hj3 hj4 => ?_⟩
            by_cases hji : j = i
            · rw [hji]; omega
            · exact c8 j (by omega) hj2 hj3 hj4
          · right
            refine ⟨c1, c2, fun j hj1 hj2 hj3 hj4 => ?_, c4⟩
            by_cases hji : j = i
            · rw [hji]; omega
            · exact c3 j (by omega) hj2 hj3 hj4
      · rw [if_neg hr]
        obtain ⟨d, hd, hc⟩ := ih (i + 1) f min idx (by omega) (by omega) hacc
        refine ⟨d, hd, ?_⟩
        rcases hc with ⟨m, c1, c2, c3, c4, c5, c6, c7, c8⟩ | ⟨c1, c2, c3, c4⟩
        · left
          refine ⟨m, c1, c2, c3, c4, c5, c6, c7, fun j hj1 hj2 hj3 hj4 => ?_⟩
          by_cases hji : j = i
          · rw [hji] at hj4; exact absurd hj4 hr
          · exact c8 j (by omega) hj2 hj3 hj4
        · right
          refine ⟨c1, c2, fun j hj1 hj2 hj3 hj4 => ?_, c4⟩
          by_cases hji : j = i
          · rw [hji] at hj4; exact absurd hj4 hr
          · exact c3 j (by omega) hj2 hj3 hj4

theorem priority_scan_high (C : EnvConsts) (envs : Nat → Env) (curenv : Option Nat) (e : Nat)
    (hN : e < C.NENV) :
    ∀ k i fuel (min : Int) (idx : Nat), i + k + 1 = C.NENV → e < i → k + e + 1 < fuel →
      ((idx = e ∧ min = 10000) ∨
        (idx ≠ e ∧ idx ≠ 0 ∧ idx < C.NENV ∧ (envs idx).env_status = C.ENV_RUNNABLE ∧
          min = (envs idx).priority ∧ min < 10000)) →
      ∃ d, priority_scan C envs curenv e fuel i min idx = some d ∧
        ((∃ m, d = Dispatch.run m ∧ m ≠ 0 ∧ m ≠ e ∧ m < C.NENV ∧
            (envs m).env_status = C.ENV_RUNNABLE ∧ (envs m).priority ≤ min ∧
            (envs m).priority < 10000 ∧
            (∀ j, (i ≤ j ∧ j < C.NENV) ∨ j < e → j ≠ 0 →
              (envs j).env_status = C.ENV_RUNNABLE → (envs m).priority ≤ (envs j).priority)) ∨
          (idx = e ∧ min = 10000 ∧
            (∀ j, (i ≤ j ∧ j < C.NENV) ∨ j < e → j ≠ 0 →
              (envs j).env_status = C.ENV_RUNNABLE → 10000 ≤ (envs j).priority) ∧
            d = priority_back C envs curenv e e)) := by
  intro k
  induction k with
  | zero =>
    intro i fuel min idx hi he hf hacc
    obtain ⟨f, rfl⟩ : ∃ f, fuel = f + 1 := ⟨fuel - 1, by omega⟩
    have hnext : (i + 1) % C.NENV = 0 := by
      have : i + 1 = C.NENV := by omega
      rw [this, Nat.mod_self]
    have hmin : min ≤ 10000 := by
      rcases hacc with ⟨_, h2⟩ | ⟨_, _, _, _, _, h6⟩ <;> omega
    have low := priority_scan_low C envs curenv e hN e 0 f
    rw [priority_scan, if_neg (by omega), if_neg (by omega), if_neg (by omega), hnext]
    by_cases hr : (envs i).env_status = C.ENV_RUNNABLE
    · rw [if_pos hr]
      by_cases hp : (envs i).priority < min
      · rw [if_pos hp]
        obtain ⟨d, hd, hc⟩ := low (envs i).priority i (by omega) (by omega)
          (Or.inr ⟨by omega, by omega, by omega, hr, rfl, by omega⟩)
        refine ⟨d, hd, ?_⟩
        rcases hc with ⟨m, c1, c2, c3, c4, c5, c6, c7, c8⟩ | ⟨c1, _⟩
        · left
          refine ⟨m, c1, c2, c3, c4, c5, by omega, c7, fun j hj hj3 hj4 => ?_⟩
          rcases hj with ⟨h1, h2⟩ | h1
          · have : j = i := by omega
            rw [this]; exact c6
          · exact c8 j (Nat.zero_le _) h1 hj3 hj4
        · omega
      · rw [if_neg hp]
        obtain ⟨d, hd, hc⟩ := low min idx (by omega) (by omega) hacc
        refine ⟨d, hd, ?_⟩
        rcases hc with ⟨m, c1, c2, c3, c4, c5, c6, c7, c8⟩ | ⟨c1, c2, c3, c4⟩
        · left
          refine ⟨m, c1, c2, c3, c4, c5, c6, c7, fun j hj hj3 hj4 => ?_⟩
          rcases hj with ⟨h1, h2⟩ | h1
          · have : j = i := by omega
            rw [this]; omega
          · exact c8 j (Nat.zero_le _) h1 hj3 hj4
        · right
          refine ⟨c1, c2, fun j hj hj3 hj4 => ?_, c4⟩
          rcases hj with ⟨h1, h2⟩ | h1
          · have : j = i := by omega
            rw [this]; omega
          · exact c3 j (Nat.zero_le _) h1 hj3 hj4
    · rw [if_neg hr]
      obtain ⟨d, hd, hc⟩ := low min idx (by omega) (by omega) hacc
      refine ⟨d, hd, ?_⟩
      rcases hc with ⟨m, c1, c2, c3, c4, c5, c6, c7, c8⟩ | ⟨c1, c2, c3, c4⟩
      · left
        refine ⟨m, c1, c2, c3, c4, c5, c6, c7, fun j hj hj3 hj4 => ?_⟩
        rcases hj with ⟨h1, h2⟩ | h1
        · have : j = i := by omega
          rw [this] at hj4; exact absurd hj4 hr
        · exact c8 j (Nat.zero_le _) h1 hj3 hj4
      · right
        refine ⟨c1, c2, fun j hj hj3 hj4 => ?_, c4⟩
        rcases hj with ⟨h1, h2⟩ | h1
        · have : j = i := by omega
          rw [this] at hj4; exact absurd hj4 hr
        · exact c3 j (Nat.zero_le _) h1 hj3 hj4
  | succ k ih =>
    intro i fuel min idx hi he hf hacc
    obtain ⟨f, rfl⟩ : ∃ f, fuel = f + 1 := ⟨fuel - 1, by omega⟩
    have hnext : (i + 1) % C.NENV = i + 1 := Nat.mod_eq_of_lt (by omega)
    have hmin : min ≤ 10000 := by
      rcases hacc with ⟨_, h2⟩ | ⟨_, _, _, _, _, h6⟩ <;> omega
    rw [priority_scan, if_neg (by omega), if_neg (by omega), if_neg (by omega), hnext]
    by_cases hr : (envs i).env_status = C.ENV_RUNNABLE
    · rw [if_pos hr]
      by_cases hp : (envs i).priority < min
      · rw [if_pos hp]
        obtain ⟨d, hd, hc⟩ := ih (i + 1) f (envs i).priority i (by omega) (by omega) (by omega)
          (Or.inr ⟨by omega, by omega, by omega, hr, rfl, by omega⟩)
        refine ⟨d, hd, ?_⟩
        rcases hc with ⟨m, c1, c2, c3, c4, c5, c6, c7, c8⟩ | ⟨c1, _⟩
        · left
          refine ⟨m, c1, c2, c3, c4, c5, by omega, c7, fun j hj hj3 hj4 => ?_⟩
          by_cases hji : j = i
          · rw [hji]; exact c6
          · exact c8 j (by omega) hj3 hj4
        · omega
      · rw [if_neg hp]
        obtain ⟨d, hd, hc⟩ := ih (i + 1) f min idx (by omega) (by omega) (by omega) hacc
        refine ⟨d, hd, ?_⟩
        rcases hc with ⟨m, c1, c2, c3, c4, c5, c6, c7, c8⟩ | ⟨c1, c2, c3, c4⟩
        · left
          refine ⟨m, c1, c2, c3, c4, c5, c6, c7, fun j hj hj3 hj4 => ?_⟩
          by_cases hji : j = i
          · rw [hji]; omega
          · exact c8 j (by omega) hj3 hj4
        · right
          refine ⟨c1, c2, fun j hj hj3 hj4 => ?_, c4⟩
          by_cases hji : j = i
          · rw [hji]; omega
          · exact c3 j (by omega) hj3 hj4
    · rw [if_neg hr]
      obtain ⟨d, hd, hc⟩ := ih (i + 1) f min idx (by omega) (by omega) (by omega) hacc
      refine ⟨d, hd, ?_⟩
      rcases hc with ⟨m, c1, c2, c3, c4, c5, c6, c7, c8⟩ | ⟨c1, c2, c3, c4⟩
      · left
        refine ⟨m, c1, c2, c3, c4, c5, c6, c7, fun j hj hj3 hj4 => ?_⟩
        by_cases hji : j = i
        · rw [hji] at hj4; exact absurd hj4 hr
        · exact c8 j (by omega) hj3 hj4
      · right
        refine ⟨c1, c2, fun j hj hj3 hj4 => ?_, c4⟩
        by_cases hji : j = i
        · rw [hji] at hj4; exact absurd hj4 hr
        · exact c3 j (by omega) hj3 hj4

/-- The scan of `priority_sched_yield` from the environment after `e`, once
round, from `min_priority` 10000. -/
theorem priority_scan_round (C : EnvConsts) (envs : Nat → Env) (curenv : Option Nat)
    (e fuel : Nat) (hN : e < C.NENV) (hf : C.NENV < fuel) :
    ∃ d, priority_scan C envs curenv e fuel ((e + 1) % C.NENV) 10000 e = some d ∧
      ((∃ m, d = Dispatch.run m ∧ m ≠ 0 ∧ m ≠ e ∧ m < C.NENV ∧
          (envs m).env_status = C.ENV_RUNNABLE ∧ (envs m).priority < 10000 ∧
          (∀ j, j < C.NENV → j ≠ e → j ≠ 0 → (envs j).env_status = C.ENV_RUNNABLE →
            (envs m).priority ≤ (envs j).priority)) ∨
        ((∀ j, j < C.NENV → j ≠ e → j ≠ 0 → (envs j).env_status = C.ENV_RUNNABLE →
            10000 ≤ (envs j).priority) ∧
          d = priority_back C envs curenv e e)) := by
  by_cases h : e + 1 = C.NENV
  · rw [h, Nat.mod_self]
    obtain ⟨d, hd, hc⟩ := priority_scan_low C envs curenv e hN e 0 fuel 10000 e (by omega)
      (by omega) (Or.inl ⟨rfl, rfl⟩)
    refine ⟨d, hd, ?_⟩
    rcases hc with ⟨m, c1, c2, c3, c4, c5, c6, c7, c8⟩ | ⟨c1, c2, c3, c4⟩
    · left
      exact ⟨m, c1, c2, c3, c4, c5, c7,
        fun j hj1 hj2 hj3 hj4 => c8 j (Nat.zero_le _) (by omega) hj3 hj4⟩
    · right
      exact ⟨fun j hj1 hj2 hj3 hj4 => c3 j (Nat.zero_le _) (by omega) hj3 hj4, c4⟩
  · rw [Nat.mod_eq_of_lt (by omega)]
    obtain ⟨d, hd, hc⟩ := priority_scan_high C envs curenv e hN (C.NENV - e - 2) (e + 1) fuel
      10000 e (by omega) (by omega) (by omega) (Or.inl ⟨rfl, rfl⟩)
    refine ⟨d, hd, ?_⟩
    rcases hc with ⟨m, c1, c2, c3, c4, c5, c6, c7, c8⟩ | ⟨c1, c2, c3, c4⟩
    · left
      exact ⟨m, c1, c2, c3, c4, c5, c7, fun j hj1 hj2 hj3 hj4 => c8 j (by omega) hj3 hj4⟩
    · right
      exact ⟨fun j hj1 hj2 hj3 hj4 => c3 j (by omega) hj3 hj4, c4⟩

theorem priority_sched_yield_scan (C : EnvConsts) (fuel : Nat) (envs : Nat → Env)
    (curenv : Option Nat) (prev_curenv_id : Nat) (h : ¬ (curenv = none ∧ prev_curenv_id = 0)) :
    priority_sched_yield C fuel envs curenv prev_curenv_id
      = priority_scan C envs curenv (sched_env C envs curenv prev_curenv_id) fuel
          ((sched_env C envs curenv prev_curenv_id + 1) % C.NENV) 10000
          (sched_env C envs curenv prev_curenv_id) := by
  unfold priority_sched_yield sched_env
  cases curenv with
  | none =>
    simp only
    rw [if_neg (fun h0 => h ⟨rfl, h0⟩)]
  | some c => rfl

/-! ## The symbol walk: entry and teardown routines -/

theorem copy_name_read (img : Mem) (src dst : Nat) :
    ∀ (fuel : Nat) (m : Mem) (j : Nat) (m2 : Mem),
      copy_name fuel img src m dst j = some m2 → ∃ t, read_cstr fuel img (src + j) = some t := by
  intro fuel
  induction fuel with
  | zero => intro m j m2 hc; simp [copy_name] at hc
  | succ n ih =>
    intro m j m2 hc
    unfold copy_name at hc
    split at hc
    · rename_i hne
      obtain ⟨t, ht⟩ := ih _ _ _ hc
      rw [← Nat.add_assoc] at ht
      refine ⟨read8 img (src + j) :: t, ?_⟩
      unfold read_cstr
      rw [if_neg hne, ht]
      rfl
    · rename_i hz
      have hz2 : read8 img (src + j) = 0 := by simpa using hz
      refine ⟨[], ?_⟩
      unfold read_cstr
      rw [if_pos hz2]

theorem strcmp_eq_of_read_cstr :
    ∀ (fuel : Nat) (m : Mem) (p : Nat) (m2 : Mem) (p2 : Nat) (t : List Nat),
      read_cstr fuel m p = some t → read_cstr fuel m2 p2 = some t →
      ∀ s, strcmp_eq m p s = strcmp_eq m2 p2 s := by
  intro fuel
  induction fuel with
  | zero => intro m p m2 p2 t h; simp [read_cstr] at h
  | succ n ih =>
    intro m p m2 p2 t h h2 s
    unfold read_cstr at h h2
    by_cases hz : read8 m p = 0
    · rw [if_pos hz] at h
      have ht : t = [] := (Option.some.inj h).symm
      subst ht
      have hz2 : read8 m2 p2 = 0 := by
        by_contra hne
        rw [if_neg hne] at h2
        cases hr : read_cstr n m2 (p2 + 1) with
        | none => rw [hr] at h2; simp at h2
        | some u => rw [hr] at h2; simp at h2
      cases s with
      | nil => simp [strcmp_eq, hz, hz2]
      | cons c cs =>
        unfold strcmp_eq
        by_cases hc : c % 256 = 0
        · simp [hc, hz, hz2]
        · have hb : (0 == c % 256) = false := by
            rw [beq_eq_false_iff_ne]; exact fun e => hc e.symm
          simp only [hc, if_false, hz, hz2, hb, Bool.false_and]
    · rw [if_neg hz] at h
      cases hr : read_cstr n m (p + 1) with
      | none => rw [hr] at h; simp at h
      | some u =>
        rw [hr] at h
        simp only [Option.map_some', Option.some.injEq] at h
        subst h
        have hz2 : read8 m2 p2 ≠ 0 := by
          intro e
          rw [if_pos e] at h2
          simp at h2
        rw [if_neg hz2] at h2
        cases hr2 : read_cstr n m2 (p2 + 1) with
        | none => rw [hr2] at h2; simp at h2
        | some u2 =>
          rw [hr2] at h2
          simp only [Option.map_some', Option.some.injEq, List.cons.injEq] at h2
          obtain ⟨hb, hu⟩ := h2
          subst hu
          have IH := ih m (p + 1) m2 (p2 + 1) u2 hr hr2
          cases s with
          | nil => simp [strcmp_eq, hz, hz2]
          | cons c cs =>
            unfold strcmp_eq
            by_cases hc : c % 256 = 0
            · simp [hc, hz, hz2]
            · simp only [hc, if_false, hb, IH cs]

/-- After the name of a symbol is copied and its value recorded, `strcmp` of
the descriptor copy against a string of fewer than 16 characters gives what
`strcmp` of the name in the image gives. -/
theorem strcmp_eq_recorded (fuel : Nat) (img : Mem) (src : Nat) (m : Mem) (dst v : Nat)
    (m1 : Mem) (hc : copy_name fuel img src m dst 0 = some m1) (s : List Nat)
    (hs : s.length < 16) :
    strcmp_eq (write32 m1 (dst + 16) v) dst s = strcmp_eq img src s := by
  rw [strcmp_eq_congr m1 (write32 m1 (dst + 16) v) s dst
    (fun j hj => write32_other m1 _ _ _ (Or.inl (by omega)))]
  obtain ⟨t, ht⟩ := copy_name_read img src dst fuel m 0 m1 hc
  have e := read_cstr_copy_name img src dst fuel m 0 m1 hc
  rw [Nat.add_zero] at e ht
  rw [Nat.add_zero] at e
  exact strcmp_eq_of_read_cstr fuel m1 dst img src t (e.trans ht) ht s

theorem load_symbol_routines (fuel : Nat) (img : Mem)
    (section_base module sh_count : Nat) (b : Bases) (symbols string_table : Nat)
    (s : SymState) (i : Nat) (s2 : SymState)
    (hs : load_symbol fuel img section_base module sh_count b symbols string_table s i = some s2) :
    read32 s2.mods (module + OFF_init_routine) =
      (if sym_named img symbols string_table "init_module" i then sym_entry img symbols b i
       else read32 s.mods (module + OFF_init_routine)) ∧
    read32 s2.mods (module + OFF_cleanup_routine) =
      (if sym_named img symbols string_table "init_module" i then
         read32 s.mods (module + OFF_cleanup_routine)
       else if sym_named img symbols string_table "cleanup_module" i then sym_entry img symbols b i
       else read32 s.mods (module + OFF_cleanup_routine)) := by
  have L := layout_values
  obtain ⟨-, -, -, -, hI, hC, hB, -, -, -, hS, -, hT, -, -⟩ := L
  unfold load_symbol at hs
  simp only at hs
  split at hs
  · simp at hs
  · rename_i m1 hc
    split at hs
    · simp at hs
    · rename_i s1 hp
      cases hs
      simp only
      have e := publish_symbol_mods _ _ _ _ _ _ _ _ _ _ hp
      simp only at e
      rw [e]
      have hrec : ∀ a, a < module + 52 → module + 44 ≤ a →
          write32 m1 (sym_rec module i + SYM_sym_value)
            (read32 img (symbols + SIZEOF_SYMBOL * i + ST_sym_value)) a = s.mods a := by
        intro a ha1 ha2
        rw [write32_other _ _ _ _ (Or.inl (by unfold sym_rec SYM_sym_value MAX_SYM_NAMELEN; omega))]
        exact (agree_copy_name (fun x => x < module + 52 ∧ module + 44 ≤ x) img _ _
          (fun j hj => by unfold sym_rec at hj; omega) fuel s.mods 0 m1 hc a ⟨ha1, ha2⟩)
      have hi0 : read32 (write32 m1 (sym_rec module i + SYM_sym_value)
            (read32 img (symbols + SIZEOF_SYMBOL * i + ST_sym_value))) (module + OFF_init_routine)
          = read32 s.mods (module + OFF_init_routine) :=
        read32_congr _ _ _ (fun k hk => hrec _ (by omega) (by omega))
      have hc0 : read32 (write32 m1 (sym_rec module i + SYM_sym_value)
            (read32 img (symbols + SIZEOF_SYMBOL * i + ST_sym_value))) (module + OFF_cleanup_routine)
          = read32 s.mods (module + OFF_cleanup_routine) :=
        read32_congr _ _ _ (fun k hk => hrec _ (by omega) (by omega))
      have n1 := strcmp_eq_recorded fuel img _ s.mods (sym_rec module i + SYM_sym_name)
        (read32 img (symbols + SIZEOF_SYMBOL * i + ST_sym_value)) m1 hc (cbytes "init_module")
        (by decide)
      have n2 := strcmp_eq_recorded fuel img _ s.mods (sym_rec module i + SYM_sym_name)
        (read32 img (symbols + SIZEOF_SYMBOL * i + ST_sym_value)) m1 hc (cbytes "cleanup_module")
        (by decide)
      have ea : sym_rec module i + SYM_sym_name + 16 = sym_rec module i + SYM_sym_value := rfl
      rw [ea] at n1 n2
      unfold note_routines sym_named sym_entry
      rw [n1, n2]
      have hlt : (b.text_start + read32 img (symbols + SIZEOF_SYMBOL * i + ST_sym_value)) % U32
          < U32 := Nat.mod_lt _ (by decide)
      split
      · refine ⟨?_, ?_⟩
        · rw [read32_write32_same, Nat.mod_eq_of_lt hlt]
        · rw [read32_write32_other _ _ _ _ (by omega)]
          exact hc0
      · split
        · refine ⟨?_, ?_⟩
          · rw [read32_write32_other _ _ _ _ (by omega)]
            exact hi0
          · rw [read32_write32_same, Nat.mod_eq_of_lt hlt]
        · exact ⟨hi0, hc0⟩

theorem load_symbols_last (fuel : Nat) (img : Mem)
    (section_base module sh_count : Nat) (b : Bases) (symbols string_table : Nat)
    (f : SymState → Nat) (p : Nat → Bool) (v : Nat → Nat)
    (hstep : ∀ s i s2,
      load_symbol fuel img section_base module sh_count b symbols string_table s i = some s2 →
      f s2 = if p i then v i else f s) (l : List Nat) :
    ∀ (s s2 : SymState),
      load_symbols fuel img section_base module sh_count b symbols string_table l s = some s2 →
      ((∀ k, k ∈ l → p k = false) → f s2 = f s) ∧
      (l.Pairwise (· < ·) → ∀ k, k ∈ l → p k = true → (∀ j, j ∈ l → k < j → p j = false) →
        f s2 = v k) := by
  induction l with
  | nil =>
    intro s s2 hs
    simp [load_symbols] at hs
    subst hs
    exact ⟨fun _ => rfl, fun _ k hk => by simp at hk⟩
  | cons i rest ih =>
    intro s s2 hs
    unfold load_symbols at hs
    split at hs
    · simp at hs
    · rename_i s1 h1
      have e1 := hstep s i s1 h1
      obtain ⟨A, B⟩ := ih s1 s2 hs
      refine ⟨?_, ?_⟩
      · intro hn
        rw [A (fun k hk => hn k (List.mem_cons_of_mem _ hk)), e1,
          hn i (List.mem_cons_self _ _)]
        rfl
      · intro hp k hk hpk hlast
        rw [List.pairwise_cons] at hp
        rcases List.mem_cons.mp hk with e | hr
        · subst e
          rw [A (fun j hj => hlast j (List.mem_cons_of_mem _ hj) (hp.1 j hj)), e1, hpk]
          rfl
        · exact B hp.2 k hr hpk (fun j hj hkj => hlast j (List.mem_cons_of_mem _ hj) hkj)

theorem sym_named_exclusive (img : Mem) (symbols string_table i : Nat)
    (h : sym_named img symbols string_table "init_module" i = true) :
    sym_named img symbols string_table "cleanup_module" i = false := by
  unfold sym_named at h ⊢
  have e1 : cbytes "init_module" = 105 :: cbytes "nit_module" := by decide
  have e2 : cbytes "cleanup_module" = 99 :: cbytes "leanup_module" := by decide
  rw [e1] at h
  rw [e2]
  unfold strcmp_eq at h ⊢
  simp only [Nat.reduceMod, OfNat.ofNat_ne_zero, if_false, Bool.and_eq_true, beq_iff_eq] at h
  simp only [Nat.reduceMod, OfNat.ofNat_ne_zero, if_false, h.1]
  rfl

theorem finish_descriptor_routines (m : Mem) (module sh_size sh_count nr ns a : Nat)
    (h1 : module + OFF_init_routine ≤ a) (h2 : a + 4 ≤ module + OFF_module_base) :
    read32 (finish_descriptor m module sh_size sh_count nr ns) a = read32 m a := by
  obtain ⟨-, -, hZ, hSt, hI, hC, hB, hsh, hr, hsy, -, -, -, -, -⟩ := layout_values
  unfold finish_descriptor
  simp only
  rw [read32_write32_other _ _ _ _ (by omega), read32_write32_other _ _ _ _ (by omega),
    read32_write32_other _ _ _ _ (by omega), read32_write32_other _ _ _ _ (by omega),
    read32_write32_other _ _ _ _ (by omega)]

/-- The two routine fields of a loaded descriptor are those the symbol walk left. -/
theorem module_init_routines (P : Platform) (fuel : Nat) (st : KState) (mod_name : List Nat)
    (mod_binary : Nat) (img : Mem) (mod_binary_size : Nat) (st1 : KState) (img1 : Mem) (i : Nat)
    (L : Loaded)
    (h : module_init P fuel st mod_name mod_binary img mod_binary_size = some (0, st1, img1))
    (hi : first_free_slot st.module_bitmap = some i)
    (hL : load_image P fuel st mod_name img i = some L)
    (hrel : RelocsApart P mod_binary mod_binary_size L) (a : Nat)
    (h1 : descriptor i + OFF_init_routine ≤ a) (h2 : a + 4 ≤ descriptor i + OFF_module_base) :
    read32 st1.mods a = read32 L.Y.mods a := by
  obtain ⟨-, -, hZ, hSt, hI, hC, hB, hsh, hr, hsy, hS, -, -, -, -⟩ := layout_values
  obtain ⟨i2, st2, hi2, hld, hst⟩ :=
    module_init_local P fuel st mod_name mod_binary img mod_binary_size st1 img1 h
      (fun j L3 hj hL3 => by
        have ej : j = i := Option.some.inj (hj.symm.trans hi)
        rw [ej] at hL3
        rw [← Option.some.inj (hL.symm.trans hL3)]
        exact hrel)
  have ei : i2 = i := Option.some.inj (hi2.symm.trans hi)
  rw [ei] at hld hst
  obtain ⟨L2, R, hL2, hR, hm, -⟩ := module_load_unfold P fuel st mod_name img i st2 img1 hld
  have eL : L2 = L := Option.some.inj (hL2.symm.trans hL)
  rw [eL] at hR hm
  obtain ⟨_, _, _, hmod, _⟩ := load_image_unfold P fuel st mod_name img i L hL
  rw [hst, module_start_mods, hm, finish_descriptor_routines _ _ _ _ _ _ _ (by rw [hmod]; exact h1)
    (by rw [hmod]; exact h2)]
  have hk := relocate_mods (fun x => descriptor i + 44 ≤ x ∧ x < descriptor i + 52) P fuel L R
    (fun x hx => by rw [hmod] at hx; omega) hR
  exact (read32_congr _ _ _ (fun k hk2 => hk (a + k) ⟨by omega, by omega⟩))

theorem stale_number_eq : pack stale_bytes = stale_number := by decide!

theorem datafirst_number_eq : pack datafirst_bytes = datafirst_number := by decide!

theorem stale_load :
    load_ret stale_image boot_state "s" = some 0 ∧
    (load_image demo_platform 64 boot_state (cbytes "s") stale_image 0).isSome = true ∧
    (load_locals stale_image boot_state "s" 0).num_sym = 5 ∧
    sym_named (load_locals stale_image boot_state "s" 0).S.img
      (load_locals stale_image boot_state "s" 0).symbols
      (load_locals stale_image boot_state "s" 0).string_table "init_module" 3 = true ∧
    sym_named (load_locals stale_image boot_state "s" 0).S.img
      (load_locals stale_image boot_state "s" 0).symbols
      (load_locals stale_image boot_state "s" 0).string_table "init_module" 4 = false ∧
    sym_named (load_locals stale_image boot_state "s" 0).S.img
      (load_locals stale_image boot_state "s" 0).symbols
      (load_locals stale_image boot_state "s" 0).string_table "cleanup_module" 4 = true ∧
    RelocsApart demo_platform demo_buffer load_size (load_locals stale_image boot_state "s" 0) := by
  decide!

/-! ## The symbol walk: what is published -/

theorem find_range_spec (p : Nat → Bool) (n : Nat) :
    ((List.range n).find? p = none ∧ ∀ k, k < n → p k = false) ∨
    ∃ k, (List.range n).find? p = some k ∧ k < n ∧ p k = true ∧ ∀ j, j < k → p j = false := by
  induction n with
  | zero => left; exact ⟨rfl, fun k hk => by omega⟩
  | succ n ih =>
    rw [List.range_succ, List.find?_append]
    rcases ih with ⟨h0, h1⟩ | ⟨k, h0, h1, h2, h3⟩
    · rw [h0]
      cases hp : p n with
      | false =>
        left
        refine ⟨by simp [hp], ?_⟩
        intro k hk
        rcases Nat.lt_or_ge k n with h | h
        · exact h1 k h
        · have : k = n := by omega
          rw [this]; exact hp
      | true =>
        right
        exact ⟨n, by simp [hp], by omega, hp, h1⟩
    · right
      rw [h0]
      exact ⟨k, rfl, by omega, h2, h3⟩

theorem section_names_apart (m : Mem) (p : Nat) (h : strcmp_eq m p (cbytes ".bss") = true) :
    strcmp_eq m p (cbytes ".data") = false := by
  have e1 : cbytes ".bss" = 46 :: 98 :: cbytes "ss" := by decide
  have e2 : cbytes ".data" = 46 :: 100 :: cbytes "ata" := by decide
  rw [e1] at h
  rw [e2]
  unfold strcmp_eq at h ⊢
  unfold strcmp_eq at h ⊢
  simp only [Nat.reduceMod, OfNat.ofNat_ne_zero, if_false, Bool.and_eq_true, beq_iff_eq] at h
  simp only [Nat.reduceMod, OfNat.ofNat_ne_zero, if_false, h.1, h.2.1]
  rfl

theorem object_section_home (mods : Mem) (module sh_count s_addr : Nat) :
    (home_record mods module sh_count s_addr ".bss" →
      object_section mods module sh_count s_addr = SECTION_BSS) ∧
    (¬ home_record mods module sh_count s_addr ".bss" →
      home_record mods module sh_count s_addr ".data" →
      object_section mods module sh_count s_addr = SECTION_DATA) ∧
    (¬ home_record mods module sh_count s_addr ".bss" →
      ¬ home_record mods module sh_count s_addr ".data" →
      object_section mods module sh_count s_addr ≠ SECTION_BSS ∧
      object_section mods module sh_count s_addr ≠ SECTION_DATA) := by
  have key : ∀ name, home_record mods module sh_count s_addr name ↔
      ∃ k, (List.range sh_count).find?
          (fun k => s_addr == read32 mods (section_rec module k + SEC_sh_start)) = some k ∧
        strcmp_eq mods (section_rec module k + SEC_sh_name) (cbytes name) = true := by
    intro name
    rcases find_range_spec (fun k => s_addr == read32 mods (section_rec module k + SEC_sh_start))
      sh_count with ⟨h0, h1⟩ | ⟨k, h0, h1, h2, h3⟩
    · rw [h0]
      constructor
      · rintro ⟨k, a1, a2, _, _⟩
        have := h1 k a1
        simp only [beq_eq_false_iff_ne, ne_eq] at this
        exact absurd a2.symm this
      · rintro ⟨k, a, _⟩
        cases a
    · rw [h0]
      simp only [beq_iff_eq] at h2
      constructor
      · rintro ⟨k2, a1, a2, a3, a4⟩
        have e : k2 = k := by
          rcases Nat.lt_trichotomy k2 k with h | h | h
          · have := h3 k2 h
            simp only [beq_eq_false_iff_ne, ne_eq] at this
            exact absurd a2.symm this
          · exact h
          · exact absurd h2.symm (a3 k h)
        rw [e] at a4
        exact ⟨k, rfl, a4⟩
      · rintro ⟨k2, a, a4⟩
        have e : k = k2 := Option.some.inj a
        rw [← e] at a4
        refine ⟨k, h1, h2.symm, ?_, a4⟩
        intro j hj
        have := h3 j hj
        simp only [beq_eq_false_iff_ne, ne_eq] at this
        exact fun e2 => this e2.symm
  rw [key ".bss", key ".data"]
  unfold object_section
  cases hf : (List.range sh_count).find?
      (fun k => s_addr == read32 mods (section_rec module k + SEC_sh_start)) with
  | none =>
    refine ⟨?_, ?_, ?_⟩
    · rintro ⟨k, a, _⟩; cases a
    · rintro _ ⟨k, a, _⟩; cases a
    · intro _ _
      simp only
      exact ⟨by decide, by decide⟩
  | some k =>
    simp only [Option.some.injEq, exists_eq_left']
    refine ⟨?_, ?_, ?_⟩
    · intro h; rw [if_pos h]
    · intro h h2; rw [if_neg h, if_pos h2]
    · intro h h2; rw [if_neg h, if_neg h2]
      exact ⟨by decide, by decide⟩

theorem copy_name_of_read_cstr (img : Mem) (src dst : Nat) :
    ∀ (fuel : Nat) (m : Mem) (j : Nat) (t : List Nat),
      read_cstr fuel img (src + j) = some t → ∃ m2, copy_name fuel img src m dst j = some m2 := by
  intro fuel
  induction fuel with
  | zero => intro m j t h; simp [read_cstr] at h
  | succ n ih =>
    intro m j t h
    unfold read_cstr at h
    unfold copy_name
    by_cases hz : read8 img (src + j) = 0
    · exact ⟨_, by rw [if_neg (by simpa using hz)]⟩
    · rw [if_neg hz] at h
      cases hr : read_cstr n img (src + j + 1) with
      | none => rw [hr] at h; simp at h
      | some u =>
        rw [if_pos hz]
        exact ih _ (j + 1) u (by rw [← Nat.add_assoc]; exact hr)

theorem read_cstr_congr_bounded (m m2 : Mem) :
    ∀ (fuel p : Nat) (t : List Nat), read_cstr fuel m p = some t →
      (∀ j, j ≤ t.length → m2 (p + j) = m (p + j)) → read_cstr fuel m2 p = some t := by
  intro fuel
  induction fuel with
  | zero => intro p t h; simp [read_cstr] at h
  | succ n ih =>
    intro p t h hm
    have hb : read8 m2 p = read8 m p := by
      unfold read8; rw [← Nat.add_zero p, hm 0 (Nat.zero_le _)]
    unfold read_cstr at h ⊢
    rw [hb]
    by_cases hz : read8 m p = 0
    · rw [if_pos hz] at h ⊢
      exact h
    · rw [if_neg hz] at h ⊢
      cases hr : read_cstr n m (p + 1) with
      | none => rw [hr] at h; simp at h
      | some u =>
        rw [hr] at h
        simp only [Option.map_some', Option.some.injEq] at h
        subst h
        rw [ih (p + 1) u hr (fun j hj => by
          have := hm (j + 1) (by simp only [List.length_cons]; omega)
          rw [Nat.add_assoc, Nat.add_comm 1 j]; exact this)]
        rfl

theorem publish_symbol_spec (fuel : Nat) (img : Mem) (section_base module sh_count : Nat)
    (b : Bases) (sym i : Nat) (s : SymState) (name : List Nat)
    (hr : read_cstr fuel s.mods (sym_rec module i + SYM_sym_name) = some name)
    (hz : ELF32_ST_TYPE (read8 img (sym + ST_sym_info)) = STT_OBJECT →
      read16 img (sym + ST_sym_shndx) = ELF_SHN_COMMON → read32 img (sym + ST_sym_value) ≠ 0) :
    ∃ s1, publish_symbol fuel img section_base module sh_count b sym i s = some s1 ∧
      s1.mods = s.mods ∧
      (ELF32_ST_TYPE (read8 img (sym + ST_sym_info)) = STT_FUNC →
        s1.symtab = insert_symbol s.symtab name
          ((b.text_start + read32 img (sym + ST_sym_value)) % U32)) ∧
      (ELF32_ST_TYPE (read8 img (sym + ST_sym_info)) = STT_OBJECT →
        read16 img (sym + ST_sym_shndx) ≠ ELF_SHN_COMMON →
        object_section s.mods module sh_count (read32 img (section_base +
          SIZEOF_SECTHDR * read16 img (sym + ST_sym_shndx) + SH_sh_addr)) = SECTION_BSS →
        s1.symtab = insert_symbol s.symtab name
          ((b.bss_addr + read32 img (sym + ST_sym_value)) % U32)) ∧
      (ELF32_ST_TYPE (read8 img (sym + ST_sym_info)) = STT_OBJECT →
        read16 img (sym + ST_sym_shndx) ≠ ELF_SHN_COMMON →
        object_section s.mods module sh_count (read32 img (section_base +
          SIZEOF_SECTHDR * read16 img (sym + ST_sym_shndx) + SH_sh_addr)) = SECTION_DATA →
        s1.symtab = insert_symbol s.symtab name
          ((b.data_addr + read32 img (sym + ST_sym_value)) % U32)) ∧
      (ELF32_ST_TYPE (read8 img (sym + ST_sym_info)) = STT_OBJECT →
        read16 img (sym + ST_sym_shndx) ≠ ELF_SHN_COMMON →
        object_section s.mods module sh_count (read32 img (section_base +
          SIZEOF_SECTHDR * read16 img (sym + ST_sym_shndx) + SH_sh_addr)) ≠ SECTION_BSS →
        object_section s.mods module sh_count (read32 img (section_base +
          SIZEOF_SECTHDR * read16 img (sym + ST_sym_shndx) + SH_sh_addr)) ≠ SECTION_DATA →
        s1.symtab = s.symtab) ∧
      (ELF32_ST_TYPE (read8 img (sym + ST_sym_info)) = STT_OBJECT →
        read16 img (sym + ST_sym_shndx) = ELF_SHN_COMMON →
        s1.symtab = insert_symbol s.symtab name
          ((s.common_block_addr - s.common_block_addr % read32 img (sym + ST_sym_value)
            + read32 img (sym + ST_sym_value)) % U32) ∧
        s1.common_block_addr =
          ((s.common_block_addr - s.common_block_addr % read32 img (sym + ST_sym_value)
            + read32 img (sym + ST_sym_value)) % U32 + read32 img (sym + ST_sym_size)) % U32) ∧
      (ELF32_ST_TYPE (read8 img (sym + ST_sym_info)) ≠ STT_FUNC →
        ELF32_ST_TYPE (read8 img (sym + ST_sym_info)) ≠ STT_OBJECT →
        s1.symtab = s.symtab ∧ s1.common_block_addr = s.common_block_addr) := by
  have hFO : STT_FUNC ≠ STT_OBJECT := by decide
  have hBD : (SECTION_BSS : Int) ≠ SECTION_DATA := by decide
  unfold publish_symbol
  simp only
  by_cases hF : ELF32_ST_TYPE (read8 img (sym + ST_sym_info)) = STT_FUNC
  · have hO : ELF32_ST_TYPE (read8 img (sym + ST_sym_info)) ≠ STT_OBJECT := by
      rw [hF]; exact hFO
    rw [if_pos hF, hr]
    simp only [if_neg hO]
    exact ⟨_, rfl, rfl, fun _ => rfl, fun h => absurd h hO, fun h => absurd h hO,
      fun h => absurd h hO, fun h => absurd h hO, fun h => absurd hF h⟩
  · rw [if_neg hF]
    simp only
    by_cases hO : ELF32_ST_TYPE (read8 img (sym + ST_sym_info)) = STT_OBJECT
    · rw [if_pos hO, hr]
      simp only
      unfold publish_object
      by_cases hC : read16 img (sym + ST_sym_shndx) = ELF_SHN_COMMON
      · have hv := hz hO hC
        rw [if_neg (by simpa using hC), if_neg hv]
        exact ⟨_, rfl, rfl, fun h => absurd h hF, fun _ h => absurd hC h, fun _ h => absurd hC h,
          fun _ h => absurd hC h, fun _ _ => ⟨rfl, rfl⟩, fun _ h => absurd hO h⟩
      · rw [if_pos hC]
        simp only
        by_cases hB : object_section s.mods module sh_count (read32 img (section_base +
            SIZEOF_SECTHDR * read16 img (sym + ST_sym_shndx) + SH_sh_addr)) = SECTION_BSS
        · rw [if_pos hB]
          exact ⟨_, rfl, rfl, fun h => absurd h hF, fun _ _ _ => rfl,
            fun _ _ h => absurd (hB.symm.trans h) hBD, fun _ _ h => absurd hB h,
            fun _ h => absurd h hC, fun _ h => absurd hO h⟩
        · rw [if_neg hB]
          by_cases hD : object_section s.mods module sh_count (read32 img (section_base +
              SIZEOF_SECTHDR * read16 img (sym + ST_sym_shndx) + SH_sh_addr)) = SECTION_DATA
          · rw [if_pos hD]
            exact ⟨_, rfl, rfl, fun h => absurd h hF, fun _ _ h => absurd h hB,
              fun _ _ _ => rfl, fun _ _ _ h => absurd hD h,
              fun _ h => absurd h hC, fun _ h => absurd hO h⟩
          · rw [if_neg hD]
            exact ⟨_, rfl, rfl, fun h => absurd h hF, fun _ _ h => absurd h hB,
              fun _ _ h => absurd h hD, fun _ _ _ _ => rfl,
              fun _ h => absurd h hC, fun _ h => absurd hO h⟩
    · rw [if_neg hO]
      exact ⟨_, rfl, rfl, fun h => absurd h hF, fun h => absurd h hO, fun h => absurd h hO,
        fun h => absurd h hO, fun h => absurd h hO, fun _ _ => ⟨rfl, rfl⟩⟩

theorem home_record_congr (m m2 : Mem) (module sh_count s_addr : Nat) (name : String)
    (h : ∀ a, module + OFF_sections ≤ a → m2 a = m a) :
    home_record m2 module sh_count s_addr name ↔ home_record m module sh_count s_addr name := by
  have e1 : ∀ k, read32 m2 (section_rec module k + SEC_sh_start)
      = read32 m (section_rec module k + SEC_sh_start) :=
    fun k => read32_congr _ _ _ (fun j _ => h _ (by unfold section_rec; omega))
  have e2 : ∀ k, strcmp_eq m2 (section_rec module k + SEC_sh_name) (cbytes name)
      = strcmp_eq m (section_rec module k + SEC_sh_name) (cbytes name) :=
    fun k => strcmp_eq_congr _ _ _ _ (fun j _ => h _ (by unfold section_rec; omega))
  unfold home_record
  simp only [e1, e2]

theorem note_routines_above (img : Mem) (module : Nat) (b : Bases) (sym i : Nat) (m : Mem)
    (a : Nat) (h : module + OFF_module_base ≤ a) : note_routines img module b sym i m a = m a :=
  note_routines_mods (fun x => module + OFF_module_base ≤ x) img module b sym i m
    (fun x _ h2 h3 => by omega) a h

/-- One round of the symbol walk on an entry whose name fits its record: the
round returns, records name and value, and inserts into the Global Symbol
Table according to the type and the home section of the entry. -/
theorem load_symbol_round (fuel : Nat) (img : Mem) (section_base module sh_count : Nat)
    (b : Bases) (symbols string_table : Nat) (s : SymState) (i : Nat)
    (hn : name_fits fuel img
      (string_table + read32 img (symbols + SIZEOF_SYMBOL * i + ST_sym_name)) MAX_SYM_NAMELEN = true)
    (hz : ELF32_ST_TYPE (read8 img (symbols + SIZEOF_SYMBOL * i + ST_sym_info)) = STT_OBJECT →
      read16 img (symbols + SIZEOF_SYMBOL * i + ST_sym_shndx) = ELF_SHN_COMMON →
      read32 img (symbols + SIZEOF_SYMBOL * i + ST_sym_value) ≠ 0) :
    ∃ s2 name,
      load_symbol fuel img section_base module sh_count b symbols string_table s i = some s2 ∧
      read_cstr fuel img (string_table + read32 img (symbols + SIZEOF_SYMBOL * i + ST_sym_name))
        = some name ∧
      read_cstr fuel s2.mods (sym_rec module i + SYM_sym_name) = some name ∧
      read32 s2.mods (sym_rec module i + SYM_sym_value)
        = read32 img (symbols + SIZEOF_SYMBOL * i + ST_sym_value) ∧
      (ELF32_ST_TYPE (read8 img (symbols + SIZEOF_SYMBOL * i + ST_sym_info)) = STT_FUNC →
        s2.symtab = insert_symbol s.symtab name (sym_entry img symbols b i)) ∧
      (ELF32_ST_TYPE (read8 img (symbols + SIZEOF_SYMBOL * i + ST_sym_info)) = STT_OBJECT →
        read16 img (symbols + SIZEOF_SYMBOL * i + ST_sym_shndx) ≠ ELF_SHN_COMMON →
        home_record s2.mods module sh_count (home_addr img section_base symbols i) ".bss" →
        s2.symtab = insert_symbol s.symtab name
          ((b.bss_addr + read32 img (symbols + SIZEOF_SYMBOL * i + ST_sym_value)) % U32)) ∧
      (ELF32_ST_TYPE (read8 img (symbols + SIZEOF_SYMBOL * i + ST_sym_info)) = STT_OBJECT →
        read16 img (symbols + SIZEOF_SYMBOL * i + ST_sym_shndx) ≠ ELF_SHN_COMMON →
        ¬ home_record s2.mods module sh_count (home_addr img section_base symbols i) ".bss" →
        home_record s2.mods module sh_count (home_addr img section_base symbols i) ".data" →
        s2.symtab = insert_symbol s.symtab name
          ((b.data_addr + read32 img (symbols + SIZEOF_SYMBOL * i + ST_sym_value)) % U32)) ∧
      (ELF32_ST_TYPE (read8 img (symbols + SIZEOF_SYMBOL * i + ST_sym_info)) = STT_OBJECT →
        read16 img (symbols + SIZEOF_SYMBOL * i + ST_sym_shndx) ≠ ELF_SHN_COMMON →
        ¬ home_record s2.mods module sh_count (home_addr img section_base symbols i) ".bss" →
        ¬ home_record s2.mods module sh_count (home_addr img section_base symbols i) ".data" →
        s2.symtab = s.symtab) ∧
      (ELF32_ST_TYPE (read8 img (symbols + SIZEOF_SYMBOL * i + ST_sym_info)) = STT_OBJECT →
        read16 img (symbols + SIZEOF_SYMBOL * i + ST_sym_shndx) = ELF_SHN_COMMON →
        s2.symtab = insert_symbol s.symtab name
          ((s.common_block_addr
            - s.common_block_addr % read32 img (symbols + SIZEOF_SYMBOL * i + ST_sym_value)
            + read32 img (symbols + SIZEOF_SYMBOL * i + ST_sym_value)) % U32)) ∧
      (ELF32_ST_TYPE (read8 img (symbols + SIZEOF_SYMBOL * i + ST_sym_info)) ≠ STT_FUNC →
        ELF32_ST_TYPE (read8 img (symbols + SIZEOF_SYMBOL * i + ST_sym_info)) ≠ STT_OBJECT →
        s2.symtab = s.symtab) := by
  obtain ⟨-, -, -, -, hI, hC, hB, -, -, -, hS, -, hT, -, -⟩ := layout_values
  obtain ⟨nm, hnm, hlen⟩ := name_fits_spec _ _ _ _ hn
  have hlen16 : nm.length < 16 := hlen
  obtain ⟨m1, hc⟩ := copy_name_of_read_cstr img
    (string_table + read32 img (symbols + SIZEOF_SYMBOL * i + ST_sym_name))
    (sym_rec module i + SYM_sym_name) fuel s.mods 0 nm hnm
  have r1 : read_cstr fuel m1 (sym_rec module i + SYM_sym_name) = some nm :=
    (read_cstr_copy_name img _ _ fuel s.mods 0 m1 hc).trans hnm
  have ea : sym_rec module i + SYM_sym_value = sym_rec module i + SYM_sym_name + 16 := rfl
  have r2 : read_cstr fuel (write32 m1 (sym_rec module i + SYM_sym_value)
      (read32 img (symbols + SIZEOF_SYMBOL * i + ST_sym_value)))
      (sym_rec module i + SYM_sym_name) = some nm :=
    read_cstr_congr_bounded m1 _ fuel _ nm r1
      (fun j hj => write32_other m1 _ _ _ (Or.inl (by rw [ea]; omega)))
  obtain ⟨s1, hp, hm, cF, cB, cD, cN, cC, cX⟩ := publish_symbol_spec fuel img section_base module
    sh_count b (symbols + SIZEOF_SYMBOL * i) i
    ⟨write32 m1 (sym_rec module i + SYM_sym_value)
      (read32 img (symbols + SIZEOF_SYMBOL * i + ST_sym_value)), s.symtab, s.common_block_addr⟩
    nm r2 hz
  have hm2 : s1.mods = write32 m1 (sym_rec module i + SYM_sym_value)
      (read32 img (symbols + SIZEOF_SYMBOL * i + ST_sym_value)) := hm
  have hsr : module + 2788 ≤ sym_rec module i := by unfold sym_rec; omega
  have hname : sym_rec module i + SYM_sym_name = sym_rec module i := rfl
  have hhome : ∀ name,
      home_record (note_routines img module b (symbols + SIZEOF_SYMBOL * i) i s1.mods) module
        sh_count (home_addr img section_base symbols i) name ↔
      home_record (write32 m1 (sym_rec module i + SYM_sym_value)
        (read32 img (symbols + SIZEOF_SYMBOL * i + ST_sym_value))) module
        sh_count (home_addr img section_base symbols i) name := by
    intro name
    rw [← hm2]
    exact home_record_congr _ _ _ _ _ _ (fun a ha => note_routines_above _ _ _ _ _ _ _ (by omega))
  obtain ⟨oB, oD, oN⟩ := object_section_home (write32 m1 (sym_rec module i + SYM_sym_value)
    (read32 img (symbols + SIZEOF_SYMBOL * i + ST_sym_value))) module sh_count
    (home_addr img section_base symbols i)
  refine ⟨{ s1 with mods := note_routines img module b (symbols + SIZEOF_SYMBOL * i) i s1.mods },
    nm, ?_, hnm, ?_, ?_, cF, ?_, ?_, ?_, fun h1 h2 => (cC h1 h2).1, fun h1 h2 => (cX h1 h2).1⟩
  · unfold load_symbol
    simp only [hc]
    rw [hp]
  · show read_cstr fuel (note_routines img module b (symbols + SIZEOF_SYMBOL * i) i s1.mods)
      (sym_rec module i + SYM_sym_name) = some nm
    rw [read_cstr_congr _ _ fuel _
      (fun a ha => note_routines_above _ _ _ _ _ _ _ (by rw [hname] at ha; omega)), hm2]
    exact r2
  · show read32 (note_routines img module b (symbols + SIZEOF_SYMBOL * i) i s1.mods)
      (sym_rec module i + SYM_sym_value) = _
    rw [read32_congr _ _ _
      (fun k _ => note_routines_above _ _ _ _ _ _ _ (by rw [ea, hname]; omega)), hm2,
      read32_write32_same]
    exact Nat.mod_eq_of_lt (read32_lt _ _)
  · intro h1 h2 h3
    exact cB h1 h2 (oB ((hhome _).mp h3))
  · intro h1 h2 h3 h4
    exact cD h1 h2 (oD (fun x => h3 ((hhome _).mpr x)) ((hhome _).mp h4))
  · intro h1 h2 h3 h4
    obtain ⟨n1, n2⟩ := oN (fun x => h3 ((hhome _).mpr x)) (fun x => h4 ((hhome _).mpr x))
    exact cN h1 h2 n1 n2

/-! ## The symbol walk as a whole -/

theorem load_symbols_append (fuel : Nat) (img : Mem) (section_base module sh_count : Nat)
    (b : Bases) (symbols string_table : Nat) (l1 l2 : List Nat) :
    ∀ (s : SymState),
      load_symbols fuel img section_base module sh_count b symbols string_table (l1 ++ l2) s
        = (load_symbols fuel img section_base module sh_count b symbols string_table l1 s).bind
            (load_symbols fuel img section_base module sh_count b symbols string_table l2) := by
  induction l1 with
  | nil => intro s; rfl
  | cons i rest ih =>
    intro s
    simp only [List.cons_append, load_symbols]
    cases load_symbol fuel img section_base module sh_count b symbols string_table s i with
    | none => rfl
    | some s1 => exact ih s1

/-- A common symbol whose alignment value is 0 stops the walk: the round
divides by that value. -/
theorem load_symbol_zero_align (fuel : Nat) (img : Mem) (section_base module sh_count : Nat)
    (b : Bases) (symbols string_table : Nat) (s : SymState) (i : Nat)
    (ho : ELF32_ST_TYPE (read8 img (symbols + SIZEOF_SYMBOL * i + ST_sym_info)) = STT_OBJECT)
    (hc : read16 img (symbols + SIZEOF_SYMBOL * i + ST_sym_shndx) = ELF_SHN_COMMON)
    (hv : read32 img (symbols + SIZEOF_SYMBOL * i + ST_sym_value) = 0) :
    load_symbol fuel img section_base module sh_count b symbols string_table s i = none := by
  have hne : STT_OBJECT ≠ STT_FUNC := by decide
  unfold load_symbol
  simp only
  split
  · rfl
  · rename_i m1 _
    have hp : publish_symbol fuel img section_base module sh_count b (symbols + SIZEOF_SYMBOL * i) i
        ⟨write32 m1 (sym_rec module i + SYM_sym_value)
          (read32 img (symbols + SIZEOF_SYMBOL * i + ST_sym_value)), s.symtab,
          s.common_block_addr⟩ = none := by
      unfold publish_symbol
      simp only [ho, if_neg hne, if_true]
      split
      · rfl
      · unfold publish_object
        simp only [hc, hv, ne_eq, not_true_eq_false, if_false, if_true]
    rw [hp]

theorem load_symbol_keeps (fuel : Nat) (img : Mem) (section_base module sh_count : Nat)
    (b : Bases) (symbols string_table : Nat) (s : SymState) (i : Nat) (s2 : SymState) (k : Nat)
    (hik : i ≠ k)
    (hfit : name_fits fuel img
      (string_table + read32 img (symbols + SIZEOF_SYMBOL * i + ST_sym_name)) MAX_SYM_NAMELEN = true)
    (hs : load_symbol fuel img section_base module sh_count b symbols string_table s i = some s2) :
    AgreeOn (fun a => sym_rec module k ≤ a ∧ a < sym_rec module k + SIZEOF_SYMTAB)
      s.mods s2.mods := by
  have e1 : MAX_SYM_NAMELEN = 16 := rfl
  have e2 : SIZEOF_SYMTAB = 20 := rfl
  have e3 : SYM_sym_name = 0 := rfl
  have e4 : SYM_sym_value = 16 := rfl
  obtain ⟨-, -, -, -, hI, hC, hB, -, -, -, hS, -, hT, -, -⟩ := layout_values
  obtain ⟨nm, hnm, hlen⟩ := name_fits_spec _ _ _ _ hfit
  have hsr : ∀ j, sym_rec module j = module + OFF_sym_table + 20 * j := fun j => rfl
  unfold load_symbol at hs
  simp only at hs
  split at hs
  · simp at hs
  · rename_i m1 hc
    split at hs
    · simp at hs
    · rename_i s1 hp
      cases hs
      simp only
      have e := publish_symbol_mods _ _ _ _ _ _ _ _ _ _ hp
      simp only at e
      rw [e]
      refine ((agree_copy_name_bounded _ img _ _ fuel s.mods 0 m1 nm hc (by simpa using hnm) ?_).trans
        (agree_write32 _ m1 _ _ ?_)).trans (note_routines_mods _ img module b _ i _ ?_)
      · intro j2 _ hj2 hk
        rw [hsr i, hsr k] at hk
        omega
      · intro j hj hk
        rw [hsr i, hsr k] at hk
        omega
      · intro a h1 h2 hk
        rw [hsr k] at hk
        omega

theorem load_symbols_keep (fuel : Nat) (img : Mem) (section_base module sh_count : Nat)
    (b : Bases) (symbols string_table k : Nat) (l : List Nat) :
    ∀ (s s2 : SymState),
      (∀ i, i ∈ l → i ≠ k ∧ name_fits fuel img
        (string_table + read32 img (symbols + SIZEOF_SYMBOL * i + ST_sym_name))
        MAX_SYM_NAMELEN = true) →
      load_symbols fuel img section_base module sh_count b symbols string_table l s = some s2 →
      AgreeOn (fun a => sym_rec module k ≤ a ∧ a < sym_rec module k + SIZEOF_SYMTAB)
        s.mods s2.mods := by
  induction l with
  | nil => intro s s2 _ hs; simp [load_symbols] at hs; subst hs; exact AgreeOn.refl _ _
  | cons i rest ih =>
    intro s s2 hl hs
    unfold load_symbols at hs
    split at hs
    · simp at hs
    · rename_i s1 h1
      obtain ⟨hik, hfit⟩ := hl i (List.mem_cons_self i rest)
      exact (load_symbol_keeps fuel img section_base module sh_count b symbols string_table
        s i s1 k hik hfit h1).trans (ih s1 s2 (fun j hj => hl j (List.mem_cons_of_mem i hj)) hs)

/-- The Global Symbol Table a load leaves is the one its symbol walk leaves. -/
theorem module_init_symtab (P : Platform) (fuel : Nat) (st : KState) (mod_name : List Nat)
    (mod_binary : Nat) (img : Mem) (mod_binary_size : Nat) (st1 : KState) (img1 : Mem) (i : Nat)
    (L : Loaded)
    (h : module_init P fuel st mod_name mod_binary img mod_binary_size = some (0, st1, img1))
    (hi : first_free_slot st.module_bitmap = some i)
    (hL : load_image P fuel st mod_name img i = some L) : st1.symtab = L.Y.symtab := by
  obtain ⟨i2, st2, hi2, hld, hst⟩ :=
    module_init_ok P fuel st mod_name mod_binary img mod_binary_size st1 img1 h
  have ei : i2 = i := Option.some.inj (hi2.symm.trans hi)
  rw [ei] at hld hst
  rw [hst, (module_start_globals st2 i).2.2.2]
  unfold module_load at hld
  rw [hL] at hld
  simp only at hld
  split at hld
  · simp at hld
  · simp only [Option.some.injEq, Prod.mk.injEq] at hld
    rw [← hld.1]

theorem datafirst_load :
    load_ret datafirst_image boot_state "d" = some 0 ∧
    first_free_slot boot_state.module_bitmap = some 0 ∧
    (load_image demo_platform 64 boot_state (cbytes "d") datafirst_image 0).isSome = true ∧
    (load_locals datafirst_image boot_state "d" 0).num_sym = 5 ∧
    (∀ k, k < 5 → name_fits 64 (load_locals datafirst_image boot_state "d" 0).S.img
      ((load_locals datafirst_image boot_state "d" 0).string_table
        + read32 (load_locals datafirst_image boot_state "d" 0).S.img
          ((load_locals datafirst_image boot_state "d" 0).symbols + SIZEOF_SYMBOL * k + ST_sym_name))
      MAX_SYM_NAMELEN = true) := by
  decide!

/-! # The claims -/

set_option maxRecDepth 1000000 in
/-- Claim C1, evaluated on the code.  `demo_image` is loaded as `a` (slot 0) and as
`b` (slot 1).  A second load of `a` is refused with `-E_FILE_EXISTS`, but with
the descriptor of slot 1 ACTIVE under the name `b`, a further
`module_init("b", ...)` returns 0 and takes slot 2: the loop of lines 53-60
looks at `MODULES + i * MAX_MD_SIZE` (4096 bytes apart) while descriptors lie
`sizeof(struct Module)` = 4804 bytes apart, so only slot 0 is ever compared.
Afterwards two active modules share the name `b`. -/
theorem duplicate_name_in_slot_one :
    demo_init_ret boot_state "a" = some 0 ∧
    demo_init_ret (demo_init boot_state "a") "b" = some 0 ∧
    demo_init_ret (demo_init boot_state "a") "a" = some (-E_FILE_EXISTS) ∧
    read32 state_ab.mods (descriptor 1 + OFF_module_state) = MODULE_STATE_ACTIVE ∧
    strcmp_eq state_ab.mods (descriptor 1 + OFF_module_name) (cbytes "b") = true ∧
    demo_init_ret state_ab "b" = some 0 ∧
    state_abb.module_bitmap = 7 ∧ state_abb.module_count = 3 ∧
    read32 state_abb.mods (descriptor 1 + OFF_module_state) = MODULE_STATE_ACTIVE ∧
    strcmp_eq state_abb.mods (descriptor 1 + OFF_module_name) (cbytes "b") = true ∧
    read32 state_abb.mods (descriptor 2 + OFF_module_state) = MODULE_STATE_ACTIVE ∧
    strcmp_eq state_abb.mods (descriptor 2 + OFF_module_name) (cbytes "b") = true := by
  decide!

/-- Claim C3: if `module_init` returns a non-zero value, the state it returns
(descriptor table, data area, `module_bitmap`, `module_count`, symbol table,
calls) is the state it was given, and so is the image: no slot is left marked
or partly filled by a failed load. -/
theorem module_init_failure_no_write (P : Platform) (fuel : Nat) (st : KState)
    (mod_name : List Nat) (mod_binary : Nat) (img : Mem) (mod_binary_size : Nat) (ret : Int)
    (st1 : KState) (img1 : Mem)
    (h : module_init P fuel st mod_name mod_binary img mod_binary_size = some (ret, st1, img1))
    (hret : ret ≠ 0) : st1 = st ∧ img1 = img := by
  unfold module_init at h
  split at h
  · simp at h; exact ⟨h.2.1.symm, h.2.2.symm⟩
  · split at h
    · simp at h; exact ⟨h.2.1.symm, h.2.2.symm⟩
    · split at h
      · simp at h; exact ⟨h.2.1.symm, h.2.2.symm⟩
      · split at h
        · simp at h
        · simp at h; exact absurd h.1.symm hret

set_option maxRecDepth 1000000 in
/-- Claim C3 at a concrete input: `demo_image` is loaded as `a` into slot 0 and a
second load under the same name fails with `-E_FILE_EXISTS`. -/
theorem module_init_failure_no_write_witness :
    demo_init (demo_init boot_state "a") "a" = demo_init boot_state "a" ∧
    demo_init_image (demo_init boot_state "a") "a" = demo_image :=
  module_init_failure_no_write demo_platform 64 (demo_init boot_state "a") (cbytes "a")
    demo_buffer demo_image 451 (-E_FILE_EXISTS) _ _
    (demo_init_fails_eq (demo_init boot_state "a") "a" (-E_FILE_EXISTS) (by decide!)) (by decide!)

/-- Claim C4 as amended: `module_init` never looks at the outcome of a symbol
lookup.  With a valid magic, a name the duplicate check does not find and a
free slot `i`, every return of `module_init` is 0, with descriptor `i` ACTIVE,
bit `i` set and the module counted, whatever the Global Symbol Table holds. -/
theorem module_init_ignores_lookup (P : Platform) (fuel : Nat) (st : KState)
    (mod_name : List Nat) (mod_binary : Nat) (img : Mem) (mod_binary_size : Nat) (ret : Int)
    (st1 : KState) (img1 : Mem) (i : Nat)
    (h : module_init P fuel st mod_name mod_binary img mod_binary_size = some (ret, st1, img1))
    (hm : read32 img ELF_e_magic = ELF_MAGIC) (hd : already_loaded st.mods mod_name = false)
    (hi : first_free_slot st.module_bitmap = some i) :
    ret = 0 ∧ read32 st1.mods (descriptor i + OFF_module_state) = MODULE_STATE_ACTIVE ∧
    st1.module_bitmap = (st.module_bitmap ||| (1 <<< i)) % 65536 ∧
    st1.module_count = (st.module_count + 1) % U32 := by
  unfold module_init at h
  rw [if_neg (by simpa using hm), hd, hi] at h
  simp only [Bool.false_eq_true, ↓reduceIte] at h
  split at h
  · simp at h
  · rename_i st2 img2 hl
    simp only [Option.some.injEq, Prod.mk.injEq] at h
    obtain ⟨h1, h2, _⟩ := h
    obtain ⟨hact, hbm, hcnt, _⟩ :=
      module_load_state P fuel st mod_name mod_binary img mod_binary_size i st2 img2 hl
    obtain ⟨g1, g2, _, _⟩ := module_start_globals st2 i
    subst h2
    refine ⟨h1.symm, ?_, ?_, ?_⟩
    · rw [module_start_mods]; exact hact
    · rw [g1, hbm]
    · rw [g2, hcnt]

set_option maxRecDepth 1000000 in
/-- Amended claim C4 at a concrete input: `demo_image`, which refers to
`cprintf`, loaded with an empty Global Symbol Table. -/
theorem module_init_ignores_lookup_witness :
    lookup_symbol (demo_init bare_state "a").symtab (cbytes "cprintf") = none ∧
    (0 : Int) = 0 ∧
    read32 (demo_init bare_state "a").mods (descriptor 0 + OFF_module_state)
      = MODULE_STATE_ACTIVE ∧
    (demo_init bare_state "a").module_bitmap = (bare_state.module_bitmap ||| (1 <<< 0)) % 65536 ∧
    (demo_init bare_state "a").module_count = (bare_state.module_count + 1) % U32 :=
  ⟨by decide!, module_init_ignores_lookup demo_platform 64 bare_state (cbytes "a") demo_buffer
    demo_image 451 0
    (demo_init bare_state "a") (demo_init_image bare_state "a") 0
    (demo_init_eq bare_state "a" (by decide!)) (by decide!) (by decide!) (by decide!)⟩

set_option maxRecDepth 1000000 in
/-- Claim C4 fails on the code: the only relocation of `demo_image` is a
`R_386_PC32` against `cprintf`; with a Global Symbol Table that does not hold
`cprintf` (the lookup reports not-found), `module_init` still returns 0 and the
module becomes ACTIVE and is counted. -/
theorem unresolved_symbol_load_succeeds :
    ELF32_R_TYPE (rel_info (demo_loaded bare_state "a" 0) 0) = R_386_PC32 ∧
    rel_sym_name 64 (demo_loaded bare_state "a" 0) 0 = some (cbytes "cprintf") ∧
    lookup_symbol (demo_loaded bare_state "a" 0).Y.symtab (cbytes "cprintf") = none ∧
    demo_init_ret bare_state "a" = some 0 ∧
    read32 (demo_init bare_state "a").mods (descriptor 0 + OFF_module_state)
      = MODULE_STATE_ACTIVE ∧
    (demo_init bare_state "a").module_bitmap = 1 ∧
    (demo_init bare_state "a").module_count = 1 := by
  decide!

set_option maxRecDepth 1000000 in
/-- Claim C5, evaluated on the code.  In `crowded_state` all sixteen bits of
`module_bitmap` are set and all sixteen descriptors are ACTIVE, none under the
name `ntf`; yet `module_init("ntf", demo_image)` returns `-E_FILE_EXISTS`, not
`-E_NO_MEM`: the record the duplicate check reads at
`MODULES + 5 * MAX_MD_SIZE` lies inside the descriptor of slot 4, where
`rel_entry[38].rel_type` (1, `R_386_32`) is read as `module_state` and the tail
of `rel_entry[36].sym_name` (`cprintf` from its fifth byte on) as the name. -/
theorem full_registry_reports_duplicate :
    crowded_state.module_bitmap = 0xFFFF ∧
    (List.range MAX_MODULES).all (fun i =>
      read32 crowded_state.mods (descriptor i + OFF_module_state) == MODULE_STATE_ACTIVE &&
      !strcmp_eq crowded_state.mods (descriptor i + OFF_module_name) (cbytes "ntf")) = true ∧
    read32 demo_image ELF_e_magic = ELF_MAGIC ∧
    first_free_slot crowded_state.module_bitmap = none ∧
    demo_init_ret crowded_state "ntf" = some (-E_FILE_EXISTS) ∧
    demo_init_ret crowded_state "ntf" ≠ some (-E_NO_MEM) := by
  decide!

/-- Claim C6: for an image whose `e_magic` is not `ELF_MAGIC`, `module_init`
returns `-E_INVAL` and hands back the state and the image as they were,
whatever the name, the registry and the fuel; and the outcome depends on no
other byte of the image: any image with the same four magic bytes is rejected
the same way. -/
theorem module_init_bad_magic (P : Platform) (fuel : Nat) (st : KState) (mod_name : List Nat)
    (mod_binary : Nat) (img : Mem) (mod_binary_size : Nat)
    (h : read32 img ELF_e_magic ≠ ELF_MAGIC) :
    module_init P fuel st mod_name mod_binary img mod_binary_size = some (-E_INVAL, st, img) ∧
    ∀ (img2 : Mem) (st2 : KState) (name2 : List Nat) (fuel2 buffer2 size2 : Nat),
      (∀ k, k < 4 → img2 (ELF_e_magic + k) = img (ELF_e_magic + k)) →
      module_init P fuel2 st2 name2 buffer2 img2 size2 = some (-E_INVAL, st2, img2) := by
  refine ⟨by simp [module_init, h], ?_⟩
  intro img2 st2 name2 fuel2 buffer2 size2 hk
  have : read32 img2 ELF_e_magic ≠ ELF_MAGIC := by
    rw [read32_congr img img2 ELF_e_magic hk]; exact h
  simp [module_init, this]

set_option maxRecDepth 1000000 in
/-- Claim C6 at a concrete input: `demo_image` with its first byte cleared, the
registry full and the name `mA` already active. -/
theorem module_init_bad_magic_witness :
    module_init demo_platform 0 crowded_state [109, 65] demo_buffer (write8 demo_image 0 0) 451
      = some (-E_INVAL, crowded_state, write8 demo_image 0 0) ∧
    ∀ (img2 : Mem) (st2 : KState) (name2 : List Nat) (fuel2 buffer2 size2 : Nat),
      (∀ k, k < 4 → img2 (ELF_e_magic + k) = write8 demo_image 0 0 (ELF_e_magic + k)) →
      module_init demo_platform fuel2 st2 name2 buffer2 img2 size2 = some (-E_INVAL, st2, img2) :=
  module_init_bad_magic demo_platform 0 crowded_state [109, 65] demo_buffer
    (write8 demo_image 0 0) 451
    (by decide!)

set_option maxRecDepth 1000000 in
/-- Claim C8, evaluated on the code.  In the empty registry no descriptor is
ACTIVE, yet `module_cleanup("")` returns 0 instead of `-E_NOT_FOUND`:
`module_count` wraps to 2^32 - 1 and the routine at address 0 is called.  With
`a` loaded in slot 0, `module_cleanup("")` also returns 0, clears bit 0 and
the count, and leaves `a` ACTIVE.  The loop of lines 402-407 compares names
only, without the `module_state == MODULE_STATE_ACTIVE` test of `module_init`,
and a cleared descriptor has the empty name.  A name no descriptor carries is
refused with `-E_NOT_FOUND`. -/
theorem cleanup_of_empty_name :
    (List.range MAX_MODULES).all (fun i =>
      read32 boot_state.mods (descriptor i + OFF_module_state) != MODULE_STATE_ACTIVE) = true ∧
    (module_cleanup boot_state []).1 = 0 ∧
    (module_cleanup boot_state []).2.module_count = 4294967295 ∧
    (module_cleanup boot_state []).2.calls = [Event.call1 0 0] ∧
    (module_cleanup (demo_init boot_state "a") []).1 = 0 ∧
    (module_cleanup (demo_init boot_state "a") []).2.module_bitmap = 0 ∧
    (module_cleanup (demo_init boot_state "a") []).2.module_count = 0 ∧
    read32 (module_cleanup (demo_init boot_state "a") []).2.mods
      (descriptor 0 + OFF_module_state) = MODULE_STATE_ACTIVE ∧
    (module_cleanup boot_state (cbytes "zz")).1 = -E_NOT_FOUND := by
  decide!

set_option maxRecDepth 1000000 in
/-- Claim C9, evaluated on the code.  In `state_abb` the module `b` of slot 1 is
ACTIVE with `module_index = 1`; `module_cleanup("b")` returns 0 but takes the
last descriptor of that name, slot 2: bit 1 stays set, the teardown routine is
called with argument 2, and the region of slot 1 still holds its code (first
byte `0xE8`).  In `state_anon` the module of slot 0 has the empty name;
`module_cleanup("")` returns 0 but takes the cleared descriptor of slot 15: the
routine at address 0 is called instead of the teardown routine, and the region
and the descriptor of slot 0 are not cleared. -/
theorem cleanup_misses_the_named_module :
    read32 state_abb.mods (descriptor 1 + OFF_module_state) = MODULE_STATE_ACTIVE ∧
    strcmp_eq state_abb.mods (descriptor 1 + OFF_module_name) (cbytes "b") = true ∧
    read32 state_abb.mods (descriptor 1 + OFF_module_index) = 1 ∧
    state_abb.module_bitmap.testBit 1 = true ∧
    (module_cleanup state_abb (cbytes "b")).1 = 0 ∧
    (module_cleanup state_abb (cbytes "b")).2.module_bitmap.testBit 1 = true ∧
    (module_cleanup state_abb (cbytes "b")).2.module_bitmap = 3 ∧
    (module_cleanup state_abb (cbytes "b")).2.calls =
      state_abb.calls ++ [Event.call1 (read32 state_abb.mods (descriptor 2 + OFF_cleanup_routine)) 2] ∧
    dread8 (module_cleanup state_abb (cbytes "b")).2.data
      (read32 state_abb.mods (descriptor 1 + OFF_module_base)) = 232 ∧
    read32 state_anon.mods (descriptor 0 + OFF_module_state) = MODULE_STATE_ACTIVE ∧
    strcmp_eq state_anon.mods (descriptor 0 + OFF_module_name) [] = true ∧
    read32 state_anon.mods (descriptor 0 + OFF_cleanup_routine) = 0xF0300006 ∧
    (module_cleanup state_anon []).1 = 0 ∧
    (module_cleanup state_anon []).2.calls = state_anon.calls ++ [Event.call1 0 0] ∧
    dread8 (module_cleanup state_anon []).2.data
      (read32 state_anon.mods (descriptor 0 + OFF_module_base)) = 232 ∧
    read32 (module_cleanup state_anon []).2.mods (descriptor 0 + OFF_module_state)
      = MODULE_STATE_ACTIVE := by
  decide!

set_option maxRecDepth 1000000 in
/-- Claim C10, evaluated on the code.  The module `a` of slot 0 has registered a
test vector; after `module_cleanup("a")` returns 0, the vector slot
`test_api_vector` of descriptor 0 still holds it: `memset(rmmod, 0, PGSIZE)`
clears 4096 of the 4804 bytes of `struct Module`.  A module loaded into slot 0
afterwards has the stale vector called by `module_init` (the last call of the
list). -/
theorem cleanup_keeps_descriptor_tail :
    (module_cleanup state_registered (cbytes "a")).1 = 0 ∧
    read32 state_registered.mods (descriptor 0 + OFF_module_vectors + VEC_test_api) = 0xF0300008 ∧
    read32 (module_cleanup state_registered (cbytes "a")).2.mods
      (descriptor 0 + OFF_module_vectors + VEC_test_api) = 0xF0300008 ∧
    read32 (module_cleanup state_registered (cbytes "a")).2.mods
      (descriptor 0 + OFF_module_state) = 0 ∧
    (module_cleanup state_registered (cbytes "a")).2.module_bitmap = 0 ∧
    (demo_init (module_cleanup state_registered (cbytes "a")).2 "c").calls =
      [Event.call1 0xF0300000 0, Event.call1 0xF0300006 0, Event.call1 0xF0300000 0,
       Event.call0 0xF0300008] := by
  decide!

/-- Claim C11: in every state reachable from the empty registry (bitmap 0, count
0, all descriptors zero) by calls of `module_init` and `module_cleanup` with
non-empty names, the loads staying within the capacities of `struct Module`
and their relocations outside the descriptor table and the image buffer: for
every slot `i` below 16, bit `i` of `module_bitmap` is set exactly when
descriptor `i` is ACTIVE; every ACTIVE descriptor `i` holds `module_index = i`;
and `module_count` is the number of set bits of `module_bitmap`. -/
theorem reachable_registry_consistent (P : Platform) (st : KState) (h : Reachable P st) :
    (∀ i, i < MAX_MODULES → (st.module_bitmap.testBit i = true ↔
      read32 st.mods (descriptor i + OFF_module_state) = MODULE_STATE_ACTIVE)) ∧
    (∀ i, i < MAX_MODULES →
      read32 st.mods (descriptor i + OFF_module_state) = MODULE_STATE_ACTIVE →
      read32 st.mods (descriptor i + OFF_module_index) = i) ∧
    st.module_count = bitmap_count st.module_bitmap := by
  obtain ⟨_, h1, h2, h3, _⟩ := reachable_inv P st h
  exact ⟨h1, h2, h3⟩

/-- Claim C11 at a concrete input: the state after `demo_image` has been loaded
as `a` into the empty registry is reachable, the load being within capacity,
and the three properties hold in it. -/
theorem reachable_registry_consistent_witness :
    Reachable demo_platform (demo_init boot_state "a") ∧
    ((∀ i, i < MAX_MODULES → ((demo_init boot_state "a").module_bitmap.testBit i = true ↔
      read32 (demo_init boot_state "a").mods (descriptor i + OFF_module_state)
        = MODULE_STATE_ACTIVE)) ∧
    (∀ i, i < MAX_MODULES →
      read32 (demo_init boot_state "a").mods (descriptor i + OFF_module_state)
        = MODULE_STATE_ACTIVE →
      read32 (demo_init boot_state "a").mods (descriptor i + OFF_module_index) = i) ∧
    (demo_init boot_state "a").module_count
      = bitmap_count (demo_init boot_state "a").module_bitmap) :=
  ⟨demo_reachable, reachable_registry_consistent demo_platform _ demo_reachable⟩

/-- Claim C12 as amended: when two `SHN_COMMON` data-object symbols with
alignments `a1`, `a2` above 0 are processed one after the other, and no sum
wraps, the second is published at `p2 = w - (w mod a2) + a2` for
`w = p1 + s1`, the address and the size of the first: a multiple of `a2` with
`p1 + s1 < p2 <= p1 + s1 + a2`, so never at `p1 + s1` itself. -/
theorem second_common_symbol (img : Mem) (section_base module sh_count : Nat) (b : Bases)
    (sym1 sym2 : Nat) (name1 name2 : List Nat) (s : SymState)
    (hc1 : read16 img (sym1 + ST_sym_shndx) = ELF_SHN_COMMON)
    (hc2 : read16 img (sym2 + ST_sym_shndx) = ELF_SHN_COMMON)
    (ha1 : 0 < read32 img (sym1 + ST_sym_value))
    (ha2 : 0 < read32 img (sym2 + ST_sym_value))
    (hw : s.common_block_addr + read32 img (sym1 + ST_sym_value)
      + read32 img (sym1 + ST_sym_size) + read32 img (sym2 + ST_sym_value) < U32) :
    ∃ p1 p2 s1 s2,
      publish_object img section_base module sh_count b sym1 name1 s = some s1 ∧
      publish_object img section_base module sh_count b sym2 name2 s1 = some s2 ∧
      s1.symtab = insert_symbol s.symtab name1 p1 ∧
      s2.symtab = insert_symbol s1.symtab name2 p2 ∧
      p2 = (p1 + read32 img (sym1 + ST_sym_size))
        - (p1 + read32 img (sym1 + ST_sym_size)) % read32 img (sym2 + ST_sym_value)
        + read32 img (sym2 + ST_sym_value) ∧
      read32 img (sym2 + ST_sym_value) ∣ p2 ∧
      p1 + read32 img (sym1 + ST_sym_size) < p2 ∧
      p2 ≤ p1 + read32 img (sym1 + ST_sym_size) + read32 img (sym2 + ST_sym_value) := by
  generalize hA1 : read32 img (sym1 + ST_sym_value) = a1 at ha1 hw ⊢
  generalize hA2 : read32 img (sym2 + ST_sym_value) = a2 at ha2 hw ⊢
  generalize hZ1 : read32 img (sym1 + ST_sym_size) = z1 at hw ⊢
  obtain ⟨h1, h2, h3⟩ := aligned_above s.common_block_addr a1 ha1
  obtain ⟨g1, g2, g3⟩ := aligned_above (s.common_block_addr - s.common_block_addr % a1 + a1 + z1)
    a2 ha2
  have e1 := common_step img section_base module sh_count b sym1 name1 s hc1
    (by rw [hA1]; exact ha1) (by rw [hA1]; omega)
  have hm : (s.common_block_addr - s.common_block_addr % a1 + a1 + z1) % U32
      = s.common_block_addr - s.common_block_addr % a1 + a1 + z1 := Nat.mod_eq_of_lt (by omega)
  rw [hA1, hZ1, hm] at e1
  have e2 := common_step img section_base module sh_count b sym2 name2
    { s with symtab := insert_symbol s.symtab name1
               (s.common_block_addr - s.common_block_addr % a1 + a1),
             common_block_addr := s.common_block_addr - s.common_block_addr % a1 + a1 + z1 }
    hc2 (by rw [hA2]; exact ha2)
    (by rw [hA2]; show s.common_block_addr - s.common_block_addr % a1 + a1 + z1 + a2 < U32; omega)
  rw [hA2] at e2
  dsimp only at e2
  exact ⟨s.common_block_addr - s.common_block_addr % a1 + a1, _, _, _, e1, e2, rfl, rfl, rfl,
    g1, g2, g3⟩

/-- Amended claim C12 at a concrete input: `common_symbols`, a first symbol with
alignment 8 and size 4 and a second with alignment 4, the watermark at 0. -/
theorem second_common_symbol_witness :
    ∃ p1 p2 s1 s2,
      publish_object common_symbols 0 0 0 ⟨0, 0, 0, 0⟩ 0 (cbytes "x") (sym_start 0) = some s1 ∧
      publish_object common_symbols 0 0 0 ⟨0, 0, 0, 0⟩ 16 (cbytes "y") s1 = some s2 ∧
      s1.symtab = insert_symbol (sym_start 0).symtab (cbytes "x") p1 ∧
      s2.symtab = insert_symbol s1.symtab (cbytes "y") p2 ∧
      p2 = (p1 + read32 common_symbols (0 + ST_sym_size))
        - (p1 + read32 common_symbols (0 + ST_sym_size)) % read32 common_symbols (16 + ST_sym_value)
        + read32 common_symbols (16 + ST_sym_value) ∧
      read32 common_symbols (16 + ST_sym_value) ∣ p2 ∧
      p1 + read32 common_symbols (0 + ST_sym_size) < p2 ∧
      p2 ≤ p1 + read32 common_symbols (0 + ST_sym_size) + read32 common_symbols (16 + ST_sym_value) :=
  second_common_symbol common_symbols 0 0 0 ⟨0, 0, 0, 0⟩ 0 16 (cbytes "x") (cbytes "y") (sym_start 0)
    (by decide) (by decide) (by decide) (by decide) (by decide)

/-- Claim C12 fails on the code: with the watermark at 0, the first symbol of
`common_symbols` (alignment 8, size 4) is published at 8 and the second
(alignment 4) at 16, not at 8 + 4 = 12. -/
theorem second_common_symbol_not_adjacent :
    ((publish_object common_symbols 0 0 0 ⟨0, 0, 0, 0⟩ 0 (cbytes "x") (sym_start 0)).bind
        (publish_object common_symbols 0 0 0 ⟨0, 0, 0, 0⟩ 16 (cbytes "y"))).map
        (fun s => s.symtab) = some [(cbytes "y", 16), (cbytes "x", 8)] ∧
      read32 common_symbols (0 + ST_sym_size) = 4 ∧ (16 : Nat) ≠ 8 + 4 := by
  decide

/-- Claim C13 as amended: for a watermark `w` and a `SHN_COMMON` data-object
symbol with alignment `a > 0` and size `s`, where `w + a < 2^32`, the address
published is `p = w - (w mod a) + a`, a multiple of `a` with `w < p <= w + a`,
and the watermark after the symbol is `(p + s) mod 2^32`, which is `p + s`
when `p + s < 2^32`. -/
theorem common_symbol_address (img : Mem) (section_base module sh_count : Nat) (b : Bases)
    (sym : Nat) (name : List Nat) (s : SymState)
    (hc : read16 img (sym + ST_sym_shndx) = ELF_SHN_COMMON)
    (ha : 0 < read32 img (sym + ST_sym_value))
    (hw : s.common_block_addr + read32 img (sym + ST_sym_value) < U32) :
    ∃ p, p = s.common_block_addr - s.common_block_addr % read32 img (sym + ST_sym_value)
        + read32 img (sym + ST_sym_value) ∧
      read32 img (sym + ST_sym_value) ∣ p ∧ s.common_block_addr < p ∧
      p ≤ s.common_block_addr + read32 img (sym + ST_sym_value) ∧
      publish_object img section_base module sh_count b sym name s
        = some { s with symtab := insert_symbol s.symtab name p,
                        common_block_addr := (p + read32 img (sym + ST_sym_size)) % U32 } ∧
      (p + read32 img (sym + ST_sym_size) < U32 →
        (p + read32 img (sym + ST_sym_size)) % U32 = p + read32 img (sym + ST_sym_size)) := by
  obtain ⟨h1, h2, h3⟩ := aligned_above s.common_block_addr _ ha
  exact ⟨_, rfl, h1, h2, h3, common_step img section_base module sh_count b sym name s hc ha hw,
    fun h => Nat.mod_eq_of_lt h⟩

/-- Amended claim C13 at a concrete input: the first symbol of `common_symbols`
(alignment 8, size 4) with the watermark at 12. -/
theorem common_symbol_address_witness :
    ∃ p, p = (sym_start 12).common_block_addr
        - (sym_start 12).common_block_addr % read32 common_symbols (0 + ST_sym_value)
        + read32 common_symbols (0 + ST_sym_value) ∧
      read32 common_symbols (0 + ST_sym_value) ∣ p ∧ (sym_start 12).common_block_addr < p ∧
      p ≤ (sym_start 12).common_block_addr + read32 common_symbols (0 + ST_sym_value) ∧
      publish_object common_symbols 0 0 0 ⟨0, 0, 0, 0⟩ 0 (cbytes "x") (sym_start 12)
        = some ⟨(sym_start 12).mods, insert_symbol (sym_start 12).symtab (cbytes "x") p,
            (p + read32 common_symbols (0 + ST_sym_size)) % U32⟩ ∧
      (p + read32 common_symbols (0 + ST_sym_size) < U32 →
        (p + read32 common_symbols (0 + ST_sym_size)) % U32
          = p + read32 common_symbols (0 + ST_sym_size)) :=
  common_symbol_address common_symbols 0 0 0 ⟨0, 0, 0, 0⟩ 0 (cbytes "x") (sym_start 12)
    (by decide) (by decide) (by decide)

/-- Claim C13 fails on the code: for `wide_symbol` (alignment 1, size
`0xFFFFFFFF`) and the watermark 0, where `w + a = 1 < 2^32`, the symbol is
published at `p = 1` and the watermark after it is 0, not `p + s = 2^32`. -/
theorem common_watermark_wraps :
    (publish_object wide_symbol 0 0 0 ⟨0, 0, 0, 0⟩ 0 (cbytes "x") (sym_start 0)).map
        (fun s => (s.symtab, s.common_block_addr)) = some ([(cbytes "x", 1)], 0) ∧
      (sym_start 0).common_block_addr + read32 wide_symbol (0 + ST_sym_value) < 2 ^ 32 ∧
      1 + read32 wide_symbol (0 + ST_sym_size) ≠ 0 := by
  decide

/-- Claim C16 as amended: `module_init` has no capacity check.  The section
placement (the state `L.S`) leaves every byte of the data area outside
`[module_base, module_base + total)` as it was, `total` being the sum of the
sizes of the sections placed (with `module_base + total <= 2^32`); so the
section content stays inside `[module_base, module_base + PGSIZE)` when
`total <= PGSIZE`. -/
theorem section_writes_frame (P : Platform) (fuel : Nat) (st : KState) (mod_name : List Nat)
    (img : Mem) (i : Nat) (L : Loaded)
    (hL : load_image P fuel st mod_name img i = some L)
    (hfit : (P.MODULE_DATA + i * PGSIZE) % U32 + (section_sizes img
      (placed_headers img (read32 img ELF_e_shoff) (read16 img ELF_e_shnum))).sum ≤ U32) :
    L.S.sh_size = (section_sizes img
      (placed_headers img (read32 img ELF_e_shoff) (read16 img ELF_e_shnum))).sum % U32 ∧
    (∀ x, x < U32 → (x < (P.MODULE_DATA + i * PGSIZE) % U32 ∨
        (P.MODULE_DATA + i * PGSIZE) % U32 + (section_sizes img
          (placed_headers img (read32 img ELF_e_shoff) (read16 img ELF_e_shnum))).sum ≤ x) →
      L.S.data x = st.data x) ∧
    ((section_sizes img
        (placed_headers img (read32 img ELF_e_shoff) (read16 img ELF_e_shnum))).sum ≤ PGSIZE →
      ∀ x, x < U32 → (x < (P.MODULE_DATA + i * PGSIZE) % U32 ∨
        (P.MODULE_DATA + i * PGSIZE) % U32 + PGSIZE ≤ x) → L.S.data x = st.data x) := by
  obtain ⟨⟨_, _, I3, _⟩, hD⟩ := load_image_sections P fuel st mod_name img i L hL
  obtain ⟨D1, _⟩ := hD hfit
  exact ⟨I3, D1, fun hs x hx ho => D1 x hx (by omega)⟩

/-- Amended claim C16 at a concrete input: `wide_image` placed for slot 0 of the
empty registry. -/
theorem section_writes_frame_witness :
    (demo_platform.MODULE_DATA + 0 * PGSIZE) % U32 + (section_sizes wide_image
      (placed_headers wide_image (read32 wide_image ELF_e_shoff)
        (read16 wide_image ELF_e_shnum))).sum ≤ 0xF0302010 ∧
    (load_locals wide_image boot_state "w" 0).S.data 0xF0302010 = boot_state.data 0xF0302010 :=
  ⟨wide_total, (section_writes_frame demo_platform 64 boot_state (cbytes "w") wide_image 0
    (load_locals wide_image boot_state "w" 0) (loaded_of_eq _ _ wide_load.2.1)
    (Nat.le_of_lt wide_load.2.2.2.2.1)).2.1 0xF0302010 (by decide) (Or.inr wide_total)⟩

/-- Claim C16 fails on the code: with `b` ACTIVE in slot 1 and slot 0 free,
`module_init` of `wide_image`, whose sections total 8208 bytes, returns 0 and
records `module_size = 8208`; the first byte of the data region of slot 1, the
opcode `0xE8` of module `b`, is zero afterwards. -/
theorem oversized_load_succeeds :
    load_ret wide_image state_b "w" = some 0 ∧
    first_free_slot state_b.module_bitmap = some 0 ∧
    read32 state_b.mods (descriptor 1 + OFF_module_state) = MODULE_STATE_ACTIVE ∧
    read32 state_wb.mods (descriptor 0 + OFF_module_size) = 8208 ∧
    read32 state_wb.mods (descriptor 0 + OFF_module_base) = 0xF0300000 ∧
    read32 state_wb.mods (descriptor 1 + OFF_module_base) = 0xF0300000 + PGSIZE ∧
    dread8 state_b.data (0xF0300000 + PGSIZE) = 0xE8 ∧
    dread8 state_wb.data (0xF0300000 + PGSIZE) = 0 := by
  decide!

/-- Claim C18: for every slot index `i` below `MAX_MODULES`, kind `type` and
pointer `f` (a 32-bit word), the descriptor table lying inside the 32-bit
address space: when `type` is one of the four capability kinds 0..3,
`module_register` sets the vector slot of that kind of descriptor `i` to `f`,
whatever it held, and leaves every other byte of the descriptor table, the
data area, `module_bitmap`, `module_count` and the rest of the state
unchanged, whether or not module `i` is ACTIVE; for any other `type` it
changes nothing. -/
theorem module_register_frame (P : Platform) (st : KState) (i : Nat) (type : Int) (f : Nat)
    (hi : i < MAX_MODULES) (hP : P.MODULES + MAX_MODULES * SIZEOF_MODULE ≤ U32) (hf : f < U32) :
    (∀ k : Nat, k < 4 → type = (k : Int) →
      read32 (module_register P st i type f).mods (descriptor i + OFF_module_vectors + 4 * k) = f ∧
      (∀ a, a < descriptor i + OFF_module_vectors + 4 * k ∨
          descriptor i + OFF_module_vectors + 4 * k + 4 ≤ a →
        (module_register P st i type f).mods a = st.mods a) ∧
      (module_register P st i type f).data = st.data ∧
      (module_register P st i type f).module_bitmap = st.module_bitmap ∧
      (module_register P st i type f).module_count = st.module_count ∧
      (module_register P st i type f).symtab = st.symtab ∧
      (module_register P st i type f).calls = st.calls) ∧
    ((∀ k : Nat, k < 4 → type ≠ (k : Int)) → module_register P st i type f = st) := by
  obtain ⟨-, -, -, -, -, -, -, -, -, -, -, -, -, hV, hS⟩ := layout_values
  have hM : MAX_MODULES = 16 := rfl
  have hU : U32 = 4294967296 := rfl
  have hmod : i % U32 = i := Nat.mod_eq_of_lt (by omega)
  have hd : descriptor i = i * SIZEOF_MODULE := rfl
  constructor
  · intro k hk ht
    have hin : i * SIZEOF_MODULE + OFF_module_vectors + 4 * k + 4 ≤ MAX_MODULES * SIZEOF_MODULE := by
      rw [hM, hS, hV]; omega
    have e : module_register P st i type f
        = { st with mods := write32 st.mods (descriptor i + OFF_module_vectors + 4 * k) f } := by
      rw [ht, module_register_kind P st i k f hk, hmod, hd, Nat.add_assoc P.MODULES,
        Nat.add_assoc P.MODULES]
      exact kstore32_table P st _ f hin hP
    rw [e]
    exact ⟨by rw [read32_write32_same]; exact Nat.mod_eq_of_lt hf,
      fun a ha => write32_other _ _ _ _ ha, rfl, rfl, rfl, rfl, rfl⟩
  · intro h
    have h0 := h 0 (by omega)
    have h1 := h 1 (by omega)
    have h2 := h 2 (by omega)
    have h3 := h 3 (by omega)
    simp only [module_register, MODULE_SHOW_SYSCALL, MODULE_COUNT_SYSCALL, MODULE_SHOW_TIME,
      MODULE_TEST_API]
    norm_num at h0 h1 h2 h3 ⊢
    simp [h0, h1, h2, h3]

set_option maxRecDepth 1000000 in
/-- Claim C18 at a concrete input: kind 2 (`MODULE_SHOW_TIME`) registered for
slot 3 of the empty registry. -/
theorem module_register_frame_witness :
    (∀ k : Nat, k < 4 → (2 : Int) = (k : Int) →
      read32 (module_register demo_platform boot_state 3 2 0xF0303010).mods
        (descriptor 3 + OFF_module_vectors + 4 * k) = 0xF0303010 ∧
      (∀ a, a < descriptor 3 + OFF_module_vectors + 4 * k ∨
          descriptor 3 + OFF_module_vectors + 4 * k + 4 ≤ a →
        (module_register demo_platform boot_state 3 2 0xF0303010).mods a = boot_state.mods a) ∧
      (module_register demo_platform boot_state 3 2 0xF0303010).data = boot_state.data ∧
      (module_register demo_platform boot_state 3 2 0xF0303010).module_bitmap
        = boot_state.module_bitmap ∧
      (module_register demo_platform boot_state 3 2 0xF0303010).module_count
        = boot_state.module_count ∧
      (module_register demo_platform boot_state 3 2 0xF0303010).symtab = boot_state.symtab ∧
      (module_register demo_platform boot_state 3 2 0xF0303010).calls = boot_state.calls) ∧
    ((∀ k : Nat, k < 4 → (2 : Int) ≠ (k : Int)) →
      module_register demo_platform boot_state 3 2 0xF0303010 = boot_state) :=
  module_register_frame demo_platform boot_state 3 2 0xF0303010 (by decide) (by decide!) (by decide)

/-- Claim C21 fails on the code: in `stale_image` the loaded `.rodata` holds the
strings `hi`, `yo`, `ok` from `0xF0300010` on, and the three relocations are
section-relative `R_386_32`, the first and the third against `.rodata`, the
second against `.text`.  The third one, which is the relocation `k = 1`
against `.rodata`, is patched with `0xF0300016`, the start of `ok`, and not with
`0xF0300013`, the start of `yo`: the variable `section` keeps the value
`SECTION_RODATA` of the first round, so the relocation against `.text` takes a
turn of the cursor. -/
theorem rodata_cursor_skips_string :
    load_ret stale_image boot_state "s" = some 0 ∧
    (load_locals stale_image boot_state "s" 0).b.rodata_addr = 0xF0300010 ∧
    read_cstr 64 (load_state stale_image boot_state "s").data 0xF0300010 = some (cbytes "hi") ∧
    read_cstr 64 (load_state stale_image boot_state "s").data (0xF0300010 + 3)
      = some (cbytes "yo") ∧
    read_cstr 64 (load_state stale_image boot_state "s").data (0xF0300010 + 3 + 3)
      = some (cbytes "ok") ∧
    num_rels (load_locals stale_image boot_state "s" 0) = 3 ∧
    (∀ i, i < 3 →
      read32 (load_state stale_image boot_state "s").mods
        (rel_rec (descriptor 0) i + REL_rel_type) = R_386_32 ∧
      read8 (load_state stale_image boot_state "s").mods
        (rel_rec (descriptor 0) i + REL_sym_name) = 0) ∧
    (List.range 3).map (fun i =>
      home_addr (load_locals stale_image boot_state "s" 0).S.img
        (load_locals stale_image boot_state "s" 0).section_base
        (load_locals stale_image boot_state "s" 0).symbols
        (ELF32_R_SYM (read32 (load_locals stale_image boot_state "s" 0).S.img
          (rel_table (load_locals stale_image boot_state "s" 0) + SIZEOF_REL * i + R_rel_info))))
      = [0xF0300010, 0xF0300000, 0xF0300010] ∧
    read32 (load_state stale_image boot_state "s").mods
      (rel_rec (descriptor 0) 2 + REL_rel_offset) = 11 ∧
    dread32 (load_state stale_image boot_state "s").data (0xF0300000 + 1) = 0xF0300010 ∧
    dread32 (load_state stale_image boot_state "s").data (0xF0300000 + 11)
      = 0xF0300010 + 3 + 3 := by
  decide!

/-- Claim C22 fails on the code: for `datafirst_image`, whose `.data` of 8 bytes
is placed ahead of `.text`, `module_init` returns 0 with `module_base =
0xF0300000` and `module_size = 16`, and the first common symbol, `counter` of
alignment 4, is published at `0xF030001C`: the watermark starts at
`text_start + sh_size = 0xF0300018`.  From `module_base + module_size =
0xF0300010` the same alignment step gives `0xF0300014`. -/
theorem common_watermark_from_text :
    load_ret datafirst_image boot_state "d" = some 0 ∧
    read32 (load_state datafirst_image boot_state "d").mods (descriptor 0 + OFF_module_base)
      = 0xF0300000 ∧
    read32 (load_state datafirst_image boot_state "d").mods (descriptor 0 + OFF_module_size)
      = 16 ∧
    (load_locals datafirst_image boot_state "d" 0).b.text_start = 0xF0300008 ∧
    (load_locals datafirst_image boot_state "d" 0).num_sym = 5 ∧
    (∀ i, i < 4 → read16 (load_locals datafirst_image boot_state "d" 0).S.img
      ((load_locals datafirst_image boot_state "d" 0).symbols + SIZEOF_SYMBOL * i + ST_sym_shndx)
        ≠ ELF_SHN_COMMON) ∧
    read16 (load_locals datafirst_image boot_state "d" 0).S.img
      ((load_locals datafirst_image boot_state "d" 0).symbols + SIZEOF_SYMBOL * 4 + ST_sym_shndx)
        = ELF_SHN_COMMON ∧
    read32 (load_locals datafirst_image boot_state "d" 0).S.img
      ((load_locals datafirst_image boot_state "d" 0).symbols + SIZEOF_SYMBOL * 4 + ST_sym_value)
        = 4 ∧
    lookup_symbol (load_state datafirst_image boot_state "d").symtab (cbytes "counter")
      = some 0xF030001C ∧
    (0xF0300000 + 16 - (0xF0300000 + 16) % 4 + 4) % U32 = 0xF0300014 ∧
    (0xF0300008 + 16 - (0xF0300008 + 16) % 4 + 4) % U32 = 0xF030001C := by
  decide!

/-- Claim C23 as amended: after a `module_init` that returns 0 into slot `i`, no
relocation of the image being aimed at the descriptor table or at the image
buffer, `init_routine` of the descriptor is `text_start + sym_value` (in 32
bits) of the last entry of the symbol table whose name is exactly
`init_module`, and `cleanup_routine` that of the last entry named exactly
`cleanup_module`; neither the type nor the home section of the entry is looked
at.  A round of the symbol walk for an entry that is not named `init_module`
leaves `init_routine` as it is, and one for an entry not named
`cleanup_module` leaves `cleanup_routine` as it is. -/
theorem routine_fields (P : Platform) (fuel : Nat) (st : KState) (mod_name : List Nat)
    (mod_binary : Nat) (img : Mem) (mod_binary_size : Nat) (st1 : KState) (img1 : Mem) (i : Nat)
    (L : Loaded)
    (h : module_init P fuel st mod_name mod_binary img mod_binary_size = some (0, st1, img1))
    (hi : first_free_slot st.module_bitmap = some i)
    (hL : load_image P fuel st mod_name img i = some L)
    (hrel : RelocsApart P mod_binary mod_binary_size L) :
    (∀ k, k < L.num_sym → sym_named L.S.img L.symbols L.string_table "init_module" k = true →
      (∀ j, k < j → j < L.num_sym →
        sym_named L.S.img L.symbols L.string_table "init_module" j = false) →
      read32 st1.mods (descriptor i + OFF_init_routine) = sym_entry L.S.img L.symbols L.b k) ∧
    (∀ k, k < L.num_sym → sym_named L.S.img L.symbols L.string_table "cleanup_module" k = true →
      (∀ j, k < j → j < L.num_sym →
        sym_named L.S.img L.symbols L.string_table "cleanup_module" j = false) →
      read32 st1.mods (descriptor i + OFF_cleanup_routine) = sym_entry L.S.img L.symbols L.b k) ∧
    (∀ s k s2,
      load_symbol fuel L.S.img L.section_base (descriptor i) L.S.sh_count L.b L.symbols
        L.string_table s k = some s2 →
      (sym_named L.S.img L.symbols L.string_table "init_module" k = false →
        read32 s2.mods (descriptor i + OFF_init_routine)
          = read32 s.mods (descriptor i + OFF_init_routine)) ∧
      (sym_named L.S.img L.symbols L.string_table "cleanup_module" k = false →
        read32 s2.mods (descriptor i + OFF_cleanup_routine)
          = read32 s.mods (descriptor i + OFF_cleanup_routine))) := by
  obtain ⟨-, -, -, -, hI, hC, hB, -, -, -, -, -, -, -, -⟩ := layout_values
  obtain ⟨mods5, sym_sh, str_sh, _, _, _, _, _, _, _, _, _, _, _, hY⟩ :=
    load_image_unfold P fuel st mod_name img i L hL
  refine ⟨?_, ?_, ?_⟩
  · intro k hk hn hlast
    rw [module_init_routines P fuel st mod_name mod_binary img mod_binary_size st1 img1 i L h hi
      hL hrel _
      (Nat.le_refl _) (by omega)]
    exact (load_symbols_last fuel L.S.img L.section_base (descriptor i) L.S.sh_count L.b L.symbols
      L.string_table (fun s => read32 s.mods (descriptor i + OFF_init_routine))
      (sym_named L.S.img L.symbols L.string_table "init_module")
      (sym_entry L.S.img L.symbols L.b)
      (fun s j s2 hs => (load_symbol_routines fuel _ _ _ _ _ _ _ s j s2 hs).1)
      (List.range L.num_sym) _ _ hY).2 (List.pairwise_lt_range _) k (List.mem_range.mpr hk) hn
      (fun j hj hkj => hlast j hkj (List.mem_range.mp hj))
  · intro k hk hn hlast
    rw [module_init_routines P fuel st mod_name mod_binary img mod_binary_size st1 img1 i L h hi
      hL hrel _
      (by omega) (by omega)]
    have hx : ∀ j, sym_named L.S.img L.symbols L.string_table "cleanup_module" j = true →
        sym_named L.S.img L.symbols L.string_table "init_module" j = false := by
      intro j hj
      cases e : sym_named L.S.img L.symbols L.string_table "init_module" j with
      | false => rfl
      | true =>
        have := sym_named_exclusive L.S.img L.symbols L.string_table j e
        rw [hj] at this
        cases this
    exact (load_symbols_last fuel L.S.img L.section_base (descriptor i) L.S.sh_count L.b L.symbols
      L.string_table (fun s => read32 s.mods (descriptor i + OFF_cleanup_routine))
      (fun j => !sym_named L.S.img L.symbols L.string_table "init_module" j &&
        sym_named L.S.img L.symbols L.string_table "cleanup_module" j)
      (sym_entry L.S.img L.symbols L.b)
      (fun s j s2 hs => by
        show read32 s2.mods (descriptor i + OFF_cleanup_routine) =
          if (!sym_named L.S.img L.symbols L.string_table "init_module" j &&
            sym_named L.S.img L.symbols L.string_table "cleanup_module" j) = true
          then sym_entry L.S.img L.symbols L.b j
          else read32 s.mods (descriptor i + OFF_cleanup_routine)
        rw [(load_symbol_routines fuel _ _ _ _ _ _ _ s j s2 hs).2]
        cases sym_named L.S.img L.symbols L.string_table "init_module" j <;>
          cases sym_named L.S.img L.symbols L.string_table "cleanup_module" j <;> rfl)
      (List.range L.num_sym) _ _ hY).2 (List.pairwise_lt_range _) k (List.mem_range.mpr hk)
      (by
        show (!sym_named L.S.img L.symbols L.string_table "init_module" k &&
            sym_named L.S.img L.symbols L.string_table "cleanup_module" k) = true
        rw [hx k hn, hn]; rfl)
      (fun j hj hkj => by
        show (!sym_named L.S.img L.symbols L.string_table "init_module" j &&
            sym_named L.S.img L.symbols L.string_table "cleanup_module" j) = false
        rw [hlast j hkj (List.mem_range.mp hj)]; exact Bool.and_false _)
  · intro s k s2 hs
    obtain ⟨a1, a2⟩ := load_symbol_routines fuel _ _ _ _ _ _ _ s k s2 hs
    refine ⟨fun e => ?_, fun e => ?_⟩
    · rw [a1, e]; rfl
    · rw [a2, e]
      cases sym_named L.S.img L.symbols L.string_table "init_module" k <;> rfl

/-- Amended claim C23 at a concrete input: `stale_image` loaded into the empty
registry; entry 3 is the last one named `init_module`, entry 4 the last one
named `cleanup_module`. -/
theorem routine_fields_witness :
    read32 (load_state stale_image boot_state "s").mods (descriptor 0 + OFF_init_routine)
      = sym_entry (load_locals stale_image boot_state "s" 0).S.img
          (load_locals stale_image boot_state "s" 0).symbols
          (load_locals stale_image boot_state "s" 0).b 3 ∧
    read32 (load_state stale_image boot_state "s").mods (descriptor 0 + OFF_cleanup_routine)
      = sym_entry (load_locals stale_image boot_state "s" 0).S.img
          (load_locals stale_image boot_state "s" 0).symbols
          (load_locals stale_image boot_state "s" 0).b 4 :=
  ⟨(routine_fields demo_platform 64 boot_state (cbytes "s") demo_buffer stale_image load_size
      (load_state stale_image boot_state "s") (load_buffer stale_image boot_state "s") 0
      (load_locals stale_image boot_state "s" 0) (outcome_eq _ _ _ 0 stale_load.1) (by decide)
      (loaded_of_eq _ _ stale_load.2.1) stale_load.2.2.2.2.2.2).1 3
      (by rw [stale_load.2.2.1]; decide) stale_load.2.2.2.1
      (fun j h1 h2 => by
        have e : j = 4 := by have := stale_load.2.2.1; omega
        rw [e]; exact stale_load.2.2.2.2.1),
   (routine_fields demo_platform 64 boot_state (cbytes "s") demo_buffer stale_image load_size
      (load_state stale_image boot_state "s") (load_buffer stale_image boot_state "s") 0
      (load_locals stale_image boot_state "s" 0) (outcome_eq _ _ _ 0 stale_load.1) (by decide)
      (loaded_of_eq _ _ stale_load.2.1) stale_load.2.2.2.2.2.2).2.1 4
      (by rw [stale_load.2.2.1]; decide) stale_load.2.2.2.2.2.1
      (fun j h1 h2 => by
        have := stale_load.2.2.1
        omega)⟩

/-- Claim C23 fails on the code: `demo_image` with its relocation aimed at the
field `init_routine` of descriptor 0.  Entry 1 is the only symbol named
`init_module`, with `text_start + sym_value = 0xF0300000`; `module_init`
returns 0, but `init_routine` reads `0xFFE1FFD0` after the call, the word the
relocation stored, and that is the address line 383 calls. -/
theorem relocation_overwrites_init_routine :
    load_ret (aimed_image (aim_at (descriptor 0 + OFF_init_routine))) boot_state "x" = some 0 ∧
    first_free_slot boot_state.module_bitmap = some 0 ∧
    (load_locals (aimed_image (aim_at (descriptor 0 + OFF_init_routine))) boot_state "x" 0).num_sym
      = 4 ∧
    sym_named (load_locals (aimed_image (aim_at (descriptor 0 + OFF_init_routine))) boot_state "x"
        0).S.img
      (load_locals (aimed_image (aim_at (descriptor 0 + OFF_init_routine))) boot_state "x" 0).symbols
      (load_locals (aimed_image (aim_at (descriptor 0 + OFF_init_routine))) boot_state "x"
        0).string_table "init_module" 1 = true ∧
    sym_named (load_locals (aimed_image (aim_at (descriptor 0 + OFF_init_routine))) boot_state "x"
        0).S.img
      (load_locals (aimed_image (aim_at (descriptor 0 + OFF_init_routine))) boot_state "x" 0).symbols
      (load_locals (aimed_image (aim_at (descriptor 0 + OFF_init_routine))) boot_state "x"
        0).string_table "init_module" 2 = false ∧
    sym_named (load_locals (aimed_image (aim_at (descriptor 0 + OFF_init_routine))) boot_state "x"
        0).S.img
      (load_locals (aimed_image (aim_at (descriptor 0 + OFF_init_routine))) boot_state "x" 0).symbols
      (load_locals (aimed_image (aim_at (descriptor 0 + OFF_init_routine))) boot_state "x"
        0).string_table "init_module" 3 = false ∧
    sym_entry (load_locals (aimed_image (aim_at (descriptor 0 + OFF_init_routine))) boot_state "x"
        0).S.img
      (load_locals (aimed_image (aim_at (descriptor 0 + OFF_init_routine))) boot_state "x" 0).symbols
      (load_locals (aimed_image (aim_at (descriptor 0 + OFF_init_routine))) boot_state "x" 0).b 1
      = 0xF0300000 ∧
    ((load_locals (aimed_image (aim_at (descriptor 0 + OFF_init_routine))) boot_state "x"
        0).b.text_start
      + rel_offset
        (load_locals (aimed_image (aim_at (descriptor 0 + OFF_init_routine))) boot_state "x" 0) 0)
      % U32 = demo_platform.MODULES + (descriptor 0 + OFF_init_routine) ∧
    read32 (load_state (aimed_image (aim_at (descriptor 0 + OFF_init_routine))) boot_state "x").mods
      (descriptor 0 + OFF_init_routine) = 0xFFE1FFD0 ∧
    (load_state (aimed_image (aim_at (descriptor 0 + OFF_init_routine))) boot_state "x").calls
      = [Event.call1 0xFFE1FFD0 0] := by
  decide!

/-- Claim C24 as amended: let `module_init` return 0 in slot `i`, with `L` the
loader's locals, and let the name of every symbol-table entry be shorter than
the 16 bytes of `sym_name`.  The Global Symbol Table after the call is the one
the symbol walk leaves, and the walk, started on the table before the call and
the watermark `text_start + sh_size`, treats every entry `k` as follows, `s`
being the state of the walk before the round of entry `k` and `s2` the state
after it.  The name and the value of the entry are in `sym_table[k]` at the end
of the walk.  An `STT_FUNC` entry is inserted at `text_start + sym_value`; an
`STT_OBJECT` entry whose home section is the loaded `.bss` at
`bss_addr + sym_value`, one whose home section is the loaded `.data` at
`data_addr + sym_value`, one with index `SHN_COMMON` at the watermark aligned as
the code aligns it; for an `STT_OBJECT` entry with any other home section and
for an entry of any other type the table after the round is the table before
it. -/
theorem symbol_published (P : Platform) (fuel : Nat) (st : KState) (mod_name : List Nat)
    (mod_binary : Nat) (img : Mem) (mod_binary_size : Nat) (st1 : KState) (img1 : Mem) (i : Nat)
    (L : Loaded)
    (h : module_init P fuel st mod_name mod_binary img mod_binary_size = some (0, st1, img1))
    (hi : first_free_slot st.module_bitmap = some i)
    (hL : load_image P fuel st mod_name img i = some L)
    (hn : ∀ k, k < L.num_sym → name_fits fuel L.S.img
      (L.string_table + read32 L.S.img (L.symbols + SIZEOF_SYMBOL * k + ST_sym_name))
      MAX_SYM_NAMELEN = true) :
    st1.symtab = L.Y.symtab ∧
    ∃ m0,
      load_symbols fuel L.S.img L.section_base (descriptor i) L.S.sh_count L.b L.symbols L.string_table (List.range L.num_sym)
        ⟨m0, st.symtab, (L.b.text_start + L.S.sh_size) % U32⟩ = some L.Y ∧
      ∀ k, k < L.num_sym → ∃ s s2 name,
        load_symbols fuel L.S.img L.section_base (descriptor i) L.S.sh_count L.b L.symbols L.string_table (List.range k)
          ⟨m0, st.symtab, (L.b.text_start + L.S.sh_size) % U32⟩ = some s ∧
        load_symbols fuel L.S.img L.section_base (descriptor i) L.S.sh_count L.b L.symbols L.string_table (List.range (k + 1))
          ⟨m0, st.symtab, (L.b.text_start + L.S.sh_size) % U32⟩ = some s2 ∧
        read_cstr fuel L.S.img (L.string_table + read32 L.S.img (L.symbols + SIZEOF_SYMBOL * k + ST_sym_name))
          = some name ∧
        read_cstr fuel L.Y.mods (sym_rec (descriptor i) k + SYM_sym_name) = some name ∧
        read32 L.Y.mods (sym_rec (descriptor i) k + SYM_sym_value)
          = read32 L.S.img (L.symbols + SIZEOF_SYMBOL * k + ST_sym_value) ∧
        (ELF32_ST_TYPE (read8 L.S.img (L.symbols + SIZEOF_SYMBOL * k + ST_sym_info)) = STT_FUNC →
          s2.symtab = insert_symbol s.symtab name (sym_entry L.S.img L.symbols L.b k)) ∧
        (ELF32_ST_TYPE (read8 L.S.img (L.symbols + SIZEOF_SYMBOL * k + ST_sym_info)) = STT_OBJECT →
          read16 L.S.img (L.symbols + SIZEOF_SYMBOL * k + ST_sym_shndx) ≠ ELF_SHN_COMMON →
          home_record s2.mods (descriptor i) L.S.sh_count (home_addr L.S.img L.section_base L.symbols k) ".bss" →
          s2.symtab = insert_symbol s.symtab name
            ((L.b.bss_addr + read32 L.S.img (L.symbols + SIZEOF_SYMBOL * k + ST_sym_value)) % U32)) ∧
        (ELF32_ST_TYPE (read8 L.S.img (L.symbols + SIZEOF_SYMBOL * k + ST_sym_info)) = STT_OBJECT →
          read16 L.S.img (L.symbols + SIZEOF_SYMBOL * k + ST_sym_shndx) ≠ ELF_SHN_COMMON →
          ¬ home_record s2.mods (descriptor i) L.S.sh_count (home_addr L.S.img L.section_base L.symbols k) ".bss" →
          home_record s2.mods (descriptor i) L.S.sh_count (home_addr L.S.img L.section_base L.symbols k) ".data" →
          s2.symtab = insert_symbol s.symtab name
            ((L.b.data_addr + read32 L.S.img (L.symbols + SIZEOF_SYMBOL * k + ST_sym_value)) % U32)) ∧
        (ELF32_ST_TYPE (read8 L.S.img (L.symbols + SIZEOF_SYMBOL * k + ST_sym_info)) = STT_OBJECT →
          read16 L.S.img (L.symbols + SIZEOF_SYMBOL * k + ST_sym_shndx) ≠ ELF_SHN_COMMON →
          ¬ home_record s2.mods (descriptor i) L.S.sh_count (home_addr L.S.img L.section_base L.symbols k) ".bss" →
          ¬ home_record s2.mods (descriptor i) L.S.sh_count (home_addr L.S.img L.section_base L.symbols k) ".data" →
          s2.symtab = s.symtab) ∧
        (ELF32_ST_TYPE (read8 L.S.img (L.symbols + SIZEOF_SYMBOL * k + ST_sym_info)) = STT_OBJECT →
          read16 L.S.img (L.symbols + SIZEOF_SYMBOL * k + ST_sym_shndx) = ELF_SHN_COMMON →
          s2.symtab = insert_symbol s.symtab name
            ((s.common_block_addr
              - s.common_block_addr % read32 L.S.img (L.symbols + SIZEOF_SYMBOL * k + ST_sym_value)
              + read32 L.S.img (L.symbols + SIZEOF_SYMBOL * k + ST_sym_value)) % U32)) ∧
        (ELF32_ST_TYPE (read8 L.S.img (L.symbols + SIZEOF_SYMBOL * k + ST_sym_info)) ≠ STT_FUNC →
          ELF32_ST_TYPE (read8 L.S.img (L.symbols + SIZEOF_SYMBOL * k + ST_sym_info)) ≠ STT_OBJECT →
          s2.symtab = s.symtab) := by
  obtain ⟨mods5, sym_sh, str_sh, _, _, _, _, _, _, _, _, _, _, _, hY⟩ :=
    load_image_unfold P fuel st mod_name img i L hL
  refine ⟨module_init_symtab P fuel st mod_name mod_binary img mod_binary_size st1 img1 i L h hi hL,
    mods5, hY, ?_⟩
  intro k hk
  have hsplit : List.range L.num_sym = List.range (k + 1) ++
      (List.range (L.num_sym - (k + 1))).map (fun x => k + 1 + x) := by
    rw [← List.range_add]
    congr 1
    omega
  have hY2 := hY
  rw [hsplit, load_symbols_append] at hY2
  cases hs2 : load_symbols fuel L.S.img L.section_base (descriptor i) L.S.sh_count L.b L.symbols
      L.string_table (List.range (k + 1))
      ⟨mods5, st.symtab, (L.b.text_start + L.S.sh_size) % U32⟩ with
  | none => rw [hs2] at hY2; simp at hY2
  | some s2 =>
    rw [hs2] at hY2
    simp only [Option.some_bind] at hY2
    have hs2b := hs2
    rw [List.range_succ, load_symbols_append] at hs2b
    cases hs : load_symbols fuel L.S.img L.section_base (descriptor i) L.S.sh_count L.b L.symbols
        L.string_table (List.range k)
        ⟨mods5, st.symtab, (L.b.text_start + L.S.sh_size) % U32⟩ with
    | none => rw [hs] at hs2b; simp at hs2b
    | some s =>
      rw [hs] at hs2b
      simp only [Option.some_bind] at hs2b
      have hround : load_symbol fuel L.S.img L.section_base (descriptor i) L.S.sh_count L.b
          L.symbols L.string_table s k = some s2 := by
        unfold load_symbols at hs2b
        split at hs2b
        · simp at hs2b
        · rename_i s3 h3
          unfold load_symbols at hs2b
          rw [h3, ← Option.some.inj hs2b]
      have hz : ELF32_ST_TYPE (read8 L.S.img (L.symbols + SIZEOF_SYMBOL * k + ST_sym_info))
          = STT_OBJECT →
          read16 L.S.img (L.symbols + SIZEOF_SYMBOL * k + ST_sym_shndx) = ELF_SHN_COMMON →
          read32 L.S.img (L.symbols + SIZEOF_SYMBOL * k + ST_sym_value) ≠ 0 := by
        intro ho hc hv
        rw [load_symbol_zero_align fuel L.S.img L.section_base (descriptor i) L.S.sh_count L.b
          L.symbols L.string_table s k ho hc hv] at hround
        simp at hround
      obtain ⟨s2x, name, r1, r2, r3, r4, c1, c2, c3, c4, c5, c6⟩ :=
        load_symbol_round fuel L.S.img L.section_base (descriptor i) L.S.sh_count L.b L.symbols
          L.string_table s k (hn k hk) hz
      have es : s2x = s2 := Option.some.inj (r1.symm.trans hround)
      rw [es] at r3 r4 c1 c2 c3 c4 c5 c6
      obtain ⟨nm, hnm, hlen⟩ := name_fits_spec _ _ _ _ (hn k hk)
      have en : nm = name := Option.some.inj (hnm.symm.trans r2)
      have hlen16 : name.length < 16 := by rw [← en]; exact hlen
      have hkeep := load_symbols_keep fuel L.S.img L.section_base (descriptor i) L.S.sh_count L.b
        L.symbols L.string_table k ((List.range (L.num_sym - (k + 1))).map (fun x => k + 1 + x))
        s2 L.Y
        (fun j hj => by
          rw [List.mem_map] at hj
          obtain ⟨x, hx, e⟩ := hj
          rw [List.mem_range] at hx
          exact ⟨by omega, hn j (by omega)⟩) hY2
      have e2 : SIZEOF_SYMTAB = 20 := rfl
      have e3 : SYM_sym_name = 0 := rfl
      have e4 : SYM_sym_value = 16 := rfl
      refine ⟨s, s2, name, rfl, rfl, r2, ?_, ?_, c1, c2, c3, c4, c5, c6⟩
      · exact read_cstr_congr_bounded s2.mods L.Y.mods fuel _ name r3
          (fun j hj => hkeep _ ⟨by omega, by omega⟩)
      · rw [read32_congr s2.mods L.Y.mods _ (fun j hj => hkeep _ ⟨by omega, by omega⟩)]
        exact r4

/-- Amended claim C24 at a concrete input: `datafirst_image`, with five symbol
entries, among them the common symbol `counter`, loaded as `d` into the empty
registry. -/
theorem symbol_published_witness :
    (load_state datafirst_image boot_state "d").symtab = (load_locals datafirst_image boot_state "d" 0).Y.symtab ∧
    ∃ m0,
      load_symbols 64 (load_locals datafirst_image boot_state "d" 0).S.img (load_locals datafirst_image boot_state "d" 0).section_base (descriptor 0) (load_locals datafirst_image boot_state "d" 0).S.sh_count (load_locals datafirst_image boot_state "d" 0).b (load_locals datafirst_image boot_state "d" 0).symbols (load_locals datafirst_image boot_state "d" 0).string_table (List.range (load_locals datafirst_image boot_state "d" 0).num_sym)
        ⟨m0, boot_state.symtab, ((load_locals datafirst_image boot_state "d" 0).b.text_start + (load_locals datafirst_image boot_state "d" 0).S.sh_size) % U32⟩ = some (load_locals datafirst_image boot_state "d" 0).Y ∧
      ∀ k, k < (load_locals datafirst_image boot_state "d" 0).num_sym → ∃ s s2 name,
        load_symbols 64 (load_locals datafirst_image boot_state "d" 0).S.img (load_locals datafirst_image boot_state "d" 0).section_base (descriptor 0) (load_locals datafirst_image boot_state "d" 0).S.sh_count (load_locals datafirst_image boot_state "d" 0).b (load_locals datafirst_image boot_state "d" 0).symbols (load_locals datafirst_image boot_state "d" 0).string_table (List.range k)
          ⟨m0, boot_state.symtab, ((load_locals datafirst_image boot_state "d" 0).b.text_start + (load_locals datafirst_image boot_state "d" 0).S.sh_size) % U32⟩ = some s ∧
        load_symbols 64 (load_locals datafirst_image boot_state "d" 0).S.img (load_locals datafirst_image boot_state "d" 0).section_base (descriptor 0) (load_locals datafirst_image boot_state "d" 0).S.sh_count (load_locals datafirst_image boot_state "d" 0).b (load_locals datafirst_image boot_state "d" 0).symbols (load_locals datafirst_image boot_state "d" 0).string_table (List.range (k + 1))
          ⟨m0, boot_state.symtab, ((load_locals datafirst_image boot_state "d" 0).b.text_start + (load_locals datafirst_image boot_state "d" 0).S.sh_size) % U32⟩ = some s2 ∧
        read_cstr 64 (load_locals datafirst_image boot_state "d" 0).S.img ((load_locals datafirst_image boot_state "d" 0).string_table + read32 (load_locals datafirst_image boot_state "d" 0).S.img ((load_locals datafirst_image boot_state "d" 0).symbols + SIZEOF_SYMBOL * k + ST_sym_name))
          = some name ∧
        read_cstr 64 (load_locals datafirst_image boot_state "d" 0).Y.mods (sym_rec (descriptor 0) k + SYM_sym_name) = some name ∧
        read32 (load_locals datafirst_image boot_state "d" 0).Y.mods (sym_rec (descriptor 0) k + SYM_sym_value)
          = read32 (load_locals datafirst_image boot_state "d" 0).S.img ((load_locals datafirst_image boot_state "d" 0).symbols + SIZEOF_SYMBOL * k + ST_sym_value) ∧
        (ELF32_ST_TYPE (read8 (load_locals datafirst_image boot_state "d" 0).S.img ((load_locals datafirst_image boot_state "d" 0).symbols + SIZEOF_SYMBOL * k + ST_sym_info)) = STT_FUNC →
          s2.symtab = insert_symbol s.symtab name (sym_entry (load_locals datafirst_image boot_state "d" 0).S.img (load_locals datafirst_image boot_state "d" 0).symbols (load_locals datafirst_image boot_state "d" 0).b k)) ∧
        (ELF32_ST_TYPE (read8 (load_locals datafirst_image boot_state "d" 0).S.img ((load_locals datafirst_image boot_state "d" 0).symbols + SIZEOF_SYMBOL * k + ST_sym_info)) = STT_OBJECT →
          read16 (load_locals datafirst_image boot_state "d" 0).S.img ((load_locals datafirst_image boot_state "d" 0).symbols + SIZEOF_SYMBOL * k + ST_sym_shndx) ≠ ELF_SHN_COMMON →
          home_record s2.mods (descriptor 0) (load_locals datafirst_image boot_state "d" 0).S.sh_count (home_addr (load_locals datafirst_image boot_state "d" 0).S.img (load_locals datafirst_image boot_state "d" 0).section_base (load_locals datafirst_image boot_state "d" 0).symbols k) ".bss" →
          s2.symtab = insert_symbol s.symtab name
            (((load_locals datafirst_image boot_state "d" 0).b.bss_addr + read32 (load_locals datafirst_image boot_state "d" 0).S.img ((load_locals datafirst_image boot_state "d" 0).symbols + SIZEOF_SYMBOL * k + ST_sym_value)) % U32)) ∧
        (ELF32_ST_TYPE (read8 (load_locals datafirst_image boot_state "d" 0).S.img ((load_locals datafirst_image boot_state "d" 0).symbols + SIZEOF_SYMBOL * k + ST_sym_info)) = STT_OBJECT →
          read16 (load_locals datafirst_image boot_state "d" 0).S.img ((load_locals datafirst_image boot_state "d" 0).symbols + SIZEOF_SYMBOL * k + ST_sym_shndx) ≠ ELF_SHN_COMMON →
          ¬ home_record s2.mods (descriptor 0) (load_locals datafirst_image boot_state "d" 0).S.sh_count (home_addr (load_locals datafirst_image boot_state "d" 0).S.img (load_locals datafirst_image boot_state "d" 0).section_base (load_locals datafirst_image boot_state "d" 0).symbols k) ".bss" →
          home_record s2.mods (descriptor 0) (load_locals datafirst_image boot_state "d" 0).S.sh_count (home_addr (load_locals datafirst_image boot_state "d" 0).S.img (load_locals datafirst_image boot_state "d" 0).section_base (load_locals datafirst_image boot_state "d" 0).symbols k) ".data" →
          s2.symtab = insert_symbol s.symtab name
            (((load_locals datafirst_image boot_state "d" 0).b.data_addr + read32 (load_locals datafirst_image boot_state "d" 0).S.img ((load_locals datafirst_image boot_state "d" 0).symbols + SIZEOF_SYMBOL * k + ST_sym_value)) % U32)) ∧
        (ELF32_ST_TYPE (read8 (load_locals datafirst_image boot_state "d" 0).S.img ((load_locals datafirst_image boot_state "d" 0).symbols + SIZEOF_SYMBOL * k + ST_sym_info)) = STT_OBJECT →
          read16 (load_locals datafirst_image boot_state "d" 0).S.img ((load_locals datafirst_image boot_state "d" 0).symbols + SIZEOF_SYMBOL * k + ST_sym_shndx) ≠ ELF_SHN_COMMON →
          ¬ home_record s2.mods (descriptor 0) (load_locals datafirst_image boot_state "d" 0).S.sh_count (home_addr (load_locals datafirst_image boot_state "d" 0).S.img (load_locals datafirst_image boot_state "d" 0).section_base (load_locals datafirst_image boot_state "d" 0).symbols k) ".bss" →
          ¬ home_record s2.mods (descriptor 0) (load_locals datafirst_image boot_state "d" 0).S.sh_count (home_addr (load_locals datafirst_image boot_state "d" 0).S.img (load_locals datafirst_image boot_state "d" 0).section_base (load_locals datafirst_image boot_state "d" 0).symbols k) ".data" →
          s2.symtab = s.symtab) ∧
        (ELF32_ST_TYPE (read8 (load_locals datafirst_image boot_state "d" 0).S.img ((load_locals datafirst_image boot_state "d" 0).symbols + SIZEOF_SYMBOL * k + ST_sym_info)) = STT_OBJECT →
          read16 (load_locals datafirst_image boot_state "d" 0).S.img ((load_locals datafirst_image boot_state "d" 0).symbols + SIZEOF_SYMBOL * k + ST_sym_shndx) = ELF_SHN_COMMON →
          s2.symtab = insert_symbol s.symtab name
            ((s.common_block_addr
              - s.common_block_addr % read32 (load_locals datafirst_image boot_state "d" 0).S.img ((load_locals datafirst_image boot_state "d" 0).symbols + SIZEOF_SYMBOL * k + ST_sym_value)
              + read32 (load_locals datafirst_image boot_state "d" 0).S.img ((load_locals datafirst_image boot_state "d" 0).symbols + SIZEOF_SYMBOL * k + ST_sym_value)) % U32)) ∧
        (ELF32_ST_TYPE (read8 (load_locals datafirst_image boot_state "d" 0).S.img ((load_locals datafirst_image boot_state "d" 0).symbols + SIZEOF_SYMBOL * k + ST_sym_info)) ≠ STT_FUNC →
          ELF32_ST_TYPE (read8 (load_locals datafirst_image boot_state "d" 0).S.img ((load_locals datafirst_image boot_state "d" 0).symbols + SIZEOF_SYMBOL * k + ST_sym_info)) ≠ STT_OBJECT →
          s2.symtab = s.symtab) :=
  symbol_published demo_platform 64 boot_state (cbytes "d") demo_buffer datafirst_image load_size
    (load_state datafirst_image boot_state "d") (load_buffer datafirst_image boot_state "d") 0
    (load_locals datafirst_image boot_state "d" 0) (outcome_eq _ _ _ 0 datafirst_load.1)
    datafirst_load.2.1 (loaded_of_eq _ _ datafirst_load.2.2.1)
    (fun k hk => datafirst_load.2.2.2.2 k (by rw [← datafirst_load.2.2.2.1]; exact hk))

/-- Claim C24 fails on the code: in `longsym_image` entry 1 is an `STT_FUNC`
symbol with the 26-character name `init_module_cleanup_module`.  `module_init`
returns 0; line 203 copies the name over the 16 bytes of `sym_name` and on
into `sym_value`, line 207 stores the value 0 over bytes 16..19, and
`insert_symbol` is handed what is left: the Global Symbol Table holds
`init_module_clea` at `0xF0300000` and nothing under the name of the symbol. -/
theorem long_symbol_name_published_garbled :
    load_ret longsym_image boot_state "n" = some 0 ∧
    first_free_slot boot_state.module_bitmap = some 0 ∧
    ELF32_ST_TYPE (read8 (load_locals longsym_image boot_state "n" 0).S.img
      ((load_locals longsym_image boot_state "n" 0).symbols + SIZEOF_SYMBOL * 1 + ST_sym_info))
      = STT_FUNC ∧
    read_cstr 64 (load_locals longsym_image boot_state "n" 0).S.img
      ((load_locals longsym_image boot_state "n" 0).string_table
        + read32 (load_locals longsym_image boot_state "n" 0).S.img
          ((load_locals longsym_image boot_state "n" 0).symbols + SIZEOF_SYMBOL * 1 + ST_sym_name))
      = some (cbytes "init_module_cleanup_module") ∧
    lookup_symbol boot_state.symtab (cbytes "init_module_clea") = none ∧
    lookup_symbol (load_state longsym_image boot_state "n").symtab
      (cbytes "init_module_cleanup_module") = none ∧
    lookup_symbol (load_state longsym_image boot_state "n").symtab
      (cbytes "init_module_clea") = some 0xF0300000 ∧
    read_cstr 64 (load_state longsym_image boot_state "n").mods
      (sym_rec (descriptor 0) 1 + SYM_sym_name) = some (cbytes "init_module_clea") := by
  decide!

/-- Claim C25 fails on the code: relocation 1 of `stale_image` is a
section-relative `R_386_32` at offset 6 whose symbol has the loaded `.text`
(at `0xF0300000`) as home section, while `.rodata` is at `0xF0300010` and no
`.bss` or `.data` is loaded.  `module_init` returns 0, the word at offset 6 of
the code, 15 after section placement, is `0xF0300013` in the end, and the
read-only-data cursor ends three strings past its start although only two
relocations are against `.rodata`: the variable `section` is not reset and
keeps `SECTION_RODATA` from relocation 0. -/
theorem text_relocation_patched :
    load_ret stale_image boot_state "s" = some 0 ∧
    (load_locals stale_image boot_state "s" 0).b.text_start = 0xF0300000 ∧
    (load_locals stale_image boot_state "s" 0).b.rodata_addr = 0xF0300010 ∧
    (load_locals stale_image boot_state "s" 0).b.bss_addr = 0 ∧
    (load_locals stale_image boot_state "s" 0).b.data_addr = 0 ∧
    read32 (load_state stale_image boot_state "s").mods
      (rel_rec (descriptor 0) 1 + REL_rel_type) = R_386_32 ∧
    read8 (load_state stale_image boot_state "s").mods
      (rel_rec (descriptor 0) 1 + REL_sym_name) = 0 ∧
    read32 (load_state stale_image boot_state "s").mods
      (rel_rec (descriptor 0) 1 + REL_rel_offset) = 6 ∧
    home_addr (load_locals stale_image boot_state "s" 0).S.img
      (load_locals stale_image boot_state "s" 0).section_base
      (load_locals stale_image boot_state "s" 0).symbols
      (ELF32_R_SYM (read32 (load_locals stale_image boot_state "s" 0).S.img
        (rel_table (load_locals stale_image boot_state "s" 0) + SIZEOF_REL * 1 + R_rel_info)))
      = 0xF0300000 ∧
    dread32 (load_locals stale_image boot_state "s" 0).S.data (0xF0300000 + 6) = 15 ∧
    dread32 (load_state stale_image boot_state "s").data (0xF0300000 + 6) = 0xF0300013 ∧
    (load_relocs stale_image boot_state "s" 0).rodata_addr = 0xF0300010 + 3 + 3 + 3 := by
  decide!

/-- Claim C26 as amended: for a driver state with `tx_head < 20` and
`tx_tail < 20` and a packet of at most `E100_MAX_PACKET_SIZE` bytes,
`e100_transmit_packet` returns `-E_NO_MEM` with the state unchanged exactly
when `(tx_tail + 1) % 20 = tx_head`; otherwise it returns 0, slot `tx_tail` has
status 0, the byte count and the bytes of the packet, `tx_tail` becomes
`(tx_tail + 1) % 20`, `tx_head` is unchanged, and the number of outstanding
slots grows by one and stays below 20. -/
theorem e100_transmit_packet_ring (pa : Nat) (s : E100) (pkt : Mem) (pkt_size : Nat)
    (hh : read32 s.mem DRV_tx_head < MAX_E100_TX_SLOTS)
    (ht : read32 s.mem DRV_tx_tail < MAX_E100_TX_SLOTS)
    (hs : pkt_size ≤ E100_MAX_PACKET_SIZE) :
    (((e100_transmit_packet pa s pkt pkt_size).1 = -E_NO_MEM ∧
        (e100_transmit_packet pa s pkt pkt_size).2 = s) ↔
      (read32 s.mem DRV_tx_tail + 1) % MAX_E100_TX_SLOTS = read32 s.mem DRV_tx_head) ∧
    ((read32 s.mem DRV_tx_tail + 1) % MAX_E100_TX_SLOTS ≠ read32 s.mem DRV_tx_head →
      (e100_transmit_packet pa s pkt pkt_size).1 = 0 ∧
      read16 (e100_transmit_packet pa s pkt pkt_size).2.mem
        (tx_slot (read32 s.mem DRV_tx_tail) + TX_status) = 0 ∧
      read16 (e100_transmit_packet pa s pkt pkt_size).2.mem
        (tx_slot (read32 s.mem DRV_tx_tail) + TX_tcb_byte_count) = pkt_size ∧
      (∀ j, j < pkt_size →
        read8 (e100_transmit_packet pa s pkt pkt_size).2.mem
          (tx_slot (read32 s.mem DRV_tx_tail) + TX_tcb_data + j) = read8 pkt j) ∧
      read32 (e100_transmit_packet pa s pkt pkt_size).2.mem DRV_tx_tail
        = (read32 s.mem DRV_tx_tail + 1) % MAX_E100_TX_SLOTS ∧
      read32 (e100_transmit_packet pa s pkt pkt_size).2.mem DRV_tx_head
        = read32 s.mem DRV_tx_head ∧
      tx_outstanding (e100_transmit_packet pa s pkt pkt_size).2 = tx_outstanding s + 1 ∧
      tx_outstanding (e100_transmit_packet pa s pkt pkt_size).2 < MAX_E100_TX_SLOTS) := by
  obtain ⟨l1, l2, l3, l4, l5, l6, l7, l8, l9, l10, l11, l12⟩ := e100_layout
  have hU : U32 = 4294967296 := rfl
  have hwrap : (read32 s.mem DRV_tx_tail + 1) % U32 % MAX_E100_TX_SLOTS
      = (read32 s.mem DRV_tx_tail + 1) % MAX_E100_TX_SLOTS := by
    rw [Nat.mod_eq_of_lt (by rw [l12] at ht; omega : read32 s.mem DRV_tx_tail + 1 < U32)]
  have hq : (read32 s.mem DRV_tx_tail + 1) % MAX_E100_TX_SLOTS ≠ read32 s.mem DRV_tx_head →
      _ := fun h => transmit_queued pa s pkt pkt_size ht hs (by rw [hwrap]; exact h)
  refine ⟨⟨?_, ?_⟩, ?_⟩
  · rintro ⟨h1, _⟩
    by_contra hne
    rw [(hq hne).1] at h1
    exact absurd h1 (by decide)
  · intro h
    rw [transmit_full pa s pkt pkt_size (by rw [hwrap]; exact h)]
    exact ⟨rfl, rfl⟩
  · intro hne
    obtain ⟨r1, r2, r3, r4⟩ := hq hne
    rw [l12] at ht hh hne r3 ⊢
    rw [l11] at hs
    have hslot : ∀ x, x < 62088 → (e100_transmit_packet pa s pkt pkt_size).2.mem x = _ :=
      fun x hx => r2 x (by rw [l2]; exact hx)
    refine ⟨r1, ?_, ?_, ?_, r3, r4, ?_, ?_⟩
    · rw [read16_congr _ _ _ (fun k hk => hslot _ (by simp only [tx_slot_eq, l7]; omega))]
      simp only [tx_slot_eq, l7, l8, l9, l10]
      rw [read16_congr _ _ _ (fun k hk => copy_in_other _ _ _ _ _ (by omega)),
        read16_congr _ _ _ (fun k hk => write16_other _ _ _ _ (by omega)),
        read16_congr _ _ _ (fun k hk => write16_other _ _ _ _ (by omega))]
      exact read16_write16_same _ _ _
    · rw [read16_congr _ _ _ (fun k hk => hslot _ (by simp only [tx_slot_eq, l9]; omega))]
      simp only [tx_slot_eq, l7, l8, l9, l10]
      rw [read16_congr _ _ _ (fun k hk => copy_in_other _ _ _ _ _ (by omega)),
        read16_write16_same]
      exact Nat.mod_eq_of_lt (by omega)
    · intro j hj
      unfold read8
      rw [hslot _ (by simp only [tx_slot_eq, l10]; omega), copy_in_same _ _ _ _ _ hj]
      exact read8_read8 pkt j
    · unfold tx_outstanding
      rw [r3, r4, l12]
      omega
    · unfold tx_outstanding
      rw [l12]
      exact Nat.mod_lt _ (by decide)

/-- Amended claim C26 at a concrete input: the 60-byte test packet queued in the
fresh ring. -/
theorem e100_transmit_packet_ring_witness :
    (e100_transmit_packet 0x00200000 e100_fresh test_packet 60).1 = 0 ∧
    read16 (e100_transmit_packet 0x00200000 e100_fresh test_packet 60).2.mem
      (tx_slot (read32 e100_fresh.mem DRV_tx_tail) + TX_status) = 0 ∧
    read16 (e100_transmit_packet 0x00200000 e100_fresh test_packet 60).2.mem
      (tx_slot (read32 e100_fresh.mem DRV_tx_tail) + TX_tcb_byte_count) = 60 ∧
    (∀ j, j < 60 →
      read8 (e100_transmit_packet 0x00200000 e100_fresh test_packet 60).2.mem
        (tx_slot (read32 e100_fresh.mem DRV_tx_tail) + TX_tcb_data + j) = read8 test_packet j) ∧
    read32 (e100_transmit_packet 0x00200000 e100_fresh test_packet 60).2.mem DRV_tx_tail
      = (read32 e100_fresh.mem DRV_tx_tail + 1) % MAX_E100_TX_SLOTS ∧
    read32 (e100_transmit_packet 0x00200000 e100_fresh test_packet 60).2.mem DRV_tx_head
      = read32 e100_fresh.mem DRV_tx_head ∧
    tx_outstanding (e100_transmit_packet 0x00200000 e100_fresh test_packet 60).2
      = tx_outstanding e100_fresh + 1 ∧
    tx_outstanding (e100_transmit_packet 0x00200000 e100_fresh test_packet 60).2
      < MAX_E100_TX_SLOTS :=
  (e100_transmit_packet_ring 0x00200000 e100_fresh test_packet 60 (by decide) (by decide)
    (by decide)).2 (by decide)

/-- Claim C26 fails on the code: `e100_transmit_packet` does not look at
`pkt_size`.  For a packet of 70000 bytes and the fresh ring (`tx_head` and
`tx_tail` 0, so the ring is not full) it returns 0, but `memmove` (line 116)
runs over the rest of the driver structure: `tx_head` reads `0x55555555`
afterwards, `tx_tail` reads 6 instead of 1, and the 16-bit `tcb_byte_count`
holds 4464, not 70000. -/
theorem e100_transmit_oversized_packet :
    read32 e100_fresh.mem DRV_tx_head = 0 ∧ read32 e100_fresh.mem DRV_tx_tail = 0 ∧
    (read32 e100_fresh.mem DRV_tx_tail + 1) % MAX_E100_TX_SLOTS ≠ read32 e100_fresh.mem DRV_tx_head ∧
    (e100_transmit_packet 0x00200000 e100_fresh test_packet 70000).1 = 0 ∧
    read32 (e100_transmit_packet 0x00200000 e100_fresh test_packet 70000).2.mem DRV_tx_head
      = 0x55555555 ∧
    read32 (e100_transmit_packet 0x00200000 e100_fresh test_packet 70000).2.mem DRV_tx_tail
      = 6 ∧
    read16 (e100_transmit_packet 0x00200000 e100_fresh test_packet 70000).2.mem
      (tx_slot 0 + TX_tcb_byte_count) = 4464 := by
  decide!

/-- Claim C27 as amended: `sched_yield` returns a dispatch.  In the start-up
case, `curenv` `NULL` and `prev_curenv_id` 0, it goes to the label `end`, which
runs `envs[0]` if that is runnable, whatever else is.  In every other case, if
it runs `envs[0]` then no `envs[j]`, `0 < j < NENV`, other than the slot the
scan starts from is runnable, and the environment `curenv`, if it is not
`envs[0]`, is not runnable. -/
theorem sched_yield_idle (C : EnvConsts) (fuel : Nat) (envs : Nat → Env) (curenv : Option Nat)
    (prev_curenv_id : Nat) (hX : ∀ id, C.ENVX id < C.NENV) (hf : C.NENV < fuel) :
    ∃ d, sched_yield C fuel envs curenv prev_curenv_id = some d ∧
      (curenv = none → prev_curenv_id = 0 → d = sched_end C envs) ∧
      (¬ (curenv = none ∧ prev_curenv_id = 0) → d = Dispatch.run 0 →
        (∀ j, 0 < j → j < C.NENV → j ≠ sched_env C envs curenv prev_curenv_id →
          (envs j).env_status ≠ C.ENV_RUNNABLE) ∧
        (∀ c, curenv = some c → c ≠ 0 → (envs c).env_status ≠ C.ENV_RUNNABLE)) := by
  by_cases h : curenv = none ∧ prev_curenv_id = 0
  · refine ⟨sched_end C envs, ?_, fun _ _ => rfl, fun hn => absurd h hn⟩
    obtain ⟨h1, h2⟩ := h
    rw [h1, h2]
    unfold sched_yield
    simp
  · have he : sched_env C envs curenv prev_curenv_id < C.NENV := by
      unfold sched_env
      cases curenv with
      | none => exact hX _
      | some c => exact hX _
    obtain ⟨d, hd, hc⟩ := sched_scan_round C envs curenv _ fuel he hf
    rw [← sched_yield_scan C fuel envs curenv prev_curenv_id h] at hd
    refine ⟨d, hd, fun h1 h2 => absurd ⟨h1, h2⟩ h, ?_⟩
    intro _ hd0
    rcases hc with ⟨hq, hd2⟩ | ⟨j, h1, h2, h3, h4, h5⟩
    · refine ⟨fun j hj0 hjN hje => ?_, fun c hc hc0 hr => ?_⟩
      · rcases hq j hjN hje with h0 | h0
        · omega
        · exact h0
      · rw [hd2, hc] at hd0
        unfold sched_back at hd0
        simp only [hr, if_true] at hd0
        injection hd0 with hd1
        exact hc0 hd1
    · rw [h5] at hd0
      injection hd0 with hd1
      exact absurd hd1 h3

/-- Amended claim C27 at a concrete input: only `envs[0]` is runnable and calls
`sched_yield`, which runs `envs[0]`. -/
theorem sched_yield_idle_witness :
    sched_yield jos_consts 1025 idle_only (some 0) 0 = some (Dispatch.run 0) ∧
    ∃ d, sched_yield jos_consts 1025 idle_only (some 0) 0 = some d ∧
      ((some 0 : Option Nat) = none → 0 = 0 → d = sched_end jos_consts idle_only) ∧
      (¬ ((some 0 : Option Nat) = none ∧ 0 = 0) → d = Dispatch.run 0 →
        (∀ j, 0 < j → j < jos_consts.NENV → j ≠ sched_env jos_consts idle_only (some 0) 0 →
          (idle_only j).env_status ≠ jos_consts.ENV_RUNNABLE) ∧
        (∀ c, some 0 = some c → c ≠ 0 → (idle_only c).env_status ≠ jos_consts.ENV_RUNNABLE)) :=
  ⟨by decide!, sched_yield_idle jos_consts 1025 idle_only (some 0) 0
    (fun id => Nat.mod_lt id (by decide)) (by decide)⟩

/-- Claim C27 fails on the code: with `curenv` `NULL` and `prev_curenv_id` 0,
`sched_yield` runs `envs[0]` although `envs[1]` is runnable; and with `curenv`
`NULL` and `prev_curenv_id` the id of `envs[1]`, it runs `envs[0]` although
`envs[1]`, the slot the scan starts from, is runnable. -/
theorem sched_yield_runs_idle_at_start :
    sched_yield jos_consts 1025 three_envs none 0 = some (Dispatch.run 0) ∧
    (three_envs 1).env_status = jos_consts.ENV_RUNNABLE ∧
    sched_yield jos_consts 1025 two_envs none 0x1001 = some (Dispatch.run 0) ∧
    (two_envs 1).env_status = jos_consts.ENV_RUNNABLE := by
  decide!

/-- Claim C28 as amended: `priority_sched_yield` returns a dispatch.  In the
start-up case, `curenv` `NULL` and `prev_curenv_id` 0, it goes to the label
`end`.  In every other case, if some environment other than `envs[0]` and the
slot the scan starts from (the caller's) is runnable with a priority value
below 10000, it runs such an environment, and its priority value is at most
that of every runnable environment other than `envs[0]` and the caller's slot;
if there is none, it falls back to the caller.  The caller's own priority is
not compared. -/
theorem priority_sched_yield_choice (C : EnvConsts) (fuel : Nat) (envs : Nat → Env)
    (curenv : Option Nat) (prev_curenv_id : Nat) (hX : ∀ id, C.ENVX id < C.NENV)
    (hf : C.NENV < fuel) :
    ∃ d, priority_sched_yield C fuel envs curenv prev_curenv_id = some d ∧
      (curenv = none → prev_curenv_id = 0 → d = sched_end C envs) ∧
      (¬ (curenv = none ∧ prev_curenv_id = 0) →
        ((∃ j, 0 < j ∧ j < C.NENV ∧ j ≠ sched_env C envs curenv prev_curenv_id ∧
            (envs j).env_status = C.ENV_RUNNABLE ∧ (envs j).priority < 10000) →
          ∃ m, d = Dispatch.run m ∧ 0 < m ∧ m < C.NENV ∧
            m ≠ sched_env C envs curenv prev_curenv_id ∧
            (envs m).env_status = C.ENV_RUNNABLE ∧
            ∀ j, 0 < j → j < C.NENV → j ≠ sched_env C envs curenv prev_curenv_id →
              (envs j).env_status = C.ENV_RUNNABLE → (envs m).priority ≤ (envs j).priority) ∧
        ((∀ j, 0 < j → j < C.NENV → j ≠ sched_env C envs curenv prev_curenv_id →
            (envs j).env_status = C.ENV_RUNNABLE → 10000 ≤ (envs j).priority) →
          d = priority_back C envs curenv (sched_env C envs curenv prev_curenv_id)
            (sched_env C envs curenv prev_curenv_id))) := by
  by_cases h : curenv = none ∧ prev_curenv_id = 0
  · refine ⟨sched_end C envs, ?_, fun _ _ => rfl, fun hn => absurd h hn⟩
    obtain ⟨h1, h2⟩ := h
    rw [h1, h2]
    unfold priority_sched_yield
    simp
  · have he : sched_env C envs curenv prev_curenv_id < C.NENV := by
      unfold sched_env
      cases curenv with
      | none => exact hX _
      | some c => exact hX _
    obtain ⟨d, hd, hc⟩ := priority_scan_round C envs curenv _ fuel he hf
    rw [← priority_sched_yield_scan C fuel envs curenv prev_curenv_id h] at hd
    refine ⟨d, hd, fun h1 h2 => absurd ⟨h1, h2⟩ h, fun _ => ⟨?_, ?_⟩⟩
    · rintro ⟨j, j1, j2, j3, j4, j5⟩
      rcases hc with ⟨m, c1, c2, c3, c4, c5, c6, c7⟩ | ⟨c1, _⟩
      · exact ⟨m, c1, by omega, c4, c3, c5,
          fun j hj1 hj2 hj3 hj4 => c7 j hj2 hj3 (by omega) hj4⟩
      · have := c1 j j2 j3 (by omega) j4
        omega
    · intro hall
      rcases hc with ⟨m, c1, c2, c3, c4, c5, c6, c7⟩ | ⟨_, c2⟩
      · have := hall m (by omega) c4 c3 c5
        omega
      · exact c2

/-- Amended claim C28 at a concrete input: `envs[2]` calls and `envs[1]`, of
priority value 1, is run. -/
theorem priority_sched_yield_choice_witness :
    priority_sched_yield jos_consts 1025 three_envs (some 2) 0 = some (Dispatch.run 1) ∧
    ∃ d, priority_sched_yield jos_consts 1025 three_envs (some 2) 0 = some d ∧
      ((some 2 : Option Nat) = none → 0 = 0 → d = sched_end jos_consts three_envs) ∧
      (¬ ((some 2 : Option Nat) = none ∧ 0 = 0) →
        ((∃ j, 0 < j ∧ j < jos_consts.NENV ∧ j ≠ sched_env jos_consts three_envs (some 2) 0 ∧
            (three_envs j).env_status = jos_consts.ENV_RUNNABLE ∧
            (three_envs j).priority < 10000) →
          ∃ m, d = Dispatch.run m ∧ 0 < m ∧ m < jos_consts.NENV ∧
            m ≠ sched_env jos_consts three_envs (some 2) 0 ∧
            (three_envs m).env_status = jos_consts.ENV_RUNNABLE ∧
            ∀ j, 0 < j → j < jos_consts.NENV → j ≠ sched_env jos_consts three_envs (some 2) 0 →
              (three_envs j).env_status = jos_consts.ENV_RUNNABLE →
              (three_envs m).priority ≤ (three_envs j).priority) ∧
        ((∀ j, 0 < j → j < jos_consts.NENV → j ≠ sched_env jos_consts three_envs (some 2) 0 →
            (three_envs j).env_status = jos_consts.ENV_RUNNABLE →
            10000 ≤ (three_envs j).priority) →
          d = priority_back jos_consts three_envs (some 2)
            (sched_env jos_consts three_envs (some 2) 0)
            (sched_env jos_consts three_envs (some 2) 0))) :=
  ⟨by decide!, priority_sched_yield_choice jos_consts 1025 three_envs (some 2) 0
    (fun id => Nat.mod_lt id (by decide)) (by decide)⟩

/-- Claim C28 fails on the code: `envs[1]`, runnable with priority value 1,
calls `priority_sched_yield`, which runs `envs[2]` of priority value 2. -/
theorem priority_sched_yield_skips_caller :
    priority_sched_yield jos_consts 1025 three_envs (some 1) 0 = some (Dispatch.run 2) ∧
    (three_envs 1).env_status = jos_consts.ENV_RUNNABLE ∧
    (three_envs 1).priority = 1 ∧ (three_envs 2).priority = 2 ∧
    ¬ ((three_envs 2).priority ≤ (three_envs 1).priority) := by
  decide!

/-- Claim C29 fails on the code: after twenty packets have been queued, sent and
reclaimed the ring is empty, `tx_head = tx_tail = 0`, and slot 0 still has the
bits C and OK of its first use; `e100_handle_tx_int` then moves `tx_head` to 1
while `tx_tail` is 0, so that 19 slots count as outstanding. -/
theorem tx_head_passes_tx_tail :
    read32 ring_wrapped.mem DRV_tx_head = 0 ∧ read32 ring_wrapped.mem DRV_tx_tail = 0 ∧
    tx_outstanding ring_wrapped = 0 ∧
    read16 ring_wrapped.mem (tx_slot 0 + TX_status) = E100_CBL_STATUS_C ||| E100_CBL_STATUS_OK ∧
    read32 (e100_handle_tx_int ring_wrapped).mem DRV_tx_head = 1 ∧
    read32 (e100_handle_tx_int ring_wrapped).mem DRV_tx_tail = 0 ∧
    tx_outstanding (e100_handle_tx_int ring_wrapped) = 19 := by
  decide!

end Kmod
